import Mathlib

/-!
# ofxCX presentation-timing core: display swap bookkeeping and the slide presenter

Shallow embedding of `src/src/CX_Display.cpp` and `src/src/CX_SlidePresenter.cpp`.

Conventions of the embedding.

* Member functions become functions on the object state; a function that mutates the
  object returns the new state, paired with the C++ return value when there is one.
* The presenter reaches its display through the pointer `_config.display`; the pointee
  is kept inside the configuration (`none` is the null pointer).
* Time values (`CX_Millis`) are integers counting nanoseconds; `CX_Millis(1)` is `1000000`.
* The 64-bit swap counters of the display are natural numbers.  The 32-bit slide fields
  `startFrame` and `frameCount` are natural numbers below `2^32`, and every store into
  them reduces modulo `2^32`.
* Undefined behaviour and thrown exceptions are faults (`Except Fault`): `vector::at`
  out of range, `back()` of an empty vector, a null display dereference, a floating
  point value converted to `unsigned int` outside its range.
* The quotient of two time values is a `double`: the IEEE 754 quotient of the two
  nanosecond counts converted to `double`, computed in integer arithmetic.
* The timing fields of a slide, which the sources leave without an initial value
  (`CX_SlidePresenter.h:111-115`), are 0 until they are written.
* The swapping thread of the display runs beside the presenter: its swaps are events of
  their own between calls and, inside a multi-core `update`, between the three reads of
  the display.
* OpenGL calls, logging and the user's drawing functions have no effect on the
  modelled state.
-/

namespace CX

/-! ## Faults and machine arithmetic -/

/-- Ways in which a call can fail to return normally. -/
inductive Fault where
  /-- `std::vector::at` threw `std::out_of_range`. -/
  | outOfRange
  /-- `back()` was taken of an empty vector. -/
  | emptyBack
  /-- The null display pointer was dereferenced. -/
  | nullDisplay
  /-- A floating point value outside the range of `unsigned int` was converted. -/
  | conversion
  /-- A loop did not finish within the clock readings supplied. -/
  | diverged
  deriving DecidableEq, Repr

/-- Number of values of a 32-bit unsigned integer. -/
def UINT32_SIZE : Nat := 4294967296

/-- Largest 32-bit unsigned integer, `std::numeric_limits<uint32_t>::max()`. -/
def UINT32_MAX : Nat := 4294967295

/-- Store into a `uint32_t`: reduction modulo `2^32`. -/
def toUInt32 (n : Nat) : Nat := n % UINT32_SIZE

/-- Subtraction of two `uint32_t` values, wrapping modulo `2^32`. -/
def subUInt32 (a b : Nat) : Nat := (a % UINT32_SIZE + UINT32_SIZE - b % UINT32_SIZE) % UINT32_SIZE

/-- The time value `CX_Millis(n)`, in nanoseconds. -/
def CX_Millis (n : Int) : Int := n * 1000000

/-- The largest time value, `CX_Millis::max()`: the largest 64-bit signed nanosecond count.
The class `CX_Millis` is not part of the sources at hand. -/
def CX_Millis_max : Int := 9223372036854775807

/-- The reference for the frame count, in the spec's words `round(D / P)`: the integer
nearest to the exact quotient `num / den` for a positive denominator, halves going up. -/
def roundToNearest (num den : Int) : Int := (2 * num + den) / (2 * den)

/-- The integer nearest to `num / den` for a positive denominator, a tie going to the even
one: the rounding of IEEE 754 arithmetic. -/
def roundHalfEven (num den : Nat) : Nat :=
  if 2 * (num % den) < den then num / den
  else if den < 2 * (num % den) then num / den + 1
  else if num / den % 2 = 0 then num / den
  else num / den + 1

/-- The least `k` from `k` on, within `fuel` steps, with `n < 2^(53 + k)`. -/
def droppedBitsFrom (n : Nat) : Nat → Nat → Nat
  | 0, k => k
  | fuel + 1, k => if n < 2 ^ (53 + k) then k else droppedBitsFrom n fuel (k + 1)

/-- The conversion `(double) n` of a nanosecond count below `2^64`: `n` itself below `2^53`,
else `n` rounded to 53 significant bits. -/
def toDouble (n : Nat) : Nat :=
  roundHalfEven n (2 ^ droppedBitsFrom n 11 0) * 2 ^ droppedBitsFrom n 11 0

/-- The least `s` from `s` on, within `fuel` steps, with `2^52 ≤ num * 2^s / den`. -/
def quotientScaleFrom (num den : Nat) : Nat → Nat → Nat
  | 0, s => s
  | fuel + 1, s =>
    if den * 2 ^ 52 ≤ num * 2 ^ s then s else quotientScaleFrom num den fuel (s + 1)

/-- The least `t` from `t` on, within `fuel` steps, with `num / (den * 2^t) < 2^53`. -/
def quotientDropFrom (num den : Nat) : Nat → Nat → Nat
  | 0, t => t
  | fuel + 1, t =>
    if num < den * 2 ^ (53 + t) then t else quotientDropFrom num den fuel (t + 1)

/-- The `double` quotient `num / den` of two positive integers below `2^64` that are
`double` values, rounded to the nearest integer with halves going up.  The quotient is
`num / den` rounded to 53 significant bits: below `2^52` it is `m / 2^s` with
`m = roundHalfEven (num * 2^s) den` of 53 bits, from `2^52` on it is an integer. -/
def doubleQuotientRounded (num den : Nat) : Nat :=
  if num < den * 2 ^ 52 then
    (2 * roundHalfEven (num * 2 ^ quotientScaleFrom num den 128 0) den
        + 2 ^ quotientScaleFrom num den 128 0)
      / (2 * 2 ^ quotientScaleFrom num den 128 0)
  else
    roundHalfEven num (den * 2 ^ quotientDropFrom num den 11 0)
      * 2 ^ quotientDropFrom num den 11 0

/-- The value of `CX::Util::round(duration / period, 0, ROUND_TO_NEAREST)` for a positive
period.  Neither the division of two `CX_Millis` values nor `CX::Util::round` is part of
the sources at hand: the quotient, a `double` (cpp:831), is taken to be the IEEE 754
quotient of the two 64-bit nanosecond counts converted to `double`, and the rounding to go
to the nearest integer, halves away from zero. -/
def framesInDuration (duration period : Int) : Int :=
  if duration < 0 then
    -((doubleQuotientRounded (toDouble (-duration).toNat) (toDouble period.toNat) : Nat) : Int)
  else ((doubleQuotientRounded (toDouble duration.toNat) (toDouble period.toNat) : Nat) : Int)

/-- Checked read `v.at(i)`. -/
def vectorAt {α : Type} (v : List α) (i : Nat) : Except Fault α :=
  match v[i]? with
  | some a => .ok a
  | none => .error .outOfRange

/-- Checked update `v.at(i) = f (v.at(i))`. -/
def vectorModifyAt {α : Type} (v : List α) (i : Nat) (f : α → α) : Except Fault (List α) :=
  match v[i]? with
  | some a => .ok (v.set i (f a))
  | none => .error .outOfRange

/-- The loop `for (i = k; i < v.size(); i++) v.at(i) = f (v.at(i))`. -/
def vectorMapFrom {α : Type} (f : α → α) : Nat → List α → List α
  | _, [] => []
  | 0, a :: v => f a :: vectorMapFrom f 0 v
  | k + 1, a :: v => a :: vectorMapFrom f k v

/-! ## CX_Display -/

/-- Modelled from the spec: the background swapping thread `CX_VideoBufferSwappingThread`,
of which only the class declaration is in the sources.  It records each completion
timestamp and a monotonically increasing swap counter. -/
structure CX_VideoBufferSwappingThread where
  /-- Result of `isThreadRunning()`. -/
  threadRunning : Bool
  /-- The swap counter returned by `getFrameNumber()`. -/
  _frameCount : Nat
  /-- The timestamp returned by `getLastSwapTime()`. -/
  lastSwapTime : Int
  deriving DecidableEq, Repr

/-- State of a `CX_Display`. -/
structure CX_Display where
  _framePeriod : Int
  _swapThread : CX_VideoBufferSwappingThread
  _manualBufferSwaps : Nat
  _frameNumberOnLastSwapCheck : Nat
  deriving DecidableEq, Repr

namespace CX_Display

/-- Modelled from the spec: one swap completed by the background loop at time `t`; the
loop only runs while the thread is running. -/
def threadSwap (t : Int) (d : CX_Display) : CX_Display :=
  if d._swapThread.threadRunning then
    { d with _swapThread := { d._swapThread with
        _frameCount := d._swapThread._frameCount + 1, lastSwapTime := t } }
  else d

/-- `CX_Display::BLOCKING_setAutoSwapping`: starts or stops the swapping thread. -/
def BLOCKING_setAutoSwapping (autoSwap : Bool) (d : CX_Display) : CX_Display :=
  if autoSwap then
    if !d._swapThread.threadRunning then
      { d with _swapThread := { d._swapThread with threadRunning := true } }
    else d
  else
    if d._swapThread.threadRunning then
      { d with _swapThread := { d._swapThread with threadRunning := false } }
    else d

/-- `CX_Display::isAutomaticallySwapping`. -/
def isAutomaticallySwapping (d : CX_Display) : Bool := d._swapThread.threadRunning

/-- Modelled from the spec: the swaps completed by the background loop at the times `ts`,
in order. -/
def threadSwaps (ts : List Int) (d : CX_Display) : CX_Display :=
  ts.foldl (fun d t => d.threadSwap t) d

/-- `CX_Display::getLastSwapTime`. -/
def getLastSwapTime (d : CX_Display) : Int := d._swapThread.lastSwapTime

/-- `CX_Display::getFramePeriod`. -/
def getFramePeriod (d : CX_Display) : Int := d._framePeriod

/-- `CX_Display::estimateNextSwapTime`. -/
def estimateNextSwapTime (d : CX_Display) : Int := d.getLastSwapTime + d.getFramePeriod

/-- `CX_Display::getFrameNumber`. -/
def getFrameNumber (d : CX_Display) : Nat := d._swapThread._frameCount + d._manualBufferSwaps

/-- `CX_Display::hasSwappedSinceLastCheck`: the returned flag and the display afterwards. -/
def hasSwappedSinceLastCheck (d : CX_Display) : Bool × CX_Display :=
  let currentFrameNumber := d.getFrameNumber
  if currentFrameNumber ≠ d._frameNumberOnLastSwapCheck then
    (true, { d with _frameNumberOnLastSwapCheck := currentFrameNumber })
  else (false, d)

/-- `CX_Display::BLOCKING_swapFrontAndBackBuffers`. -/
def BLOCKING_swapFrontAndBackBuffers (d : CX_Display) : CX_Display :=
  if !d.isAutomaticallySwapping then
    { d with _manualBufferSwaps := d._manualBufferSwaps + 1 }
  else d

/-- A swap event of either kind, as seen by a client of the display. -/
inductive Swap where
  /-- The background loop completed a swap at the given time. -/
  | background (t : Int)
  /-- The caller issued `BLOCKING_swapFrontAndBackBuffers`. -/
  | manual
  deriving DecidableEq, Repr

/-- Effect of one swap event. -/
def applySwap (d : CX_Display) : Swap → CX_Display
  | .background t => d.threadSwap t
  | .manual => d.BLOCKING_swapFrontAndBackBuffers

/-- Whether a swap event takes place on this display: the background loop swaps only while
the thread runs, a blocking swap is carried out only while it does not. -/
def Swap.takesPlace (d : CX_Display) : Swap → Bool
  | .background _ => d.isAutomaticallySwapping
  | .manual => !d.isAutomaticallySwapping

end CX_Display

/-! ## Slides -/

/-- Lifecycle status of a slide (`Slide::slideStatus`). -/
inductive SlideStatus where
  | NOT_STARTED
  | COPY_TO_BACK_BUFFER_PENDING
  | SWAP_PENDING
  | IN_PROGRESS
  | FINISHED
  deriving DecidableEq, Repr

/-- Timing of a slide (`CX_SlideTimingInfo_t`). -/
structure SlideTimingInfo where
  startFrame : Nat := 0
  frameCount : Nat := 0
  startTime : Int := 0
  duration : Int := 0
  deriving DecidableEq, Repr

/-- The part of an `ofFbo` the presenter and the display look at: whether it is allocated,
its OpenGL name (`getFbo()`) and its size in pixels (`getWidth()`, `getHeight()`). -/
structure ofFbo where
  isAllocated : Bool := false
  fbo : Nat := 0
  width : Int := 0
  height : Int := 0
  deriving DecidableEq, Repr

/-- A slide (`CX_Slide_t`).  A drawing function is known by an identifier; `none` is the
null pointer. -/
structure Slide where
  slideName : String := "unnamed"
  framebuffer : ofFbo := {}
  drawingFunction : Option Nat := none
  slideStatus : SlideStatus := .NOT_STARTED
  intended : SlideTimingInfo := {}
  actual : SlideTimingInfo := {}
  copyToBackBufferCompleteTime : Int := 0
  deriving DecidableEq, Repr

/-- Per-slide fence bookkeeping (`ExtraSlideInfo`); the sync object itself is not modelled. -/
structure ExtraSlideInfo where
  awaitingFenceSync : Bool := false
  deriving DecidableEq, Repr

/-- What identifies a queued slide: name, content and intended length. -/
structure SlideIdentity where
  slideName : String
  drawingFunction : Option Nat
  duration : Int
  frameCount : Nat
  deriving DecidableEq, Repr

/-- Identity of a slide. -/
def Slide.identity (s : Slide) : SlideIdentity :=
  { slideName := s.slideName, drawingFunction := s.drawingFunction,
    duration := s.intended.duration, frameCount := s.intended.frameCount }

/-! ## Presenter configuration and state -/

/-- `CX_SlidePresenter::ErrorMode`; the sources name these three modes. -/
inductive ErrorMode where
  | DO_NOTHING
  | PROPAGATE_DELAYS
  | FIX_TIMING_FROM_FIRST_SLIDE
  deriving DecidableEq, Repr

/-- `CX_SlidePresenter::Configuration::SwappingMode`. -/
inductive SwappingMode where
  | SINGLE_CORE_BLOCKING_SWAPS
  | SINGLE_CORE_THREADED_SWAPS
  | MULTI_CORE
  deriving DecidableEq, Repr

/-- A call of a public member function of the presenter, as made by user code. -/
inductive PresenterCall where
  | appendSlide (slide : Slide)
  | appendSlideFunction (drawingFunction : Option Nat) (slideDuration : Int) (slideName : String)
  | beginDrawingNextSlide (slideDuration : Int) (slideName : String)
  | endDrawingCurrentSlide
  | startSlidePresentation
  | stopSlidePresentation
  | clearSlides
  deriving DecidableEq

/-- `CX_SlidePresenter::Configuration`.  The final-slide callback receives the current slide
index and answers with the calls it makes on the presenter. -/
structure Configuration where
  display : Option CX_Display := none
  finalSlideCallback : Option (Nat → List PresenterCall) := none
  errorMode : ErrorMode := .PROPAGATE_DELAYS
  deallocateCompletedSlides : Bool := true
  swappingMode : SwappingMode := .MULTI_CORE
  preSwapCPUHoggingDuration : Int := 5000000
  useFenceSync : Bool := true
  waitUntilFenceSyncComplete : Bool := false

/-- State of a `CX_SlidePresenter`. -/
structure CX_SlidePresenter where
  _config : Configuration := {}
  _hoggingStartTime : Int := 0
  _presentingSlides : Bool := false
  _synchronizing : Bool := false
  _currentSlide : Nat := 0
  _slides : List Slide := []
  _slideInfo : List ExtraSlideInfo := []
  _lastFramebufferActive : Bool := false

namespace CX_SlidePresenter

/-- Write through the display pointer. -/
def setDisplay (d : CX_Display) (p : CX_SlidePresenter) : CX_SlidePresenter :=
  { p with _config := { p._config with display := some d } }

/-- The settings of a configuration: everything but the display pointer. -/
def settings (p : CX_SlidePresenter) : Configuration := { p._config with display := none }

/-- `CX_SlidePresenter::isPresentingSlides`. -/
def isPresentingSlides (p : CX_SlidePresenter) : Bool :=
  p._presentingSlides || p._synchronizing

/-- `CX_SlidePresenter::getSlides`. -/
def getSlides (p : CX_SlidePresenter) : List Slide := p._slides

/-- `CX_SlidePresenter::_calculateFrameCount`.  The quotient of the two time values is
stored in a `double`, rounded to the nearest integer and converted to `unsigned int`; the
conversion is defined only for a value in range.  With a period that is not positive the
quotient is infinite, not a number or negative: no result is modelled for it. -/
def _calculateFrameCount (duration : Int) (p : CX_SlidePresenter) : Except Fault Nat :=
  match p._config.display with
  | none => .error .nullDisplay
  | some d =>
    if d.getFramePeriod ≤ 0 then .error .conversion
    else
      let framesInDuration := framesInDuration duration d.getFramePeriod
      if 0 ≤ framesInDuration ∧ framesInDuration < UINT32_SIZE then .ok framesInDuration.toNat
      else .error .conversion

/-- `CX_SlidePresenter::endDrawingCurrentSlide`. -/
def endDrawingCurrentSlide (p : CX_SlidePresenter) : Except Fault CX_SlidePresenter :=
  match p._slides with
  | [] => .error .emptyBack
  | _ :: _ => .ok { p with _lastFramebufferActive := false }

/-- `CX_SlidePresenter::stopSlidePresentation`. -/
def stopSlidePresentation (p : CX_SlidePresenter) : CX_SlidePresenter :=
  { p with
    _synchronizing := false
    _presentingSlides := false
    _slideInfo := p._slideInfo.map (fun info => { info with awaitingFenceSync := false }) }

/-- `CX_SlidePresenter::clearSlides`. -/
def clearSlides (p : CX_SlidePresenter) : CX_SlidePresenter :=
  { p.stopSlidePresentation with _slides := [], _currentSlide := 0 }

/-- `CX_SlidePresenter::beginDrawingNextSlide`.  The slide pushed at the back is a default
slide given the name, an allocated framebuffer, the duration and its frame count. -/
def beginDrawingNextSlide (slideDuration : Int) (slideName : String) (p : CX_SlidePresenter) :
    Except Fault CX_SlidePresenter := do
  let p ← (if p._lastFramebufferActive then p.endDrawingCurrentSlide else pure p)
  if p._config.display.isNone then
    return p
  if slideDuration ≤ CX_Millis 0 then
    return p
  let frameCount ← p._calculateFrameCount slideDuration
  let slide : Slide :=
    { slideName := slideName
      framebuffer := { isAllocated := true }
      intended := { duration := slideDuration, frameCount := frameCount } }
  return { p with _slides := p._slides ++ [slide]
                  _slideInfo := p._slideInfo ++ [({} : ExtraSlideInfo)]
                  _lastFramebufferActive := true }

/-- `CX_SlidePresenter::appendSlide`.  The slide is pushed at the back as given, with its
intended frame count overwritten. -/
def appendSlide (slide : Slide) (p : CX_SlidePresenter) : Except Fault CX_SlidePresenter := do
  if slide.intended.duration ≤ CX_Millis 0 then
    return p
  let p ← (if p._lastFramebufferActive then p.endDrawingCurrentSlide else pure p)
  if !slide.framebuffer.isAllocated && slide.drawingFunction.isNone then
    return p
  let frameCount ← p._calculateFrameCount slide.intended.duration
  return { p with _slides := p._slides ++
                    [{ slide with intended := { slide.intended with frameCount := frameCount } }]
                  _slideInfo := p._slideInfo ++ [({} : ExtraSlideInfo)] }

/-- `CX_SlidePresenter::appendSlideFunction`.  The slide pushed at the back is a default
slide given the drawing function, the duration, its frame count and the name. -/
def appendSlideFunction (drawingFunction : Option Nat) (slideDuration : Int) (slideName : String)
    (p : CX_SlidePresenter) : Except Fault CX_SlidePresenter := do
  if slideDuration ≤ CX_Millis 0 then
    return p
  if drawingFunction.isNone then
    return p
  let p ← (if p._lastFramebufferActive then p.endDrawingCurrentSlide else pure p)
  let frameCount ← p._calculateFrameCount slideDuration
  let slide : Slide :=
    { drawingFunction := drawingFunction
      intended := { duration := slideDuration, frameCount := frameCount }
      slideName := slideName }
  return { p with _slides := p._slides ++ [slide]
                  _slideInfo := p._slideInfo ++ [({} : ExtraSlideInfo)] }

/-- `CX_SlidePresenter::setup`: the returned flag and the presenter afterwards.
`fenceSyncSupported` is the answer of `CX::Private::glFenceSyncSupported()`. -/
def setup (config : Configuration) (fenceSyncSupported : Bool) (p : CX_SlidePresenter) :
    Bool × CX_SlidePresenter :=
  match config.display with
  | none => (false, p)
  | some d =>
    let config := if !fenceSyncSupported then { config with useFenceSync := false } else config
    let config :=
      if config.preSwapCPUHoggingDuration > d.getFramePeriod - CX_Millis 1 then
        { config with preSwapCPUHoggingDuration := d.getFramePeriod - CX_Millis 1 }
      else config
    (true, { p with _config := config })

/-- `CX_SlidePresenter::startSlidePresentation`: the returned flag and the presenter
afterwards. -/
def startSlidePresentation (p : CX_SlidePresenter) : Except Fault (Bool × CX_SlidePresenter) :=
  match p._config.display with
  | none => .ok (false, p)
  | some d =>
    if p._slides.length ≤ 0 then .ok (false, p)
    else if p._slides.length = 0 then .ok (false, p)
    else do
      let d :=
        if p._config.swappingMode = .MULTI_CORE then
          if !d.isAutomaticallySwapping then d.BLOCKING_setAutoSwapping true else d
        else d
      let d :=
        if p._config.swappingMode = .SINGLE_CORE_BLOCKING_SWAPS then
          if d.isAutomaticallySwapping then d.BLOCKING_setAutoSwapping false else d
        else d
      let p ← (if p._lastFramebufferActive then p.endDrawingCurrentSlide else pure p)
      let p := { p with
        _slides := p._slides.map (fun (s : Slide) => { s with slideStatus := .NOT_STARTED })
        _synchronizing := true
        _presentingSlides := false }
      let d :=
        if p._config.swappingMode = .MULTI_CORE then d.hasSwappedSinceLastCheck.2 else d
      return (true, p.setDisplay d)

/-- Effect of a call made by user code, the returned value dropped. -/
def applyCall (p : CX_SlidePresenter) : PresenterCall → Except Fault CX_SlidePresenter
  | .appendSlide slide => p.appendSlide slide
  | .appendSlideFunction f d name => p.appendSlideFunction f d name
  | .beginDrawingNextSlide d name => p.beginDrawingNextSlide d name
  | .endDrawingCurrentSlide => p.endDrawingCurrentSlide
  | .startSlidePresentation => p.startSlidePresentation.map Prod.snd
  | .stopSlidePresentation => .ok p.stopSlidePresentation
  | .clearSlides => .ok p.clearSlides

/-- Effect of a sequence of calls, in order. -/
def applyCalls (p : CX_SlidePresenter) : List PresenterCall → Except Fault CX_SlidePresenter
  | [] => .ok p
  | c :: cs =>
    match p.applyCall c with
    | .error e => .error e
    | .ok q => q.applyCalls cs

/-- What one call of `update` reads from outside the presenter: the clock and the state of
the fences. -/
structure UpdateEnv where
  /-- `Clock.now()` at the test against the hogging start time. -/
  currentTime : Int := 0
  /-- `Clock.now()` right after the blocking swap that brings a slide on screen. -/
  currentSlideOnset : Int := 0
  /-- Clock readings of the successive rounds of the synchronising swap loop: the reading
  before the swap and the reading when the loop condition is evaluated. -/
  syncReadings : List (Int × Int) := []
  /-- `Clock.now()` after synchronising. -/
  hoggingNow : Int := 0
  /-- Whether `glClientWaitSync` reports the fence of the slide with this index signalled. -/
  fenceSignaled : Nat → Bool := fun _ => false
  /-- `Clock.now()` when the fence of the slide with this index is found signalled. -/
  fenceTime : Nat → Int := fun _ => 0
  /-- Completion times of the swaps that the background thread makes, during a multi-core
  update, after `hasSwappedSinceLastCheck()` has answered (cpp:596) and before
  `getFrameNumber()` is read (cpp:598). -/
  swapsBeforeFrameRead : List Int := []
  /-- Completion times of the swaps that the background thread makes, during a multi-core
  update, after `getFrameNumber()` is read (cpp:598) and before `getLastSwapTime()` is
  read (cpp:605). -/
  swapsBeforeTimeRead : List Int := []

/-- The same readings of the clock and the fences, with no swap of the background thread
landing inside the update. -/
def UpdateEnv.withoutSwaps (env : UpdateEnv) : UpdateEnv :=
  { env with swapsBeforeFrameRead := [], swapsBeforeTimeRead := [] }

/-- The display at the read of `getFrameNumber()` in `_multiCoreUpdate` (cpp:598): after the
swap check of cpp:596 and the swaps made by the background thread since. -/
def displayAtFrameRead (env : UpdateEnv) (d : CX_Display) : CX_Display :=
  d.hasSwappedSinceLastCheck.2.threadSwaps env.swapsBeforeFrameRead

/-- The display at the read of `getLastSwapTime()` in `_multiCoreUpdate` (cpp:605): the
swaps made by the background thread since the read of the frame number have happened too. -/
def displayAtTimeRead (env : UpdateEnv) (d : CX_Display) : CX_Display :=
  (displayAtFrameRead env d).threadSwaps env.swapsBeforeTimeRead

/-- `CX_SlidePresenter::_renderCurrentSlide`. -/
def _renderCurrentSlide (p : CX_SlidePresenter) : Except Fault CX_SlidePresenter := do
  let _ ← vectorAt p._slides p._currentSlide
  if p._config.display.isNone then
    throw .nullDisplay
  if p._config.useFenceSync then
    let info ← vectorModifyAt p._slideInfo p._currentSlide
      (fun i => { i with awaitingFenceSync := true })
    let slides ← vectorModifyAt p._slides p._currentSlide
      (fun s => { s with slideStatus := .COPY_TO_BACK_BUFFER_PENDING })
    return { p with _slideInfo := info, _slides := slides }
  else
    let slides ← vectorModifyAt p._slides p._currentSlide
      (fun s => { s with slideStatus := .SWAP_PENDING })
    return { p with _slides := slides }

/-- The loop of `CX_SlidePresenter::_waitSyncCheck` over the given indices of `_slideInfo`. -/
def _waitSyncCheckLoop (env : UpdateEnv) :
    List Nat → CX_SlidePresenter → Except Fault CX_SlidePresenter
  | [], p => .ok p
  | i :: rest, p =>
    if (p._slideInfo.getD i {}).awaitingFenceSync && env.fenceSignaled i then
      match vectorModifyAt p._slides i (fun s =>
          { s with copyToBackBufferCompleteTime := env.fenceTime i
                   slideStatus :=
                     if s.slideStatus = .COPY_TO_BACK_BUFFER_PENDING then .SWAP_PENDING
                     else s.slideStatus }) with
      | .error e => .error e
      | .ok slides =>
        _waitSyncCheckLoop env rest
          { p with _slides := slides
                   _slideInfo := p._slideInfo.set i { awaitingFenceSync := false } }
    else _waitSyncCheckLoop env rest p

/-- `CX_SlidePresenter::_waitSyncCheck`. -/
def _waitSyncCheck (env : UpdateEnv) (p : CX_SlidePresenter) : Except Fault CX_SlidePresenter :=
  if !p._config.useFenceSync then .ok p
  else _waitSyncCheckLoop env (List.range p._slideInfo.length) p

/-- `CX_SlidePresenter::_finishPreviousSlide`.  With `_currentSlide == 0` the unsigned index
`_currentSlide - 1` wraps and `at` throws. -/
def _finishPreviousSlide (p : CX_SlidePresenter) : Except Fault CX_SlidePresenter := do
  if p._currentSlide = 0 then
    throw .outOfRange
  let current ← vectorAt p._slides p._currentSlide
  let slides ← vectorModifyAt p._slides (p._currentSlide - 1) (fun previousSlide =>
    { previousSlide with
      slideStatus := .FINISHED
      framebuffer :=
        if p._config.deallocateCompletedSlides && previousSlide.drawingFunction.isNone then
          { isAllocated := false }
        else previousSlide.framebuffer
      actual := { previousSlide.actual with
        duration := current.actual.startTime - previousSlide.actual.startTime
        frameCount := subUInt32 current.actual.startFrame previousSlide.actual.startFrame } })
  return { p with _slides := slides }

/-- The statements of `_handleFinalSlide` that follow the call of the callback;
`previousSlideCount` is the size of the queue before the callback ran. -/
def _handleFinalSlideAfterCallback (previousSlideCount : Nat) (p : CX_SlidePresenter) :
    Except Fault CX_SlidePresenter := do
  let newSlides := vectorMapFrom
    (fun (s : Slide) => { s with slideStatus := .NOT_STARTED }) previousSlideCount p._slides
  let p := { p with _slides := newSlides }
  if previousSlideCount = p._slides.length || !p._presentingSlides
      || p._config.finalSlideCallback.isNone then
    let slides ← vectorModifyAt p._slides p._currentSlide (fun s =>
      { s with actual := { s.actual with duration := CX_Millis_max, frameCount := UINT32_MAX } })
    let slides := vectorMapFrom
      (fun (s : Slide) => { s with actual := { s.actual with duration := 0, frameCount := 0 } })
      (p._currentSlide + 1) slides
    let slides :=
      if p._config.deallocateCompletedSlides then
        vectorMapFrom (fun (s : Slide) =>
          if s.drawingFunction.isNone then { s with framebuffer := { isAllocated := false } }
          else s) p._currentSlide slides
      else slides
    return { p with _presentingSlides := false, _slides := slides }
  else
    return p

/-- `CX_SlidePresenter::_handleFinalSlide`. -/
def _handleFinalSlide (p : CX_SlidePresenter) : Except Fault CX_SlidePresenter :=
  match p._config.finalSlideCallback with
  | some callback =>
    match p.applyCalls (callback p._currentSlide) with
    | .error e => .error e
    | .ok q => q._handleFinalSlideAfterCallback p._slides.length
  | none => p._handleFinalSlideAfterCallback p._slides.length

/-- `CX_SlidePresenter::_prepareNextSlide`. -/
def _prepareNextSlide (p : CX_SlidePresenter) : Except Fault CX_SlidePresenter := do
  let currentSlide ← vectorAt p._slides p._currentSlide
  let _ ← vectorAt p._slides (p._currentSlide + 1)
  match p._config.errorMode with
  | .DO_NOTHING =>
    let slides ← vectorModifyAt p._slides (p._currentSlide + 1) (fun nextSlide =>
      { nextSlide with intended := { nextSlide.intended with
          startTime := currentSlide.intended.startTime + currentSlide.intended.duration
          startFrame :=
            toUInt32 (currentSlide.intended.startFrame + currentSlide.intended.frameCount) } })
    return { p with _slides := slides }
  | .PROPAGATE_DELAYS =>
    if currentSlide.actual.startTime > currentSlide.intended.startTime then
      let slides ← vectorModifyAt p._slides (p._currentSlide + 1) (fun nextSlide =>
        { nextSlide with intended := { nextSlide.intended with
            startTime := currentSlide.actual.startTime + currentSlide.intended.duration
            startFrame :=
              toUInt32 (currentSlide.actual.startFrame + currentSlide.intended.frameCount) } })
      return { p with _slides := slides }
    else
      let slides ← vectorModifyAt p._slides (p._currentSlide + 1) (fun nextSlide =>
        { nextSlide with intended := { nextSlide.intended with
            startTime := currentSlide.intended.startTime + currentSlide.intended.duration
            startFrame :=
              toUInt32 (currentSlide.intended.startFrame + currentSlide.intended.frameCount) } })
      return { p with _slides := slides }
  | .FIX_TIMING_FROM_FIRST_SLIDE => return p

/-- The statements that `_multiCoreUpdate` and `_singleCoreBlockingUpdate` share once the
current slide has come on screen at frame `frameNumber` and time `currentSlideOnset`: the
slide is stamped, the previous slide is finished and a final slide is handled.  The flag
tells whether the update function returns at once (the presentation was ended). -/
def _slideOnset (frameNumber : Nat) (currentSlideOnset : Int) (p : CX_SlidePresenter) :
    Except Fault (Bool × CX_SlidePresenter) := do
  let slides ← vectorModifyAt p._slides p._currentSlide (fun s =>
    { s with slideStatus := .IN_PROGRESS
             actual := { s.actual with startFrame := toUInt32 frameNumber
                                       startTime := currentSlideOnset } })
  let slides ←
    (if p._currentSlide = 0 then
      vectorModifyAt slides 0 (fun s =>
        { s with intended := { s.intended with startFrame := toUInt32 frameNumber
                                               startTime := currentSlideOnset } })
    else pure slides)
  let p := { p with _slides := slides }
  let p ← (if p._currentSlide > 0 then p._finishPreviousSlide else pure p)
  if p._currentSlide + 1 = p._slides.length then
    let p ← p._handleFinalSlide
    return (!p._presentingSlides, p)
  else
    return (false, p)

/-- The first block of `_multiCoreUpdate` after a swap: if the current slide was waiting to
be swapped in, it has come on screen, and the next slide, if any, is prepared. -/
def _multiCoreSwappedIn (currentFrameNumber : Nat) (d : CX_Display) (p : CX_SlidePresenter) :
    Except Fault (Bool × CX_SlidePresenter) := do
  let current ← vectorAt p._slides p._currentSlide
  if current.slideStatus = .SWAP_PENDING
      ∨ current.slideStatus = .COPY_TO_BACK_BUFFER_PENDING then
    let (returned, p) ← p._slideOnset currentFrameNumber d.getLastSwapTime
    if returned then
      return (true, p)
    else if p._currentSlide + 1 < p._slides.length then
      let p ← p._prepareNextSlide
      return (false, p)
    else
      return (false, p)
  else
    return (false, p)

/-- The second block of `_multiCoreUpdate` after a swap: the next slide, if any, is rendered
when its intended start frame is at most one frame ahead. -/
def _multiCoreAdvance (currentFrameNumber : Nat) (p : CX_SlidePresenter) :
    Except Fault CX_SlidePresenter := do
  if p._currentSlide + 1 < p._slides.length then
    let next ← vectorAt p._slides (p._currentSlide + 1)
    if next.intended.startFrame ≤ currentFrameNumber + 1 then
      _renderCurrentSlide { p with _currentSlide := p._currentSlide + 1 }
    else
      return p
  else
    return p

/-- `CX_SlidePresenter::_multiCoreUpdate`.  The swapping thread runs beside it: the swap
check (cpp:596), the frame number (cpp:598) and the last swap time (cpp:605) are three
separate reads of the display, and the swaps of `env` land between them.  A swap that lands
later in the call acts as a swap made after the call. -/
def _multiCoreUpdate (env : UpdateEnv) (p : CX_SlidePresenter) :
    Except Fault CX_SlidePresenter :=
  if p._presentingSlides then
    match p._config.display with
    | none => .error .nullDisplay
    | some d =>
      if d.hasSwappedSinceLastCheck.1 then
        match _multiCoreSwappedIn (displayAtFrameRead env d).getFrameNumber
            (displayAtTimeRead env d) (p.setDisplay (displayAtTimeRead env d)) with
        | .error e => .error e
        | .ok (true, p) => .ok p
        | .ok (false, p) =>
          match _multiCoreAdvance (displayAtFrameRead env d).getFrameNumber p with
          | .error e => .error e
          | .ok p => p._waitSyncCheck env
      else (p.setDisplay d.hasSwappedSinceLastCheck.2)._waitSyncCheck env
  else if p._synchronizing then
    match p._config.display with
    | none => .error .nullDisplay
    | some d =>
      if d.hasSwappedSinceLastCheck.1 then
        match _renderCurrentSlide
            { p.setDisplay d.hasSwappedSinceLastCheck.2 with _currentSlide := 0 } with
        | .error e => .error e
        | .ok p => _waitSyncCheck env { p with _synchronizing := false, _presentingSlides := true }
      else (p.setDisplay d.hasSwappedSinceLastCheck.2)._waitSyncCheck env
  else p._waitSyncCheck env

/-- The `do ... while` loop of `_singleCoreBlockingUpdate` that swaps until one swap took
at least `limit`; each round uses one pair of clock readings. -/
def _syncSwapLoop (limit : Int) : List (Int × Int) → CX_Display → Except Fault CX_Display
  | [], _ => .error .diverged
  | (swapStart, afterSwap) :: readings, d =>
    if afterSwap - swapStart < limit then
      _syncSwapLoop limit readings d.BLOCKING_swapFrontAndBackBuffers
    else .ok d.BLOCKING_swapFrontAndBackBuffers

/-- The block of `_singleCoreBlockingUpdate` run while presenting: when the current slide is
ready and the hogging start time has come, the buffers are swapped, the slide has come on
screen, and the next slide, if any, is prepared and rendered.  The flag tells whether the
update function returns at once. -/
def _singleCorePresenting (env : UpdateEnv) (p : CX_SlidePresenter) :
    Except Fault (Bool × CX_SlidePresenter) := do
  let current ← vectorAt p._slides p._currentSlide
  if current.slideStatus = .SWAP_PENDING
      ∨ (p._config.waitUntilFenceSyncComplete = false
          ∧ current.slideStatus = .COPY_TO_BACK_BUFFER_PENDING) then
    if env.currentTime ≥ p._hoggingStartTime then
      match p._config.display with
      | none => throw .nullDisplay
      | some d =>
        let (returned, p) ←
          _slideOnset 0 env.currentSlideOnset (p.setDisplay d.BLOCKING_swapFrontAndBackBuffers)
        if returned then
          return (true, p)
        else if p._currentSlide + 1 < p._slides.length then
          let p ← p._prepareNextSlide
          let current ← vectorAt p._slides p._currentSlide
          let p ← _renderCurrentSlide
            { p with
              _hoggingStartTime := env.currentSlideOnset + current.intended.duration
                - p._config.preSwapCPUHoggingDuration
              _currentSlide := p._currentSlide + 1 }
          return (false, p)
        else
          return (false, p)
    else
      return (false, p)
  else
    return (false, p)

/-- The block of `_singleCoreBlockingUpdate` run while synchronizing. -/
def _singleCoreSynchronizing (env : UpdateEnv) (p : CX_SlidePresenter) :
    Except Fault CX_SlidePresenter := do
  match p._config.display with
  | none => throw .nullDisplay
  | some d =>
    let d ← _syncSwapLoop (d.getFramePeriod - CX_Millis 1) env.syncReadings d
    let p ← _renderCurrentSlide { p.setDisplay d with _currentSlide := 0 }
    return { p with _synchronizing := false, _presentingSlides := true
                    _hoggingStartTime := env.hoggingNow }

/-- `CX_SlidePresenter::_singleCoreBlockingUpdate`; its static local `_hoggingStartTime` is
the field of that name. -/
def _singleCoreBlockingUpdate (env : UpdateEnv) (p : CX_SlidePresenter) :
    Except Fault CX_SlidePresenter :=
  match (if p._presentingSlides then p._singleCorePresenting env else .ok (false, p)) with
  | .error e => .error e
  | .ok (true, p) => .ok p
  | .ok (false, p) =>
    match (if p._synchronizing then p._singleCoreSynchronizing env else .ok p) with
    | .error e => .error e
    | .ok p => p._waitSyncCheck env

/-- `CX_SlidePresenter::update`. -/
def update (env : UpdateEnv) (p : CX_SlidePresenter) : Except Fault CX_SlidePresenter :=
  match p._config.swappingMode with
  | .MULTI_CORE => p._multiCoreUpdate env
  | .SINGLE_CORE_BLOCKING_SWAPS => p._singleCoreBlockingUpdate env
  | .SINGLE_CORE_THREADED_SWAPS => .ok p

/-- `CX_SlidePresenter::getActualPresentationDurations`: a vector of the size of the queue,
filled entry by entry. -/
def getActualPresentationDurations (p : CX_SlidePresenter) : List Int :=
  if p.isPresentingSlides then []
  else
    (List.range p._slides.length).foldl
      (fun durations i => durations.set i (p._slides.getD i {}).actual.duration)
      (List.replicate p._slides.length 0)

/-- `CX_SlidePresenter::getActualFrameCounts`: a vector of the size of the queue, filled
entry by entry. -/
def getActualFrameCounts (p : CX_SlidePresenter) : List Nat :=
  if p.isPresentingSlides then []
  else
    (List.range p._slides.length).foldl
      (fun frameCount i => frameCount.set i (p._slides.getD i {}).actual.frameCount)
      (List.replicate p._slides.length 0)

/-- `CX_SlidePresenter::PresentationErrorInfo`. -/
structure PresentationErrorInfo where
  presentationErrorsSuccessfullyChecked : Bool := false
  incorrectFrameCounts : Nat := 0
  lateCopiesToBackBuffer : Nat := 0
  deriving DecidableEq, Repr

/-- `PresentationErrorInfo::totalErrors`. -/
def PresentationErrorInfo.totalErrors (e : PresentationErrorInfo) : Nat :=
  e.incorrectFrameCounts + e.lateCopiesToBackBuffer

/-- One round of the loop of `checkForPresentationErrors`, for the slide `sl` at index `i`
of a queue of `size` slides. -/
def checkSlide (size : Nat) (errors : PresentationErrorInfo) (i : Nat) (sl : Slide) :
    PresentationErrorInfo :=
  let errors :=
    if sl.intended.frameCount ≠ sl.actual.frameCount then
      if i ≠ size - 1 then { errors with incorrectFrameCounts := errors.incorrectFrameCounts + 1 }
      else errors
    else errors
  if sl.copyToBackBufferCompleteTime > sl.actual.startTime then
    { errors with lateCopiesToBackBuffer := errors.lateCopiesToBackBuffer + 1 }
  else errors

/-- The loop of `checkForPresentationErrors` over the slides from index `i` on. -/
def checkLoop (size : Nat) : PresentationErrorInfo → Nat → List Slide → PresentationErrorInfo
  | errors, _, [] => errors
  | errors, i, sl :: rest => checkLoop size (checkSlide size errors i sl) (i + 1) rest

/-- `CX_SlidePresenter::checkForPresentationErrors`. -/
def checkForPresentationErrors (p : CX_SlidePresenter) : PresentationErrorInfo :=
  let errors : PresentationErrorInfo := {}
  if p.isPresentingSlides then
    { errors with presentationErrorsSuccessfullyChecked := false }
  else
    { checkLoop p._slides.length errors 0 p._slides with
      presentationErrorsSuccessfullyChecked := true }

/-- The reference definition of the error report, in the spec's words: nothing is checked
while presenting or synchronizing; otherwise the frame-count mismatches among all slides
except the last and the late copies among all slides are counted. -/
def referenceErrorReport (p : CX_SlidePresenter) : PresentationErrorInfo :=
  if p._presentingSlides || p._synchronizing then
    { presentationErrorsSuccessfullyChecked := false
      incorrectFrameCounts := 0
      lateCopiesToBackBuffer := 0 }
  else
    { presentationErrorsSuccessfullyChecked := true
      incorrectFrameCounts :=
        ((List.range (p._slides.length - 1)).filter (fun i =>
          decide ((p._slides.getD i {}).intended.frameCount
            ≠ (p._slides.getD i {}).actual.frameCount))).length
      lateCopiesToBackBuffer :=
        ((List.range p._slides.length).filter (fun i =>
          decide ((p._slides.getD i {}).copyToBackBufferCompleteTime
            > (p._slides.getD i {}).actual.startTime))).length }

/-- One event in the life of a presenter: a call by user code, a call of `setup` or
`update`, or a swap completed by the background thread of its display. -/
inductive Step where
  | call (c : PresenterCall)
  | setup (config : Configuration) (fenceSyncSupported : Bool)
  | update (env : UpdateEnv)
  | threadSwap (t : Int)

/-- Effect of one event. -/
def step (p : CX_SlidePresenter) : Step → Except Fault CX_SlidePresenter
  | .call c => p.applyCall c
  | .setup config fenceSyncSupported => .ok (p.setup config fenceSyncSupported).2
  | .update env => p.update env
  | .threadSwap t =>
    match p._config.display with
    | none => .ok p
    | some d => .ok (p.setDisplay (d.threadSwap t))

/-- Effect of a sequence of events, in order. -/
def run (p : CX_SlidePresenter) : List Step → Except Fault CX_SlidePresenter
  | [] => .ok p
  | e :: es =>
    match p.step e with
    | .error f => .error f
    | .ok q => q.run es

/-- Whether a call is an insertion of a slide with content, a positive duration and a frame
count in the range of `unsigned int`, for the frame period `period`. -/
def appendsSlide (period : Int) : PresenterCall → Bool
  | .appendSlide slide =>
    decide (0 < slide.intended.duration)
      && (slide.framebuffer.isAllocated || slide.drawingFunction.isSome)
      && decide (framesInDuration slide.intended.duration period < UINT32_SIZE)
  | .appendSlideFunction drawingFunction slideDuration _ =>
    decide (0 < slideDuration) && drawingFunction.isSome
      && decide (framesInDuration slideDuration period < UINT32_SIZE)
  | .beginDrawingNextSlide slideDuration _ =>
    decide (0 < slideDuration) && decide (framesInDuration slideDuration period < UINT32_SIZE)
  | _ => false

/-- The slide that an insertion call puts at the back of the queue, for the frame period
`period`. -/
def appendedSlide (period : Int) : PresenterCall → Slide
  | .appendSlide slide =>
    { slide with intended := { slide.intended with
        frameCount := (framesInDuration slide.intended.duration period).toNat } }
  | .appendSlideFunction drawingFunction slideDuration slideName =>
    { drawingFunction := drawingFunction
      intended := { duration := slideDuration
                    frameCount := (framesInDuration slideDuration period).toNat }
      slideName := slideName }
  | .beginDrawingNextSlide slideDuration slideName =>
    { slideName := slideName
      framebuffer := { isAllocated := true }
      intended := { duration := slideDuration
                    frameCount := (framesInDuration slideDuration period).toNat } }
  | _ => {}

/-- Whether an event belongs to a presentation run: `startSlidePresentation`,
`stopSlidePresentation`, `update`, or a swap of the background thread. -/
def isPresentationStep : Step → Bool
  | .call .startSlidePresentation => true
  | .call .stopSlidePresentation => true
  | .update _ => true
  | .threadSwap _ => true
  | _ => false

/-- The duration handed to an insertion call. -/
def insertionDuration : PresenterCall → Option Int
  | .appendSlide slide => some slide.intended.duration
  | .appendSlideFunction _ slideDuration _ => some slideDuration
  | .beginDrawingNextSlide slideDuration _ => some slideDuration
  | _ => none

end CX_SlidePresenter

/-! ## A small presentation, used to instantiate the theorems -/

/-- A display with a frame period of 16.67 ms that does not swap automatically yet. -/
def exampleDisplay : CX_Display :=
  { _framePeriod := 16670000
    _swapThread := { threadRunning := false, _frameCount := 0, lastSwapTime := 0 }
    _manualBufferSwaps := 0
    _frameNumberOnLastSwapCheck := 0 }

/-- A presenter set up with the example display: multi-core, no fence sync, no callback. -/
def examplePresenter : CX_SlidePresenter :=
  { _config := { display := some exampleDisplay, useFenceSync := false } }

/-- Three insertions, one of each kind: two frames, one frame and one frame long. -/
def exampleCalls : List PresenterCall :=
  [ .appendSlideFunction (some 1) 33340000 "first",
    .beginDrawingNextSlide 16670000 "second",
    .endDrawingCurrentSlide,
    .appendSlide
      { slideName := "third"
        framebuffer := { isAllocated := true }
        intended := { duration := 16670000, frameCount := 99 } } ]

/-- The example presenter after the three insertions. -/
def exampleQueued : CX_SlidePresenter :=
  { examplePresenter with
    _slides :=
      [ { slideName := "first", drawingFunction := some 1
          intended := { duration := 33340000, frameCount := 2 } },
        { slideName := "second", framebuffer := { isAllocated := true }
          intended := { duration := 16670000, frameCount := 1 } },
        { slideName := "third", framebuffer := { isAllocated := true }
          intended := { duration := 16670000, frameCount := 1 } } ]
    _slideInfo := [{}, {}, {}] }

/-- A presentation run to completion: start, six swaps of the background thread, each
followed by an update, and a stop. -/
def exampleSteps : List CX_SlidePresenter.Step :=
  [ .call .startSlidePresentation,
    .threadSwap 1016670000, .update {},
    .threadSwap 1033340000, .update {},
    .threadSwap 1050010000, .update {},
    .threadSwap 1066680000, .update {},
    .threadSwap 1083350000, .update {},
    .threadSwap 1100020000, .update {},
    .call .stopSlidePresentation ]

/-- The example presenter after the run. -/
def exampleFinished : CX_SlidePresenter :=
  { examplePresenter with
    _config :=
      { display := some
          { _framePeriod := 16670000
            _swapThread := { threadRunning := true, _frameCount := 6, lastSwapTime := 1100020000 }
            _manualBufferSwaps := 0
            _frameNumberOnLastSwapCheck := 5 }
        useFenceSync := false }
    _currentSlide := 2
    _slides :=
      [ { slideName := "first", drawingFunction := some 1, slideStatus := .FINISHED
          intended := { startFrame := 2, frameCount := 2, startTime := 1033340000,
                        duration := 33340000 }
          actual := { startFrame := 2, frameCount := 2, startTime := 1033340000,
                      duration := 33340000 } },
        { slideName := "second", slideStatus := .FINISHED
          intended := { startFrame := 4, frameCount := 1, startTime := 1066680000,
                        duration := 16670000 }
          actual := { startFrame := 4, frameCount := 1, startTime := 1066680000,
                      duration := 16670000 } },
        { slideName := "third", slideStatus := .IN_PROGRESS
          intended := { startFrame := 5, frameCount := 1, startTime := 1083350000,
                        duration := 16670000 }
          actual := { startFrame := 5, frameCount := UINT32_MAX, startTime := 1083350000,
                      duration := CX_Millis_max } } ]
    _slideInfo := [{}, {}, {}] }

/-- The finished example presenter after `startSlidePresentation` has been called again. -/
def exampleRestarted : CX_SlidePresenter :=
  { exampleFinished with
    _config :=
      { display := some
          { _framePeriod := 16670000
            _swapThread := { threadRunning := true, _frameCount := 6, lastSwapTime := 1100020000 }
            _manualBufferSwaps := 0
            _frameNumberOnLastSwapCheck := 6 }
        useFenceSync := false }
    _synchronizing := true
    _slides :=
      exampleFinished._slides.map (fun (s : Slide) => { s with slideStatus := .NOT_STARTED }) }

/-- A slide with a positive duration and no content: no framebuffer, no drawing function. -/
def emptySlide : Slide := { slideName := "empty", intended := { duration := 1000000000 } }

namespace CX_SlidePresenter

/-- The start frame that `_prepareNextSlide` anchors to under `PROPAGATE_DELAYS`: the actual
start frame of the current slide if it started later than intended, else the intended one. -/
def anchorFrame (currentSlide : Slide) : Nat :=
  if currentSlide.actual.startTime > currentSlide.intended.startTime then
    currentSlide.actual.startFrame
  else currentSlide.intended.startFrame

/-- The next slide as `_prepareNextSlide` leaves it, for each error mode. -/
def preparedNext (mode : ErrorMode) (currentSlide nextSlide : Slide) : Slide :=
  match mode with
  | .DO_NOTHING =>
    { nextSlide with intended := { nextSlide.intended with
        startTime := currentSlide.intended.startTime + currentSlide.intended.duration
        startFrame :=
          toUInt32 (currentSlide.intended.startFrame + currentSlide.intended.frameCount) } }
  | .PROPAGATE_DELAYS =>
    { nextSlide with intended := { nextSlide.intended with
        startTime := max currentSlide.actual.startTime currentSlide.intended.startTime
          + currentSlide.intended.duration
        startFrame := toUInt32 (anchorFrame currentSlide + currentSlide.intended.frameCount) } }
  | .FIX_TIMING_FROM_FIRST_SLIDE => nextSlide

/-- A presenter in single-core mode whose requested hogging duration of 20 ms exceeds the
frame period of the example display minus one millisecond. -/
def exampleHoggingConfig : Configuration :=
  { display := some exampleDisplay
    swappingMode := .SINGLE_CORE_BLOCKING_SWAPS
    preSwapCPUHoggingDuration := 20000000 }

end CX_SlidePresenter

namespace CX_Display

end CX_Display

namespace CX_SlidePresenter

/-- Whether a call only inserts a slide or closes a drawing scope. -/
def isInsertion : PresenterCall → Bool
  | .appendSlide _ => true
  | .appendSlideFunction _ _ _ => true
  | .beginDrawingNextSlide _ _ => true
  | .endDrawingCurrentSlide => true
  | _ => false

/-- Whether a call only inserts a slide, closes a drawing scope or stops the presentation. -/
def appendsOrStops : PresenterCall → Bool
  | .stopSlidePresentation => true
  | c => isInsertion c

end CX_SlidePresenter

/-- The example presenter during its run, after the fifth swap: the second slide is on
screen and the third, the last one, is rendered and waits for the swap just made to be seen. -/
def exampleBeforeLast : CX_SlidePresenter :=
  { examplePresenter with
    _config :=
      { display := some
          { _framePeriod := 16670000
            _swapThread := { threadRunning := true, _frameCount := 5, lastSwapTime := 1083350000 }
            _manualBufferSwaps := 0
            _frameNumberOnLastSwapCheck := 4 }
        useFenceSync := false }
    _presentingSlides := true
    _currentSlide := 2
    _slides :=
      [ { slideName := "first", drawingFunction := some 1, slideStatus := .FINISHED
          intended := { startFrame := 2, frameCount := 2, startTime := 1033340000,
                        duration := 33340000 }
          actual := { startFrame := 2, frameCount := 2, startTime := 1033340000,
                      duration := 33340000 } },
        { slideName := "second", framebuffer := { isAllocated := true }
          slideStatus := .IN_PROGRESS
          intended := { startFrame := 4, frameCount := 1, startTime := 1066680000,
                        duration := 16670000 }
          actual := { startFrame := 4, startTime := 1066680000 } },
        { slideName := "third", framebuffer := { isAllocated := true }
          slideStatus := .SWAP_PENDING
          intended := { startFrame := 5, frameCount := 1, startTime := 1083350000,
                        duration := 16670000 } } ]
    _slideInfo := [{}, {}, {}] }

/-- A slide with its copy time dropped and a pending status read as `SWAP_PENDING`: what
the polling of the fences does not touch. -/
def Slide.withoutFence (s : Slide) : Slide :=
  { s with
    copyToBackBufferCompleteTime := 0
    slideStatus :=
      if s.slideStatus = .COPY_TO_BACK_BUFFER_PENDING then .SWAP_PENDING else s.slideStatus }

/-- Five slides appended by duration: three of 25 ms, one of 33.34 ms and one of 16.67 ms.
At a frame period of 16.67 ms they are given 1, 1, 1, 2 and 1 frames. -/
def exampleDriftCalls : List PresenterCall :=
  [ .appendSlideFunction (some 1) 25000000 "a",
    .appendSlideFunction (some 1) 25000000 "b",
    .appendSlideFunction (some 1) 25000000 "c",
    .appendSlideFunction (some 1) 33340000 "d",
    .appendSlideFunction (some 1) 16670000 "e" ]

/-- The same five slides with durations that are whole numbers of frame periods. -/
def exampleExactCalls : List PresenterCall :=
  [ .appendSlideFunction (some 1) 16670000 "a",
    .appendSlideFunction (some 1) 16670000 "b",
    .appendSlideFunction (some 1) 16670000 "c",
    .appendSlideFunction (some 1) 33340000 "d",
    .appendSlideFunction (some 1) 16670000 "e" ]

/-- A multi-core presenter without fence sync and with the given error mode. -/
def examplePresenterWith (mode : ErrorMode) : CX_SlidePresenter :=
  { examplePresenter with _config := { examplePresenter._config with errorMode := mode } }

/-- A presentation with one swap per update and regular swaps, except that no update runs
between the swaps to frames 5 and 6: the slide on screen at frame 4 stays for two frames. -/
def exampleMissedSteps : List CX_SlidePresenter.Step :=
  [ .call .startSlidePresentation,
    .threadSwap 1016670000, .update {},
    .threadSwap 1033340000, .update {},
    .threadSwap 1050010000, .update {},
    .threadSwap 1066680000, .update {},
    .threadSwap 1083350000,
    .threadSwap 1100020000, .update {},
    .threadSwap 1116690000, .update {},
    .threadSwap 1133360000, .update {} ]

/-- Intended and actual start frame and frame count of every slide. -/
def frameReport (p : CX_SlidePresenter) : List ((Nat × Nat) × (Nat × Nat)) :=
  p._slides.map (fun s =>
    ((s.intended.startFrame, s.intended.frameCount), (s.actual.startFrame, s.actual.frameCount)))

/-- The presenter with the given error mode after the calls of `exampleDriftCalls`. -/
def exampleDriftQueued (mode : ErrorMode) : CX_SlidePresenter :=
  { examplePresenterWith mode with
    _slides :=
      [ { slideName := "a", drawingFunction := some 1
          intended := { duration := 25000000, frameCount := 1 } },
        { slideName := "b", drawingFunction := some 1
          intended := { duration := 25000000, frameCount := 1 } },
        { slideName := "c", drawingFunction := some 1
          intended := { duration := 25000000, frameCount := 1 } },
        { slideName := "d", drawingFunction := some 1
          intended := { duration := 33340000, frameCount := 2 } },
        { slideName := "e", drawingFunction := some 1
          intended := { duration := 16670000, frameCount := 1 } } ]
    _slideInfo := [{}, {}, {}, {}, {}] }

/-- The presenter with the given error mode after the calls of `exampleExactCalls`. -/
def exampleExactQueued (mode : ErrorMode) : CX_SlidePresenter :=
  { examplePresenterWith mode with
    _slides :=
      [ { slideName := "a", drawingFunction := some 1
          intended := { duration := 16670000, frameCount := 1 } },
        { slideName := "b", drawingFunction := some 1
          intended := { duration := 16670000, frameCount := 1 } },
        { slideName := "c", drawingFunction := some 1
          intended := { duration := 16670000, frameCount := 1 } },
        { slideName := "d", drawingFunction := some 1
          intended := { duration := 33340000, frameCount := 2 } },
        { slideName := "e", drawingFunction := some 1
          intended := { duration := 16670000, frameCount := 1 } } ]
    _slideInfo := [{}, {}, {}, {}, {}] }

/-- Whether the slide has been rendered and waits to come on screen: the test of
`_multiCoreUpdate` on the status of the current slide. -/
def Slide.isPending (s : Slide) : Bool :=
  decide (s.slideStatus = .SWAP_PENDING ∨ s.slideStatus = .COPY_TO_BACK_BUFFER_PENDING)

namespace CX_SlidePresenter

/-- The actual duration and frame count of a slide are the differences of the actual start
times and start frames of the slide after it and of itself, the frames in 32-bit unsigned
arithmetic. -/
def finishedBy (previousSlide current : Slide) : Prop :=
  previousSlide.actual.duration = current.actual.startTime - previousSlide.actual.startTime ∧
  previousSlide.actual.frameCount
    = subUInt32 current.actual.startFrame previousSlide.actual.startFrame

/-- The intended start of a slide is the intended start of the slide before it plus the
intended length of that slide, the frames in 32-bit unsigned arithmetic. -/
def anchoredTo (previousSlide next : Slide) : Prop :=
  next.intended.startTime = previousSlide.intended.startTime + previousSlide.intended.duration ∧
  next.intended.startFrame
    = toUInt32 (previousSlide.intended.startFrame + previousSlide.intended.frameCount)

/-- The relation holds between each slide and the one after it, up to the slide with
index `n`. -/
def Chained (R : Slide → Slide → Prop) (n : Nat) (slides : List Slide) : Prop :=
  ∀ k a b, slides[k]? = some a → slides[k + 1]? = some b → k + 1 ≤ n → R a b

/-- Whether the current slide waits to come on screen. -/
def currentIsPending (p : CX_SlidePresenter) : Bool :=
  match p._slides[p._currentSlide]? with
  | some s => s.isPending
  | none => false

/-- Index of the last slide that has come on screen in this presentation. -/
def onScreenBound (p : CX_SlidePresenter) : Nat :=
  if p.currentIsPending then p._currentSlide - 1 else p._currentSlide

/-- Index of the last slide that has been prepared in this presentation: the slide after
the current one is prepared as soon as the current one has come on screen, unless the
presentation ended there. -/
def preparedBound (p : CX_SlidePresenter) : Nat :=
  if p._presentingSlides && !p.currentIsPending then p._currentSlide + 1 else p._currentSlide

/-- What holds at every point of a presentation after `startSlidePresentation`: either the
presenter still waits for the first swap, or the current slide has come on screen if the
presentation has ended, the slides that have come on screen are chained by their actual
starts and, under `DO_NOTHING`, the prepared slides are chained by their intended starts. -/
def Started (p : CX_SlidePresenter) : Prop :=
  (p._synchronizing = true ∧ p._presentingSlides = false) ∨
  (p._synchronizing = false ∧
    (p._presentingSlides = false → p.currentIsPending = false) ∧
    Chained finishedBy p.onScreenBound p._slides ∧
    (p._config.errorMode = .DO_NOTHING → Chained anchoredTo p.preparedBound p._slides))

/-- The final-slide callback, if any, only inserts slides or stops the presentation. -/
def callbackAppendsOrStops (p : CX_SlidePresenter) : Prop :=
  ∀ cb, p._config.finalSlideCallback = some cb → ∀ i, ∀ c ∈ cb i, appendsOrStops c = true

/-- Whether an event is an `update` or a swap of the background thread. -/
def isUpdateOrSwap : Step → Bool
  | .update _ => true
  | .threadSwap _ => true
  | _ => false

end CX_SlidePresenter

/-- The five slides of `exampleDriftCalls` under `DO_NOTHING`, after a successful
`startSlidePresentation`. -/
def exampleDriftStarted : CX_SlidePresenter :=
  { exampleDriftQueued .DO_NOTHING with
    _config :=
      { display := some
          { _framePeriod := 16670000
            _swapThread := { threadRunning := true, _frameCount := 0, lastSwapTime := 0 }
            _manualBufferSwaps := 0
            _frameNumberOnLastSwapCheck := 0 }
        errorMode := .DO_NOTHING
        useFenceSync := false }
    _synchronizing := true }

/-- The presenter `exampleDriftStarted` after the swaps and updates of `exampleMissedSteps`:
the third slide stayed one frame too long. -/
def exampleDriftFinished : CX_SlidePresenter :=
  { _config :=
      { display := some
          { _framePeriod := 16670000
            _swapThread := { threadRunning := true, _frameCount := 8, lastSwapTime := 1133360000 }
            _manualBufferSwaps := 0
            _frameNumberOnLastSwapCheck := 7 }
        errorMode := .DO_NOTHING
        useFenceSync := false }
    _currentSlide := 4
    _slides :=
      [ { slideName := "a", drawingFunction := some 1, slideStatus := .FINISHED
          intended := { startFrame := 2, frameCount := 1, startTime := 1033340000,
                        duration := 25000000 }
          actual := { startFrame := 2, frameCount := 1, startTime := 1033340000,
                      duration := 16670000 } },
        { slideName := "b", drawingFunction := some 1, slideStatus := .FINISHED
          intended := { startFrame := 3, frameCount := 1, startTime := 1058340000,
                        duration := 25000000 }
          actual := { startFrame := 3, frameCount := 1, startTime := 1050010000,
                      duration := 16670000 } },
        { slideName := "c", drawingFunction := some 1, slideStatus := .FINISHED
          intended := { startFrame := 4, frameCount := 1, startTime := 1083340000,
                        duration := 25000000 }
          actual := { startFrame := 4, frameCount := 2, startTime := 1066680000,
                      duration := 33340000 } },
        { slideName := "d", drawingFunction := some 1, slideStatus := .FINISHED
          intended := { startFrame := 5, frameCount := 2, startTime := 1108340000,
                        duration := 33340000 }
          actual := { startFrame := 6, frameCount := 1, startTime := 1100020000,
                      duration := 16670000 } },
        { slideName := "e", drawingFunction := some 1, slideStatus := .IN_PROGRESS
          intended := { startFrame := 7, frameCount := 1, startTime := 1141680000,
                        duration := 16670000 }
          actual := { startFrame := 7, frameCount := UINT32_MAX, startTime := 1116690000,
                      duration := CX_Millis_max } } ]
    _slideInfo := [{}, {}, {}, {}, {}] }

namespace CX_SlidePresenter

end CX_SlidePresenter

namespace CX_SlidePresenter

/-- A run without jitter: every swap of the background thread advances the frame number by
one and is followed by at least one `update` before the next swap, so no swap lands inside
an update.  Each entry holds the time of a swap, the readings of the clock and the fences
of the first update after it and those of further updates. -/
def zeroJitterSteps (ticks : List (Int × UpdateEnv × List UpdateEnv)) : List Step :=
  ticks.flatMap (fun k =>
    .threadSwap k.1 :: .update k.2.1.withoutSwaps
      :: k.2.2.map (fun env => .update env.withoutSwaps))

/-- The two slides agree on what the schedule reads: the intended timing, the actual start
frame and whether the slide waits to come on screen. -/
def sameTiming (s' s : Slide) : Prop :=
  s'.intended = s.intended ∧ s'.actual.startFrame = s.actual.startFrame ∧
  s'.isPending = s.isPending

/-- The two queues have the same length and agree slide by slide on what the schedule
reads. -/
def SameTiming (l' l : List Slide) : Prop :=
  l'.length = l.length ∧
  ∀ (j : Nat) (s' s : Slide), l'[j]? = some s' → l[j]? = some s → sameTiming s' s

end CX_SlidePresenter

namespace CX_SlidePresenter

end CX_SlidePresenter

/-- Swaps of the background thread every 16.67 ms from 1016.67 ms on, each followed by one
`update`. -/
def regularTicks (n : Nat) : List (Int × CX_SlidePresenter.UpdateEnv × List CX_SlidePresenter.UpdateEnv) :=
  (List.range n).map (fun i => (1000000000 + ((i : Int) + 1) * 16670000, {}, []))

/-- The presenter under `DO_NOTHING` after the calls of `exampleBlinkCalls`. -/
def exampleBlinkQueued : CX_SlidePresenter :=
  { examplePresenterWith .DO_NOTHING with
    _slides :=
      [ { slideName := "blink", drawingFunction := some 1
          intended := { duration := 1000000, frameCount := 0 } },
        { slideName := "last", drawingFunction := some 1
          intended := { duration := 16670000, frameCount := 1 } } ]
    _slideInfo := [{}, {}] }

/-- The display of the example presenters once a presentation has been started. -/
def exampleStartedDisplay : CX_Display :=
  { _framePeriod := 16670000
    _swapThread := { threadRunning := true, _frameCount := 0, lastSwapTime := 0 }
    _manualBufferSwaps := 0
    _frameNumberOnLastSwapCheck := 0 }

/-- The presenter `exampleBlinkQueued` after a successful `startSlidePresentation`. -/
def exampleBlinkStarted : CX_SlidePresenter :=
  { exampleBlinkQueued with
    _config :=
      { display := some exampleStartedDisplay, errorMode := .DO_NOTHING, useFenceSync := false }
    _synchronizing := true }

/-- Three slides of 1000, 250 and 500 ms. -/
def exampleLongCalls : List PresenterCall :=
  [ .appendSlideFunction (some 1) 1000000000 "a",
    .appendSlideFunction (some 1) 250000000 "b",
    .appendSlideFunction (some 1) 500000000 "c" ]

/-- Whether the slide has rendered content: an allocated framebuffer. -/
def Slide.hasFramebuffer (s : Slide) : Bool := s.framebuffer.isAllocated

/-- Whether the slide has a render callback: a drawing function that is not null. -/
def Slide.hasDrawingFunction (s : Slide) : Bool := s.drawingFunction.isSome

/-- A slide that has both an allocated framebuffer and a drawing function. -/
def exampleBothSlide : Slide :=
  { slideName := "both"
    framebuffer := { isAllocated := true }
    drawingFunction := some 1
    intended := { duration := 16670000 } }

/-- The example presenter with one slide queued by `beginDrawingNextSlide` whose drawing
scope is still open. -/
def exampleOpenScope : CX_SlidePresenter :=
  { examplePresenter with
    _slides :=
      [ { slideName := "open", framebuffer := { isAllocated := true }
          intended := { duration := 16670000, frameCount := 1 } } ]
    _slideInfo := [{}]
    _lastFramebufferActive := true }

/-- A slide with content and a duration that is not positive. -/
def exampleZeroDurationSlide : Slide :=
  { slideName := "zero", drawingFunction := some 1, intended := { duration := 0 } }

/-! ## Copying a framebuffer to the back buffer (CX_Display) -/

/-- `ofOrientation`: the four orientations named in the sources. -/
inductive ofOrientation where
  | OF_ORIENTATION_DEFAULT
  | OF_ORIENTATION_180
  | OF_ORIENTATION_90_LEFT
  | OF_ORIENTATION_90_RIGHT
  deriving DecidableEq, Repr

/-- `ofRectangle`, in whole pixels. -/
structure ofRectangle where
  x : Int := 0
  y : Int := 0
  width : Int := 0
  height : Int := 0
  deriving DecidableEq, Repr

/-- `ofPoint`, in whole pixels. -/
structure ofPoint where
  x : Int := 0
  y : Int := 0
  deriving DecidableEq, Repr

/-- An OpenGL call made by the copy. -/
inductive GLCall where
  /-- `glBindFramebuffer(GL_READ_FRAMEBUFFER, name)`. -/
  | bindReadFramebuffer (name : Nat)
  /-- `glBindFramebuffer(GL_DRAW_FRAMEBUFFER, GL_BACK)`. -/
  | bindDrawFramebufferBack
  /-- `glBlitFramebuffer(sx0, sy0, sx1, sy1, dx0, dy0, dx1, dy1, GL_COLOR_BUFFER_BIT,
  GL_LINEAR)`. -/
  | blitFramebuffer (sx0 sy0 sx1 sy1 dx0 dy0 dx1 dy1 : Int)
  deriving DecidableEq, Repr

/-- Whether the call is a blit. -/
def GLCall.isBlit : GLCall → Bool
  | .blitFramebuffer _ _ _ _ _ _ _ _ => true
  | _ => false

/-- What a copy to the back buffer leaves behind: the number of messages logged at error
level and the OpenGL calls issued, in order. -/
structure CopyEffects where
  errorsLogged : Nat := 0
  glCalls : List GLCall := []
  deriving DecidableEq, Repr

namespace CX_Display

/-- `CX_Display::_blitFboToBackBuffer(fbo, sourceCoordinates, destinationCoordinates)`.
`res` is the answer of `getResolution()` and `orientation` the answer of
`ofGetOrientation()`. -/
def _blitFboToBackBuffer (res : ofRectangle) (orientation : ofOrientation) (fbo : ofFbo)
    (sourceCoordinates destinationCoordinates : ofRectangle) : CopyEffects :=
  let sx0 := sourceCoordinates.x
  let sy0 := fbo.height - sourceCoordinates.y
  let sx1 := sourceCoordinates.x + sourceCoordinates.width
  let sy1 := fbo.height - sourceCoordinates.y - sourceCoordinates.height
  let dx0 := destinationCoordinates.x
  let dy0 := res.height - destinationCoordinates.y
  let dx1 := destinationCoordinates.x + destinationCoordinates.width
  let dy1 := res.height - destinationCoordinates.y - destinationCoordinates.height
  let (sx0, sy0, sx1, sy1, errorsLogged) :=
    match orientation with
    | .OF_ORIENTATION_DEFAULT => (sx0, sy1, sx1, sy0, 0)
    | .OF_ORIENTATION_180 => (sx1, sy0, sx0, sy1, 0)
    | .OF_ORIENTATION_90_LEFT => (sx0, sy0, sx1, sy1, 1)
    | .OF_ORIENTATION_90_RIGHT => (sx0, sy0, sx1, sy1, 1)
  { errorsLogged := errorsLogged
    glCalls :=
      [ .bindReadFramebuffer fbo.fbo, .bindDrawFramebufferBack,
        .blitFramebuffer sx0 sy0 sx1 sy1 dx0 dy0 dx1 dy1 ] }

/-- `CX_Display::_blitFboToBackBuffer(fbo, destination)`: the framebuffer is copied from its
corner at its full size, clamped to the resolution. -/
def _blitFboToBackBufferAt (res : ofRectangle) (orientation : ofOrientation) (fbo : ofFbo)
    (destination : ofPoint) : CopyEffects :=
  let copyWidth := min fbo.width res.width
  let copyHeight := min fbo.height res.height
  _blitFboToBackBuffer res orientation fbo
    { x := 0, y := 0, width := copyWidth, height := copyHeight }
    { x := destination.x, y := destination.y, width := copyWidth, height := copyHeight }

/-- `CX_Display::copyFboToBackBuffer(fbo)`. -/
def copyFboToBackBuffer (res : ofRectangle) (orientation : ofOrientation) (fbo : ofFbo) :
    CopyEffects :=
  _blitFboToBackBufferAt res orientation fbo { x := 0, y := 0 }

/-- `CX_Display::copyFboToBackBuffer(fbo, destination)`. -/
def copyFboToBackBufferAt (res : ofRectangle) (orientation : ofOrientation) (fbo : ofFbo)
    (destination : ofPoint) : CopyEffects :=
  _blitFboToBackBufferAt res orientation fbo destination

/-- `CX_Display::copyFboToBackBuffer(fbo, source, destination)`. -/
def copyFboToBackBufferFrom (res : ofRectangle) (orientation : ofOrientation) (fbo : ofFbo)
    (source : ofRectangle) (destination : ofPoint) : CopyEffects :=
  _blitFboToBackBuffer res orientation fbo source
    { x := destination.x, y := destination.y, width := source.width, height := source.height }

end CX_Display

/-- A window of 800 by 600 pixels. -/
def exampleResolution : ofRectangle := { x := 800, y := 600, width := 800, height := 600 }

/-- An allocated framebuffer of 800 by 600 pixels. -/
def exampleFbo : ofFbo := { isAllocated := true, fbo := 1, width := 800, height := 600 }

/-- The example presenter after `beginDrawingNextSlide` and `clearSlides`: the queue is
empty, the entry of `_slideInfo` is kept and the drawing scope still counts as open. -/
def exampleClearedOpen : CX_SlidePresenter :=
  { examplePresenter with
    _slideInfo := [{}]
    _lastFramebufferActive := true }

/-- A presenter in single-core blocking mode with the given error mode, no fence sync, a
busy-wait margin of 5 ms and three slides of 100 ms, which are 6 frames each at a frame
period of 16.67 ms. -/
def exampleHoggingQueued (mode : ErrorMode) : CX_SlidePresenter :=
  { _config :=
      { display := some exampleDisplay
        errorMode := mode
        swappingMode := .SINGLE_CORE_BLOCKING_SWAPS
        preSwapCPUHoggingDuration := 5000000
        useFenceSync := false }
    _slides :=
      [ { slideName := "a", drawingFunction := some 1
          intended := { duration := 100000000, frameCount := 6 } },
        { slideName := "b", drawingFunction := some 1
          intended := { duration := 100000000, frameCount := 6 } },
        { slideName := "c", drawingFunction := some 1
          intended := { duration := 100000000, frameCount := 6 } } ]
    _slideInfo := [{}, {}, {}] }

/-- A start and three updates in single-core blocking mode: the first update synchronizes
with one swap of 16 ms and renders the first slide, the second swaps it in at 1000 ms, the
third swaps the second slide in at 1110 ms, 10 ms after its intended start. -/
def exampleHoggingSteps : List CX_SlidePresenter.Step :=
  [ .call .startSlidePresentation,
    .update { syncReadings := [(900000000, 916000000)], hoggingNow := 920000000 },
    .update { currentTime := 1000000000, currentSlideOnset := 1000000000 },
    .update { currentTime := 1110000000, currentSlideOnset := 1110000000 } ]

/-- The presenter `exampleHoggingQueued .PROPAGATE_DELAYS` after the start and the first two
updates of `exampleHoggingSteps`: the first slide is on screen since 1000 ms and the second
one, due at 1100 ms, is rendered. -/
def exampleHoggingPending : CX_SlidePresenter :=
  { _config :=
      { display := some
          { _framePeriod := 16670000
            _swapThread := { threadRunning := false, _frameCount := 0, lastSwapTime := 0 }
            _manualBufferSwaps := 2
            _frameNumberOnLastSwapCheck := 0 }
        errorMode := .PROPAGATE_DELAYS
        swappingMode := .SINGLE_CORE_BLOCKING_SWAPS
        preSwapCPUHoggingDuration := 5000000
        useFenceSync := false }
    _hoggingStartTime := 1095000000
    _presentingSlides := true
    _currentSlide := 1
    _slides :=
      [ { slideName := "a", drawingFunction := some 1, slideStatus := .IN_PROGRESS
          intended := { startFrame := 0, frameCount := 6, startTime := 1000000000,
                        duration := 100000000 }
          actual := { startFrame := 0, startTime := 1000000000 } },
        { slideName := "b", drawingFunction := some 1, slideStatus := .SWAP_PENDING
          intended := { startFrame := 6, frameCount := 6, startTime := 1100000000,
                        duration := 100000000 } },
        { slideName := "c", drawingFunction := some 1
          intended := { duration := 100000000, frameCount := 6 } } ]
    _slideInfo := [{}, {}, {}] }

/-- The readings of the third update of `exampleHoggingSteps`. -/
def exampleHoggingEnv : CX_SlidePresenter.UpdateEnv :=
  { currentTime := 1110000000, currentSlideOnset := 1110000000 }

/-- The presenter `exampleHoggingPending` after the third update: the second slide came on
screen at 1110 ms and the third one is rendered. -/
def exampleHoggingAdvanced : CX_SlidePresenter :=
  { _config :=
      { display := some
          { _framePeriod := 16670000
            _swapThread := { threadRunning := false, _frameCount := 0, lastSwapTime := 0 }
            _manualBufferSwaps := 3
            _frameNumberOnLastSwapCheck := 0 }
        errorMode := .PROPAGATE_DELAYS
        swappingMode := .SINGLE_CORE_BLOCKING_SWAPS
        preSwapCPUHoggingDuration := 5000000
        useFenceSync := false }
    _hoggingStartTime := 1205000000
    _presentingSlides := true
    _currentSlide := 2
    _slides :=
      [ { slideName := "a", drawingFunction := some 1, slideStatus := .FINISHED
          intended := { startFrame := 0, frameCount := 6, startTime := 1000000000,
                        duration := 100000000 }
          actual := { startFrame := 0, frameCount := 0, startTime := 1000000000,
                      duration := 110000000 } },
        { slideName := "b", drawingFunction := some 1, slideStatus := .IN_PROGRESS
          intended := { startFrame := 6, frameCount := 6, startTime := 1100000000,
                        duration := 100000000 }
          actual := { startFrame := 0, startTime := 1110000000 } },
        { slideName := "c", drawingFunction := some 1, slideStatus := .SWAP_PENDING
          intended := { startFrame := 6, frameCount := 6, startTime := 1210000000,
                        duration := 100000000 } } ]
    _slideInfo := [{}, {}, {}] }

namespace CX_SlidePresenter

/-- Whether the slide with index `k` has come on screen in the presentation under way: it
comes before the current slide, or it is the current slide and no longer waits. -/
def hasComeOnScreen (p : CX_SlidePresenter) (k : Nat) : Prop :=
  k < p._currentSlide ∨ (k = p._currentSlide ∧ p.currentIsPending = false)

/-- What holds at every point of a presentation in blocking single-core mode after
`startSlidePresentation`: either the presenter still waits for its first update, or the
current slide has come on screen if the presentation has ended, every slide that has come
on screen has the actual start frame 0, and every slide followed by one that has come on
screen has the actual frame count 0. -/
def ZeroFrames (p : CX_SlidePresenter) : Prop :=
  (p._synchronizing = true ∧ p._presentingSlides = false) ∨
  (p._synchronizing = false ∧
    (p._presentingSlides = false → p.currentIsPending = false) ∧
    (∀ k a, p._slides[k]? = some a → p.hasComeOnScreen k → a.actual.startFrame = 0) ∧
    (∀ k a, p._slides[k]? = some a → k + 1 ≤ p.onScreenBound → a.actual.frameCount = 0))

end CX_SlidePresenter

/-- The presenter `exampleHoggingQueued .DO_NOTHING` after a successful
`startSlidePresentation`. -/
def exampleBlockingStarted : CX_SlidePresenter :=
  { exampleHoggingQueued .DO_NOTHING with _synchronizing := true }

/-- Four updates in single-core blocking mode: the first synchronizes and renders the first
slide, the others swap the three slides in at 1000, 1110 and 1210 ms. -/
def exampleBlockingUpdates : List CX_SlidePresenter.Step :=
  [ .update { syncReadings := [(900000000, 916000000)], hoggingNow := 920000000 },
    .update { currentTime := 1000000000, currentSlideOnset := 1000000000 },
    .update { currentTime := 1110000000, currentSlideOnset := 1110000000 },
    .update { currentTime := 1210000000, currentSlideOnset := 1210000000 } ]

/-- The presenter `exampleBlockingStarted` after `exampleBlockingUpdates`: the presentation
has ended at the third slide. -/
def exampleBlockingFinished : CX_SlidePresenter :=
  { _config :=
      { display := some
          { _framePeriod := 16670000
            _swapThread := { threadRunning := false, _frameCount := 0, lastSwapTime := 0 }
            _manualBufferSwaps := 4
            _frameNumberOnLastSwapCheck := 0 }
        errorMode := .DO_NOTHING
        swappingMode := .SINGLE_CORE_BLOCKING_SWAPS
        preSwapCPUHoggingDuration := 5000000
        useFenceSync := false }
    _hoggingStartTime := 1205000000
    _currentSlide := 2
    _slides :=
      [ { slideName := "a", drawingFunction := some 1, slideStatus := .FINISHED
          intended := { startFrame := 0, frameCount := 6, startTime := 1000000000,
                        duration := 100000000 }
          actual := { startFrame := 0, frameCount := 0, startTime := 1000000000,
                      duration := 110000000 } },
        { slideName := "b", drawingFunction := some 1, slideStatus := .FINISHED
          intended := { startFrame := 6, frameCount := 6, startTime := 1100000000,
                        duration := 100000000 }
          actual := { startFrame := 0, frameCount := 0, startTime := 1110000000,
                      duration := 100000000 } },
        { slideName := "c", drawingFunction := some 1, slideStatus := .IN_PROGRESS
          intended := { startFrame := 12, frameCount := 6, startTime := 1200000000,
                        duration := 100000000 }
          actual := { startFrame := 0, frameCount := UINT32_MAX, startTime := 1210000000,
                      duration := CX_Millis_max } } ]
    _slideInfo := [{}, {}, {}] }

namespace CX_SlidePresenter

/-- What holds for the statuses at every point of a multi-core presentation after
`startSlidePresentation`: while the presenter waits for the first swap no slide has started;
afterwards every slide followed by one that has come on screen is finished, every slide
after the current one has not started, the current slide waits to come on screen or is in
progress, and while it waits the slide before it is in progress. -/
def StatusOrder (p : CX_SlidePresenter) : Prop :=
  (p._synchronizing = true ∧ p._presentingSlides = false ∧
    ∀ (k : Nat) (a : Slide), p._slides[k]? = some a → a.slideStatus = .NOT_STARTED) ∨
  (p._synchronizing = false ∧
    (p._presentingSlides = false → p.currentIsPending = false) ∧
    (∀ (k : Nat) (a : Slide), p._slides[k]? = some a → k + 1 ≤ p.onScreenBound →
      a.slideStatus = .FINISHED) ∧
    (∀ (k : Nat) (a : Slide), p._slides[k]? = some a → p._currentSlide < k →
      a.slideStatus = .NOT_STARTED) ∧
    (∀ a : Slide, p._slides[p._currentSlide]? = some a →
      a.isPending = true ∨ a.slideStatus = .IN_PROGRESS) ∧
    (p.currentIsPending = true → p._currentSlide ≠ 0 →
      ∀ a : Slide, p._slides[p._currentSlide - 1]? = some a → a.slideStatus = .IN_PROGRESS))

end CX_SlidePresenter

namespace CX_SlidePresenter

/-- The actual start frames of the two slides are in the relation `Rel`. -/
def startsIn (Rel : Nat → Nat → Prop) (a b : Slide) : Prop :=
  Rel a.actual.startFrame b.actual.startFrame

/-- The slides that have come on screen have actual start frames that are in the relation
`Rel` from each slide to the next, none above `last`. -/
def FramesBelow (Rel : Nat → Nat → Prop) (last : Nat) (p : CX_SlidePresenter) : Prop :=
  Chained (startsIn Rel) p.onScreenBound p._slides ∧
  ∀ (k : Nat) (a : Slide), p._slides[k]? = some a → p.hasComeOnScreen k →
    a.actual.startFrame ≤ last

/-- What holds at every point of a multi-core presentation after `startSlidePresentation`:
the display was last checked at a frame number that is at most its frame number now; and
once the first swap has been seen, as long as the frame number is below `2^32`, the slides
that have come on screen have actual start frames in the relation `Rel` from each to the
next, none above the bound `bound` taken of the display. -/
def FramesIncrease (Rel : Nat → Nat → Prop) (bound : CX_Display → Nat)
    (p : CX_SlidePresenter) : Prop :=
  ∃ d, p._config.display = some d ∧ d._frameNumberOnLastSwapCheck ≤ d.getFrameNumber ∧
    ((p._synchronizing = true ∧ p._presentingSlides = false) ∨
     (p._synchronizing = false ∧
       (p._presentingSlides = false → p.currentIsPending = false) ∧
       (d.getFrameNumber < UINT32_SIZE → FramesBelow Rel (bound d) p)))

/-- The frame number that an update reads after a swap check that found a swap is in the
relation `Rel` to every number up to the bound of the display before the update, and lies
between that bound and the bound of the display after the update. -/
def StampsKeep (Rel : Nat → Nat → Prop) (bound : CX_Display → Nat) (env : UpdateEnv) : Prop :=
  ∀ d : CX_Display, d._frameNumberOnLastSwapCheck < d.getFrameNumber →
    (∀ x, x ≤ bound d → Rel x (displayAtFrameRead env d).getFrameNumber) ∧
    bound d ≤ (displayAtFrameRead env d).getFrameNumber ∧
    (displayAtFrameRead env d).getFrameNumber ≤ bound (displayAtTimeRead env d)

/-- The bound taken of the display does not decrease when the display is checked for a
swap and when the background thread swaps. -/
def BoundGrows (bound : CX_Display → Nat) : Prop :=
  (∀ d : CX_Display, d._frameNumberOnLastSwapCheck ≤ d.getFrameNumber →
    bound d ≤ bound d.hasSwappedSinceLastCheck.2) ∧
  (∀ (d : CX_Display) (t : Int), d._frameNumberOnLastSwapCheck ≤ d.getFrameNumber →
    bound d ≤ bound (d.threadSwap t))

/-- The events of a run, if updates, read frame numbers that keep the start frames in the
relation `Rel` under the bound `bound`. -/
def stampsKeep (Rel : Nat → Nat → Prop) (bound : CX_Display → Nat) : Step → Prop
  | .update env => StampsKeep Rel bound env
  | _ => True

end CX_SlidePresenter

/-- Two slides of one frame under `DO_NOTHING`, multi-core, without fence sync and
callback. -/
def exampleRaceQueued : CX_SlidePresenter :=
  { examplePresenterWith .DO_NOTHING with
    _slides :=
      [ { slideName := "a", drawingFunction := some 1
          intended := { duration := 16670000, frameCount := 1 } },
        { slideName := "b", drawingFunction := some 1
          intended := { duration := 16670000, frameCount := 1 } } ]
    _slideInfo := [{}, {}] }

/-- A start and two swaps, each followed by an update; during the second update the swap to
frame 3 lands after the swap check and before the read of the frame number; a third update
follows without a new swap. -/
def exampleRaceSteps : List CX_SlidePresenter.Step :=
  [ .call .startSlidePresentation,
    .threadSwap 1016670000, .update {},
    .threadSwap 1033340000, .update { swapsBeforeFrameRead := [1050010000] },
    .update {} ]

/-- A display whose swap thread has counted `2^32 - 3` swaps. -/
def exampleLateDisplay : CX_Display :=
  { _framePeriod := 16670000
    _swapThread := { threadRunning := true, _frameCount := 4294967293, lastSwapTime := 0 }
    _manualBufferSwaps := 0
    _frameNumberOnLastSwapCheck := 4294967293 }

/-- Two slides of one frame on that display, multi-core, without fence sync and callback. -/
def exampleWrapQueued : CX_SlidePresenter :=
  { _config := { display := some exampleLateDisplay, useFenceSync := false }
    _slides :=
      [ { slideName := "a", drawingFunction := some 1
          intended := { duration := 16670000, frameCount := 1 } },
        { slideName := "b", drawingFunction := some 1
          intended := { duration := 16670000, frameCount := 1 } } ]
    _slideInfo := [{}, {}] }

/-- The presenter `exampleWrapQueued` after a successful `startSlidePresentation`. -/
def exampleWrapStarted : CX_SlidePresenter :=
  { exampleWrapQueued with _synchronizing := true }

/-- Three swaps of the background thread, to the frames `2^32 - 2`, `2^32 - 1` and `2^32`,
each followed by an update. -/
def exampleWrapSteps : List CX_SlidePresenter.Step :=
  [ .threadSwap 1016670000, .update {},
    .threadSwap 1033340000, .update {},
    .threadSwap 1050010000, .update {} ]

/-- The presenter `exampleBlinkStarted` after three swaps without jitter: the slide of 0
frames was on screen for one frame. -/
def exampleBlinkFinished : CX_SlidePresenter :=
  { _config :=
      { display := some
          { _framePeriod := 16670000
            _swapThread := { threadRunning := true, _frameCount := 3, lastSwapTime := 1050010000 }
            _manualBufferSwaps := 0
            _frameNumberOnLastSwapCheck := 3 }
        errorMode := .DO_NOTHING
        useFenceSync := false }
    _currentSlide := 1
    _slides :=
      [ { slideName := "blink", drawingFunction := some 1, slideStatus := .FINISHED
          intended := { startFrame := 2, frameCount := 0, startTime := 1033340000,
                        duration := 1000000 }
          actual := { startFrame := 2, frameCount := 1, startTime := 1033340000,
                      duration := 16670000 } },
        { slideName := "last", drawingFunction := some 1, slideStatus := .IN_PROGRESS
          intended := { startFrame := 2, frameCount := 1, startTime := 1034340000,
                        duration := 16670000 }
          actual := { startFrame := 3, frameCount := UINT32_MAX, startTime := 1050010000,
                      duration := CX_Millis_max } } ]
    _slideInfo := [{}, {}] }

namespace CX_SlidePresenter

/-- The call returns and `Post` holds of its result, or it fails with a fault other than a
failed range check of `vector::at`. -/
def noRangeFault {α : Type} (x : Except Fault α) (Post : α → Prop) : Prop :=
  match x with
  | .ok a => Post a
  | .error e => e ≠ .outOfRange

/-- The vector `_slideInfo` has an entry for every slide of the queue, and a fence is awaited
only at an index of the queue. -/
def InfoCovers (p : CX_SlidePresenter) : Prop :=
  p._slides.length ≤ p._slideInfo.length ∧
  ∀ i, (p._slideInfo.getD i {}).awaitingFenceSync = true → i < p._slides.length

/-- What the public operations keep: while presenting the current index is an index of the
queue, while synchronizing the queue is not empty, and `_slideInfo` covers the queue. -/
def Safe (p : CX_SlidePresenter) : Prop :=
  (p._presentingSlides = true → p._currentSlide < p._slides.length) ∧
  (p._synchronizing = true → 0 < p._slides.length) ∧
  InfoCovers p

/-- What the parts of `update` keep from the state `p` to the state `q`: the configuration
and the current index; the queue does not shrink; no session flag is raised; and
`_slideInfo` still covers the queue. -/
def Extends (p q : CX_SlidePresenter) : Prop :=
  q._config = p._config ∧ q._currentSlide = p._currentSlide ∧
  p._slides.length ≤ q._slides.length ∧
  (q._synchronizing = true → p._synchronizing = true) ∧
  (q._presentingSlides = true → p._presentingSlides = true) ∧
  (InfoCovers p → InfoCovers q)

/-- The event, if an `update`, reads the frame number before another swap lands: no swap of
the background thread completes between its `hasSwappedSinceLastCheck()` (cpp:596) and its
`getFrameNumber()` (cpp:598).  Nothing is asked of the other events. -/
def readsFrameAtCheck : Step → Prop
  | .update env => env.swapsBeforeFrameRead = []
  | _ => True

/-- The final-slide callback of a configuration handed to `setup` only inserts slides or
stops the presentation; nothing is asked of the other events. -/
def keepsCallbackClass : Step → Prop
  | .setup config _ =>
    ∀ cb, config.finalSlideCallback = some cb → ∀ i, ∀ c ∈ cb i, appendsOrStops c = true
  | _ => True

end CX_SlidePresenter

namespace CX_SlidePresenter

/-- What a whole `update` keeps from the state `p` to the state `q` when it raises no
session flag: as `Extends`, except that the current index may move on, to an index of the
queue if it was one. -/
def Advances (p q : CX_SlidePresenter) : Prop :=
  q._config = p._config ∧ p._slides.length ≤ q._slides.length ∧
  (q._synchronizing = true → p._synchronizing = true) ∧
  (q._presentingSlides = true → p._presentingSlides = true) ∧
  (InfoCovers p → InfoCovers q) ∧
  (p._currentSlide < p._slides.length → q._currentSlide < q._slides.length)

end CX_SlidePresenter

/-- A whole session from a fresh presenter: `setup` with the example display, the three
insertions of `exampleCalls`, the start and the events up to the fifth swap. -/
def exampleSessionSteps : List CX_SlidePresenter.Step :=
  .setup { display := some exampleDisplay, useFenceSync := false } false
    :: (exampleCalls.map .call ++ exampleSteps.take 10)

/-- The presenter in the run of five slides after the update that follows the swap to
frame 3: the second slide is on screen, the third is rendered, and every swap has been
seen. -/
def exampleDriftRendered : CX_SlidePresenter :=
  { exampleDriftStarted with
    _config :=
      { display := some
          { _framePeriod := 16670000
            _swapThread := { threadRunning := true, _frameCount := 3, lastSwapTime := 1050010000 }
            _manualBufferSwaps := 0
            _frameNumberOnLastSwapCheck := 3 }
        errorMode := .DO_NOTHING
        useFenceSync := false }
    _presentingSlides := true
    _synchronizing := false
    _currentSlide := 2
    _slides :=
      [ { slideName := "a", drawingFunction := some 1, slideStatus := .FINISHED
          intended := { startFrame := 2, frameCount := 1, startTime := 1033340000,
                        duration := 25000000 }
          actual := { startFrame := 2, frameCount := 1, startTime := 1033340000,
                      duration := 16670000 } },
        { slideName := "b", drawingFunction := some 1, slideStatus := .IN_PROGRESS
          intended := { startFrame := 3, frameCount := 1, startTime := 1058340000,
                        duration := 25000000 }
          actual := { startFrame := 3, frameCount := 0, startTime := 1050010000,
                      duration := 0 } },
        { slideName := "c", drawingFunction := some 1, slideStatus := .SWAP_PENDING
          intended := { startFrame := 4, frameCount := 1, startTime := 1083340000,
                        duration := 25000000 } },
        { slideName := "d", drawingFunction := some 1
          intended := { duration := 33340000, frameCount := 2 } },
        { slideName := "e", drawingFunction := some 1
          intended := { duration := 16670000, frameCount := 1 } } ] }

/-- The presenter `exampleDriftRendered` after the swap at 1066.68 ms, to frame 4, and the
update that follows: the third slide is on screen and the fourth is rendered. -/
def exampleDriftOnset : CX_SlidePresenter :=
  { exampleDriftRendered with
    _config :=
      { display := some
          { _framePeriod := 16670000
            _swapThread := { threadRunning := true, _frameCount := 4, lastSwapTime := 1066680000 }
            _manualBufferSwaps := 0
            _frameNumberOnLastSwapCheck := 4 }
        errorMode := .DO_NOTHING
        useFenceSync := false }
    _currentSlide := 3
    _slides :=
      [ { slideName := "a", drawingFunction := some 1, slideStatus := .FINISHED
          intended := { startFrame := 2, frameCount := 1, startTime := 1033340000,
                        duration := 25000000 }
          actual := { startFrame := 2, frameCount := 1, startTime := 1033340000,
                      duration := 16670000 } },
        { slideName := "b", drawingFunction := some 1, slideStatus := .FINISHED
          intended := { startFrame := 3, frameCount := 1, startTime := 1058340000,
                        duration := 25000000 }
          actual := { startFrame := 3, frameCount := 1, startTime := 1050010000,
                      duration := 16670000 } },
        { slideName := "c", drawingFunction := some 1, slideStatus := .IN_PROGRESS
          intended := { startFrame := 4, frameCount := 1, startTime := 1083340000,
                        duration := 25000000 }
          actual := { startFrame := 4, frameCount := 0, startTime := 1066680000,
                      duration := 0 } },
        { slideName := "d", drawingFunction := some 1, slideStatus := .SWAP_PENDING
          intended := { startFrame := 5, frameCount := 2, startTime := 1108340000,
                        duration := 33340000 } },
        { slideName := "e", drawingFunction := some 1
          intended := { duration := 16670000, frameCount := 1 } } ] }

end CX

/-! ## Swap detection and manual swaps (CX_Display) -/

namespace CX

namespace CX_Display

theorem applySwap_threadRunning (d : CX_Display) (s : Swap) :
    (d.applySwap s)._swapThread.threadRunning = d._swapThread.threadRunning := by
  cases s <;>
    simp only [applySwap, threadSwap, BLOCKING_swapFrontAndBackBuffers, isAutomaticallySwapping] <;>
    split <;> rfl

theorem applySwap_lastCheck (d : CX_Display) (s : Swap) :
    (d.applySwap s)._frameNumberOnLastSwapCheck = d._frameNumberOnLastSwapCheck := by
  cases s <;>
    simp only [applySwap, threadSwap, BLOCKING_swapFrontAndBackBuffers, isAutomaticallySwapping] <;>
    split <;> rfl

theorem applySwap_getFrameNumber (d : CX_Display) (s : Swap) :
    (d.applySwap s).getFrameNumber = d.getFrameNumber + (if s.takesPlace d then 1 else 0) := by
  cases s <;>
    cases h : d._swapThread.threadRunning <;>
    simp [applySwap, threadSwap, BLOCKING_swapFrontAndBackBuffers, isAutomaticallySwapping,
      getFrameNumber, Swap.takesPlace, h] <;> omega

theorem foldl_applySwap (swaps : List Swap) (d : CX_Display) :
    (swaps.foldl applySwap d)._frameNumberOnLastSwapCheck = d._frameNumberOnLastSwapCheck ∧
    (swaps.foldl applySwap d).getFrameNumber
      = d.getFrameNumber + (swaps.filter (fun s => s.takesPlace d)).length := by
  induction swaps generalizing d with
  | nil => simp
  | cons s rest ih =>
    obtain ⟨h1, h2⟩ := ih (d.applySwap s)
    have hrun : ∀ s' : Swap, s'.takesPlace (d.applySwap s) = s'.takesPlace d := by
      intro s'
      cases s' <;> simp [Swap.takesPlace, isAutomaticallySwapping, applySwap_threadRunning]
    simp only [List.foldl_cons, h1, h2, hrun, applySwap_lastCheck, applySwap_getFrameNumber]
    refine ⟨trivial, ?_⟩
    by_cases hs : s.takesPlace d = true
    · simp [List.filter_cons, hs]; omega
    · simp [List.filter_cons, hs]

theorem hasSwapped_fst (d : CX_Display) :
    d.hasSwappedSinceLastCheck.1 = decide (d.getFrameNumber ≠ d._frameNumberOnLastSwapCheck) := by
  unfold hasSwappedSinceLastCheck
  by_cases h : d.getFrameNumber = d._frameNumberOnLastSwapCheck <;> simp [h]

theorem hasSwapped_snd (d : CX_Display) :
    d.hasSwappedSinceLastCheck.2 = { d with _frameNumberOnLastSwapCheck := d.getFrameNumber } := by
  unfold hasSwappedSinceLastCheck
  by_cases h : d.getFrameNumber = d._frameNumberOnLastSwapCheck
  · simp only [ne_eq, h, not_true_eq_false, ↓reduceIte]
  · simp [h]

/-- C8: `hasSwappedSinceLastCheck` is an edge detector on the frame number.  It returns true
exactly when the frame number differs from the recorded one and records the current one;
a call that directly follows another call returns false; and after any sequence of swap
events between two calls the next call returns true exactly when at least one swap took
place, and the call after that returns false. -/
theorem hasSwappedSinceLastCheck_once_per_swap (d : CX_Display) (swaps : List Swap) :
    (d.hasSwappedSinceLastCheck.1 = true ↔ d.getFrameNumber ≠ d._frameNumberOnLastSwapCheck) ∧
    d.hasSwappedSinceLastCheck.2._frameNumberOnLastSwapCheck = d.getFrameNumber ∧
    d.hasSwappedSinceLastCheck.2.getFrameNumber = d.getFrameNumber ∧
    d.hasSwappedSinceLastCheck.2.hasSwappedSinceLastCheck.1 = false ∧
    (swaps.foldl applySwap d.hasSwappedSinceLastCheck.2).hasSwappedSinceLastCheck.1
      = swaps.any (fun s => s.takesPlace d) ∧
    (swaps.foldl applySwap
      d.hasSwappedSinceLastCheck.2).hasSwappedSinceLastCheck.2.hasSwappedSinceLastCheck.1
      = false := by
  have key := foldl_applySwap swaps d.hasSwappedSinceLastCheck.2
  have hrun : ∀ s : Swap, s.takesPlace d.hasSwappedSinceLastCheck.2 = s.takesPlace d := by
    intro s
    cases s <;> simp [Swap.takesPlace, isAutomaticallySwapping, hasSwapped_snd]
  simp only [hrun] at key
  obtain ⟨k1, k2⟩ := key
  refine ⟨by simp [hasSwapped_fst], by simp [hasSwapped_snd],
    by simp [hasSwapped_snd, getFrameNumber], ?_, ?_, ?_⟩
  · simp [hasSwapped_fst, hasSwapped_snd, getFrameNumber]
  · rw [hasSwapped_fst, k1, k2]
    have h0 : d.hasSwappedSinceLastCheck.2._frameNumberOnLastSwapCheck
        = d.hasSwappedSinceLastCheck.2.getFrameNumber := by
      simp [hasSwapped_snd, getFrameNumber]
    rw [h0]
    by_cases hany : swaps.any (fun s => s.takesPlace d) = true
    · have hpos : 0 < (swaps.filter (fun s => s.takesPlace d)).length := by
        rw [List.length_pos, ne_eq, List.filter_eq_nil_iff]
        simpa using hany
      rw [hany]
      simp only [ne_eq, decide_eq_true_eq]
      omega
    · have hz : (swaps.filter (fun s => s.takesPlace d)).length = 0 := by
        rw [List.length_eq_zero, List.filter_eq_nil_iff]
        simpa using hany
      simp only [Bool.not_eq_true] at hany
      rw [hany, hz]
      simp
  · simp [hasSwapped_fst, hasSwapped_snd, getFrameNumber]

/-- C9: `BLOCKING_swapFrontAndBackBuffers` leaves the display as it is while the display
swaps automatically; otherwise it adds one to the manual-swap counter and leaves the
background counter alone, so that `getFrameNumber`, the sum of the two counters, grows by
exactly one. -/
theorem BLOCKING_swapFrontAndBackBuffers_counts (d : CX_Display) :
    d.getFrameNumber = d._swapThread._frameCount + d._manualBufferSwaps ∧
    (d.isAutomaticallySwapping = true → d.BLOCKING_swapFrontAndBackBuffers = d) ∧
    (d.isAutomaticallySwapping = false →
      d.BLOCKING_swapFrontAndBackBuffers._manualBufferSwaps = d._manualBufferSwaps + 1 ∧
      d.BLOCKING_swapFrontAndBackBuffers._swapThread = d._swapThread ∧
      d.BLOCKING_swapFrontAndBackBuffers.getFrameNumber = d.getFrameNumber + 1) := by
  refine ⟨rfl, ?_, ?_⟩
  · intro h
    simp [BLOCKING_swapFrontAndBackBuffers, h]
  · intro h
    simp [BLOCKING_swapFrontAndBackBuffers, h, getFrameNumber]
    omega

/-- Witness for C9: a display that does not swap automatically, at frame 7 + 3. -/
theorem BLOCKING_swapFrontAndBackBuffers_counts_witness :
    (BLOCKING_swapFrontAndBackBuffers
      { _framePeriod := 16670000
        _swapThread := { threadRunning := false, _frameCount := 7, lastSwapTime := 0 }
        _manualBufferSwaps := 3
        _frameNumberOnLastSwapCheck := 0 }).getFrameNumber = 10 + 1 :=
  ((BLOCKING_swapFrontAndBackBuffers_counts
      { _framePeriod := 16670000
        _swapThread := { threadRunning := false, _frameCount := 7, lastSwapTime := 0 }
        _manualBufferSwaps := 3
        _frameNumberOnLastSwapCheck := 0 }).2.2 rfl).2.2

end CX_Display

end CX

/-! ## Starting, stopping and the post-hoc queries of the presenter -/

namespace CX

namespace CX_SlidePresenter

theorem startSlidePresentation_nonempty (p : CX_SlidePresenter) (d : CX_Display)
    (hd : p._config.display = some d) (hs : p._slides ≠ []) :
    ∃ d' : CX_Display, p.startSlidePresentation = .ok (true,
      { p with
        _config := { p._config with display := some d' }
        _slides := p._slides.map (fun (s : Slide) => { s with slideStatus := .NOT_STARTED })
        _synchronizing := true
        _presentingSlides := false
        _lastFramebufferActive := false }) := by
  have hlen : ¬ p._slides.length ≤ 0 := by
    have := List.length_pos.mpr hs
    omega
  have hlen0 : ¬ p._slides.length = 0 := by omega
  obtain ⟨cfg, hog, pres, syn, cur, slides, info, act⟩ := p
  simp only at hd hs hlen hlen0
  unfold startSlidePresentation
  simp only [hd, hlen, hlen0, ↓reduceIte]
  cases act
  · simp only [Bool.false_eq_true, ↓reduceIte, pure, Except.pure, bind, Except.bind, setDisplay]
    exact ⟨_, rfl⟩
  · obtain ⟨a, l, hl⟩ := List.exists_cons_of_ne_nil hs
    subst hl
    simp only [↓reduceIte, endDrawingCurrentSlide, pure, Except.pure, bind, Except.bind,
      setDisplay]
    exact ⟨_, rfl⟩

/-- C4: `startSlidePresentation` returns false when the display pointer is null or the queue
is empty, and then leaves the whole presenter, its display included, as it was; in every
other state it returns true. -/
theorem startSlidePresentation_fails_without_display_or_slides (p : CX_SlidePresenter) :
    (p._config.display = none ∨ p._slides = [] → p.startSlidePresentation = .ok (false, p)) ∧
    (p._config.display ≠ none → p._slides ≠ [] →
      ∃ q, p.startSlidePresentation = .ok (true, q)) := by
  constructor
  · rintro (h | h)
    · simp [startSlidePresentation, h]
    · unfold startSlidePresentation
      cases p._config.display <;> simp [h]
  · intro hd hs
    obtain ⟨d, hd'⟩ := Option.ne_none_iff_exists'.mp hd
    obtain ⟨d', h⟩ := startSlidePresentation_nonempty p d hd' hs
    exact ⟨_, h⟩

/-- C5: after a call of `startSlidePresentation` that returned true, whatever the state
before, every slide is `NOT_STARTED`, the presenter is synchronizing and not presenting, and
`isPresentingSlides` is true. -/
theorem startSlidePresentation_resets (p q : CX_SlidePresenter)
    (h : p.startSlidePresentation = .ok (true, q)) :
    (∀ s ∈ q._slides, s.slideStatus = .NOT_STARTED) ∧
    q._slides.length = p._slides.length ∧
    q._synchronizing = true ∧ q._presentingSlides = false ∧ q.isPresentingSlides = true := by
  cases hd : p._config.display with
  | none => simp [startSlidePresentation, hd] at h
  | some d =>
    by_cases hs : p._slides = []
    · simp [startSlidePresentation, hd, hs] at h
    · obtain ⟨d', h'⟩ := startSlidePresentation_nonempty p d hd hs
      rw [h'] at h
      simp only [Except.ok.injEq, Prod.mk.injEq, true_and] at h
      subst h
      refine ⟨?_, by simp, rfl, rfl, by simp [isPresentingSlides]⟩
      intro s hs'
      simp only [List.mem_map] at hs'
      obtain ⟨a, _, rfl⟩ := hs'
      rfl

/-- C10: `stopSlidePresentation` clears both session flags and leaves the current index and
the whole slide queue (length, status and timing of every slide) as they were. -/
theorem stopSlidePresentation_keeps_index_and_slides (p : CX_SlidePresenter) :
    p.stopSlidePresentation._synchronizing = false ∧
    p.stopSlidePresentation._presentingSlides = false ∧
    p.stopSlidePresentation.isPresentingSlides = false ∧
    p.stopSlidePresentation._currentSlide = p._currentSlide ∧
    p.stopSlidePresentation._slides = p._slides :=
  ⟨rfl, rfl, rfl, rfl, rfl⟩

end CX_SlidePresenter

end CX

/-! ## Lists filled and counted by index loops -/

namespace CX

theorem foldl_set_range {α : Type} (f : Nat → α) (n : Nat) (init : List α)
    (hn : init.length = n) :
    ∀ k, k ≤ n → (List.range k).foldl (fun acc i => acc.set i (f i)) init
      = (List.range k).map f ++ init.drop k := by
  intro k
  induction k with
  | zero => simp
  | succ k ih =>
    intro hk
    rw [List.range_succ, List.foldl_append, ih (by omega)]
    simp only [List.foldl_cons, List.foldl_nil, List.map_append, List.map_cons, List.map_nil]
    have hlen : ((List.range k).map f).length = k := by simp
    rw [List.set_append_right _ _ (by simp), hlen, Nat.sub_self]
    have hdrop : init.drop k = init.get ⟨k, by omega⟩ :: init.drop (k + 1) := by
      simp
    rw [hdrop, List.set_cons_zero, List.append_assoc]
    rfl

theorem foldl_set_range_eq_map {α β : Type} (l : List α) (g : α → β) (a0 : α) (b0 : β) :
    (List.range l.length).foldl (fun acc i => acc.set i (g (l.getD i a0)))
      (List.replicate l.length b0) = l.map g := by
  rw [foldl_set_range (fun i => g (l.getD i a0)) l.length _ (by simp) l.length (Nat.le_refl _)]
  simp only [List.drop_replicate, Nat.sub_self, List.replicate_zero, List.append_nil]
  apply List.ext_getElem
  · simp
  · intro i h1 h2
    simp only [List.length_map, List.length_range] at h1
    simp [List.getD_eq_getElem?_getD, List.getElem?_eq_getElem h1]

theorem filter_range_succ_shift (q : Nat → Bool) (n : Nat) :
    ((List.range (n + 1)).filter q).length
      = (if q 0 then 1 else 0) + ((List.range n).filter (fun j => q (j + 1))).length := by
  rw [List.range_succ_eq_map, List.filter_cons, List.filter_map]
  by_cases h : q 0 = true
  · simp [h, Function.comp_def]; omega
  · simp [h, Function.comp_def]

theorem filter_range_not_last (q : Nat → Bool) (n : Nat) :
    ((List.range n).filter (fun j => q j && decide (j ≠ n - 1))).length
      = ((List.range (n - 1)).filter q).length := by
  cases n with
  | zero => simp
  | succ m =>
    simp only [Nat.add_sub_cancel, List.range_succ, List.filter_append]
    have h1 : (List.range m).filter (fun j => q j && decide (j ≠ m)) = (List.range m).filter q := by
      apply List.filter_congr
      intro j hj
      have : j ≠ m := by
        have := List.mem_range.mp hj
        omega
      simp [this]
    rw [h1]
    simp

namespace CX_SlidePresenter

theorem checkLoop_counts (size : Nat) (l : List Slide) :
    ∀ (errors : PresentationErrorInfo) (i : Nat),
      checkLoop size errors i l =
        { presentationErrorsSuccessfullyChecked := errors.presentationErrorsSuccessfullyChecked
          incorrectFrameCounts := errors.incorrectFrameCounts +
            ((List.range l.length).filter (fun j =>
              decide ((l.getD j {}).intended.frameCount ≠ (l.getD j {}).actual.frameCount)
                && decide (i + j ≠ size - 1))).length
          lateCopiesToBackBuffer := errors.lateCopiesToBackBuffer +
            ((List.range l.length).filter (fun j =>
              decide ((l.getD j {}).copyToBackBufferCompleteTime
                > (l.getD j {}).actual.startTime))).length } := by
  induction l with
  | nil => intro errors i; simp [checkLoop]
  | cons a rest ih =>
    intro errors i
    rw [checkLoop, ih]
    have hshift : ∀ j, i + 1 + j = i + (j + 1) := by intro j; omega
    simp only [List.length_cons, filter_range_succ_shift, List.getD_cons_succ, List.getD_cons_zero,
      hshift, Nat.add_zero]
    unfold checkSlide
    by_cases h1 : a.intended.frameCount = a.actual.frameCount <;>
      by_cases h2 : i = size - 1 <;>
      by_cases h3 : a.copyToBackBufferCompleteTime > a.actual.startTime <;>
      simp [h1, h2, h3] <;> omega

/-- C6: `checkForPresentationErrors` computes the reference error report: while presenting or
synchronizing nothing is checked and both counts are zero; otherwise the check succeeds, the
frame-count mismatches are counted over all slides except the last and the late copies to
the back buffer over all slides.  For an empty queue both counts are zero. -/
theorem checkForPresentationErrors_eq_reference (p : CX_SlidePresenter) :
    p.checkForPresentationErrors = referenceErrorReport p ∧
    (p._slides = [] →
      p.checkForPresentationErrors.incorrectFrameCounts = 0 ∧
      p.checkForPresentationErrors.lateCopiesToBackBuffer = 0) := by
  have key : p.checkForPresentationErrors = referenceErrorReport p := by
    unfold checkForPresentationErrors referenceErrorReport isPresentingSlides
    by_cases h : (p._presentingSlides || p._synchronizing) = true
    · simp only [h, ↓reduceIte]
    · simp only [h, Bool.false_eq_true, ↓reduceIte, checkLoop_counts, Nat.zero_add]
      have := filter_range_not_last (fun j =>
        decide ((p._slides.getD j {}).intended.frameCount
          ≠ (p._slides.getD j {}).actual.frameCount))
        p._slides.length
      simp only at this
      rw [this]
  refine ⟨key, ?_⟩
  intro hempty
  rw [key]
  unfold referenceErrorReport
  split <;> simp [hempty]

/-- Witness for C6: the finished example run is checked successfully and has no error; while
the example presenter is synchronizing after a restart nothing is checked. -/
theorem checkForPresentationErrors_eq_reference_witness :
    exampleFinished.checkForPresentationErrors
      = { presentationErrorsSuccessfullyChecked := true
          incorrectFrameCounts := 0, lateCopiesToBackBuffer := 0 } ∧
    exampleRestarted.checkForPresentationErrors
      = { presentationErrorsSuccessfullyChecked := false
          incorrectFrameCounts := 0, lateCopiesToBackBuffer := 0 } :=
  ⟨(checkForPresentationErrors_eq_reference exampleFinished).1.trans (by decide),
   (checkForPresentationErrors_eq_reference exampleRestarted).1.trans (by decide)⟩

/-- C7: `getActualPresentationDurations` and `getActualFrameCounts` return the empty vector
while presenting or synchronizing; otherwise they return, in queue order, the actual
duration and the actual frame count of every slide. -/
theorem getActual_durations_and_frameCounts (p : CX_SlidePresenter) :
    p.getActualPresentationDurations
      = (if p._presentingSlides || p._synchronizing then []
         else p._slides.map (fun s => s.actual.duration)) ∧
    p.getActualFrameCounts
      = (if p._presentingSlides || p._synchronizing then []
         else p._slides.map (fun s => s.actual.frameCount)) := by
  unfold getActualPresentationDurations getActualFrameCounts isPresentingSlides
  constructor
  · split
    · rfl
    · exact foldl_set_range_eq_map p._slides (fun s => s.actual.duration) {} 0
  · split
    · rfl
    · exact foldl_set_range_eq_map p._slides (fun s => s.actual.frameCount) {} 0

end CX_SlidePresenter

end CX

/-! ## The queue of slide identities is untouched by presentation -/

namespace CX

theorem vectorModifyAt_map {α β : Type} (g : α → β) {l l' : List α} {i : Nat} {f : α → α}
    (h : vectorModifyAt l i f = .ok l') (hf : ∀ a, g (f a) = g a) :
    l'.map g = l.map g := by
  unfold vectorModifyAt at h
  cases hi : l[i]? with
  | none => simp [hi] at h
  | some a =>
    simp only [hi, Except.ok.injEq] at h
    subst h
    rw [List.map_set, hf]
    apply List.ext_getElem?
    intro j
    rw [List.getElem?_set]
    by_cases hij : i = j
    · subst hij
      simp only [↓reduceIte, List.length_map, List.getElem?_map, hi, Option.map_some']
      have := (List.getElem?_eq_some_iff.mp hi).1
      simp [this]
    · simp [hij]

theorem vectorModifyAt_length {α : Type} {l l' : List α} {i : Nat} {f : α → α}
    (h : vectorModifyAt l i f = .ok l') : l'.length = l.length := by
  unfold vectorModifyAt at h
  cases hi : l[i]? with
  | none => simp [hi] at h
  | some a =>
    simp only [hi, Except.ok.injEq] at h
    subst h
    simp

theorem vectorMapFrom_map {α β : Type} (g : α → β) (f : α → α) (hf : ∀ a, g (f a) = g a) :
    ∀ (k : Nat) (l : List α), (vectorMapFrom f k l).map g = l.map g := by
  intro k l
  induction l generalizing k with
  | nil => cases k <;> rfl
  | cons a v ih =>
    cases k with
    | zero => simp [vectorMapFrom, hf, ih]
    | succ k => simp [vectorMapFrom, ih]

namespace CX_SlidePresenter

theorem renderCurrentSlide_frame {p q : CX_SlidePresenter} (h : p._renderCurrentSlide = .ok q) :
    q._slides.map Slide.identity = p._slides.map Slide.identity ∧ q._config = p._config := by
  unfold _renderCurrentSlide at h
  simp only [bind, Except.bind, pure, Except.pure, throw, throwThe, MonadExceptOf.throw] at h
  split at h
  · simp at h
  · split at h
    · simp at h
    · split at h
      · split at h
        · simp at h
        · rename_i info hinfo
          split at h
          · simp at h
          · rename_i slides hslides
            simp only [Except.ok.injEq] at h
            subst h
            exact ⟨vectorModifyAt_map Slide.identity hslides (fun _ => rfl), rfl⟩
      · split at h
        · simp at h
        · rename_i slides hslides
          simp only [Except.ok.injEq] at h
          subst h
          exact ⟨vectorModifyAt_map Slide.identity hslides (fun _ => rfl), rfl⟩

theorem waitSyncCheckLoop_frame (env : UpdateEnv) (l : List Nat) :
    ∀ {p q : CX_SlidePresenter}, _waitSyncCheckLoop env l p = .ok q →
      q._slides.map Slide.identity = p._slides.map Slide.identity ∧ q._config = p._config := by
  induction l with
  | nil =>
    intro p q h
    simp only [_waitSyncCheckLoop, Except.ok.injEq] at h
    subst h
    exact ⟨rfl, rfl⟩
  | cons i rest ih =>
    intro p q h
    unfold _waitSyncCheckLoop at h
    split at h
    · split at h
      · simp at h
      · rename_i slides hslides
        obtain ⟨h1, h2⟩ := ih h
        refine ⟨h1.trans ?_, h2⟩
        refine vectorModifyAt_map Slide.identity hslides ?_
        intro s
        rfl
    · exact ih h

theorem waitSyncCheck_frame {env : UpdateEnv} {p q : CX_SlidePresenter}
    (h : p._waitSyncCheck env = .ok q) :
    q._slides.map Slide.identity = p._slides.map Slide.identity ∧ q._config = p._config := by
  unfold _waitSyncCheck at h
  split at h
  · simp only [Except.ok.injEq] at h
    subst h
    exact ⟨rfl, rfl⟩
  · exact waitSyncCheckLoop_frame env _ h

theorem finishPreviousSlide_frame {p q : CX_SlidePresenter} (h : p._finishPreviousSlide = .ok q) :
    q._slides.map Slide.identity = p._slides.map Slide.identity ∧ q._config = p._config := by
  unfold _finishPreviousSlide at h
  simp only [bind, Except.bind, pure, Except.pure, throw, throwThe, MonadExceptOf.throw] at h
  split at h
  · simp at h
  · split at h
    · simp at h
    · split at h
      · simp at h
      · rename_i slides hslides
        simp only [Except.ok.injEq] at h
        subst h
        exact ⟨vectorModifyAt_map Slide.identity hslides (fun _ => rfl), rfl⟩

theorem prepareNextSlide_frame {p q : CX_SlidePresenter} (h : p._prepareNextSlide = .ok q) :
    q._slides.map Slide.identity = p._slides.map Slide.identity ∧ q._config = p._config := by
  unfold _prepareNextSlide at h
  simp only [bind, Except.bind, pure, Except.pure] at h
  split at h
  · simp at h
  · split at h
    · simp at h
    · split at h
      · split at h
        · simp at h
        · rename_i slides hslides
          simp only [Except.ok.injEq] at h
          subst h
          exact ⟨vectorModifyAt_map Slide.identity hslides (fun _ => rfl), rfl⟩
      · split at h
        · split at h
          · simp at h
          · rename_i slides hslides
            simp only [Except.ok.injEq] at h
            subst h
            exact ⟨vectorModifyAt_map Slide.identity hslides (fun _ => rfl), rfl⟩
        · split at h
          · simp at h
          · rename_i slides hslides
            simp only [Except.ok.injEq] at h
            subst h
            exact ⟨vectorModifyAt_map Slide.identity hslides (fun _ => rfl), rfl⟩
      · simp only [Except.ok.injEq] at h
        subst h
        exact ⟨rfl, rfl⟩

/-! ## The insertion operations -/

theorem roundToNearest_nearest (num den : Int) (hden : 0 < den) :
    2 * roundToNearest num den * den - den ≤ 2 * num ∧
    2 * num < 2 * roundToNearest num den * den + den := by
  unfold roundToNearest
  have h1 := Int.ediv_mul_le (2 * num + den) (show 2 * den ≠ 0 by omega)
  have h2 := Int.lt_ediv_add_one_mul_self (2 * num + den) (show 0 < 2 * den by omega)
  constructor <;> nlinarith

theorem roundToNearest_nonneg (num den : Int) (hnum : 0 ≤ num) (hden : 0 < den) :
    0 ≤ roundToNearest num den := by
  unfold roundToNearest
  exact Int.ediv_nonneg (by omega) (by omega)

theorem framesInDuration_nonneg (duration period : Int) (hD : 0 ≤ duration) :
    0 ≤ framesInDuration duration period := by
  unfold framesInDuration
  rw [if_neg (by omega)]
  exact Int.natCast_nonneg _

theorem calculateFrameCount_ok {duration : Int} {p : CX_SlidePresenter} {n : Nat}
    (h : p._calculateFrameCount duration = .ok n) :
    ∃ d, p._config.display = some d ∧ 0 < d._framePeriod ∧
      (n : Int) = framesInDuration duration d._framePeriod ∧ n < UINT32_SIZE := by
  unfold _calculateFrameCount at h
  split at h
  · simp at h
  · rename_i d hd
    refine ⟨d, hd, ?_⟩
    simp only [CX_Display.getFramePeriod] at h
    split at h
    · simp at h
    · split at h
      · rename_i hP hr
        simp only [Except.ok.injEq] at h
        subst h
        refine ⟨by omega, ?_, ?_⟩
        · rw [Int.toNat_of_nonneg hr.1]
        · have := hr.2
          omega
      · simp at h

theorem calculateFrameCount_of {duration : Int} {p : CX_SlidePresenter} {d : CX_Display}
    (hd : p._config.display = some d) (hP : 0 < d._framePeriod) (hD : 0 ≤ duration)
    (hr : framesInDuration duration d._framePeriod < UINT32_SIZE) :
    p._calculateFrameCount duration = .ok (framesInDuration duration d._framePeriod).toNat := by
  unfold _calculateFrameCount
  have h0 := framesInDuration_nonneg duration d._framePeriod hD
  have hP' : ¬ d._framePeriod ≤ 0 := by omega
  simp [hd, CX_Display.getFramePeriod, hP', h0, hr]

theorem endDrawingCurrentSlide_ok {p q : CX_SlidePresenter} (h : p.endDrawingCurrentSlide = .ok q) :
    q = { p with _lastFramebufferActive := false } := by
  unfold endDrawingCurrentSlide at h
  split at h
  · simp at h
  · simp only [Except.ok.injEq] at h
    exact h.symm

theorem autoClose_cases (p : CX_SlidePresenter) :
    (p._lastFramebufferActive = true ∧ p._slides = [] ∧
      (if p._lastFramebufferActive = true then p.endDrawingCurrentSlide else pure p)
        = .error .emptyBack) ∨
    (¬ (p._lastFramebufferActive = true ∧ p._slides = []) ∧
      (if p._lastFramebufferActive = true then p.endDrawingCurrentSlide else pure p)
        = .ok { p with _lastFramebufferActive := false }) := by
  obtain ⟨cfg, hog, pres, syn, cur, slides, info, act⟩ := p
  cases act
  · right
    simp [pure, Except.pure]
  · cases slides with
    | nil => left; simp [endDrawingCurrentSlide]
    | cons a l => right; simp [endDrawingCurrentSlide]

theorem appendSlide_ok {slide : Slide} {p q : CX_SlidePresenter}
    (h : p.appendSlide slide = .ok q) :
    q._config = p._config ∧
    (q._slides = p._slides ∨
      (0 < slide.intended.duration ∧
        (slide.framebuffer.isAllocated = true ∨ slide.drawingFunction ≠ none) ∧
        ∃ n : Nat, (∃ d, p._config.display = some d ∧ 0 < d._framePeriod ∧
          (n : Int) = framesInDuration slide.intended.duration d._framePeriod ∧ n < UINT32_SIZE) ∧
        q._slides = p._slides ++
          [{ slide with intended := { slide.intended with frameCount := n } }])) := by
  unfold appendSlide at h
  rcases autoClose_cases p with ⟨-, -, he⟩ | ⟨-, hp1⟩
  · rw [he] at h
    simp only [bind, Except.bind, pure, Except.pure, CX_Millis, zero_mul] at h
    split at h
    · simp only [Except.ok.injEq] at h
      subst h
      exact ⟨rfl, Or.inl rfl⟩
    · simp at h
  · rw [hp1] at h
    simp only [bind, Except.bind, pure, Except.pure, CX_Millis, zero_mul] at h
    split at h
    · simp only [Except.ok.injEq] at h
      subst h
      exact ⟨rfl, Or.inl rfl⟩
    · rename_i hD
      split at h
      · simp only [Except.ok.injEq] at h
        subst h
        exact ⟨rfl, Or.inl rfl⟩
      · rename_i hcontent
        split at h
        · simp at h
        · rename_i n hn
          simp only [Except.ok.injEq] at h
          subst h
          refine ⟨rfl, Or.inr ⟨by omega, ?_, n, calculateFrameCount_ok hn, rfl⟩⟩
          cases hfb : slide.framebuffer.isAllocated
          · right
            intro hnone
            simp [hfb, hnone] at hcontent
          · left; rfl

theorem appendSlideFunction_ok {f : Option Nat} {D : Int} {name : String}
    {p q : CX_SlidePresenter} (h : p.appendSlideFunction f D name = .ok q) :
    q._config = p._config ∧
    (q._slides = p._slides ∨
      (0 < D ∧ f ≠ none ∧
        ∃ n : Nat, (∃ d, p._config.display = some d ∧ 0 < d._framePeriod ∧
          (n : Int) = framesInDuration D d._framePeriod ∧ n < UINT32_SIZE) ∧
        q._slides = p._slides ++
          [{ drawingFunction := f, intended := { duration := D, frameCount := n },
             slideName := name }])) := by
  unfold appendSlideFunction at h
  rcases autoClose_cases p with ⟨-, -, he⟩ | ⟨-, hp1⟩
  · rw [he] at h
    simp only [bind, Except.bind, pure, Except.pure, CX_Millis, zero_mul] at h
    split at h
    · simp only [Except.ok.injEq] at h
      subst h
      exact ⟨rfl, Or.inl rfl⟩
    · split at h
      · simp only [Except.ok.injEq] at h
        subst h
        exact ⟨rfl, Or.inl rfl⟩
      · simp at h
  · rw [hp1] at h
    simp only [bind, Except.bind, pure, Except.pure, CX_Millis, zero_mul] at h
    split at h
    · simp only [Except.ok.injEq] at h
      subst h
      exact ⟨rfl, Or.inl rfl⟩
    · rename_i hD
      split at h
      · simp only [Except.ok.injEq] at h
        subst h
        exact ⟨rfl, Or.inl rfl⟩
      · rename_i hf
        split at h
        · simp at h
        · rename_i n hn
          simp only [Except.ok.injEq] at h
          subst h
          refine ⟨rfl, Or.inr ⟨by omega, ?_, n, calculateFrameCount_ok hn, rfl⟩⟩
          intro hnone
          simp [hnone] at hf

theorem beginDrawingNextSlide_ok {D : Int} {name : String}
    {p q : CX_SlidePresenter} (h : p.beginDrawingNextSlide D name = .ok q) :
    q._config = p._config ∧
    (q._slides = p._slides ∨
      (0 < D ∧
        ∃ n : Nat, (∃ d, p._config.display = some d ∧ 0 < d._framePeriod ∧
          (n : Int) = framesInDuration D d._framePeriod ∧ n < UINT32_SIZE) ∧
        q._slides = p._slides ++
          [{ slideName := name, framebuffer := { isAllocated := true },
             intended := { duration := D, frameCount := n } }])) := by
  unfold beginDrawingNextSlide at h
  rcases autoClose_cases p with ⟨-, -, he⟩ | ⟨-, hp1⟩
  · rw [he] at h
    simp [bind, Except.bind] at h
  · rw [hp1] at h
    simp only [bind, Except.bind, pure, Except.pure, CX_Millis, zero_mul] at h
    split at h
    · simp only [Except.ok.injEq] at h
      subst h
      exact ⟨rfl, Or.inl rfl⟩
    · split at h
      · simp only [Except.ok.injEq] at h
        subst h
        exact ⟨rfl, Or.inl rfl⟩
      · rename_i hD
        split at h
        · simp at h
        · rename_i n hn
          simp only [Except.ok.injEq] at h
          subst h
          exact ⟨rfl, Or.inr ⟨by omega, n, calculateFrameCount_ok hn, rfl⟩⟩

/-! ## Calls made by user code -/

theorem startSlidePresentation_frame {p q : CX_SlidePresenter} {b : Bool}
    (h : p.startSlidePresentation = .ok (b, q)) :
    q._slides.map Slide.identity = p._slides.map Slide.identity ∧ q.settings = p.settings := by
  cases hd : p._config.display with
  | none =>
    simp only [startSlidePresentation, hd, Except.ok.injEq, Prod.mk.injEq] at h
    rw [← h.2]
    exact ⟨rfl, rfl⟩
  | some d =>
    by_cases hs : p._slides = []
    · simp only [startSlidePresentation, hd, hs, List.length_nil, le_refl, ↓reduceIte,
        Except.ok.injEq, Prod.mk.injEq] at h
      rw [← h.2]
      exact ⟨rfl, rfl⟩
    · obtain ⟨d', h'⟩ := startSlidePresentation_nonempty p d hd hs
      rw [h'] at h
      simp only [Except.ok.injEq, Prod.mk.injEq] at h
      rw [← h.2]
      refine ⟨?_, rfl⟩
      simp only [List.map_map]
      rfl

theorem applyCall_frame {p q : CX_SlidePresenter} {c : PresenterCall}
    (h : p.applyCall c = .ok q) : q.settings = p.settings := by
  cases c with
  | appendSlide slide => simp only [settings, (appendSlide_ok h).1]
  | appendSlideFunction f d name => simp only [settings, (appendSlideFunction_ok h).1]
  | beginDrawingNextSlide d name => simp only [settings, (beginDrawingNextSlide_ok h).1]
  | endDrawingCurrentSlide =>
    simp only [applyCall] at h
    rw [endDrawingCurrentSlide_ok h]
    rfl
  | startSlidePresentation =>
    simp only [applyCall] at h
    cases hst : p.startSlidePresentation with
    | error e => simp [hst, Except.map] at h
    | ok r =>
      obtain ⟨b, q'⟩ := r
      simp only [hst, Except.map, Except.ok.injEq] at h
      subst h
      exact (startSlidePresentation_frame hst).2
  | stopSlidePresentation =>
    simp only [applyCall, Except.ok.injEq] at h
    subst h
    rfl
  | clearSlides =>
    simp only [applyCall, Except.ok.injEq] at h
    subst h
    rfl

theorem applyCalls_frame (cs : List PresenterCall) :
    ∀ {p q : CX_SlidePresenter}, p.applyCalls cs = .ok q → q.settings = p.settings := by
  induction cs with
  | nil =>
    intro p q h
    simp only [applyCalls, Except.ok.injEq] at h
    subst h
    rfl
  | cons c rest ih =>
    intro p q h
    unfold applyCalls at h
    split at h
    · simp at h
    · rename_i p1 hp1
      exact (ih h).trans (applyCall_frame hp1)

/-- Every queued slide has a positive intended duration. -/
theorem positive_of_identities {l l' : List Slide}
    (hids : l'.map Slide.identity = l.map Slide.identity)
    (h : ∀ s ∈ l, 0 < s.intended.duration) : ∀ s ∈ l', 0 < s.intended.duration := by
  intro s hs
  have hmem : s.identity ∈ l.map Slide.identity := by
    rw [← hids]
    exact List.mem_map_of_mem _ hs
  obtain ⟨t, ht, hst⟩ := List.mem_map.mp hmem
  have hdur : t.intended.duration = s.intended.duration := by
    have := congrArg SlideIdentity.duration hst
    simpa [Slide.identity] using this
  rw [← hdur]
  exact h t ht

theorem applyCall_positive {p q : CX_SlidePresenter} {c : PresenterCall}
    (h : p.applyCall c = .ok q) (hp : ∀ s ∈ p._slides, 0 < s.intended.duration) :
    ∀ s ∈ q._slides, 0 < s.intended.duration := by
  cases c with
  | appendSlide slide =>
    rcases (appendSlide_ok h).2 with hq | ⟨hD, -, n, -, hq⟩
    · rw [hq]; exact hp
    · rw [hq]
      intro s hs
      rcases List.mem_append.mp hs with hs | hs
      · exact hp s hs
      · simp only [List.mem_singleton] at hs
        subst hs
        exact hD
  | appendSlideFunction f d name =>
    rcases (appendSlideFunction_ok h).2 with hq | ⟨hD, -, n, -, hq⟩
    · rw [hq]; exact hp
    · rw [hq]
      intro s hs
      rcases List.mem_append.mp hs with hs | hs
      · exact hp s hs
      · simp only [List.mem_singleton] at hs
        subst hs
        exact hD
  | beginDrawingNextSlide d name =>
    rcases (beginDrawingNextSlide_ok h).2 with hq | ⟨hD, n, -, hq⟩
    · rw [hq]; exact hp
    · rw [hq]
      intro s hs
      rcases List.mem_append.mp hs with hs | hs
      · exact hp s hs
      · simp only [List.mem_singleton] at hs
        subst hs
        exact hD
  | endDrawingCurrentSlide =>
    simp only [applyCall] at h
    rw [endDrawingCurrentSlide_ok h]
    exact hp
  | startSlidePresentation =>
    simp only [applyCall] at h
    cases hst : p.startSlidePresentation with
    | error e => simp [hst, Except.map] at h
    | ok r =>
      obtain ⟨b, q'⟩ := r
      simp only [hst, Except.map, Except.ok.injEq] at h
      subst h
      exact positive_of_identities (startSlidePresentation_frame hst).1 hp
  | stopSlidePresentation =>
    simp only [applyCall, Except.ok.injEq] at h
    subst h
    exact hp
  | clearSlides =>
    simp only [applyCall, Except.ok.injEq] at h
    subst h
    intro s hs
    simp [clearSlides] at hs

theorem applyCalls_positive (cs : List PresenterCall) :
    ∀ {p q : CX_SlidePresenter}, p.applyCalls cs = .ok q →
      (∀ s ∈ p._slides, 0 < s.intended.duration) → ∀ s ∈ q._slides, 0 < s.intended.duration := by
  induction cs with
  | nil =>
    intro p q h hp
    simp only [applyCalls, Except.ok.injEq] at h
    subst h
    exact hp
  | cons c rest ih =>
    intro p q h hp
    unfold applyCalls at h
    split at h
    · simp at h
    · rename_i p1 hp1
      exact ih h (applyCall_positive hp1 hp)

/-! ## What `update` does to the queue

A property `Inv` of the list of slide identities that no call of the final-slide callback
can break (or any property at all when no callback is registered) is kept by `update`. -/

theorem handleFinalSlideAfterCallback_frame {k : Nat} {p q : CX_SlidePresenter}
    (h : p._handleFinalSlideAfterCallback k = .ok q) :
    q._slides.map Slide.identity = p._slides.map Slide.identity ∧ q._config = p._config := by
  have hA : ∀ l : List Slide,
      (vectorMapFrom (fun (s : Slide) => { s with slideStatus := .NOT_STARTED }) k l).map
        Slide.identity = l.map Slide.identity := by
    intro l
    refine vectorMapFrom_map Slide.identity _ ?_ _ _
    intro a
    rfl
  have hC : ∀ (j : Nat) (l : List Slide), (vectorMapFrom (fun (s : Slide) =>
      { s with actual := { s.actual with duration := 0, frameCount := 0 } }) j l).map
        Slide.identity = l.map Slide.identity := by
    intro j l
    refine vectorMapFrom_map Slide.identity _ ?_ _ _
    intro a
    rfl
  have hD : ∀ (j : Nat) (l : List Slide), (vectorMapFrom (fun (s : Slide) =>
      if s.drawingFunction.isNone = true then
        { s with framebuffer := { isAllocated := false } }
      else s) j l).map Slide.identity = l.map Slide.identity := by
    intro j l
    refine vectorMapFrom_map Slide.identity _ ?_ _ _
    intro a
    split <;> rfl
  unfold _handleFinalSlideAfterCallback at h
  simp only [bind, Except.bind, pure, Except.pure] at h
  split at h
  · split at h
    · simp at h
    · rename_i slides hslides
      simp only [Except.ok.injEq] at h
      subst h
      have hB := vectorModifyAt_map Slide.identity hslides (fun _ => rfl)
      refine ⟨?_, rfl⟩
      simp only
      split
      · rw [hD, hC, hB, hA]
      · rw [hC, hB, hA]
  · simp only [Except.ok.injEq] at h
    subst h
    exact ⟨hA _, rfl⟩

theorem handleFinalSlide_inv (Inv : List SlideIdentity → Prop) {p q : CX_SlidePresenter}
    (h : p._handleFinalSlide = .ok q)
    (hcb : p.settings.finalSlideCallback = none ∨
      ∀ (p' q' : CX_SlidePresenter) (cs : List PresenterCall),
        Inv (p'._slides.map Slide.identity) → p'.applyCalls cs = .ok q' →
        Inv (q'._slides.map Slide.identity))
    (hinv : Inv (p._slides.map Slide.identity)) :
    Inv (q._slides.map Slide.identity) ∧ q.settings = p.settings := by
  unfold _handleFinalSlide at h
  cases hc : p._config.finalSlideCallback with
  | none =>
    simp only [hc] at h
    obtain ⟨h1, h2⟩ := handleFinalSlideAfterCallback_frame h
    rw [h1]
    exact ⟨hinv, by simp only [settings, h2]⟩
  | some cb =>
    simp only [hc] at h
    cases hp1 : p.applyCalls (cb p._currentSlide) with
    | error e => simp [hp1] at h
    | ok p1 =>
      simp only [hp1] at h
      obtain ⟨h1, h2⟩ := handleFinalSlideAfterCallback_frame h
      rcases hcb with hnone | hcb
      · simp [settings, hc] at hnone
      · rw [h1]
        refine ⟨hcb p p1 _ hinv hp1, ?_⟩
        rw [← applyCalls_frame _ hp1]
        simp only [settings, h2]

theorem bind_ok {ε α β : Type} {x : Except ε α} {f : α → Except ε β} {b : β}
    (h : (x >>= f) = .ok b) : ∃ a, x = .ok a ∧ f a = .ok b := by
  cases x with
  | error e => simp [bind, Except.bind] at h
  | ok a => exact ⟨a, rfl, h⟩

theorem slideOnset_inv (Inv : List SlideIdentity → Prop) {p q : CX_SlidePresenter}
    {frameNumber : Nat} {onset : Int} {b : Bool}
    (h : p._slideOnset frameNumber onset = .ok (b, q))
    (hcb : p.settings.finalSlideCallback = none ∨
      ∀ (p' q' : CX_SlidePresenter) (cs : List PresenterCall),
        Inv (p'._slides.map Slide.identity) → p'.applyCalls cs = .ok q' →
        Inv (q'._slides.map Slide.identity))
    (hinv : Inv (p._slides.map Slide.identity)) :
    Inv (q._slides.map Slide.identity) ∧ q.settings = p.settings := by
  unfold _slideOnset at h
  obtain ⟨slides1, h1, h⟩ := bind_ok h
  obtain ⟨slides2, h2, h⟩ := bind_ok h
  obtain ⟨p2, h3, h⟩ := bind_ok h
  have e1 := vectorModifyAt_map Slide.identity h1 (fun _ => rfl)
  have e2 : slides2.map Slide.identity = slides1.map Slide.identity := by
    split at h2
    · exact vectorModifyAt_map Slide.identity h2 (fun _ => rfl)
    · simp only [pure, Except.pure, Except.ok.injEq] at h2
      rw [h2]
  have e3 : p2._slides.map Slide.identity = p._slides.map Slide.identity ∧
      p2.settings = p.settings := by
    split at h3
    · obtain ⟨h31, h32⟩ := finishPreviousSlide_frame h3
      exact ⟨by rw [h31]; simp only; rw [e2, e1], by simp only [settings, h32]⟩
    · simp only [pure, Except.pure, Except.ok.injEq] at h3
      subst h3
      exact ⟨by simp only; rw [e2, e1], rfl⟩
  split at h
  · obtain ⟨p3, h4, h⟩ := bind_ok h
    simp only [pure, Except.pure, Except.ok.injEq, Prod.mk.injEq] at h
    obtain ⟨-, rfl⟩ := h
    have := handleFinalSlide_inv Inv h4 (by rw [e3.2]; exact hcb) (by rw [e3.1]; exact hinv)
    exact ⟨this.1, this.2.trans e3.2⟩
  · simp only [pure, Except.pure, Except.ok.injEq, Prod.mk.injEq] at h
    obtain ⟨-, rfl⟩ := h
    exact ⟨by rw [e3.1]; exact hinv, e3.2⟩

theorem multiCoreSwappedIn_inv (Inv : List SlideIdentity → Prop) {p q : CX_SlidePresenter}
    {frameNumber : Nat} {d : CX_Display} {b : Bool}
    (h : p._multiCoreSwappedIn frameNumber d = .ok (b, q))
    (hcb : p.settings.finalSlideCallback = none ∨
      ∀ (p' q' : CX_SlidePresenter) (cs : List PresenterCall),
        Inv (p'._slides.map Slide.identity) → p'.applyCalls cs = .ok q' →
        Inv (q'._slides.map Slide.identity))
    (hinv : Inv (p._slides.map Slide.identity)) :
    Inv (q._slides.map Slide.identity) ∧ q.settings = p.settings := by
  unfold _multiCoreSwappedIn at h
  obtain ⟨current, -, h⟩ := bind_ok h
  split at h
  · obtain ⟨⟨returned, p1⟩, h1, h⟩ := bind_ok h
    have e1 := slideOnset_inv Inv h1 hcb hinv
    simp only at h
    split at h
    · simp only [pure, Except.pure, Except.ok.injEq, Prod.mk.injEq] at h
      obtain ⟨-, rfl⟩ := h
      exact e1
    · split at h
      · obtain ⟨p2, h2, h⟩ := bind_ok h
        simp only [pure, Except.pure, Except.ok.injEq, Prod.mk.injEq] at h
        obtain ⟨-, rfl⟩ := h
        obtain ⟨h21, h22⟩ := prepareNextSlide_frame h2
        exact ⟨by rw [h21]; exact e1.1, by simp only [settings, h22]; exact e1.2⟩
      · simp only [pure, Except.pure, Except.ok.injEq, Prod.mk.injEq] at h
        obtain ⟨-, rfl⟩ := h
        exact e1
  · simp only [pure, Except.pure, Except.ok.injEq, Prod.mk.injEq] at h
    obtain ⟨-, rfl⟩ := h
    exact ⟨hinv, rfl⟩

theorem multiCoreAdvance_frame {p q : CX_SlidePresenter} {frameNumber : Nat}
    (h : p._multiCoreAdvance frameNumber = .ok q) :
    q._slides.map Slide.identity = p._slides.map Slide.identity ∧ q._config = p._config := by
  unfold _multiCoreAdvance at h
  split at h
  · obtain ⟨next, -, h⟩ := bind_ok h
    split at h
    · have r := renderCurrentSlide_frame h
      exact r
    · simp only [pure, Except.pure, Except.ok.injEq] at h
      subst h
      exact ⟨rfl, rfl⟩
  · simp only [pure, Except.pure, Except.ok.injEq] at h
    subst h
    exact ⟨rfl, rfl⟩

theorem multiCoreUpdate_inv (Inv : List SlideIdentity → Prop) {p q : CX_SlidePresenter}
    {env : UpdateEnv} (h : p._multiCoreUpdate env = .ok q)
    (hcb : p.settings.finalSlideCallback = none ∨
      ∀ (p' q' : CX_SlidePresenter) (cs : List PresenterCall),
        Inv (p'._slides.map Slide.identity) → p'.applyCalls cs = .ok q' →
        Inv (q'._slides.map Slide.identity))
    (hinv : Inv (p._slides.map Slide.identity)) :
    Inv (q._slides.map Slide.identity) ∧ q.settings = p.settings := by
  have hws : ∀ {p1 q1 : CX_SlidePresenter}, p1._waitSyncCheck env = .ok q1 →
      Inv (p1._slides.map Slide.identity) → p1.settings = p.settings →
      Inv (q1._slides.map Slide.identity) ∧ q1.settings = p.settings := by
    intro p1 q1 hw hi hs
    obtain ⟨w1, w2⟩ := waitSyncCheck_frame hw
    exact ⟨by rw [w1]; exact hi, by simp only [settings, w2]; exact hs⟩
  unfold _multiCoreUpdate at h
  split at h
  · split at h
    · simp at h
    · rename_i d hd
      generalize hd' : d.hasSwappedSinceLastCheck = r at h
      obtain ⟨swapped, d'⟩ := r
      simp only at h
      have hset : ∀ dd : CX_Display, (p.setDisplay dd).settings = p.settings := fun _ => rfl
      have hsl : ∀ dd : CX_Display, (p.setDisplay dd)._slides = p._slides := fun _ => rfl
      split at h
      · split at h
        · simp at h
        · rename_i p1 h1
          simp only [Except.ok.injEq] at h
          subst h
          have e1 := multiCoreSwappedIn_inv Inv h1 (by rw [hset]; exact hcb)
            (by rw [hsl]; exact hinv)
          exact ⟨e1.1, e1.2.trans (hset _)⟩
        · rename_i p1 h1
          have e1 := multiCoreSwappedIn_inv Inv h1 (by rw [hset]; exact hcb)
            (by rw [hsl]; exact hinv)
          split at h
          · simp at h
          · rename_i p2 h2
            obtain ⟨a1, a2⟩ := multiCoreAdvance_frame h2
            exact hws h (by rw [a1]; exact e1.1)
              (by simp only [settings, a2]; exact e1.2.trans (hset _))
      · exact hws h (by rw [hsl]; exact hinv) (hset _)
  · split at h
    · split at h
      · simp at h
      · rename_i d hd
        generalize hd' : d.hasSwappedSinceLastCheck = r at h
        obtain ⟨swapped, d'⟩ := r
        simp only at h
        have hset : (p.setDisplay d').settings = p.settings := rfl
        have hsl : (p.setDisplay d')._slides = p._slides := rfl
        split at h
        · split at h
          · simp at h
          · rename_i p1 h1
            obtain ⟨r1, r2⟩ := renderCurrentSlide_frame h1
            simp only at r1 r2
            exact hws h (by simp only; rw [r1, hsl]; exact hinv)
              (by simp only [settings, r2]; exact hset)
        · exact hws h (by rw [hsl]; exact hinv) hset
    · exact hws h hinv rfl

theorem singleCorePresenting_inv (Inv : List SlideIdentity → Prop) {p q : CX_SlidePresenter}
    {env : UpdateEnv} {b : Bool} (h : p._singleCorePresenting env = .ok (b, q))
    (hcb : p.settings.finalSlideCallback = none ∨
      ∀ (p' q' : CX_SlidePresenter) (cs : List PresenterCall),
        Inv (p'._slides.map Slide.identity) → p'.applyCalls cs = .ok q' →
        Inv (q'._slides.map Slide.identity))
    (hinv : Inv (p._slides.map Slide.identity)) :
    Inv (q._slides.map Slide.identity) ∧ q.settings = p.settings := by
  unfold _singleCorePresenting at h
  obtain ⟨current, -, h⟩ := bind_ok h
  split at h
  · split at h
    · split at h
      · simp [throw, throwThe, MonadExceptOf.throw] at h
      · rename_i d hd
        obtain ⟨⟨returned, p1⟩, h1, h⟩ := bind_ok h
        have hset : (p.setDisplay d.BLOCKING_swapFrontAndBackBuffers).settings = p.settings := rfl
        have hsl : (p.setDisplay d.BLOCKING_swapFrontAndBackBuffers)._slides = p._slides := rfl
        have e1 := slideOnset_inv Inv h1 (by rw [hset]; exact hcb) (by rw [hsl]; exact hinv)
        simp only at h
        split at h
        · simp only [pure, Except.pure, Except.ok.injEq, Prod.mk.injEq] at h
          obtain ⟨-, rfl⟩ := h
          exact ⟨e1.1, e1.2.trans hset⟩
        · split at h
          · obtain ⟨p2, h2, h⟩ := bind_ok h
            obtain ⟨cur2, -, h⟩ := bind_ok h
            obtain ⟨p3, h3, h⟩ := bind_ok h
            simp only [pure, Except.pure, Except.ok.injEq, Prod.mk.injEq] at h
            obtain ⟨-, rfl⟩ := h
            obtain ⟨h21, h22⟩ := prepareNextSlide_frame h2
            obtain ⟨h31, h32⟩ := renderCurrentSlide_frame h3
            simp only at h31 h32
            exact ⟨by rw [h31, h21]; exact e1.1,
              by simp only [settings, h32, h22]; exact e1.2.trans hset⟩
          · simp only [pure, Except.pure, Except.ok.injEq, Prod.mk.injEq] at h
            obtain ⟨-, rfl⟩ := h
            exact ⟨e1.1, e1.2.trans hset⟩
    · simp only [pure, Except.pure, Except.ok.injEq, Prod.mk.injEq] at h
      obtain ⟨-, rfl⟩ := h
      exact ⟨hinv, rfl⟩
  · simp only [pure, Except.pure, Except.ok.injEq, Prod.mk.injEq] at h
    obtain ⟨-, rfl⟩ := h
    exact ⟨hinv, rfl⟩

theorem singleCoreSynchronizing_frame {p q : CX_SlidePresenter} {env : UpdateEnv}
    (h : p._singleCoreSynchronizing env = .ok q) :
    q._slides.map Slide.identity = p._slides.map Slide.identity ∧ q.settings = p.settings := by
  unfold _singleCoreSynchronizing at h
  split at h
  · simp [throw, throwThe, MonadExceptOf.throw] at h
  · rename_i d hd
    obtain ⟨d1, -, h⟩ := bind_ok h
    obtain ⟨p1, h1, h⟩ := bind_ok h
    simp only [pure, Except.pure, Except.ok.injEq] at h
    subst h
    obtain ⟨r1, r2⟩ := renderCurrentSlide_frame h1
    simp only at r1 r2
    exact ⟨by simp only; rw [r1]; rfl, by simp only [settings, r2]; rfl⟩

theorem singleCoreBlockingUpdate_inv (Inv : List SlideIdentity → Prop)
    {p q : CX_SlidePresenter} {env : UpdateEnv} (h : p._singleCoreBlockingUpdate env = .ok q)
    (hcb : p.settings.finalSlideCallback = none ∨
      ∀ (p' q' : CX_SlidePresenter) (cs : List PresenterCall),
        Inv (p'._slides.map Slide.identity) → p'.applyCalls cs = .ok q' →
        Inv (q'._slides.map Slide.identity))
    (hinv : Inv (p._slides.map Slide.identity)) :
    Inv (q._slides.map Slide.identity) ∧ q.settings = p.settings := by
  unfold _singleCoreBlockingUpdate at h
  have e1 : ∀ {b : Bool} {p1 : CX_SlidePresenter},
      (if p._presentingSlides = true then p._singleCorePresenting env else .ok (false, p))
        = .ok (b, p1) →
      Inv (p1._slides.map Slide.identity) ∧ p1.settings = p.settings := by
    intro b p1 h1
    split at h1
    · exact singleCorePresenting_inv Inv h1 hcb hinv
    · simp only [Except.ok.injEq, Prod.mk.injEq] at h1
      obtain ⟨-, rfl⟩ := h1
      exact ⟨hinv, rfl⟩
  split at h
  · simp at h
  · rename_i p1 h1
    simp only [Except.ok.injEq] at h
    subst h
    exact e1 h1
  · rename_i p1 h1
    obtain ⟨i1, s1⟩ := e1 h1
    split at h
    · simp at h
    · rename_i p2 h2
      have e2 : p2._slides.map Slide.identity = p1._slides.map Slide.identity ∧
          p2.settings = p1.settings := by
        split at h2
        · exact singleCoreSynchronizing_frame h2
        · simp only [Except.ok.injEq] at h2
          subst h2
          exact ⟨rfl, rfl⟩
      obtain ⟨w1, w2⟩ := waitSyncCheck_frame h
      exact ⟨by rw [w1, e2.1]; exact i1, by simp only [settings, w2]; exact e2.2.trans s1⟩

theorem update_inv (Inv : List SlideIdentity → Prop) {p q : CX_SlidePresenter}
    {env : UpdateEnv} (h : p.update env = .ok q)
    (hcb : p.settings.finalSlideCallback = none ∨
      ∀ (p' q' : CX_SlidePresenter) (cs : List PresenterCall),
        Inv (p'._slides.map Slide.identity) → p'.applyCalls cs = .ok q' →
        Inv (q'._slides.map Slide.identity))
    (hinv : Inv (p._slides.map Slide.identity)) :
    Inv (q._slides.map Slide.identity) ∧ q.settings = p.settings := by
  unfold update at h
  split at h
  · exact multiCoreUpdate_inv Inv h hcb hinv
  · exact singleCoreBlockingUpdate_inv Inv h hcb hinv
  · simp only [Except.ok.injEq] at h
    subst h
    exact ⟨hinv, rfl⟩

/-! ## Accepted insertions -/

theorem appendsSlide_applyCall {p : CX_SlidePresenter} {d : CX_Display} {c : PresenterCall}
    (hd : p._config.display = some d) (hP : 0 < d._framePeriod)
    (hc : appendsSlide d._framePeriod c = true) :
    (p._lastFramebufferActive = true ∧ p._slides = [] ∧ p.applyCall c = .error .emptyBack) ∨
    (¬ (p._lastFramebufferActive = true ∧ p._slides = []) ∧
      ∃ active : Bool, p.applyCall c = .ok
        { p with _slides := p._slides ++ [appendedSlide d._framePeriod c]
                 _slideInfo := p._slideInfo ++ [({} : ExtraSlideInfo)]
                 _lastFramebufferActive := active }) := by
  have hcalc : ∀ (D : Int) (a : Bool), 0 < D → framesInDuration D d._framePeriod < UINT32_SIZE →
      _calculateFrameCount D { p with _lastFramebufferActive := a }
        = .ok (framesInDuration D d._framePeriod).toNat :=
    fun D a hD hr => calculateFrameCount_of (p := { p with _lastFramebufferActive := a })
      hd hP (by omega) hr
  cases c with
  | appendSlide slide =>
    simp only [appendsSlide, Bool.and_eq_true, decide_eq_true_eq, Bool.or_eq_true] at hc
    obtain ⟨⟨hD, hcontent⟩, hr⟩ := hc
    have hD' : ¬ slide.intended.duration ≤ CX_Millis 0 := by simp only [CX_Millis]; omega
    have hcontent' : (!slide.framebuffer.isAllocated && slide.drawingFunction.isNone) = false := by
      rcases hcontent with h | h
      · simp [h]
      · cases hf : slide.drawingFunction <;> simp_all
    simp only [applyCall, appendSlide, bind, Except.bind, hD', ↓reduceIte]
    rcases autoClose_cases p with ⟨h1, h2, he⟩ | ⟨h1, he⟩
    · left
      rw [he]
      exact ⟨h1, h2, rfl⟩
    · right
      rw [he]
      simp only [hcontent', Bool.false_eq_true, ↓reduceIte, hcalc _ false hD hr]
      exact ⟨h1, false, rfl⟩
  | appendSlideFunction f D name =>
    simp only [appendsSlide, Bool.and_eq_true, decide_eq_true_eq] at hc
    obtain ⟨⟨hD, hf⟩, hr⟩ := hc
    have hD' : ¬ D ≤ CX_Millis 0 := by simp only [CX_Millis]; omega
    have hf' : f.isNone = false := by cases f <;> simp_all
    simp only [applyCall, appendSlideFunction, bind, Except.bind, hD', hf', Bool.false_eq_true,
      ↓reduceIte]
    rcases autoClose_cases p with ⟨h1, h2, he⟩ | ⟨h1, he⟩
    · left
      rw [he]
      exact ⟨h1, h2, rfl⟩
    · right
      rw [he]
      simp only [hcalc _ false hD hr]
      exact ⟨h1, false, rfl⟩
  | beginDrawingNextSlide D name =>
    simp only [appendsSlide, Bool.and_eq_true, decide_eq_true_eq] at hc
    obtain ⟨hD, hr⟩ := hc
    have hD' : ¬ D ≤ CX_Millis 0 := by simp only [CX_Millis]; omega
    simp only [applyCall, beginDrawingNextSlide, bind, Except.bind]
    rcases autoClose_cases p with ⟨h1, h2, he⟩ | ⟨h1, he⟩
    · left
      rw [he]
      exact ⟨h1, h2, rfl⟩
    · right
      rw [he]
      simp only [hd, Option.isNone_some, Bool.false_eq_true, ↓reduceIte, hD',
        hcalc _ false hD hr]
      exact ⟨h1, true, rfl⟩
  | endDrawingCurrentSlide => simp [appendsSlide] at hc
  | startSlidePresentation => simp [appendsSlide] at hc
  | stopSlidePresentation => simp [appendsSlide] at hc
  | clearSlides => simp [appendsSlide] at hc

end CX_SlidePresenter

end CX

/-! ## The queue over whole runs -/

namespace CX

namespace CX_SlidePresenter

theorem positive_iff_identities (l : List Slide) :
    (∀ s ∈ l, 0 < s.intended.duration) ↔ ∀ k ∈ l.map Slide.identity, 0 < k.duration := by
  simp only [List.mem_map, forall_exists_index, and_imp, forall_apply_eq_imp_iff₂]
  rfl

theorem step_positive {p q : CX_SlidePresenter} {e : Step} (h : p.step e = .ok q)
    (hp : ∀ s ∈ p._slides, 0 < s.intended.duration) : ∀ s ∈ q._slides, 0 < s.intended.duration := by
  cases e with
  | call c => exact applyCall_positive h hp
  | setup config fenceSyncSupported =>
    simp only [step, Except.ok.injEq] at h
    subst h
    unfold setup
    split
    · exact hp
    · exact hp
  | update env =>
    simp only [step] at h
    rw [positive_iff_identities] at hp ⊢
    refine (update_inv (fun ids => ∀ k ∈ ids, 0 < k.duration) h (Or.inr ?_) hp).1
    intro p' q' cs hp' hcs
    rw [← positive_iff_identities] at hp' ⊢
    exact applyCalls_positive cs hcs hp'
  | threadSwap t =>
    simp only [step] at h
    split at h
    · simp only [Except.ok.injEq] at h
      subst h
      exact hp
    · simp only [Except.ok.injEq] at h
      subst h
      exact hp

theorem run_positive (steps : List Step) :
    ∀ {p q : CX_SlidePresenter}, p.run steps = .ok q →
      (∀ s ∈ p._slides, 0 < s.intended.duration) → ∀ s ∈ q._slides, 0 < s.intended.duration := by
  induction steps with
  | nil =>
    intro p q h hp
    simp only [run, Except.ok.injEq] at h
    subst h
    exact hp
  | cons e rest ih =>
    intro p q h hp
    unfold run at h
    split at h
    · simp at h
    · rename_i p1 hp1
      exact ih h (step_positive hp1 hp)

/-- C1: an insertion with a duration `D ≤ 0` inserts nothing.  `appendSlide` and
`appendSlideFunction` return the presenter unchanged; `beginDrawingNextSlide` only closes a
drawing scope left open, so whenever it returns the queue has the same slides and the same
length.  Hence in every run that starts from a queue of slides with positive intended
durations (the empty queue among them), every queued slide has a positive intended
duration. -/
theorem nonpositive_duration_inserts_nothing (p : CX_SlidePresenter) (D : Int) (hD : D ≤ 0)
    (p0 q : CX_SlidePresenter) (steps : List Step)
    (h0 : ∀ s ∈ p0._slides, 0 < s.intended.duration) (hrun : p0.run steps = .ok q) :
    (∀ slide : Slide, slide.intended.duration = D → p.appendSlide slide = .ok p) ∧
    (∀ (f : Option Nat) (name : String), p.appendSlideFunction f D name = .ok p) ∧
    (∀ name : String, p.beginDrawingNextSlide D name
      = (if p._lastFramebufferActive = true then p.endDrawingCurrentSlide else .ok p)) ∧
    (∀ (name : String) (r : CX_SlidePresenter), p.beginDrawingNextSlide D name = .ok r →
      r._slides = p._slides ∧ r._slides.length = p._slides.length) ∧
    (∀ s ∈ q._slides, 0 < s.intended.duration) := by
  have hD' : D ≤ CX_Millis 0 := by simp only [CX_Millis]; omega
  refine ⟨?_, ?_, ?_, ?_, run_positive steps hrun h0⟩
  · intro slide hs
    simp [appendSlide, hs, hD', pure, Except.pure]
  · intro f name
    simp [appendSlideFunction, hD', pure, Except.pure]
  · intro name
    unfold beginDrawingNextSlide
    rcases autoClose_cases p with ⟨h1, h2, he⟩ | ⟨h1, he⟩
    · rw [he]
      simp [h1, endDrawingCurrentSlide, h2, bind, Except.bind]
    · rw [he]
      simp only [bind, Except.bind, pure, Except.pure, hD', ↓reduceIte, ite_self]
      by_cases ha : p._lastFramebufferActive = true
      · simp only [ha, ↓reduceIte]
        cases hs : p._slides with
        | nil => exact absurd ⟨ha, hs⟩ h1
        | cons a l => simp [endDrawingCurrentSlide, hs]
      · simp only [Bool.not_eq_true] at ha
        obtain ⟨cfg, hog, pres, syn, cur, slides, info, act⟩ := p
        simp only at ha
        subst ha
        simp
  · intro name r hr
    rcases (beginDrawingNextSlide_ok hr).2 with h | ⟨hpos, -⟩
    · exact ⟨h, by rw [h]⟩
    · omega

/-- Witness for C1: the example presenter with its three slides rejects a duration of zero,
and after the example run all its slides have positive intended durations. -/
theorem nonpositive_duration_inserts_nothing_witness :
    (∀ (f : Option Nat) (name : String),
      exampleQueued.appendSlideFunction f 0 name = .ok exampleQueued) ∧
    (∀ s ∈ exampleFinished._slides, 0 < s.intended.duration) :=
  have h := nonpositive_duration_inserts_nothing exampleQueued 0 (le_refl 0)
    exampleQueued exampleFinished exampleSteps (by decide) rfl
  ⟨h.2.1, h.2.2.2.2⟩

end CX_SlidePresenter

end CX

/-! ## Frame counts of accepted slides and the size of the queue -/

namespace CX

namespace CX_SlidePresenter

theorem roundHalfEven_one (n : Nat) : roundHalfEven n 1 = n := by
  simp [roundHalfEven, Nat.mod_one]

theorem toDouble_exact {n : Nat} (h : n < 2 ^ 53) : toDouble n = n := by
  have hk : droppedBitsFrom n 11 0 = 0 := by
    simp only [droppedBitsFrom, Nat.add_zero, h, if_true]
  unfold toDouble
  rw [hk]
  simp [roundHalfEven_one]

theorem quotientScaleFrom_spec (num den : Nat) :
    ∀ fuel s : Nat, den * 2 ^ 52 ≤ num * 2 ^ (s + fuel) →
      den * 2 ^ 52 ≤ num * 2 ^ quotientScaleFrom num den fuel s := by
  intro fuel
  induction fuel with
  | zero =>
    intro s h
    exact h
  | succ fuel ih =>
    intro s h
    unfold quotientScaleFrom
    split
    · assumption
    · exact ih (s + 1) (by rw [Nat.add_right_comm, Nat.add_assoc] at *; exact h)

theorem roundHalfEven_cases (num den : Nat) :
    roundHalfEven num den = num / den ∨
    (roundHalfEven num den = num / den + 1 ∧ den ≤ 2 * (num % den)) := by
  unfold roundHalfEven
  split
  · exact Or.inl rfl
  · rename_i h1
    split
    · exact Or.inr ⟨rfl, by omega⟩
    · split
      · exact Or.inl rfl
      · exact Or.inr ⟨rfl, by omega⟩

/-- The quotient scaled by an even power of two above the denominator and rounded to an
integer, to either side but up only from the upper half, rounds to the same integer as
the quotient itself. -/
theorem rounded_scaled_quotient {a b h m : Nat} (hb : 0 < b) (hh : 0 < h) (hbT : b < 2 * h)
    (hm : m = a * (2 * h) / b ∨ (m = a * (2 * h) / b + 1 ∧ b ≤ 2 * (a * (2 * h) % b))) :
    (2 * m + 2 * h) / (2 * (2 * h)) = (2 * a + b) / (2 * b) := by
  have hX := Nat.div_add_mod (a * (2 * h)) b
  have hr := Nat.mod_lt (a * (2 * h)) hb
  have hN := Nat.div_add_mod (2 * a + b) (2 * b)
  have hr2 := Nat.mod_lt (2 * a + b) (show 0 < 2 * b by omega)
  generalize a * (2 * h) / b = M at *
  generalize a * (2 * h) % b = r at *
  generalize (2 * a + b) / (2 * b) = N at *
  generalize (2 * a + b) % (2 * b) = r2 at *
  -- products as atoms
  have e1 : b * M + r = 2 * (a * h) := by rw [hX]; ring
  have e2 : 2 * (b * N * h) + r2 * h = 2 * (a * h) + b * h := by
    have := congrArg (fun x => x * h) hN
    simp only at this
    linarith [this]
  have e3 : r2 * h < 2 * (b * h) := by
    have := Nat.mul_lt_mul_of_pos_right hr2 hh
    linarith [this]
  apply Nat.div_eq_of_lt_le
  · -- N * (2 * (2h)) ≤ 2m + 2h
    by_contra hcon
    have hcon' : M + h + 1 ≤ 2 * (N * h) := by
      have : 2 * m + 2 * h < N * (2 * (2 * h)) := by omega
      have hmM : M ≤ m := by rcases hm with hm1 | ⟨hm1, -⟩ <;> omega
      linarith [this, hmM]
    have := Nat.mul_le_mul_left b hcon'
    have e4 : b * M + b * h + b ≤ 2 * (b * N * h) := by linarith [this]
    omega
  · -- 2m + 2h < (N+1) * (2 * (2h))
    by_contra hcon
    have hcon0 : (N + 1) * (2 * (2 * h)) ≤ 2 * m + 2 * h := by omega
    have hcon' : 2 * (N * h) + h ≤ m := by linarith [hcon0]
    have e5 : r2 * h + h ≤ 2 * (b * h) := by
      have h1 : r2 + 1 ≤ 2 * b := hr2
      have := Nat.mul_le_mul_right h h1
      linarith [this]
    rcases hm with hm1 | ⟨hm1, hge⟩
    · rw [hm1] at hcon'
      have := Nat.mul_le_mul_left b hcon'
      have e4 : 2 * (b * N * h) + b * h ≤ b * M := by linarith [this]
      omega
    · rw [hm1] at hcon'
      have := Nat.mul_le_mul_left b hcon'
      have e4 : 2 * (b * N * h) + b * h ≤ b * M + b := by linarith [this]
      omega

theorem doubleQuotientRounded_exact {a b : Nat} (ha : 0 < a) (ha' : a < 2 ^ 52) (hb : 0 < b)
    (hb' : b < 2 ^ 53) : doubleQuotientRounded a b = (2 * a + b) / (2 * b) := by
  have hspec := quotientScaleFrom_spec a b 128 0 (by
    calc b * 2 ^ 52 ≤ 2 ^ 53 * 2 ^ 52 := Nat.mul_le_mul_right _ (Nat.le_of_lt hb')
      _ = 2 ^ 105 := by rw [← pow_add]
      _ ≤ 2 ^ (0 + 128) := Nat.pow_le_pow_right (by norm_num) (by norm_num)
      _ ≤ a * 2 ^ (0 + 128) := Nat.le_mul_of_pos_left _ ha)
  have hsmall : a < b * 2 ^ 52 := by
    have : 1 * 2 ^ 52 ≤ b * 2 ^ 52 := Nat.mul_le_mul_right _ hb
    omega
  unfold doubleQuotientRounded
  rw [if_pos hsmall]
  generalize quotientScaleFrom a b 128 0 = s at *
  have hs : s ≠ 0 := by
    rintro rfl
    simp only [pow_zero, Nat.mul_one] at hspec
    omega
  obtain ⟨k, rfl⟩ := Nat.exists_eq_succ_of_ne_zero hs
  have hT : (2 : Nat) ^ (k + 1) = 2 * 2 ^ k := by rw [pow_succ]; ring
  rw [hT] at hspec ⊢
  have hh : 0 < 2 ^ k := Nat.two_pow_pos k
  have hbT : b < 2 * 2 ^ k := by
    by_contra hcon
    have hle : 2 * 2 ^ k ≤ b := by omega
    have h1 : a * (2 * 2 ^ k) ≤ a * b := Nat.mul_le_mul_left a hle
    have h2 : a * b < 2 ^ 52 * b := Nat.mul_lt_mul_of_pos_right ha' hb
    have h3 : b * 2 ^ 52 = 2 ^ 52 * b := Nat.mul_comm _ _
    omega
  exact rounded_scaled_quotient hb hh hbT (roundHalfEven_cases _ _)

theorem framesInDuration_exact {D P : Int} (hD : 0 < D) (hD' : D < 2 ^ 52) (hP : 0 < P)
    (hP' : P < 2 ^ 53) : framesInDuration D P = roundToNearest D P := by
  unfold framesInDuration roundToNearest
  rw [if_neg (by omega)]
  obtain ⟨a, rfl⟩ := Int.eq_ofNat_of_zero_le (Int.le_of_lt hD)
  obtain ⟨b, rfl⟩ := Int.eq_ofNat_of_zero_le (Int.le_of_lt hP)
  simp only [Int.toNat_ofNat]
  have ha : 0 < a := by omega
  have ha' : a < 2 ^ 52 := by exact_mod_cast hD'
  have hb : 0 < b := by omega
  have hb' : b < 2 ^ 53 := by exact_mod_cast hP'
  rw [toDouble_exact (by omega : a < 2 ^ 53), toDouble_exact hb',
    doubleQuotientRounded_exact ha ha' hb hb']
  push_cast
  rfl

/-- C2, the claim as stated fails: the quotient is stored in a `double` before it is
rounded.  With `P = 16.67 ms` and `D = 50010000008334999 ns` the exact quotient lies just
below `3000000000.5`, so `D / P` rounded to the nearest integer is `3000000000`; the
conversion of `D` to `double` gives `50010000008335000`, the `double` quotient is
`3000000000.5`, and the accepted slide is given `3000000001` frames. -/
theorem frameCount_rounds_the_double_quotient :
    ∃ q s, examplePresenter.applyCall
        (.appendSlideFunction (some 1) 50010000008334999 "long") = .ok q ∧
      q._slides = [s] ∧ s.intended.duration = 50010000008334999 ∧
      s.intended.frameCount = 3000000001 ∧
      roundToNearest 50010000008334999 16670000 = 3000000000 ∧
      2 * (3000000000 : Int) * 16670000 - 16670000 ≤ 2 * 50010000008334999 ∧
      2 * (50010000008334999 : Int) < 2 * 3000000000 * 16670000 + 16670000 ∧
      toDouble 50010000008334999 = 50010000008335000 ∧
      (s.intended.frameCount : Int) ≠ roundToNearest s.intended.duration 16670000 :=
  ⟨_, _, rfl, rfl, rfl, rfl, by decide, by decide, by decide, by decide, by decide⟩

/-- C2, amended: when an insertion call with duration `D > 0` is accepted (the queue grows)
while the frame period of the display is `P > 0`, the slide put at the back of the queue
has the duration `D` and, whatever frame count the caller had put in the slide, the
intended frame count is the `double` quotient of `D` and `P` rounded to the nearest integer;
for `D` below `2^52 ns` and `P` below `2^53 ns` this is `D / P` rounded to the nearest
integer. -/
theorem accepted_slide_frameCount (p q : CX_SlidePresenter) (d : CX_Display)
    (c : PresenterCall) (D : Int)
    (hd : p._config.display = some d) (hP : 0 < d._framePeriod) (hD : 0 < D)
    (hc : insertionDuration c = some D) (h : p.applyCall c = .ok q)
    (hacc : q._slides.length = p._slides.length + 1) :
    q._slides = p._slides ++ [appendedSlide d._framePeriod c] ∧
    (appendedSlide d._framePeriod c).intended.duration = D ∧
    ((appendedSlide d._framePeriod c).intended.frameCount : Int)
      = framesInDuration D d._framePeriod ∧
    (D < 2 ^ 52 → d._framePeriod < 2 ^ 53 →
      ((appendedSlide d._framePeriod c).intended.frameCount : Int)
        = roundToNearest D d._framePeriod ∧
      2 * ((appendedSlide d._framePeriod c).intended.frameCount : Int) * d._framePeriod
        - d._framePeriod ≤ 2 * D ∧
      2 * D < 2 * ((appendedSlide d._framePeriod c).intended.frameCount : Int) * d._framePeriod
        + d._framePeriod) := by
  have hround := framesInDuration_nonneg D d._framePeriod (by omega)
  have hnear := roundToNearest_nearest D d._framePeriod hP
  have hcast : (((framesInDuration D d._framePeriod).toNat : Nat) : Int)
      = framesInDuration D d._framePeriod := Int.toNat_of_nonneg hround
  have hexact : D < 2 ^ 52 → d._framePeriod < 2 ^ 53 →
      framesInDuration D d._framePeriod = roundToNearest D d._framePeriod ∧
      2 * framesInDuration D d._framePeriod * d._framePeriod - d._framePeriod ≤ 2 * D ∧
      2 * D < 2 * framesInDuration D d._framePeriod * d._framePeriod + d._framePeriod := by
    intro h1 h2
    rw [framesInDuration_exact hD h1 hP h2]
    exact ⟨rfl, hnear.1, hnear.2⟩
  have hfix : ∀ n : Nat, (∃ d', p._config.display = some d' ∧ 0 < d'._framePeriod ∧
      (n : Int) = framesInDuration D d'._framePeriod ∧ n < UINT32_SIZE) →
      n = (framesInDuration D d._framePeriod).toNat := by
    rintro n ⟨d', hd', -, hn, -⟩
    rw [hd] at hd'
    cases hd'
    omega
  cases c with
  | appendSlide slide =>
    simp only [insertionDuration, Option.some.injEq] at hc
    subst hc
    rcases (appendSlide_ok h).2 with hq | ⟨-, -, n, hn, hq⟩
    · rw [hq] at hacc; omega
    · rw [hfix n hn] at hq
      simp only [appendedSlide, hcast]
      exact ⟨hq, trivial, trivial, hexact⟩
  | appendSlideFunction f D' name =>
    simp only [insertionDuration, Option.some.injEq] at hc
    subst hc
    rcases (appendSlideFunction_ok h).2 with hq | ⟨-, -, n, hn, hq⟩
    · rw [hq] at hacc; omega
    · rw [hfix n hn] at hq
      simp only [appendedSlide, hcast]
      exact ⟨hq, trivial, trivial, hexact⟩
  | beginDrawingNextSlide D' name =>
    simp only [insertionDuration, Option.some.injEq] at hc
    subst hc
    rcases (beginDrawingNextSlide_ok h).2 with hq | ⟨-, n, hn, hq⟩
    · rw [hq] at hacc; omega
    · rw [hfix n hn] at hq
      simp only [appendedSlide, hcast]
      exact ⟨hq, trivial, trivial, hexact⟩
  | endDrawingCurrentSlide => simp [insertionDuration] at hc
  | startSlidePresentation => simp [insertionDuration] at hc
  | stopSlidePresentation => simp [insertionDuration] at hc
  | clearSlides => simp [insertionDuration] at hc

/-- Witness for C2: with a frame period of 16.67 ms, slides of 1000 ms, 250 ms and 500 ms
get 60, 15 and 30 frames: an appended function slide, a drawn slide, and an appended slide
whose frame count of 99 is overwritten. -/
theorem accepted_slide_frameCount_witness :
    ((appendedSlide 16670000
        (.appendSlideFunction (some 1) (CX_Millis 1000) "fixation")).intended.frameCount : Int)
      = roundToNearest (CX_Millis 1000) 16670000 ∧
    roundToNearest (CX_Millis 1000) 16670000 = 60 ∧
    ((appendedSlide 16670000
        (.beginDrawingNextSlide (CX_Millis 250) "blank")).intended.frameCount : Int)
      = roundToNearest (CX_Millis 250) 16670000 ∧
    roundToNearest (CX_Millis 250) 16670000 = 15 ∧
    ((appendedSlide 16670000
        (.appendSlide { slideName := "sample", framebuffer := { isAllocated := true },
                        intended := { duration := CX_Millis 500, frameCount := 99 } })
        ).intended.frameCount : Int)
      = roundToNearest (CX_Millis 500) 16670000 ∧
    roundToNearest (CX_Millis 500) 16670000 = 30 :=
  ⟨((accepted_slide_frameCount examplePresenter
      { examplePresenter with
        _slides := [appendedSlide 16670000
          (.appendSlideFunction (some 1) (CX_Millis 1000) "fixation")]
        _slideInfo := [{}] }
      exampleDisplay (.appendSlideFunction (some 1) (CX_Millis 1000) "fixation")
      (CX_Millis 1000) rfl (by decide) (by decide) rfl rfl rfl).2.2.2 (by decide) (by decide)).1,
   by decide,
   ((accepted_slide_frameCount examplePresenter
      { examplePresenter with
        _slides := [appendedSlide 16670000 (.beginDrawingNextSlide (CX_Millis 250) "blank")]
        _slideInfo := [{}]
        _lastFramebufferActive := true }
      exampleDisplay (.beginDrawingNextSlide (CX_Millis 250) "blank")
      (CX_Millis 250) rfl (by decide) (by decide) rfl rfl rfl).2.2.2 (by decide) (by decide)).1,
   by decide,
   ((accepted_slide_frameCount examplePresenter
      { examplePresenter with
        _slides := [appendedSlide 16670000
          (.appendSlide { slideName := "sample", framebuffer := { isAllocated := true },
                          intended := { duration := CX_Millis 500, frameCount := 99 } })]
        _slideInfo := [{}] }
      exampleDisplay
      (.appendSlide { slideName := "sample", framebuffer := { isAllocated := true },
                      intended := { duration := CX_Millis 500, frameCount := 99 } })
      (CX_Millis 500) rfl (by decide) (by decide) rfl rfl rfl).2.2.2 (by decide) (by decide)).1,
   by decide⟩

end CX_SlidePresenter

end CX

namespace CX

namespace CX_SlidePresenter

theorem applyCalls_appends (period : Int) (calls : List PresenterCall) :
    ∀ {p q : CX_SlidePresenter} {d : CX_Display}, p._config.display = some d →
      d._framePeriod = period → 0 < period →
      (∀ c ∈ calls, appendsSlide period c = true ∨ c = .endDrawingCurrentSlide) →
      p.applyCalls calls = .ok q →
      q._slides = p._slides ++ (calls.filter (appendsSlide period)).map (appendedSlide period) := by
  induction calls with
  | nil =>
    intro p q d _ _ _ _ h
    simp only [applyCalls, Except.ok.injEq] at h
    subst h
    simp
  | cons c rest ih =>
    intro p q d hd hper hP hcalls h
    unfold applyCalls at h
    split at h
    · simp at h
    · rename_i p1 hp1
      have hrest : ∀ c' ∈ rest, appendsSlide period c' = true ∨ c' = .endDrawingCurrentSlide :=
        fun c' hc' => hcalls c' (List.mem_cons_of_mem _ hc')
      rcases hcalls c (List.mem_cons_self _ _) with hc | hc
      · subst hper
        rcases appendsSlide_applyCall hd hP hc with ⟨-, -, he⟩ | ⟨-, active, hok⟩
        · rw [he] at hp1
          simp at hp1
        · rw [hok] at hp1
          simp only [Except.ok.injEq] at hp1
          subst hp1
          have := ih (d := d) (by exact hd) rfl hP hrest h
          rw [this]
          simp [List.filter_cons, hc]
      · subst hc
        simp only [applyCall] at hp1
        have hp1' := endDrawingCurrentSlide_ok hp1
        subst hp1'
        have := ih (d := d) (by exact hd) hper hP hrest h
        rw [this]
        simp [List.filter_cons, appendsSlide]

theorem step_presentation {p q : CX_SlidePresenter} {e : Step} (h : p.step e = .ok q)
    (he : isPresentationStep e = true) (hcb : p.settings.finalSlideCallback = none) :
    q._slides.map Slide.identity = p._slides.map Slide.identity ∧ q.settings = p.settings := by
  cases e with
  | call c =>
    cases c with
    | startSlidePresentation =>
      simp only [step, applyCall] at h
      cases hst : p.startSlidePresentation with
      | error e => simp [hst, Except.map] at h
      | ok r =>
        obtain ⟨b, q'⟩ := r
        simp only [hst, Except.map, Except.ok.injEq] at h
        subst h
        exact startSlidePresentation_frame hst
    | stopSlidePresentation =>
      simp only [step, applyCall, Except.ok.injEq] at h
      subst h
      exact ⟨rfl, rfl⟩
    | appendSlide slide => simp [isPresentationStep] at he
    | appendSlideFunction f D name => simp [isPresentationStep] at he
    | beginDrawingNextSlide D name => simp [isPresentationStep] at he
    | endDrawingCurrentSlide => simp [isPresentationStep] at he
    | clearSlides => simp [isPresentationStep] at he
  | setup config fenceSyncSupported => simp [isPresentationStep] at he
  | update env =>
    simp only [step] at h
    exact update_inv (fun ids => ids = p._slides.map Slide.identity) h (Or.inl hcb) rfl
  | threadSwap t =>
    simp only [step] at h
    split at h
    · simp only [Except.ok.injEq] at h
      subst h
      exact ⟨rfl, rfl⟩
    · simp only [Except.ok.injEq] at h
      subst h
      exact ⟨rfl, rfl⟩

theorem run_presentation (steps : List Step) :
    ∀ {p q : CX_SlidePresenter}, p.run steps = .ok q →
      (∀ e ∈ steps, isPresentationStep e = true) → p.settings.finalSlideCallback = none →
      q._slides.map Slide.identity = p._slides.map Slide.identity := by
  induction steps with
  | nil =>
    intro p q h _ _
    simp only [run, Except.ok.injEq] at h
    subst h
    rfl
  | cons e rest ih =>
    intro p q h hsteps hcb
    unfold run at h
    split at h
    · simp at h
    · rename_i p1 hp1
      obtain ⟨s1, s2⟩ := step_presentation hp1 (hsteps e (List.mem_cons_self _ _)) hcb
      rw [ih h (fun e' he' => hsteps e' (List.mem_cons_of_mem _ he')) (by rw [s2]; exact hcb), s1]

/-- Counterexample to C3 as stated: on the example presenter, which is set up and empty,
appending a slide with a duration of one second but neither an allocated framebuffer nor a
drawing function returns normally and adds no slide. -/
theorem appendSlide_without_content_adds_nothing :
    examplePresenter._slides = [] ∧ 0 < emptySlide.intended.duration ∧
    examplePresenter.appendSlide emptySlide = .ok examplePresenter ∧
    ¬ ∃ (r : CX_SlidePresenter) (s : Slide),
        examplePresenter.appendSlide emptySlide = .ok r ∧
        r._slides = examplePresenter._slides ++ [s] := by
  have h : examplePresenter.appendSlide emptySlide = .ok examplePresenter := rfl
  refine ⟨rfl, by decide, h, ?_⟩
  rintro ⟨r, s, hr, hs⟩
  rw [h] at hr
  simp only [Except.ok.injEq] at hr
  subst hr
  simp [examplePresenter] at hs

/-- C3 (amended): on a presenter whose display is set and has a positive frame period, every
insertion of a slide that has content, a positive duration and a frame count in the range of
`unsigned int` adds exactly that one slide at the end of the queue, unless a drawing scope
is open on an empty queue.  After such insertions into an empty queue (calls of
`endDrawingCurrentSlide` in between allowed) the queue holds exactly the inserted slides in
order; and with no final-slide callback, a run made of `startSlidePresentation`, `update`,
`stopSlidePresentation` and background swaps keeps the identities of the queued slides in
place, so that `getSlides().size()` is the number of insertions. -/
theorem appended_slides_are_kept (p q1 q : CX_SlidePresenter) (d : CX_Display)
    (calls : List PresenterCall) (steps : List Step)
    (hd : p._config.display = some d) (hP : 0 < d._framePeriod)
    (hcb : p._config.finalSlideCallback = none) (hempty : p._slides = [])
    (hcalls : ∀ c ∈ calls,
      appendsSlide d._framePeriod c = true ∨ c = .endDrawingCurrentSlide)
    (hsteps : ∀ e ∈ steps, isPresentationStep e = true)
    (h1 : p.applyCalls calls = .ok q1) (h2 : q1.run steps = .ok q) :
    (∀ (r : CX_SlidePresenter) (c : PresenterCall), r._config.display = some d →
      appendsSlide d._framePeriod c = true →
      ¬ (r._lastFramebufferActive = true ∧ r._slides = []) →
      ∃ r', r.applyCall c = .ok r' ∧
        r'._slides = r._slides ++ [appendedSlide d._framePeriod c]) ∧
    q1._slides
      = (calls.filter (appendsSlide d._framePeriod)).map (appendedSlide d._framePeriod) ∧
    q._slides.map Slide.identity = q1._slides.map Slide.identity ∧
    q.getSlides.length = (calls.filter (appendsSlide d._framePeriod)).length := by
  have e1 := applyCalls_appends d._framePeriod calls hd rfl hP hcalls h1
  rw [hempty, List.nil_append] at e1
  have hcb1 : q1.settings.finalSlideCallback = none := by
    rw [applyCalls_frame calls h1]
    exact hcb
  have e2 := run_presentation steps h2 hsteps hcb1
  refine ⟨?_, e1, e2, ?_⟩
  · intro r c hr hc hopen
    rcases appendsSlide_applyCall hr hP hc with ⟨a1, a2, -⟩ | ⟨-, active, hok⟩
    · exact absurd ⟨a1, a2⟩ hopen
    · exact ⟨_, hok, rfl⟩
  · have := congrArg List.length e2
    simp only [List.length_map] at this
    rw [getSlides, this, e1]
    simp

/-- Witness for C3 (amended): three insertions, one of each kind, into the example presenter
and a run to completion leave three slides in the queue. -/
theorem appended_slides_are_kept_witness :
    exampleQueued._slides = (exampleCalls.filter (appendsSlide 16670000)).map
      (appendedSlide 16670000) ∧
    exampleFinished._slides.map Slide.identity = exampleQueued._slides.map Slide.identity ∧
    exampleFinished.getSlides.length = 3 :=
  (appended_slides_are_kept examplePresenter exampleQueued exampleFinished exampleDisplay
    exampleCalls exampleSteps rfl (by decide) rfl rfl (by decide) (by decide) rfl rfl).2

/-- Witness for C4: the example presenter cannot start while its queue is empty and is left
unchanged; with its three slides it starts. -/
theorem startSlidePresentation_fails_without_display_or_slides_witness :
    examplePresenter.startSlidePresentation = .ok (false, examplePresenter) ∧
    ∃ q, exampleQueued.startSlidePresentation = .ok (true, q) :=
  ⟨(startSlidePresentation_fails_without_display_or_slides examplePresenter).1 (Or.inr rfl),
   (startSlidePresentation_fails_without_display_or_slides exampleQueued).2
     (by simp [exampleQueued, examplePresenter]) (by simp [exampleQueued])⟩

/-- Witness for C5: starting again after the completed example run resets the three slides,
two of which were `FINISHED` and one `IN_PROGRESS`. -/
theorem startSlidePresentation_resets_witness :
    exampleFinished._slides.map (fun s => s.slideStatus)
      = [.FINISHED, .FINISHED, .IN_PROGRESS] ∧
    exampleRestarted._slides.map (fun s => s.slideStatus)
      = [.NOT_STARTED, .NOT_STARTED, .NOT_STARTED] ∧
    (∀ s ∈ exampleRestarted._slides, s.slideStatus = .NOT_STARTED) ∧
    exampleRestarted.isPresentingSlides = true :=
  have h := startSlidePresentation_resets exampleFinished exampleRestarted rfl
  ⟨rfl, rfl, h.1, h.2.2.2.2⟩

end CX_SlidePresenter

end CX

/-! ## Setup and the preparation of the next slide -/

namespace CX

theorem vectorAt_eq {α : Type} {l : List α} {i : Nat} {a : α} (h : l[i]? = some a) :
    vectorAt l i = .ok a := by
  simp [vectorAt, h]

theorem vectorModifyAt_eq {α : Type} {l : List α} {i : Nat} {a : α} (f : α → α)
    (h : l[i]? = some a) : vectorModifyAt l i f = .ok (l.set i (f a)) := by
  simp [vectorModifyAt, h]

theorem vectorAt_ok {α : Type} {l : List α} {i : Nat} {a : α} (h : vectorAt l i = .ok a) :
    l[i]? = some a := by
  unfold vectorAt at h
  cases hi : l[i]? with
  | none => simp [hi] at h
  | some b =>
    simp only [hi, Except.ok.injEq] at h
    rw [h]

theorem set_getElem?_self {α : Type} {l : List α} {i : Nat} {a : α} (h : l[i]? = some a) :
    l.set i a = l := by
  apply List.ext_getElem?
  intro j
  rw [List.getElem?_set]
  by_cases hij : i = j
  · subst hij
    have := (List.getElem?_eq_some_iff.mp h).1
    simp [this, h]
  · simp [hij]

namespace CX_SlidePresenter

theorem prepareNextSlide_eq {p : CX_SlidePresenter} {cur next : Slide}
    (hc : p._slides[p._currentSlide]? = some cur)
    (hn : p._slides[p._currentSlide + 1]? = some next) :
    p._prepareNextSlide = .ok { p with
      _slides := p._slides.set (p._currentSlide + 1)
        (preparedNext p._config.errorMode cur next) } := by
  unfold _prepareNextSlide
  rw [vectorAt_eq hc, vectorAt_eq hn]
  simp only [bind, Except.bind, pure, Except.pure]
  cases hm : p._config.errorMode with
  | DO_NOTHING =>
    simp only [vectorModifyAt_eq _ hn, preparedNext]
  | PROPAGATE_DELAYS =>
    simp only [preparedNext, anchorFrame]
    by_cases hlate : cur.actual.startTime > cur.intended.startTime
    · have hmax : max cur.actual.startTime cur.intended.startTime = cur.actual.startTime :=
        max_eq_left (le_of_lt hlate)
      simp only [hlate, ↓reduceIte, vectorModifyAt_eq _ hn, hmax]
    · have hmax : max cur.actual.startTime cur.intended.startTime = cur.intended.startTime :=
        max_eq_right (not_lt.mp hlate)
      simp only [hlate, ↓reduceIte, vectorModifyAt_eq _ hn, hmax]
  | FIX_TIMING_FROM_FIRST_SLIDE =>
    simp only [preparedNext, set_getElem?_self hn]

/-- C14: under `PROPAGATE_DELAYS`, `_prepareNextSlide` gives the next slide the intended start
time `max(current.actual.startTime, current.intended.startTime) + current.intended.duration`
and the intended start frame `A + current.intended.frameCount` in 32-bit unsigned
arithmetic, where `A` is the actual start frame of the current slide if it started later
than intended and its intended start frame otherwise; when the sum is below `2^32` it is the
plain sum.  Nothing else in the queue changes. -/
theorem prepareNextSlide_propagate_delays (p : CX_SlidePresenter) (cur next : Slide)
    (hmode : p._config.errorMode = .PROPAGATE_DELAYS)
    (hc : p._slides[p._currentSlide]? = some cur)
    (hn : p._slides[p._currentSlide + 1]? = some next) :
    ∃ (q : CX_SlidePresenter) (next' : Slide),
      p._prepareNextSlide = .ok q ∧
      q._slides = p._slides.set (p._currentSlide + 1) next' ∧
      q._slides[p._currentSlide + 1]? = some next' ∧
      next'.intended.startTime
        = max cur.actual.startTime cur.intended.startTime + cur.intended.duration ∧
      next'.intended.startFrame
        = toUInt32 ((if cur.actual.startTime > cur.intended.startTime
            then cur.actual.startFrame else cur.intended.startFrame)
            + cur.intended.frameCount) ∧
      ((if cur.actual.startTime > cur.intended.startTime
            then cur.actual.startFrame else cur.intended.startFrame)
          + cur.intended.frameCount < UINT32_SIZE →
        next'.intended.startFrame
          = (if cur.actual.startTime > cur.intended.startTime
              then cur.actual.startFrame else cur.intended.startFrame)
            + cur.intended.frameCount) ∧
      next'.intended.duration = next.intended.duration ∧
      next'.intended.frameCount = next.intended.frameCount ∧
      next'.actual = next.actual ∧ next'.slideStatus = next.slideStatus := by
  have h := prepareNextSlide_eq hc hn
  rw [hmode] at h
  refine ⟨_, _, h, rfl, ?_, rfl, rfl, ?_, rfl, rfl, rfl, rfl⟩
  · have := (List.getElem?_eq_some_iff.mp hn).1
    simp [List.getElem?_set, this]
  · intro hlt
    simp only [preparedNext, anchorFrame, toUInt32]
    exact Nat.mod_eq_of_lt hlt

/-- Witness for C14: on the finished example presenter with the current index put back to the
first slide, which started at frame 2 as intended, preparing the second slide gives it the
start frame 2 + 2. -/
theorem prepareNextSlide_propagate_delays_witness :
    ∃ (q : CX_SlidePresenter) (next' : Slide),
      ({ exampleFinished with _currentSlide := 0 } : CX_SlidePresenter)._prepareNextSlide
        = .ok q ∧
      next'.intended.startTime = 1033340000 + 33340000 ∧
      next'.intended.startFrame = 4 :=
  have h := prepareNextSlide_propagate_delays
    ({ exampleFinished with _currentSlide := 0 } : CX_SlidePresenter)
    { slideName := "first", drawingFunction := some 1, slideStatus := .FINISHED
      intended := { startFrame := 2, frameCount := 2, startTime := 1033340000,
                    duration := 33340000 }
      actual := { startFrame := 2, frameCount := 2, startTime := 1033340000,
                  duration := 33340000 } }
    { slideName := "second", slideStatus := .FINISHED
      intended := { startFrame := 4, frameCount := 1, startTime := 1066680000,
                    duration := 16670000 }
      actual := { startFrame := 4, frameCount := 1, startTime := 1066680000,
                  duration := 16670000 } }
    rfl rfl rfl
  let ⟨q, next', h1, _, _, h4, h5, _⟩ := h
  ⟨q, next', h1, h4, h5⟩

/-- C19: `setup` fails exactly on a null display; when it returns true the stored pre-swap
hogging duration is `min(config.preSwapCPUHoggingDuration, framePeriod - 1 ms)`, hence at
most the frame period minus one millisecond. -/
theorem setup_clamps_hogging_duration (p : CX_SlidePresenter) (config : Configuration)
    (fenceSyncSupported : Bool) (d : CX_Display) (hd : config.display = some d) :
    (p.setup config fenceSyncSupported).1 = true ∧
    (p.setup config fenceSyncSupported).2._config.preSwapCPUHoggingDuration
      = min config.preSwapCPUHoggingDuration (d.getFramePeriod - CX_Millis 1) ∧
    (p.setup config fenceSyncSupported).2._config.preSwapCPUHoggingDuration
      ≤ d.getFramePeriod - CX_Millis 1 ∧
    (p.setup config fenceSyncSupported).2._config.display = some d := by
  unfold setup
  simp only [hd]
  by_cases hgt : config.preSwapCPUHoggingDuration > d.getFramePeriod - CX_Millis 1
  · have hmin : min config.preSwapCPUHoggingDuration (d.getFramePeriod - CX_Millis 1)
        = d.getFramePeriod - CX_Millis 1 := min_eq_right (le_of_lt hgt)
    cases fenceSyncSupported <;> simp [hgt, hmin, hd]
  · have hle := not_lt.mp hgt
    have hmin : min config.preSwapCPUHoggingDuration (d.getFramePeriod - CX_Millis 1)
        = config.preSwapCPUHoggingDuration := min_eq_left hle
    cases fenceSyncSupported <;> simp [hgt, hmin, hd, hle]

/-- Witness for C19: with a frame period of 16.67 ms a requested 20 ms is stored as
15.67 ms. -/
theorem setup_clamps_hogging_duration_witness :
    (examplePresenter.setup exampleHoggingConfig true).2._config.preSwapCPUHoggingDuration
      = min 20000000 (16670000 - CX_Millis 1) ∧
    min (20000000 : Int) (16670000 - CX_Millis 1) = 15670000 :=
  ⟨(setup_clamps_hogging_duration examplePresenter exampleHoggingConfig true exampleDisplay
      rfl).2.1, by decide⟩

end CX_SlidePresenter

end CX

/-! ## Estimation of the frame period -/

namespace CX

namespace CX_Display

end CX_Display

end CX

/-! ## Calls that only insert or stop -/

namespace CX

theorem vectorMapFrom_getElem? {α : Type} (f : α → α) :
    ∀ (k : Nat) (l : List α) (j : Nat),
      (vectorMapFrom f k l)[j]? = (l[j]?).map (fun a => if k ≤ j then f a else a) := by
  intro k l
  induction l generalizing k with
  | nil => intro j; cases k <;> simp [vectorMapFrom]
  | cons a v ih =>
    intro j
    cases k with
    | zero =>
      cases j with
      | zero => simp [vectorMapFrom]
      | succ j => simp [vectorMapFrom, ih]
    | succ k =>
      cases j with
      | zero => simp [vectorMapFrom]
      | succ j => simp [vectorMapFrom, ih]

theorem vectorMapFrom_length {α : Type} (f : α → α) (k : Nat) (l : List α) :
    (vectorMapFrom f k l).length = l.length := by
  induction l generalizing k with
  | nil => cases k <;> rfl
  | cons a v ih => cases k <;> simp [vectorMapFrom, ih]

namespace CX_SlidePresenter

theorem insertion_frame {p q : CX_SlidePresenter} {c : PresenterCall}
    (hc : isInsertion c = true) (h : p.applyCall c = .ok q) :
    ∃ (added : List Slide) (active : Bool),
      q = { p with _slides := p._slides ++ added
                   _slideInfo := p._slideInfo ++ added.map (fun _ => ({} : ExtraSlideInfo))
                   _lastFramebufferActive := active } ∧
      added.length ≤ 1 := by
  have hrej : ∀ a : Bool, ∃ (added : List Slide) (active : Bool),
      ({ p with _lastFramebufferActive := a } : CX_SlidePresenter)
        = { p with _slides := p._slides ++ added
                   _slideInfo := p._slideInfo ++ added.map (fun _ => ({} : ExtraSlideInfo))
                   _lastFramebufferActive := active } ∧
      added.length ≤ 1 := fun a => ⟨[], a, by simp, by simp⟩
  have hsame : ∃ (added : List Slide) (active : Bool),
      p = { p with _slides := p._slides ++ added
                   _slideInfo := p._slideInfo ++ added.map (fun _ => ({} : ExtraSlideInfo))
                   _lastFramebufferActive := active } ∧
      added.length ≤ 1 := ⟨[], p._lastFramebufferActive, by simp, by simp⟩
  cases c with
  | appendSlide slide =>
    simp only [applyCall, appendSlide] at h
    rcases autoClose_cases p with ⟨-, -, he⟩ | ⟨-, hp1⟩
    · rw [he] at h
      simp only [bind, Except.bind, pure, Except.pure] at h
      split at h
      · simp only [Except.ok.injEq] at h
        subst h
        exact hsame
      · simp at h
    · rw [hp1] at h
      simp only [bind, Except.bind, pure, Except.pure] at h
      split at h
      · simp only [Except.ok.injEq] at h
        subst h
        exact hsame
      · split at h
        · simp only [Except.ok.injEq] at h
          subst h
          exact hrej false
        · split at h
          · simp at h
          · simp only [Except.ok.injEq] at h
            subst h
            exact ⟨[_], false, rfl, by simp⟩
  | appendSlideFunction f D name =>
    simp only [applyCall, appendSlideFunction] at h
    rcases autoClose_cases p with ⟨-, -, he⟩ | ⟨-, hp1⟩
    · rw [he] at h
      simp only [bind, Except.bind, pure, Except.pure] at h
      split at h
      · simp only [Except.ok.injEq] at h
        subst h
        exact hsame
      · split at h
        · simp only [Except.ok.injEq] at h
          subst h
          exact hsame
        · simp at h
    · rw [hp1] at h
      simp only [bind, Except.bind, pure, Except.pure] at h
      split at h
      · simp only [Except.ok.injEq] at h
        subst h
        exact hsame
      · split at h
        · simp only [Except.ok.injEq] at h
          subst h
          exact hsame
        · split at h
          · simp at h
          · simp only [Except.ok.injEq] at h
            subst h
            exact ⟨[_], false, rfl, by simp⟩
  | beginDrawingNextSlide D name =>
    simp only [applyCall, beginDrawingNextSlide] at h
    rcases autoClose_cases p with ⟨-, -, he⟩ | ⟨-, hp1⟩
    · rw [he] at h
      simp [bind, Except.bind] at h
    · rw [hp1] at h
      simp only [bind, Except.bind, pure, Except.pure] at h
      split at h
      · simp only [Except.ok.injEq] at h
        subst h
        exact hrej false
      · split at h
        · simp only [Except.ok.injEq] at h
          subst h
          exact hrej false
        · split at h
          · simp at h
          · simp only [Except.ok.injEq] at h
            subst h
            exact ⟨[_], true, rfl, by simp⟩
  | endDrawingCurrentSlide =>
    simp only [applyCall] at h
    rw [endDrawingCurrentSlide_ok h]
    exact hrej false
  | startSlidePresentation => simp [isInsertion] at hc
  | stopSlidePresentation => simp [isInsertion] at hc
  | clearSlides => simp [isInsertion] at hc

end CX_SlidePresenter

end CX

namespace CX

namespace CX_SlidePresenter

theorem applyCalls_appendsOrStops (calls : List PresenterCall) :
    ∀ {p q : CX_SlidePresenter}, (∀ c ∈ calls, appendsOrStops c = true) →
      p.applyCalls calls = .ok q →
      q._config = p._config ∧ q._currentSlide = p._currentSlide ∧
      q._hoggingStartTime = p._hoggingStartTime ∧
      (∃ added, q._slides = p._slides ++ added) ∧
      (q._presentingSlides = true → p._presentingSlides = true) ∧
      (q._synchronizing = true → p._synchronizing = true) ∧
      (.stopSlidePresentation ∈ calls →
        q._presentingSlides = false ∧ q._synchronizing = false) ∧
      (.stopSlidePresentation ∉ calls →
        q._presentingSlides = p._presentingSlides ∧ q._synchronizing = p._synchronizing) := by
  induction calls with
  | nil =>
    intro p q _ h
    simp only [applyCalls, Except.ok.injEq] at h
    subst h
    simp
  | cons c rest ih =>
    intro p q hcalls h
    unfold applyCalls at h
    split at h
    · simp at h
    · rename_i p1 hp1
      have hrest : ∀ c' ∈ rest, appendsOrStops c' = true :=
        fun c' hc' => hcalls c' (List.mem_cons_of_mem _ hc')
      obtain ⟨i1, i2, i3, ⟨added2, i4⟩, i5, i6, i7, i8⟩ := ih hrest h
      have hc := hcalls c (List.mem_cons_self _ _)
      by_cases hstop : c = .stopSlidePresentation
      · subst hstop
        simp only [applyCall, Except.ok.injEq] at hp1
        subst hp1
        refine ⟨i1, i2, i3, ⟨added2, i4⟩, ?_, ?_, ?_, ?_⟩
        · intro hq
          have := i5 hq
          simp [stopSlidePresentation] at this
        · intro hq
          have := i6 hq
          simp [stopSlidePresentation] at this
        · intro _
          by_cases hin : PresenterCall.stopSlidePresentation ∈ rest
          · exact i7 hin
          · have := i8 hin
            simpa [stopSlidePresentation] using this
        · intro hnot
          simp at hnot
      · have hins : isInsertion c = true := by
          cases c with
          | stopSlidePresentation => exact absurd rfl hstop
          | appendSlide _ => rfl
          | appendSlideFunction _ _ _ => rfl
          | beginDrawingNextSlide _ _ => rfl
          | endDrawingCurrentSlide => rfl
          | startSlidePresentation => simp [appendsOrStops, isInsertion] at hc
          | clearSlides => simp [appendsOrStops, isInsertion] at hc
        obtain ⟨added1, active, hq1, -⟩ := insertion_frame hins hp1
        subst hq1
        refine ⟨i1, i2, i3, ⟨added1 ++ added2, by rw [i4]; simp⟩, i5, i6, ?_, ?_⟩
        · intro hin
          rcases List.mem_cons.mp hin with heq | hin'
          · exact absurd heq.symm hstop
          · exact i7 hin'
        · intro hnot
          exact i8 (fun hin => hnot (List.mem_cons_of_mem _ hin))

end CX_SlidePresenter

end CX

/-! ## The shape of the results of the update helpers -/

namespace CX

namespace CX_SlidePresenter

theorem finishPreviousSlide_shape {p q : CX_SlidePresenter} (h : p._finishPreviousSlide = .ok q) :
    ∃ slides, q = { p with _slides := slides } ∧ slides.length = p._slides.length := by
  unfold _finishPreviousSlide at h
  simp only [bind, Except.bind, pure, Except.pure, throw, throwThe, MonadExceptOf.throw] at h
  split at h
  · simp at h
  · split at h
    · simp at h
    · split at h
      · simp at h
      · rename_i slides hslides
        simp only [Except.ok.injEq] at h
        subst h
        exact ⟨slides, rfl, vectorModifyAt_length hslides⟩

theorem renderCurrentSlide_shape {p q : CX_SlidePresenter} (h : p._renderCurrentSlide = .ok q) :
    ∃ slides info, q = { p with _slides := slides, _slideInfo := info } ∧
      slides.length = p._slides.length ∧ info.length = p._slideInfo.length ∧
      p._currentSlide < p._slides.length := by
  unfold _renderCurrentSlide at h
  obtain ⟨cur, hcur, h⟩ := bind_ok h
  have hlt : p._currentSlide < p._slides.length :=
    (List.getElem?_eq_some_iff.mp (vectorAt_ok hcur)).1
  simp only [bind, Except.bind, pure, Except.pure, throw, throwThe, MonadExceptOf.throw] at h
  split at h
  · simp at h
  · split at h
    · split at h
      · simp at h
      · rename_i info hinfo
        split at h
        · simp at h
        · rename_i slides hslides
          simp only [Except.ok.injEq] at h
          subst h
          exact ⟨slides, info, rfl, vectorModifyAt_length hslides, vectorModifyAt_length hinfo,
            hlt⟩
    · split at h
      · simp at h
      · rename_i slides hslides
        simp only [Except.ok.injEq] at h
        subst h
        exact ⟨slides, p._slideInfo, rfl, vectorModifyAt_length hslides, rfl, hlt⟩

theorem waitSyncCheckLoop_shape (env : UpdateEnv) (l : List Nat) :
    ∀ {p q : CX_SlidePresenter}, _waitSyncCheckLoop env l p = .ok q →
      ∃ slides info, q = { p with _slides := slides, _slideInfo := info } ∧
        slides.length = p._slides.length ∧ info.length = p._slideInfo.length := by
  induction l with
  | nil =>
    intro p q h
    simp only [_waitSyncCheckLoop, Except.ok.injEq] at h
    subst h
    exact ⟨_, _, rfl, rfl, rfl⟩
  | cons i rest ih =>
    intro p q h
    unfold _waitSyncCheckLoop at h
    split at h
    · split at h
      · simp at h
      · rename_i slides hslides
        obtain ⟨s2, i2, hq, h1, h2⟩ := ih h
        subst hq
        exact ⟨s2, i2, rfl, by rw [h1]; exact vectorModifyAt_length hslides,
          by rw [h2]; simp⟩
    · exact ih h

theorem waitSyncCheck_shape {env : UpdateEnv} {p q : CX_SlidePresenter}
    (h : p._waitSyncCheck env = .ok q) :
    ∃ slides info, q = { p with _slides := slides, _slideInfo := info } ∧
      slides.length = p._slides.length ∧ info.length = p._slideInfo.length := by
  unfold _waitSyncCheck at h
  split at h
  · simp only [Except.ok.injEq] at h
    subst h
    exact ⟨_, _, rfl, rfl, rfl⟩
  · exact waitSyncCheckLoop_shape env _ h

theorem slideOnset_cases {p q : CX_SlidePresenter} {frameNumber : Nat} {onset : Int} {b : Bool}
    (h : p._slideOnset frameNumber onset = .ok (b, q)) :
    ∃ slides, slides.length = p._slides.length ∧
      ((p._currentSlide + 1 = p._slides.length ∧
          ({ p with _slides := slides } : CX_SlidePresenter)._handleFinalSlide = .ok q ∧
          b = !q._presentingSlides) ∨
       (p._currentSlide + 1 ≠ p._slides.length ∧ q = { p with _slides := slides } ∧
          b = false)) := by
  unfold _slideOnset at h
  obtain ⟨slides1, h1, h⟩ := bind_ok h
  obtain ⟨slides2, h2, h⟩ := bind_ok h
  obtain ⟨p2, h3, h⟩ := bind_ok h
  have e1 := vectorModifyAt_length h1
  have e2 : slides2.length = slides1.length := by
    split at h2
    · exact vectorModifyAt_length h2
    · simp only [pure, Except.pure, Except.ok.injEq] at h2
      rw [h2]
  obtain ⟨slides3, hp2, e3⟩ : ∃ slides3, p2 = { p with _slides := slides3 } ∧
      slides3.length = slides2.length := by
    split at h3
    · obtain ⟨s3, hq, hl⟩ := finishPreviousSlide_shape h3
      exact ⟨s3, hq, hl⟩
    · simp only [pure, Except.pure, Except.ok.injEq] at h3
      exact ⟨slides2, h3.symm, rfl⟩
  subst hp2
  refine ⟨slides3, by rw [e3, e2, e1], ?_⟩
  simp only at h
  split at h
  · rename_i hlast
    obtain ⟨p3, h4, h⟩ := bind_ok h
    simp only [pure, Except.pure, Except.ok.injEq, Prod.mk.injEq] at h
    obtain ⟨rfl, rfl⟩ := h
    left
    exact ⟨by rw [hlast, e3, e2, e1], h4, rfl⟩
  · rename_i hlast
    simp only [pure, Except.pure, Except.ok.injEq, Prod.mk.injEq] at h
    obtain ⟨rfl, rfl⟩ := h
    right
    exact ⟨by rw [← e1, ← e2, ← e3]; exact hlast, rfl, rfl⟩

end CX_SlidePresenter

end CX

/-! ## The end of a presentation at the final slide -/

namespace CX

namespace CX_SlidePresenter

end CX_SlidePresenter

end CX

namespace CX

namespace CX_SlidePresenter

end CX_SlidePresenter

end CX

/-! ## Updates while nothing is presented -/

namespace CX

namespace CX_SlidePresenter

theorem waitSyncCheckLoop_fence (env : UpdateEnv) (l : List Nat) :
    ∀ {p q : CX_SlidePresenter}, _waitSyncCheckLoop env l p = .ok q →
      q._slides.map Slide.withoutFence = p._slides.map Slide.withoutFence ∧
      (∀ j, (q._slideInfo.getD j {}).awaitingFenceSync = true →
        (p._slideInfo.getD j {}).awaitingFenceSync = true) := by
  induction l with
  | nil =>
    intro p q h
    simp only [_waitSyncCheckLoop, Except.ok.injEq] at h
    subst h
    exact ⟨rfl, fun _ hj => hj⟩
  | cons i rest ih =>
    intro p q h
    unfold _waitSyncCheckLoop at h
    split at h
    · split at h
      · simp at h
      · rename_i slides hslides
        obtain ⟨h1, h2⟩ := ih h
        refine ⟨h1.trans ?_, ?_⟩
        · refine vectorModifyAt_map Slide.withoutFence hslides ?_
          intro s
          simp only [Slide.withoutFence]
          by_cases hs : s.slideStatus = .COPY_TO_BACK_BUFFER_PENDING <;> simp [hs]
        · intro j hj
          have := h2 j hj
          simp only [List.getD_eq_getElem?_getD, List.getElem?_set] at this ⊢
          by_cases hij : i = j
          · subst hij
            by_cases hlt : i < p._slideInfo.length
            · simp [hlt] at this
            · simp [hlt] at this
          · simp [hij] at this
            simpa using this
    · exact ih h

end CX_SlidePresenter

end CX

/-! ## Propagation of delays -/

namespace CX

namespace CX_SlidePresenter

/-- C16 (code diverges): under `PROPAGATE_DELAYS` in multi-core mode, slides of 25, 25, 25,
33.34 and 16.67 ms at a period of 16.67 ms are planned for 1, 1, 1, 2 and 1 frames.  One
update is missed, so that slide 2 stays one frame too long and slide 3 comes on screen at
frame 6 instead of 5; all other swaps are followed by an update.  The delay is not
propagated: slide 4 is still scheduled for frame 7, and slide 3, planned for 2 frames, is
shown for 1.  The outcome is the one of `DO_NOTHING`.  With durations of whole frame periods
the same run does propagate the delay and slide 3 keeps its 2 frames. -/
theorem propagate_delays_misses_overrun :
    (examplePresenterWith .PROPAGATE_DELAYS).applyCalls exampleDriftCalls
      = .ok (exampleDriftQueued .PROPAGATE_DELAYS) ∧
    ((exampleDriftQueued .PROPAGATE_DELAYS).run exampleMissedSteps).map frameReport
      = .ok [((2, 1), (2, 1)), ((3, 1), (3, 1)), ((4, 1), (4, 2)), ((5, 2), (6, 1)),
             ((7, 1), (7, UINT32_MAX))] ∧
    ((exampleDriftQueued .PROPAGATE_DELAYS).run exampleMissedSteps).map isPresentingSlides
      = .ok false ∧
    ((exampleDriftQueued .DO_NOTHING).run exampleMissedSteps).map frameReport
      = .ok [((2, 1), (2, 1)), ((3, 1), (3, 1)), ((4, 1), (4, 2)), ((5, 2), (6, 1)),
             ((7, 1), (7, UINT32_MAX))] ∧
    (examplePresenterWith .PROPAGATE_DELAYS).applyCalls exampleExactCalls
      = .ok (exampleExactQueued .PROPAGATE_DELAYS) ∧
    ((exampleExactQueued .PROPAGATE_DELAYS).run exampleMissedSteps).map frameReport
      = .ok [((2, 1), (2, 1)), ((3, 1), (3, 1)), ((4, 1), (4, 2)), ((5, 2), (6, 2)),
             ((8, 1), (8, UINT32_MAX))] :=
  ⟨rfl, rfl, rfl, rfl, rfl, rfl⟩

end CX_SlidePresenter

end CX

/-! ## Chains of slides -/

namespace CX

namespace CX_SlidePresenter

theorem Chained.mono {R : Slide → Slide → Prop} {n m : Nat} {l : List Slide}
    (h : Chained R n l) (hm : m ≤ n) : Chained R m l :=
  fun k a b ha hb hk => h k a b ha hb (Nat.le_trans hk hm)

theorem Chained.zero (R : Slide → Slide → Prop) (l : List Slide) : Chained R 0 l :=
  fun _ _ _ _ _ hk => absurd hk (by omega)

theorem Chained.succ {R : Slide → Slide → Prop} {n : Nat} {l : List Slide}
    (h : Chained R n l) (hn : ∀ a b, l[n]? = some a → l[n + 1]? = some b → R a b) :
    Chained R (n + 1) l := by
  intro k a b ha hb hk
  by_cases hkn : k = n
  · subst hkn
    exact hn a b ha hb
  · exact h k a b ha hb (by omega)

/-- A chain is kept when the slides up to `n` keep the fields the relation reads: `V` of the
first slide of a pair and `W` of the second. -/
theorem Chained.transfer {β γ : Type} {R : Slide → Slide → Prop} {n : Nat} {l l' : List Slide}
    (V : Slide → β) (W : Slide → γ)
    (hR : ∀ a b a' b', V a' = V a → W b' = W b → R a b → R a' b')
    (hV : ∀ j, j + 1 ≤ n → (l'[j]?).map V = (l[j]?).map V)
    (hW : ∀ j, j ≤ n → (l'[j]?).map W = (l[j]?).map W)
    (h : Chained R n l) : Chained R n l' := by
  intro k a' b' ha' hb' hk
  have h1 := hV k hk
  have h2 := hW (k + 1) hk
  rw [ha'] at h1
  rw [hb'] at h2
  cases ha : l[k]? with
  | none => simp [ha] at h1
  | some a =>
    cases hb : l[k + 1]? with
    | none => simp [hb] at h2
    | some b =>
      simp only [ha, Option.map_some', Option.some.injEq] at h1
      simp only [hb, Option.map_some', Option.some.injEq] at h2
      exact hR a b a' b' h1 h2 (h k a b ha hb hk)

theorem finishedBy_congr (a b a' b' : Slide) (ha : a'.actual = a.actual)
    (hb : (b'.actual.startTime, b'.actual.startFrame) = (b.actual.startTime, b.actual.startFrame))
    (h : finishedBy a b) : finishedBy a' b' := by
  simp only [Prod.mk.injEq] at hb
  unfold finishedBy at h ⊢
  rw [ha, hb.1, hb.2]
  exact h

theorem anchoredTo_congr (a b a' b' : Slide) (ha : a'.intended = a.intended)
    (hb : b'.intended = b.intended) (h : anchoredTo a b) : anchoredTo a' b' := by
  unfold anchoredTo at h ⊢
  rw [ha, hb]
  exact h

end CX_SlidePresenter

end CX

/-! ## What is kept while a presentation runs -/

namespace CX

namespace CX_SlidePresenter

theorem map_getElem?_of_map_eq {β : Type} (f : Slide → β) {l l' : List Slide}
    (h : l'.map f = l.map f) (j : Nat) : (l'[j]?).map f = (l[j]?).map f := by
  rw [← List.getElem?_map, ← List.getElem?_map, h]

theorem map_view_of_withoutFence {β : Type} (g : Slide → β)
    (hg : ∀ s : Slide, g s.withoutFence = g s) {l l' : List Slide}
    (h : l'.map Slide.withoutFence = l.map Slide.withoutFence) (j : Nat) :
    (l'[j]?).map g = (l[j]?).map g := by
  have hj := map_getElem?_of_map_eq Slide.withoutFence h j
  cases h1 : l'[j]? with
  | none =>
    cases h2 : l[j]? with
    | none => rfl
    | some b => simp [h1, h2] at hj
  | some a =>
    cases h2 : l[j]? with
    | none => simp [h1, h2] at hj
    | some b =>
      simp only [h1, h2, Option.map_some', Option.some.injEq] at hj ⊢
      rw [← hg a, ← hg b, hj]

theorem isPending_withoutFence (s : Slide) : s.withoutFence.isPending = s.isPending := by
  unfold Slide.isPending Slide.withoutFence
  cases hs : s.slideStatus <;> simp

theorem currentIsPending_of_view {p q : CX_SlidePresenter}
    (hcs : q._currentSlide = p._currentSlide)
    (h : (q._slides[p._currentSlide]?).map Slide.isPending
      = (p._slides[p._currentSlide]?).map Slide.isPending) :
    q.currentIsPending = p.currentIsPending := by
  unfold currentIsPending
  rw [hcs]
  cases h1 : q._slides[p._currentSlide]? with
  | none =>
    cases h2 : p._slides[p._currentSlide]? with
    | none => rfl
    | some b => simp [h1, h2] at h
  | some a =>
    cases h2 : p._slides[p._currentSlide]? with
    | none => simp [h1, h2] at h
    | some b => simpa [h1, h2] using h

/-- The invariant of a started presentation reads the slides only through their timing
fields and through whether they are pending. -/
theorem Started.of_view {p q : CX_SlidePresenter} (h : Started p)
    (hsync : q._synchronizing = p._synchronizing)
    (hpres : q._presentingSlides = p._presentingSlides)
    (hcs : q._currentSlide = p._currentSlide)
    (hmode : q._config.errorMode = p._config.errorMode)
    (hslides : q._slides.map Slide.withoutFence = p._slides.map Slide.withoutFence) :
    Started q := by
  have hpend : q.currentIsPending = p.currentIsPending :=
    currentIsPending_of_view hcs
      (map_view_of_withoutFence Slide.isPending isPending_withoutFence hslides _)
  have hb1 : q.onScreenBound = p.onScreenBound := by
    unfold onScreenBound
    rw [hpend, hcs]
  have hb2 : q.preparedBound = p.preparedBound := by
    unfold preparedBound
    rw [hpend, hcs, hpres]
  rcases h with ⟨h1, h2⟩ | ⟨h1, h0, h2, h3⟩
  · exact Or.inl ⟨by rw [hsync, h1], by rw [hpres, h2]⟩
  · refine Or.inr ⟨by rw [hsync, h1], by rw [hpend, hpres]; exact h0, ?_, ?_⟩
    · rw [hb1]
      exact h2.transfer (fun s => s.actual)
        (fun s => (s.actual.startTime, s.actual.startFrame)) finishedBy_congr
        (fun j _ => map_view_of_withoutFence (fun s : Slide => s.actual)
          (fun _ => rfl) hslides j)
        (fun j _ => map_view_of_withoutFence
          (fun s : Slide => (s.actual.startTime, s.actual.startFrame)) (fun _ => rfl) hslides j)
    · intro hm
      rw [hb2]
      exact (h3 (by rw [← hmode]; exact hm)).transfer (fun s => s.intended)
        (fun s => s.intended) anchoredTo_congr
        (fun j _ => map_view_of_withoutFence (fun s : Slide => s.intended)
          (fun _ => rfl) hslides j)
        (fun j _ => map_view_of_withoutFence (fun s : Slide => s.intended)
          (fun _ => rfl) hslides j)

theorem waitSyncCheck_fence {env : UpdateEnv} {p q : CX_SlidePresenter}
    (h : p._waitSyncCheck env = .ok q) :
    q._slides.map Slide.withoutFence = p._slides.map Slide.withoutFence := by
  unfold _waitSyncCheck at h
  split at h
  · simp only [Except.ok.injEq] at h
    rw [h]
  · exact (waitSyncCheckLoop_fence env _ h).1

theorem waitSyncCheck_started {env : UpdateEnv} {p q : CX_SlidePresenter}
    (h : p._waitSyncCheck env = .ok q) (hp : Started p) : Started q := by
  obtain ⟨slides, info, hq, -, -⟩ := waitSyncCheck_shape h
  have hf := waitSyncCheck_fence h
  subst hq
  exact hp.of_view rfl rfl rfl rfl hf

end CX_SlidePresenter

end CX

namespace CX

namespace CX_SlidePresenter

theorem set_view {β : Type} (V : Slide → β) {l : List Slide} {i : Nat} {a x : Slide}
    (hi : l[i]? = some a) (hV : V x = V a) (j : Nat) :
    ((l.set i x)[j]?).map V = (l[j]?).map V := by
  rw [List.getElem?_set]
  by_cases hij : i = j
  · subst hij
    have hlt := (List.getElem?_eq_some_iff.mp hi).1
    simp [hlt, hi, hV]
  · simp [hij]

theorem set_view_ne {β : Type} (V : Slide → β) (l : List Slide) {i j : Nat} (x : Slide)
    (hij : j ≠ i) : ((l.set i x)[j]?).map V = (l[j]?).map V := by
  rw [List.getElem?_set]
  simp [Ne.symm hij]

theorem set_getElem?_same {l : List Slide} {i : Nat} {a : Slide} (x : Slide)
    (hi : l[i]? = some a) : (l.set i x)[i]? = some x := by
  have hlt := (List.getElem?_eq_some_iff.mp hi).1
  simp [List.getElem?_set, hlt]

theorem renderCurrentSlide_slides {p q : CX_SlidePresenter} (h : p._renderCurrentSlide = .ok q) :
    ∃ cur st info, p._slides[p._currentSlide]? = some cur ∧
      (st = SlideStatus.SWAP_PENDING ∨ st = SlideStatus.COPY_TO_BACK_BUFFER_PENDING) ∧
      q = { p with _slides := p._slides.set p._currentSlide { cur with slideStatus := st }
                   _slideInfo := info } := by
  unfold _renderCurrentSlide at h
  obtain ⟨cur, hcur, h⟩ := bind_ok h
  have hc := vectorAt_ok hcur
  simp only [bind, Except.bind, pure, Except.pure, throw, throwThe, MonadExceptOf.throw] at h
  split at h
  · simp at h
  · split at h
    · split at h
      · simp at h
      · rename_i info hinfo
        rw [vectorModifyAt_eq _ hc] at h
        simp only [Except.ok.injEq] at h
        exact ⟨cur, _, info, hc, Or.inr rfl, h.symm⟩
    · rw [vectorModifyAt_eq _ hc] at h
      simp only [Except.ok.injEq] at h
      exact ⟨cur, _, p._slideInfo, hc, Or.inl rfl, h.symm⟩

/-- The state right after the current slide has been rendered. -/
theorem renderCurrentSlide_pending {p q : CX_SlidePresenter}
    (h : p._renderCurrentSlide = .ok q) :
    q.currentIsPending = true ∧ q._currentSlide = p._currentSlide ∧
    q._presentingSlides = p._presentingSlides ∧ q._synchronizing = p._synchronizing ∧
    q._config = p._config ∧
    (∀ j : Nat, (q._slides[j]?).map (fun s : Slide => s.actual)
      = (p._slides[j]?).map (fun s : Slide => s.actual)) ∧
    (∀ j : Nat, (q._slides[j]?).map (fun s : Slide => s.intended)
      = (p._slides[j]?).map (fun s : Slide => s.intended)) := by
  obtain ⟨cur, st, info, hcur, hst, hq⟩ := renderCurrentSlide_slides h
  subst hq
  refine ⟨?_, rfl, rfl, rfl, rfl, ?_, ?_⟩
  · unfold currentIsPending
    simp only [set_getElem?_same _ hcur, Slide.isPending]
    rcases hst with rfl | rfl <;> simp
  · intro j
    refine set_view (fun s : Slide => s.actual) hcur ?_ j
    rfl
  · intro j
    refine set_view (fun s : Slide => s.intended) hcur ?_ j
    rfl

end CX_SlidePresenter

end CX

namespace CX

namespace CX_SlidePresenter

theorem Started.chains {p : CX_SlidePresenter} (h : Started p)
    (hsync : p._synchronizing = false) :
    Chained finishedBy p.onScreenBound p._slides ∧
    (p._config.errorMode = .DO_NOTHING → Chained anchoredTo p.preparedBound p._slides) := by
  rcases h with ⟨h1, -⟩ | ⟨-, -, h2, h3⟩
  · rw [hsync] at h1
    exact absurd h1 (by simp)
  · exact ⟨h2, h3⟩

theorem Started.ended {p : CX_SlidePresenter} (h : Started p)
    (hsync : p._synchronizing = false) (hpres : p._presentingSlides = false) :
    p.currentIsPending = false := by
  rcases h with ⟨h1, -⟩ | ⟨-, h0, -, -⟩
  · rw [hsync] at h1
    exact absurd h1 (by simp)
  · exact h0 hpres

theorem multiCoreAdvance_started {p q : CX_SlidePresenter} {frameNumber : Nat}
    (h : _multiCoreAdvance frameNumber p = .ok q)
    (hsync : p._synchronizing = false) (hpres : p._presentingSlides = true)
    (hpend : p.currentIsPending = false) (hp : Started p) : Started q := by
  obtain ⟨hA, hB⟩ := hp.chains hsync
  have hb1 : p.onScreenBound = p._currentSlide := by simp [onScreenBound, hpend]
  have hb2 : p.preparedBound = p._currentSlide + 1 := by simp [preparedBound, hpend, hpres]
  rw [hb1] at hA
  rw [hb2] at hB
  unfold _multiCoreAdvance at h
  simp only [bind, Except.bind, pure, Except.pure] at h
  split at h
  · split at h
    · simp at h
    · split at h
      · obtain ⟨r1, r2, r3, r4, r5, r6, r7⟩ := renderCurrentSlide_pending h
        simp only at r2 r3 r4 r5 r6 r7
        have hb1' : q.onScreenBound = p._currentSlide := by simp [onScreenBound, r1, r2]
        have hb2' : q.preparedBound = p._currentSlide + 1 := by simp [preparedBound, r1, r2]
        refine Or.inr ⟨by rw [r4, hsync], fun hq => by rw [r3, hpres] at hq; simp at hq, ?_, ?_⟩
        · rw [hb1']
          refine hA.transfer (fun s => s.actual)
            (fun s => (s.actual.startTime, s.actual.startFrame)) finishedBy_congr
            (fun j _ => r6 j) ?_
          intro j _
          have := r6 j
          cases h1 : q._slides[j]? <;> cases h2 : p._slides[j]? <;> simp_all
        · intro hm
          rw [hb2']
          exact (hB (by rw [← r5]; exact hm)).transfer (fun s => s.intended)
            (fun s => s.intended) anchoredTo_congr (fun j _ => r7 j) (fun j _ => r7 j)
      · simp only [Except.ok.injEq] at h
        subst h
        exact hp
  · simp only [Except.ok.injEq] at h
    subst h
    exact hp

end CX_SlidePresenter

end CX

/-! ## The onset of a slide -/

namespace CX

theorem vectorModifyAt_ok {α : Type} {l l' : List α} {i : Nat} {f : α → α}
    (h : vectorModifyAt l i f = .ok l') : ∃ a, l[i]? = some a ∧ l' = l.set i (f a) := by
  unfold vectorModifyAt at h
  cases hi : l[i]? with
  | none => simp [hi] at h
  | some a =>
    simp only [hi, Except.ok.injEq] at h
    exact ⟨a, rfl, h.symm⟩

namespace CX_SlidePresenter

theorem finishPreviousSlide_eq {p q : CX_SlidePresenter} (h : p._finishPreviousSlide = .ok q) :
    ∃ previousSlide current finished, p._currentSlide ≠ 0 ∧
      p._slides[p._currentSlide - 1]? = some previousSlide ∧
      p._slides[p._currentSlide]? = some current ∧
      q = { p with _slides := p._slides.set (p._currentSlide - 1) finished } ∧
      finished.slideStatus = .FINISHED ∧
      finished.intended = previousSlide.intended ∧
      finished.actual.startTime = previousSlide.actual.startTime ∧
      finished.actual.startFrame = previousSlide.actual.startFrame ∧
      finishedBy finished current := by
  unfold _finishPreviousSlide at h
  simp only [bind, Except.bind, pure, Except.pure, throw, throwThe, MonadExceptOf.throw] at h
  split at h
  · simp at h
  · rename_i hne
    split at h
    · simp at h
    · rename_i current hcur
      split at h
      · simp at h
      · rename_i slides hslides
        obtain ⟨previousSlide, hprev, hset⟩ := vectorModifyAt_ok hslides
        simp only [Except.ok.injEq] at h
        subst h
        subst hset
        exact ⟨previousSlide, current, _, hne, hprev, vectorAt_ok hcur, rfl, rfl, rfl, rfl, rfl,
          rfl, rfl⟩

end CX_SlidePresenter

end CX

namespace CX

namespace CX_SlidePresenter

/-- What `update` does when the current slide has come on screen, up to the handling of a
final slide: the current slide is stamped with the frame number and the time of the swap,
the previous slide, if any, is finished, and no other slide is touched. -/
theorem slideOnset_stamped {p q : CX_SlidePresenter} {frameNumber : Nat} {onset : Int}
    {b : Bool} (h : p._slideOnset frameNumber onset = .ok (b, q)) :
    ∃ slides cur shown,
      p._slides[p._currentSlide]? = some cur ∧
      slides.length = p._slides.length ∧
      slides[p._currentSlide]? = some shown ∧
      shown.slideStatus = .IN_PROGRESS ∧
      shown.actual.startTime = onset ∧ shown.actual.startFrame = toUInt32 frameNumber ∧
      (p._currentSlide ≠ 0 → shown.intended = cur.intended) ∧
      (p._currentSlide = 0 →
        shown.intended.startFrame = toUInt32 frameNumber ∧ shown.intended.startTime = onset) ∧
      shown.intended.duration = cur.intended.duration ∧
      shown.intended.frameCount = cur.intended.frameCount ∧
      (∀ j : Nat, j ≠ p._currentSlide → j + 1 ≠ p._currentSlide →
        slides[j]? = p._slides[j]?) ∧
      (p._currentSlide ≠ 0 → ∃ previousSlide finished,
        p._slides[p._currentSlide - 1]? = some previousSlide ∧
        slides[p._currentSlide - 1]? = some finished ∧
        finished.slideStatus = .FINISHED ∧
        finished.intended = previousSlide.intended ∧
        finished.actual.startTime = previousSlide.actual.startTime ∧
        finished.actual.startFrame = previousSlide.actual.startFrame ∧
        finishedBy finished shown) ∧
      ((p._currentSlide + 1 = p._slides.length ∧
          ({ p with _slides := slides } : CX_SlidePresenter)._handleFinalSlide = .ok q ∧
          b = !q._presentingSlides) ∨
       (p._currentSlide + 1 ≠ p._slides.length ∧ q = { p with _slides := slides } ∧
          b = false)) := by
  unfold _slideOnset at h
  obtain ⟨slides1, h1, h⟩ := bind_ok h
  obtain ⟨slides2, h2, h⟩ := bind_ok h
  obtain ⟨p2, h3, h⟩ := bind_ok h
  obtain ⟨cur, hcur, hs1⟩ := vectorModifyAt_ok h1
  have hlt : p._currentSlide < p._slides.length := (List.getElem?_eq_some_iff.mp hcur).1
  have hlast : ∀ (slides : List Slide), slides.length = p._slides.length →
      p2 = { p with _slides := slides } →
      ((p._currentSlide + 1 = p._slides.length ∧
          ({ p with _slides := slides } : CX_SlidePresenter)._handleFinalSlide = .ok q ∧
          b = !q._presentingSlides) ∨
       (p._currentSlide + 1 ≠ p._slides.length ∧ q = { p with _slides := slides } ∧
          b = false)) := by
    intro slides hlen hp2
    subst hp2
    simp only at h
    split at h
    · rename_i hl
      obtain ⟨p3, h4, h⟩ := bind_ok h
      simp only [pure, Except.pure, Except.ok.injEq, Prod.mk.injEq] at h
      obtain ⟨rfl, rfl⟩ := h
      exact Or.inl ⟨by rw [← hlen]; exact hl, h4, rfl⟩
    · rename_i hl
      simp only [pure, Except.pure, Except.ok.injEq, Prod.mk.injEq] at h
      obtain ⟨rfl, rfl⟩ := h
      exact Or.inr ⟨by rw [← hlen]; exact hl, rfl, rfl⟩
  by_cases hzero : p._currentSlide = 0
  · simp only [hzero, ↓reduceIte] at h2
    obtain ⟨a0, ha0, h2⟩ := vectorModifyAt_ok h2
    have hs10 := ha0
    have hcur0 : p._slides[0]? = some cur := by rw [← hzero]; exact hcur
    rw [hs1, hzero, set_getElem?_same _ hcur0] at ha0
    simp only [Option.some.injEq] at ha0
    subst ha0
    have h2 := h2.symm
    simp only [hzero, gt_iff_lt, lt_self_iff_false, ↓reduceIte, pure, Except.pure,
      Except.ok.injEq] at h3
    have hlen : slides2.length = p._slides.length := by
      rw [← h2, hs1]
      simp
    refine ⟨slides2, cur, ?shown, hcur, hlen, ?_, ?_, ?_, ?_, ?_, ?_, ?_, ?_, ?_, ?_,
      hlast slides2 hlen (by rw [hzero]; exact h3.symm)⟩
    rotate_left
    · rw [← h2, hzero]
      exact set_getElem?_same _ hs10
    · rfl
    · rfl
    · rfl
    · intro hne
      exact absurd hzero hne
    · intro _
      exact ⟨rfl, rfl⟩
    · rfl
    · rfl
    · intro j hj _
      rw [← h2, hs1, hzero]
      rw [hzero] at hj
      simp [List.getElem?_set, Ne.symm hj]
    · intro hne
      exact absurd hzero hne
  · simp only [hzero, ↓reduceIte, pure, Except.pure, Except.ok.injEq] at h2
    subst h2
    have hpos : p._currentSlide > 0 := Nat.pos_of_ne_zero hzero
    simp only [hpos, ↓reduceIte] at h3
    obtain ⟨previousSlide, current, finished, -, hprev, hcurrent, hp2, f1, f2, f3, f4, f5⟩ :=
      finishPreviousSlide_eq h3
    simp only at hprev hcurrent hp2
    have hne1 : p._currentSlide - 1 ≠ p._currentSlide := by omega
    have hon := hcurrent
    rw [hs1, set_getElem?_same _ hcur] at hcurrent
    simp only [Option.some.injEq] at hcurrent
    have hprev' : p._slides[p._currentSlide - 1]? = some previousSlide := by
      rw [hs1, List.getElem?_set] at hprev
      simpa [Ne.symm hne1] using hprev
    have hlen : (slides1.set (p._currentSlide - 1) finished).length = p._slides.length := by
      rw [hs1]
      simp
    refine ⟨slides1.set (p._currentSlide - 1) finished, cur, current, hcur, hlen, ?_, ?_, ?_,
      ?_, ?_, ?_, ?_, ?_, ?_, ?_, hlast _ hlen hp2⟩
    · rw [List.getElem?_set]
      simp only [hne1, ↓reduceIte]
      exact hon
    · rw [← hcurrent]
    · rw [← hcurrent]
    · rw [← hcurrent]
    · intro _
      rw [← hcurrent]
    · intro h0
      exact absurd h0 hzero
    · rw [← hcurrent]
    · rw [← hcurrent]
    · intro j hj hj1
      have hj1' : ¬ p._currentSlide - 1 = j := by omega
      rw [hs1]
      simp [List.getElem?_set, hj1', Ne.symm hj]
    · intro _
      exact ⟨previousSlide, finished, hprev', set_getElem?_same _ hprev, f1, f2, f3, f4, f5⟩

end CX_SlidePresenter

end CX

/-! ## The handling of a final slide, slide by slide -/

namespace CX

namespace CX_SlidePresenter

/-- What the statements after the callback keep of each slide: the intended timing, the
actual start, the name and the drawing function of every slide, the status of the slides
that were in the queue before the callback, and all of the slides before the current one. -/
theorem handleFinalSlideAfterCallback_slides {k : Nat} {p q : CX_SlidePresenter}
    (h : p._handleFinalSlideAfterCallback k = .ok q) :
    q._currentSlide = p._currentSlide ∧ q._config = p._config ∧
    q._synchronizing = p._synchronizing ∧
    (q._presentingSlides = true → p._presentingSlides = true) ∧
    q._slides.length = p._slides.length ∧
    (∀ (j : Nat) (s' s : Slide), q._slides[j]? = some s' → p._slides[j]? = some s →
      s'.intended = s.intended ∧ s'.actual.startTime = s.actual.startTime ∧
      s'.actual.startFrame = s.actual.startFrame ∧
      (j < k → s'.slideStatus = s.slideStatus) ∧
      (j < p._currentSlide → j < k → s' = s)) := by
  unfold _handleFinalSlideAfterCallback at h
  simp only [bind, Except.bind, pure, Except.pure] at h
  split at h
  · split at h
    · simp at h
    · rename_i slides hslides
      obtain ⟨a, ha, hset⟩ := vectorModifyAt_ok hslides
      simp only [Except.ok.injEq] at h
      subst h
      subst hset
      refine ⟨rfl, rfl, rfl, by simp, ?_, ?_⟩
      · simp only
        split <;> simp [vectorMapFrom_length]
      · intro j s' s hs' hs
        simp only at hs'
        have hlt : p._currentSlide < p._slides.length := by
          have := (List.getElem?_eq_some_iff.mp ha).1
          rwa [vectorMapFrom_length] at this
        split at hs'
        · simp only [vectorMapFrom_getElem?, List.getElem?_set, vectorMapFrom_length, hs,
            Option.map_some', hlt, ↓reduceIte] at hs' ha
          by_cases hj : p._currentSlide = j
          · subst hj
            simp only [hs, Option.map_some', Option.some.injEq] at ha
            simp only [↓reduceIte, Option.map_some', Option.some.injEq, le_refl,
              Nat.add_one_le_iff, lt_self_iff_false] at hs'
            subst hs'
            subst ha
            refine ⟨?_, ?_, ?_, ?_, ?_⟩
            · (repeat' split) <;> rfl
            · (repeat' split) <;> rfl
            · (repeat' split) <;> rfl
            · intro hjk
              simp only [Nat.not_le.mpr hjk, ↓reduceIte]
              (repeat' split) <;> rfl
            · intro h1
              exact absurd h1 (by omega)
          · simp only [hj, ↓reduceIte, Option.map_some', Option.some.injEq] at hs'
            subst hs'
            refine ⟨?_, ?_, ?_, ?_, ?_⟩
            · (repeat' split) <;> rfl
            · (repeat' split) <;> rfl
            · (repeat' split) <;> rfl
            · intro hjk
              simp only [Nat.not_le.mpr hjk, ↓reduceIte]
              (repeat' split) <;> rfl
            · intro h1 hjk
              have h2 : ¬ p._currentSlide ≤ j := by omega
              have h3 : ¬ p._currentSlide + 1 ≤ j := by omega
              simp only [Nat.not_le.mpr hjk, h2, h3, ↓reduceIte]
        · simp only [vectorMapFrom_getElem?, List.getElem?_set, vectorMapFrom_length, hs,
            Option.map_some', hlt, ↓reduceIte] at hs' ha
          by_cases hj : p._currentSlide = j
          · subst hj
            simp only [hs, Option.map_some', Option.some.injEq] at ha
            simp only [↓reduceIte, Option.map_some', Option.some.injEq, le_refl,
              Nat.add_one_le_iff, lt_self_iff_false] at hs'
            subst hs'
            subst ha
            refine ⟨?_, ?_, ?_, ?_, ?_⟩
            · (repeat' split) <;> rfl
            · (repeat' split) <;> rfl
            · (repeat' split) <;> rfl
            · intro hjk
              simp only [Nat.not_le.mpr hjk, ↓reduceIte]
            · intro h1
              exact absurd h1 (by omega)
          · simp only [hj, ↓reduceIte, Option.map_some', Option.some.injEq] at hs'
            subst hs'
            refine ⟨?_, ?_, ?_, ?_, ?_⟩
            · (repeat' split) <;> rfl
            · (repeat' split) <;> rfl
            · (repeat' split) <;> rfl
            · intro hjk
              simp only [Nat.not_le.mpr hjk, ↓reduceIte]
              (repeat' split) <;> rfl
            · intro h1 hjk
              have h3 : ¬ p._currentSlide + 1 ≤ j := by omega
              simp only [Nat.not_le.mpr hjk, h3, ↓reduceIte]
  · simp only [Except.ok.injEq] at h
    subst h
    refine ⟨rfl, rfl, rfl, fun hq => hq, by simp [vectorMapFrom_length], ?_⟩
    intro j s' s hs' hs
    simp only [vectorMapFrom_getElem?, hs, Option.map_some', Option.some.injEq] at hs'
    subst hs'
    refine ⟨?_, ?_, ?_, ?_, ?_⟩
    · split <;> rfl
    · split <;> rfl
    · split <;> rfl
    · intro hj
      simp [Nat.not_le.mpr hj]
    · intro _ hj
      simp [Nat.not_le.mpr hj]

end CX_SlidePresenter

end CX

namespace CX

theorem map_eq_of_pointwise_lt {α β : Type} (V : α → β) {l l' : List α}
    (hlen : l.length ≤ l'.length) {j : Nat} (hj : j < l.length)
    (h : ∀ (a' a : α), l'[j]? = some a' → l[j]? = some a → V a' = V a) :
    (l'[j]?).map V = (l[j]?).map V := by
  obtain ⟨a', ha'⟩ : ∃ a', l'[j]? = some a' :=
    ⟨l'.get ⟨j, by omega⟩, List.getElem?_eq_some_iff.mpr ⟨by omega, rfl⟩⟩
  obtain ⟨a, ha⟩ : ∃ a, l[j]? = some a :=
    ⟨l.get ⟨j, hj⟩, List.getElem?_eq_some_iff.mpr ⟨hj, rfl⟩⟩
  rw [ha', ha]
  simp only [Option.map_some', Option.some.injEq]
  exact h a' a ha' ha

namespace CX_SlidePresenter

/-- What the handling of a final slide keeps when the callback only inserts or stops. -/
theorem handleFinalSlide_slides {p q : CX_SlidePresenter} (h : p._handleFinalSlide = .ok q)
    (hcb : callbackAppendsOrStops p) :
    q._currentSlide = p._currentSlide ∧ q._config = p._config ∧
    (q._synchronizing = true → p._synchronizing = true) ∧
    (q._presentingSlides = true → p._presentingSlides = true) ∧
    p._slides.length ≤ q._slides.length ∧
    (∀ (j : Nat) (s' s : Slide), q._slides[j]? = some s' → p._slides[j]? = some s →
      s'.intended = s.intended ∧ s'.actual.startTime = s.actual.startTime ∧
      s'.actual.startFrame = s.actual.startFrame ∧ s'.slideStatus = s.slideStatus ∧
      (j < p._currentSlide → s' = s)) := by
  unfold _handleFinalSlide at h
  cases hc : p._config.finalSlideCallback with
  | none =>
    simp only [hc] at h
    obtain ⟨f1, f2, f3, f4, f5, f6⟩ := handleFinalSlideAfterCallback_slides h
    refine ⟨f1, f2, fun hq => by rw [← f3]; exact hq, f4, by rw [f5], ?_⟩
    intro j s' s hs' hs
    have hj : j < p._slides.length := (List.getElem?_eq_some_iff.mp hs).1
    obtain ⟨g1, g2, g3, g4, g5⟩ := f6 j s' s hs' hs
    exact ⟨g1, g2, g3, g4 hj, fun hlt => g5 hlt hj⟩
  | some cb =>
    simp only [hc] at h
    cases hp1 : p.applyCalls (cb p._currentSlide) with
    | error e => simp [hp1] at h
    | ok p1 =>
      simp only [hp1] at h
      obtain ⟨c1, c2, -, ⟨added, c4⟩, c5, c6, -, -⟩ :=
        applyCalls_appendsOrStops _ (hcb cb hc p._currentSlide) hp1
      obtain ⟨f1, f2, f3, f4, f5, f6⟩ := handleFinalSlideAfterCallback_slides h
      refine ⟨by rw [f1, c2], by rw [f2, c1], fun hq => c6 (by rw [← f3]; exact hq),
        fun hq => c5 (f4 hq), by rw [f5, c4]; simp, ?_⟩
      intro j s' s hs' hs
      have hj : j < p._slides.length := (List.getElem?_eq_some_iff.mp hs).1
      have hs1 : p1._slides[j]? = some s := by
        rw [c4, List.getElem?_append_left hj]
        exact hs
      obtain ⟨g1, g2, g3, g4, g5⟩ := f6 j s' s hs' hs1
      exact ⟨g1, g2, g3, g4 hj, fun hlt => g5 (by rw [c2]; exact hlt) hj⟩

end CX_SlidePresenter

end CX

namespace CX

namespace CX_SlidePresenter

theorem index_below {j c : Nat} (h : j + 1 ≤ c - 1) : j ≠ c ∧ j + 1 ≠ c := by omega

theorem index_before {j c : Nat} (h : j ≤ c - 1) (h1 : ¬ j + 1 = c) (hz : c ≠ 0) : j ≠ c := by
  omega

theorem pred_succ_of_ne_zero {c : Nat} (hz : c ≠ 0) : c - 1 + 1 = c := by omega

theorem isPending_of_inProgress {s : Slide} (h : s.slideStatus = .IN_PROGRESS) :
    s.isPending = false := by
  simp [Slide.isPending, h]

/-- The chains after the current slide has come on screen: they now reach the current
slide. -/
theorem slideOnset_started {p q : CX_SlidePresenter} {frameNumber : Nat} {onset : Int}
    {b : Bool} (h : p._slideOnset frameNumber onset = .ok (b, q))
    (hsync : p._synchronizing = false) (hpres : p._presentingSlides = true)
    (hpend : p.currentIsPending = true) (hcb : callbackAppendsOrStops p) (hp : Started p) :
    q._synchronizing = false ∧ q._currentSlide = p._currentSlide ∧ q._config = p._config ∧
    q.currentIsPending = false ∧ b = !q._presentingSlides ∧
    Chained finishedBy p._currentSlide q._slides ∧
    (p._config.errorMode = .DO_NOTHING → Chained anchoredTo p._currentSlide q._slides) := by
  obtain ⟨hA, hB⟩ := hp.chains hsync
  have hb1 : p.onScreenBound = p._currentSlide - 1 := by simp [onScreenBound, hpend]
  have hb2 : p.preparedBound = p._currentSlide := by simp [preparedBound, hpend]
  rw [hb1] at hA
  rw [hb2] at hB
  obtain ⟨slides, cur, shown, hcur, hlen, hshown, s1, s2, s3, s4, s5, s6, s7, hothers, hfin,
    hcase⟩ := slideOnset_stamped h
  have hlt : p._currentSlide < p._slides.length := (List.getElem?_eq_some_iff.mp hcur).1
  have hA' : Chained finishedBy p._currentSlide slides := by
    by_cases hz : p._currentSlide = 0
    · rw [hz]
      exact Chained.zero _ _
    · obtain ⟨prev, fin, hprev, hfinAt, -, -, f3, f4, f5⟩ := hfin hz
      have e : p._currentSlide - 1 + 1 = p._currentSlide := pred_succ_of_ne_zero hz
      have hAm : Chained finishedBy (p._currentSlide - 1) slides := by
        refine hA.transfer (fun s => s.actual)
          (fun s => (s.actual.startTime, s.actual.startFrame)) finishedBy_congr ?_ ?_
        · intro j hj
          rw [hothers j (index_below hj).1 (index_below hj).2]
        · intro j hj
          by_cases hj1 : j + 1 = p._currentSlide
          · have hj2 : j = p._currentSlide - 1 := Nat.eq_sub_of_add_eq hj1
            subst hj2
            rw [hfinAt, hprev]
            simp [f3, f4]
          · rw [hothers j (index_before hj hj1 hz) hj1]
      have hsucc := hAm.succ (by
        intro a b ha hb
        rw [e] at hb
        rw [hfinAt] at ha
        rw [hshown] at hb
        cases ha
        cases hb
        exact f5)
      rwa [e] at hsucc
  have hB' : p._config.errorMode = .DO_NOTHING → Chained anchoredTo p._currentSlide slides := by
    intro hm
    by_cases hz : p._currentSlide = 0
    · rw [hz]
      exact Chained.zero _ _
    · obtain ⟨prev, fin, hprev, hfinAt, -, f2, -, -, -⟩ := hfin hz
      have hall : ∀ j : Nat, (slides[j]?).map (fun s : Slide => s.intended)
          = (p._slides[j]?).map (fun s : Slide => s.intended) := by
        intro j
        by_cases hj : j = p._currentSlide
        · subst hj
          rw [hshown, hcur]
          simp [s4 hz]
        · by_cases hj1 : j + 1 = p._currentSlide
          · have hj2 : j = p._currentSlide - 1 := Nat.eq_sub_of_add_eq hj1
            subst hj2
            rw [hfinAt, hprev]
            simp [f2]
          · rw [hothers j hj hj1]
      exact (hB hm).transfer (fun s => s.intended) (fun s => s.intended) anchoredTo_congr
        (fun j _ => hall j) (fun j _ => hall j)
  rcases hcase with ⟨-, hfinal, hb⟩ | ⟨-, hq, hb⟩
  · have hcb' : callbackAppendsOrStops ({ p with _slides := slides } : CX_SlidePresenter) := hcb
    obtain ⟨g1, g2, g3, -, g5, g6⟩ := handleFinalSlide_slides hfinal hcb'
    simp only at g1 g2 g3 g5 g6
    have hsync' : q._synchronizing = false := by
      cases hs : q._synchronizing
      · rfl
      · rw [g3 hs] at hsync
        exact absurd hsync (by simp)
    have hpend' : q.currentIsPending = false := by
      unfold currentIsPending
      rw [g1]
      cases hq : q._slides[p._currentSlide]? with
      | none => rfl
      | some s' =>
        have := (g6 _ s' shown hq hshown).2.2.2.1
        exact isPending_of_inProgress (by rw [this, s1])
    refine ⟨hsync', g1, g2, hpend', hb, ?_, ?_⟩
    · refine hA'.transfer (fun s => s.actual)
        (fun s => (s.actual.startTime, s.actual.startFrame)) finishedBy_congr ?_ ?_
      · intro j hj
        refine map_eq_of_pointwise_lt _ g5 (by omega) ?_
        intro a' a ha' ha
        rw [(g6 j a' a ha' ha).2.2.2.2 (by omega)]
      · intro j hj
        refine map_eq_of_pointwise_lt _ g5 (by omega) ?_
        intro a' a ha' ha
        obtain ⟨-, e1, e2, -, -⟩ := g6 j a' a ha' ha
        simp [e1, e2]
    · intro hm
      have hi : ∀ j : Nat, j ≤ p._currentSlide →
          (q._slides[j]?).map (fun s : Slide => s.intended)
            = (slides[j]?).map (fun s : Slide => s.intended) := by
        intro j hj
        refine map_eq_of_pointwise_lt _ g5 (by omega) ?_
        intro a' a ha' ha
        exact (g6 j a' a ha' ha).1
      exact (hB' hm).transfer (fun s => s.intended) (fun s => s.intended) anchoredTo_congr
        (fun j hj => hi j (by omega)) hi
  · subst hq
    have hpend' : ({ p with _slides := slides } : CX_SlidePresenter).currentIsPending = false := by
      unfold currentIsPending
      simp only [hshown]
      exact isPending_of_inProgress s1
    exact ⟨hsync, rfl, rfl, hpend', by simp [hb, hpres], hA', hB'⟩

end CX_SlidePresenter

end CX

namespace CX

namespace CX_SlidePresenter

theorem getElem?_of_lt {l : List Slide} {j : Nat} (h : j < l.length) : ∃ s, l[j]? = some s :=
  ⟨l.get ⟨j, h⟩, List.getElem?_eq_some_iff.mpr ⟨h, rfl⟩⟩

theorem anchoredTo_preparedNext (cur next : Slide) :
    anchoredTo cur (preparedNext .DO_NOTHING cur next) :=
  ⟨rfl, rfl⟩

theorem preparedNext_actual (mode : ErrorMode) (cur next : Slide) :
    (preparedNext mode cur next).actual = next.actual := by
  cases mode <;> rfl

/-- The first block of `_multiCoreUpdate` keeps the invariant of a started presentation;
unless the function returns at once, the current slide is on screen afterwards. -/
theorem multiCoreSwappedIn_started {p q : CX_SlidePresenter} {frameNumber : Nat}
    {d : CX_Display} {b : Bool} (h : _multiCoreSwappedIn frameNumber d p = .ok (b, q))
    (hsync : p._synchronizing = false) (hpres : p._presentingSlides = true)
    (hcb : callbackAppendsOrStops p) (hp : Started p) :
    Started q ∧ q._synchronizing = false ∧ q._config = p._config ∧
    (b = false → q._presentingSlides = true ∧ q.currentIsPending = false) := by
  unfold _multiCoreSwappedIn at h
  obtain ⟨cur, hcur, h⟩ := bind_ok h
  have hc := vectorAt_ok hcur
  split at h
  · rename_i hstatus
    have hpend : p.currentIsPending = true := by
      unfold currentIsPending
      simp only [hc, Slide.isPending]
      exact decide_eq_true hstatus
    obtain ⟨r, hon, h⟩ := bind_ok h
    obtain ⟨ret, p2⟩ := r
    obtain ⟨o1, o2, o3, o4, o5, o6, o7⟩ := slideOnset_started hon hsync hpres hpend hcb hp
    simp only at h
    split at h
    · rename_i hret
      simp only [pure, Except.pure, Except.ok.injEq, Prod.mk.injEq] at h
      obtain ⟨rfl, rfl⟩ := h
      have hnp : p2._presentingSlides = false := by
        rw [hret] at o5
        cases hq : p2._presentingSlides
        · rfl
        · rw [hq] at o5
          simp at o5
      have hb1 : p2.onScreenBound = p._currentSlide := by simp [onScreenBound, o4, o2]
      have hb2 : p2.preparedBound = p._currentSlide := by simp [preparedBound, o2, hnp]
      refine ⟨Or.inr ⟨o1, fun _ => o4, by rw [hb1]; exact o6, ?_⟩, o1, o3, ?_⟩
      · intro hm
        rw [hb2]
        exact o7 (by rw [← o3]; exact hm)
      · intro hfalse
        simp at hfalse
    · rename_i hret
      have hpr : p2._presentingSlides = true := by
        cases hq : p2._presentingSlides
        · rw [hq] at o5
          simp only [Bool.not_false] at o5
          exact absurd o5 hret
        · rfl
      have hb1 : p2.onScreenBound = p._currentSlide := by simp [onScreenBound, o4, o2]
      have hb2 : p2.preparedBound = p._currentSlide + 1 := by
        simp [preparedBound, o2, hpr, o4]
      split at h
      · rename_i hnext
        obtain ⟨p3, hprep, h⟩ := bind_ok h
        simp only [pure, Except.pure, Except.ok.injEq, Prod.mk.injEq] at h
        obtain ⟨rfl, rfl⟩ := h
        have hlt2 : p2._currentSlide < p2._slides.length := by omega
        obtain ⟨cur2, hc2⟩ := getElem?_of_lt hlt2
        obtain ⟨next, hn2⟩ := getElem?_of_lt hnext
        rw [prepareNextSlide_eq hc2 hn2] at hprep
        simp only [Except.ok.injEq] at hprep
        have hs3 : p3._slides = p2._slides.set (p2._currentSlide + 1)
            (preparedNext p2._config.errorMode cur2 next) := by rw [← hprep]
        have hcs3 : p3._currentSlide = p2._currentSlide := by rw [← hprep]
        have hpr3 : p3._presentingSlides = true := by rw [← hprep]; exact hpr
        have hsync3 : p3._synchronizing = false := by rw [← hprep]; exact o1
        have hcfg3 : p3._config = p2._config := by rw [← hprep]
        have hpend3 : p3.currentIsPending = false := by
          have := o4
          unfold currentIsPending at this ⊢
          rw [hs3, hcs3]
          simp only [List.getElem?_set, Nat.succ_ne_self, ↓reduceIte]
          exact this
        have hbq1 : p3.onScreenBound = p._currentSlide := by
          simp only [onScreenBound, hpend3, hcs3]
          exact o2
        have hbq2 : p3.preparedBound = p._currentSlide + 1 := by
          simp only [preparedBound, hpend3, hpr3, hcs3]
          simp [o2]
        refine ⟨Or.inr ⟨hsync3, fun _ => hpend3, ?_, ?_⟩, hsync3, by rw [hcfg3, o3],
          fun _ => ⟨hpr3, hpend3⟩⟩
        · rw [hbq1, hs3]
          refine o6.transfer (fun s => s.actual)
            (fun s => (s.actual.startTime, s.actual.startFrame)) finishedBy_congr ?_ ?_
          · intro j hj
            exact set_view_ne _ _ _ (by omega)
          · intro j hj
            exact set_view_ne _ _ _ (by omega)
        · intro hm
          have hm2 : p2._config.errorMode = .DO_NOTHING := by rw [← hcfg3]; exact hm
          have hm1 : p._config.errorMode = .DO_NOTHING := by rw [← o3]; exact hm2
          rw [hbq2, hs3]
          have hpre : Chained anchoredTo p._currentSlide (p2._slides.set (p2._currentSlide + 1)
              (preparedNext p2._config.errorMode cur2 next)) := by
            refine (o7 hm1).transfer (fun s => s.intended) (fun s => s.intended)
              anchoredTo_congr ?_ ?_
            · intro j hj
              exact set_view_ne _ _ _ (by omega)
            · intro j hj
              exact set_view_ne _ _ _ (by omega)
          refine hpre.succ ?_
          intro a b ha hb
          rw [← o2] at ha hb
          rw [List.getElem?_set] at ha
          simp only [Nat.succ_ne_self, ↓reduceIte] at ha
          rw [set_getElem?_same _ hn2] at hb
          rw [hc2] at ha
          cases ha
          cases hb
          rw [hm2]
          exact anchoredTo_preparedNext _ _
      · rename_i hnext
        simp only [pure, Except.pure, Except.ok.injEq, Prod.mk.injEq] at h
        obtain ⟨rfl, rfl⟩ := h
        refine ⟨Or.inr ⟨o1, fun _ => o4, by rw [hb1]; exact o6, ?_⟩, o1, o3,
          fun _ => ⟨hpr, o4⟩⟩
        intro hm
        rw [hb2]
        refine (o7 (by rw [← o3]; exact hm)).succ ?_
        intro a b _ hb
        rw [← o2] at hb
        have := (List.getElem?_eq_some_iff.mp hb).1
        exact absurd this hnext
  · rename_i hstatus
    simp only [pure, Except.pure, Except.ok.injEq, Prod.mk.injEq] at h
    obtain ⟨rfl, rfl⟩ := h
    have hpend : p.currentIsPending = false := by
      unfold currentIsPending
      simp only [hc, Slide.isPending]
      exact decide_eq_false hstatus
    exact ⟨hp, hsync, rfl, fun _ => ⟨hpres, hpend⟩⟩

end CX_SlidePresenter

end CX

namespace CX

namespace CX_SlidePresenter

theorem Started.sync_false {p : CX_SlidePresenter} (h : Started p)
    (hpres : p._presentingSlides = true) : p._synchronizing = false := by
  rcases h with ⟨-, h2⟩ | ⟨h1, -, -⟩
  · rw [hpres] at h2
    exact absurd h2 (by simp)
  · exact h1

/-- In multi-core mode `update` keeps the invariant of a started presentation. -/
theorem multiCoreUpdate_started {p q : CX_SlidePresenter} {env : UpdateEnv}
    (h : p._multiCoreUpdate env = .ok q) (hcb : callbackAppendsOrStops p) (hp : Started p) :
    Started q := by
  unfold _multiCoreUpdate at h
  split at h
  · rename_i hpres
    have hsync := hp.sync_false hpres
    split at h
    · simp at h
    · rename_i d hd
      generalize hd' : d.hasSwappedSinceLastCheck = r at h
      obtain ⟨swapped, d'⟩ := r
      simp only at h
      have hp' : Started (p.setDisplay d') := hp.of_view rfl rfl rfl rfl rfl
      have hcb' : callbackAppendsOrStops (p.setDisplay d') := hcb
      split at h
      · split at h
        · simp at h
        · rename_i p1 h1
          simp only [Except.ok.injEq] at h
          subst h
          exact (multiCoreSwappedIn_started h1 hsync hpres hcb' hp').1
        · rename_i p1 h1
          obtain ⟨e1, e2, -, e4⟩ := multiCoreSwappedIn_started h1 hsync hpres hcb' hp'
          obtain ⟨e5, e6⟩ := e4 rfl
          split at h
          · simp at h
          · rename_i p2 h2
            exact waitSyncCheck_started h (multiCoreAdvance_started h2 e2 e5 e6 e1)
      · exact waitSyncCheck_started h hp'
  · split at h
    · split at h
      · simp at h
      · rename_i d hd
        generalize hd' : d.hasSwappedSinceLastCheck = r at h
        obtain ⟨swapped, d'⟩ := r
        simp only at h
        have hp' : Started (p.setDisplay d') := hp.of_view rfl rfl rfl rfl rfl
        split at h
        · split at h
          · simp at h
          · rename_i p1 h1
            obtain ⟨r1, r2, -, -, -, -, -⟩ := renderCurrentSlide_pending h1
            simp only at r2
            refine waitSyncCheck_started h (Or.inr ⟨rfl, fun hq => by simp at hq, ?_, ?_⟩)
            · have hb : onScreenBound { p1 with _synchronizing := false, _presentingSlides := true }
                  = 0 := by
                have hq : currentIsPending
                    { p1 with _synchronizing := false, _presentingSlides := true } = true := r1
                simp only [onScreenBound, hq, ↓reduceIte]
                simp [r2]
              rw [hb]
              exact Chained.zero _ _
            · intro _
              have hb : preparedBound { p1 with _synchronizing := false, _presentingSlides := true }
                  = 0 := by
                have hq : currentIsPending
                    { p1 with _synchronizing := false, _presentingSlides := true } = true := r1
                simp only [preparedBound, hq]
                simp [r2]
              rw [hb]
              exact Chained.zero _ _
        · exact waitSyncCheck_started h hp'
    · exact waitSyncCheck_started h hp

end CX_SlidePresenter

end CX

namespace CX

namespace CX_SlidePresenter

theorem settings_fields {p q : CX_SlidePresenter} (h : q.settings = p.settings) :
    q._config.swappingMode = p._config.swappingMode ∧
    q._config.finalSlideCallback = p._config.finalSlideCallback ∧
    q._config.errorMode = p._config.errorMode := by
  unfold settings at h
  have h1 := congrArg Configuration.swappingMode h
  have h2 := congrArg Configuration.finalSlideCallback h
  have h3 := congrArg Configuration.errorMode h
  exact ⟨h1, h2, h3⟩

theorem step_started {p q : CX_SlidePresenter} {e : Step} (h : p.step e = .ok q)
    (he : isUpdateOrSwap e = true) (hmode : p._config.swappingMode = .MULTI_CORE)
    (hcb : callbackAppendsOrStops p) (hp : Started p) :
    Started q ∧ q.settings = p.settings := by
  cases e with
  | call c => simp [isUpdateOrSwap] at he
  | setup config f => simp [isUpdateOrSwap] at he
  | update env =>
    simp only [step] at h
    have hset := (update_inv (fun _ => True) h (Or.inr (fun _ _ _ _ _ => trivial)) trivial).2
    unfold update at h
    simp only [hmode] at h
    exact ⟨multiCoreUpdate_started h hcb hp, hset⟩
  | threadSwap t =>
    simp only [step] at h
    split at h
    · simp only [Except.ok.injEq] at h
      subst h
      exact ⟨hp, rfl⟩
    · simp only [Except.ok.injEq] at h
      subst h
      exact ⟨hp.of_view rfl rfl rfl rfl rfl, rfl⟩

theorem run_started (steps : List Step) :
    ∀ {p q : CX_SlidePresenter}, p.run steps = .ok q →
      (∀ e ∈ steps, isUpdateOrSwap e = true) → p._config.swappingMode = .MULTI_CORE →
      callbackAppendsOrStops p → Started p → Started q ∧ q.settings = p.settings := by
  induction steps with
  | nil =>
    intro p q h _ _ _ hp
    simp only [run, Except.ok.injEq] at h
    subst h
    exact ⟨hp, rfl⟩
  | cons e rest ih =>
    intro p q h hsteps hmode hcb hp
    unfold run at h
    split at h
    · simp at h
    · rename_i p1 h1
      obtain ⟨s1, s2⟩ := step_started h1 (hsteps e (List.mem_cons_self _ _)) hmode hcb hp
      obtain ⟨f1, f2, -⟩ := settings_fields s2
      have hcb1 : callbackAppendsOrStops p1 := by
        intro cb hc
        exact hcb cb (by rw [← f2]; exact hc)
      obtain ⟨r1, r2⟩ := ih h (fun e' he' => hsteps e' (List.mem_cons_of_mem _ he'))
        (by rw [f1]; exact hmode) hcb1 s1
      exact ⟨r1, r2.trans s2⟩

theorem startSlidePresentation_started {p q : CX_SlidePresenter}
    (h : p.startSlidePresentation = .ok (true, q)) :
    Started q ∧ q.settings = p.settings := by
  refine ⟨?_, (startSlidePresentation_frame h).2⟩
  cases hd : p._config.display with
  | none => simp [startSlidePresentation, hd] at h
  | some d =>
    by_cases hs : p._slides = []
    · simp [startSlidePresentation, hd, hs] at h
    · obtain ⟨d', h'⟩ := startSlidePresentation_nonempty p d hd hs
      rw [h'] at h
      simp only [Except.ok.injEq, Prod.mk.injEq, true_and] at h
      subst h
      exact Or.inl ⟨rfl, rfl⟩

end CX_SlidePresenter

end CX

/-! ## The stamp of the update that finds a swap while a slide waits to come on screen -/

namespace CX

namespace CX_SlidePresenter

theorem start_of_actual {o o' : Option Slide}
    (h : o'.map (fun s : Slide => s.actual) = o.map (fun s : Slide => s.actual)) :
    o'.map (fun s : Slide => (s.actual.startTime, s.actual.startFrame))
      = o.map (fun s : Slide => (s.actual.startTime, s.actual.startFrame)) := by
  cases o' <;> cases o <;> simp_all

theorem multiCoreSwappedIn_onset {p q : CX_SlidePresenter} {frameNumber : Nat}
    {d : CX_Display} {b : Bool} {cur : Slide}
    (h : _multiCoreSwappedIn frameNumber d p = .ok (b, q))
    (hcur : p._slides[p._currentSlide]? = some cur) (hpend : cur.isPending = true)
    (hcb : callbackAppendsOrStops p) :
    (q._slides[p._currentSlide]?).map (fun s : Slide => (s.actual.startTime, s.actual.startFrame))
      = some (d.getLastSwapTime, toUInt32 frameNumber) := by
  unfold _multiCoreSwappedIn at h
  rw [vectorAt_eq hcur] at h
  have hstatus : cur.slideStatus = .SWAP_PENDING ∨ cur.slideStatus = .COPY_TO_BACK_BUFFER_PENDING :=
    of_decide_eq_true hpend
  simp only [bind, Except.bind, hstatus, ↓reduceIte] at h
  split at h
  · simp at h
  · rename_i r hon
    obtain ⟨ret, p2⟩ := r
    obtain ⟨slides, cur', shown, -, hlen, hshown, -, s2, s3, -, -, -, -, -, -, hcase⟩ :=
      slideOnset_stamped hon
    have hlt : p._currentSlide < slides.length := (List.getElem?_eq_some_iff.mp hshown).1
    have hp2 : (p2._slides[p._currentSlide]?).map
        (fun s : Slide => (s.actual.startTime, s.actual.startFrame))
        = some (d.getLastSwapTime, toUInt32 frameNumber) ∧ p2._currentSlide = p._currentSlide := by
      rcases hcase with ⟨-, hfinal, -⟩ | ⟨-, hq, -⟩
      · have hcb' : callbackAppendsOrStops ({ p with _slides := slides } : CX_SlidePresenter) :=
          hcb
        obtain ⟨g1, -, -, -, g5, g6⟩ := handleFinalSlide_slides hfinal hcb'
        simp only at g1 g5 g6
        obtain ⟨s', hs'⟩ := getElem?_of_lt (l := p2._slides) (j := p._currentSlide) (by omega)
        obtain ⟨-, e1, e2, -, -⟩ := g6 _ s' shown hs' hshown
        rw [hs']
        simp [e1, e2, s2, s3, g1]
      · subst hq
        simp [hshown, s2, s3]
    simp only at h
    split at h
    · simp only [pure, Except.pure, Except.ok.injEq, Prod.mk.injEq] at h
      obtain ⟨-, rfl⟩ := h
      exact hp2.1
    · split at h
      · rename_i hnext
        cases hprep : p2._prepareNextSlide with
        | error e => simp [hprep] at h
        | ok p3 =>
          simp only [hprep, pure, Except.pure, Except.ok.injEq, Prod.mk.injEq] at h
          obtain ⟨-, rfl⟩ := h
          have hlt2 : p2._currentSlide < p2._slides.length := by omega
          obtain ⟨cur2, hc2⟩ := getElem?_of_lt hlt2
          obtain ⟨next, hn2⟩ := getElem?_of_lt hnext
          rw [prepareNextSlide_eq hc2 hn2] at hprep
          simp only [Except.ok.injEq] at hprep
          rw [← hprep]
          simp only
          rw [List.getElem?_set]
          have hne : ¬ p2._currentSlide + 1 = p._currentSlide := by
            rw [hp2.2]
            omega
          simp only [hne, ↓reduceIte]
          exact hp2.1
      · simp only [pure, Except.pure, Except.ok.injEq, Prod.mk.injEq] at h
        obtain ⟨-, rfl⟩ := h
        exact hp2.1

theorem multiCoreAdvance_actual {p q : CX_SlidePresenter} {frameNumber : Nat}
    (h : _multiCoreAdvance frameNumber p = .ok q) (j : Nat) :
    (q._slides[j]?).map (fun s : Slide => s.actual)
      = (p._slides[j]?).map (fun s : Slide => s.actual) := by
  unfold _multiCoreAdvance at h
  simp only [bind, Except.bind, pure, Except.pure] at h
  split at h
  · split at h
    · simp at h
    · split at h
      · exact (renderCurrentSlide_pending h).2.2.2.2.2.1 j
      · simp only [Except.ok.injEq] at h
        rw [h]
  · simp only [Except.ok.injEq] at h
    rw [h]

/-- The update that finds a swap made while the current slide waits to come on screen stamps
the slide with the last swap time and the frame number it reads from the display. -/
theorem multiCoreUpdate_onset {p q : CX_SlidePresenter} {env : UpdateEnv} {d : CX_Display}
    {cur : Slide} (h : p._multiCoreUpdate env = .ok q)
    (hpres : p._presentingSlides = true) (hd : p._config.display = some d)
    (hswap : d.hasSwappedSinceLastCheck.1 = true)
    (hcur : p._slides[p._currentSlide]? = some cur) (hpend : cur.isPending = true)
    (hcb : callbackAppendsOrStops p) :
    (q._slides[p._currentSlide]?).map (fun s : Slide => (s.actual.startTime, s.actual.startFrame))
      = some ((displayAtTimeRead env d).getLastSwapTime,
          toUInt32 (displayAtFrameRead env d).getFrameNumber) := by
  unfold _multiCoreUpdate at h
  simp only [hpres, ↓reduceIte, hd, hswap] at h
  have hcb' : callbackAppendsOrStops (p.setDisplay (displayAtTimeRead env d)) := hcb
  have hcur' : (p.setDisplay (displayAtTimeRead env d))._slides[
      (p.setDisplay (displayAtTimeRead env d))._currentSlide]? = some cur := hcur
  split at h
  · simp at h
  · rename_i p1 h1
    simp only [Except.ok.injEq] at h
    subst h
    have e1 := multiCoreSwappedIn_onset h1 hcur' hpend hcb'
    exact e1
  · rename_i p1 h1
    have e1 := multiCoreSwappedIn_onset h1 hcur' hpend hcb'
    split at h
    · simp at h
    · rename_i p2 h2
      have e2 := start_of_actual (multiCoreAdvance_actual h2 p._currentSlide)
      have e3 := map_view_of_withoutFence
        (fun s : Slide => (s.actual.startTime, s.actual.startFrame)) (fun _ => rfl)
        (waitSyncCheck_fence h) p._currentSlide
      rw [e3, e2]
      exact e1

end CX_SlidePresenter

end CX

/-! ## Actual durations and frame counts -/

namespace CX

namespace CX_SlidePresenter

/-- C13, the claim as stated fails: the stamps are those of the swap found by the update,
not of the swap that brought the slide on screen.  In the run of five slides, after the
update that follows the swap to frame 4 the fourth slide is rendered and every swap has been
seen; the swap at 1083.35 ms, to frame 5, brings it on screen; no update runs before the
swap at 1100.02 ms, to frame 6, and the next update stamps the fourth slide with 1100.02 ms
and frame 6. -/
theorem onset_stamp_is_of_the_latest_swap :
    ∃ r d r' s,
      exampleDriftStarted.run (exampleMissedSteps.tail.take 8) = .ok r ∧
      r._config.display = some d ∧ r._currentSlide = 3 ∧ r.currentIsPending = true ∧
      d.getFrameNumber = 4 ∧ d._frameNumberOnLastSwapCheck = 4 ∧
      (d.threadSwap 1083350000).getFrameNumber = 5 ∧
      (d.threadSwap 1083350000).getLastSwapTime = 1083350000 ∧
      r.run [.threadSwap 1083350000, .threadSwap 1100020000, .update {}] = .ok r' ∧
      r'._slides[3]? = some s ∧
      s.actual.startTime = 1100020000 ∧ s.actual.startFrame = 6 ∧
      s.actual.startTime ≠ 1083350000 ∧ s.actual.startFrame ≠ 5 ∧
      (exampleDriftFinished._slides.getD 3 {}).actual.startTime = 1100020000 ∧
      (exampleDriftFinished._slides.getD 3 {}).actual.startFrame = 6 :=
  ⟨_, _, _, _, rfl, rfl, rfl, rfl, rfl, rfl, rfl, rfl, rfl, rfl, rfl, rfl, by decide,
    by decide, rfl, rfl⟩

/-- C13, amended: after a multi-core presentation that was started successfully and ran to
completion through updates and swaps of the background thread (the final-slide callback, if
any, only inserting slides or stopping), every slide `i` before the last presented slide
has the actual duration `actual.startTime(i+1) - actual.startTime(i)` and the actual frame
count `actual.startFrame(i+1) - actual.startFrame(i)` in 32-bit unsigned arithmetic.  The
update that finds a swap made while a slide waits to come on screen stamps that slide with
the last swap time and the frame number it reads from the display then.  These are the time
and the frame number of the swap that brought the slide on screen when every earlier swap
had been seen, the update runs after that swap and before the next one, and no swap lands
inside it. -/
theorem actual_timing_between_onsets (p p0 q : CX_SlidePresenter) (steps : List Step)
    (hmode : p._config.swappingMode = .MULTI_CORE)
    (hcb : callbackAppendsOrStops p)
    (hstart : p.startSlidePresentation = .ok (true, p0))
    (hsteps : ∀ e ∈ steps, isUpdateOrSwap e = true)
    (hrun : p0.run steps = .ok q)
    (hdone : q.isPresentingSlides = false) :
    (∀ (i : Nat) (a b : Slide), i < q._currentSlide →
      q._slides[i]? = some a → q._slides[i + 1]? = some b →
      a.actual.duration = b.actual.startTime - a.actual.startTime ∧
      a.actual.frameCount = subUInt32 b.actual.startFrame a.actual.startFrame) ∧
    (∀ (r r' : CX_SlidePresenter) (env : UpdateEnv) (d : CX_Display) (cur : Slide),
      r._config.swappingMode = .MULTI_CORE → callbackAppendsOrStops r →
      r._presentingSlides = true → r._config.display = some d →
      d.hasSwappedSinceLastCheck.1 = true →
      r._slides[r._currentSlide]? = some cur → cur.isPending = true →
      r.update env = .ok r' →
      ∃ s, r'._slides[r._currentSlide]? = some s ∧
        s.actual.startTime = (displayAtTimeRead env d).getLastSwapTime ∧
        s.actual.startFrame = toUInt32 (displayAtFrameRead env d).getFrameNumber) ∧
    (∀ (r r' : CX_SlidePresenter) (t : Int) (env : UpdateEnv) (d : CX_Display) (cur : Slide),
      r._config.swappingMode = .MULTI_CORE → callbackAppendsOrStops r →
      r._presentingSlides = true → r._config.display = some d →
      d.isAutomaticallySwapping = true →
      d.getFrameNumber = d._frameNumberOnLastSwapCheck →
      r._slides[r._currentSlide]? = some cur → cur.isPending = true →
      env.swapsBeforeFrameRead = [] → env.swapsBeforeTimeRead = [] →
      r.run [.threadSwap t, .update env] = .ok r' →
      (d.threadSwap t).getLastSwapTime = t ∧
      (d.threadSwap t).getFrameNumber = d.getFrameNumber + 1 ∧
      ∃ s, r'._slides[r._currentSlide]? = some s ∧
        s.actual.startTime = t ∧
        s.actual.startFrame = toUInt32 (d.getFrameNumber + 1)) := by
  have hstamp : ∀ (r r' : CX_SlidePresenter) (env : UpdateEnv) (d : CX_Display) (cur : Slide),
      r._config.swappingMode = .MULTI_CORE → callbackAppendsOrStops r →
      r._presentingSlides = true → r._config.display = some d →
      d.hasSwappedSinceLastCheck.1 = true →
      r._slides[r._currentSlide]? = some cur → cur.isPending = true →
      r.update env = .ok r' →
      ∃ s, r'._slides[r._currentSlide]? = some s ∧
        s.actual.startTime = (displayAtTimeRead env d).getLastSwapTime ∧
        s.actual.startFrame = toUInt32 (displayAtFrameRead env d).getFrameNumber := by
    intro r r' env d cur hm hcbr hpres hd hswap hcur hpendc hup
    unfold update at hup
    simp only [hm] at hup
    have := multiCoreUpdate_onset hup hpres hd hswap hcur hpendc hcbr
    cases hs : r'._slides[r._currentSlide]? with
    | none => simp [hs] at this
    | some s =>
      simp only [hs, Option.map_some', Option.some.injEq, Prod.mk.injEq] at this
      exact ⟨s, rfl, this.1, this.2⟩
  refine ⟨?_, hstamp, ?_⟩
  · obtain ⟨st0, set0⟩ := startSlidePresentation_started hstart
    obtain ⟨f1, f2, -⟩ := settings_fields set0
    have hcb0 : callbackAppendsOrStops p0 := by
      intro cb hc
      exact hcb cb (by rw [← f2]; exact hc)
    obtain ⟨stq, -⟩ := run_started steps hrun hsteps (by rw [f1]; exact hmode) hcb0 st0
    have hflags : q._presentingSlides = false ∧ q._synchronizing = false := by
      unfold isPresentingSlides at hdone
      simpa using hdone
    have hpend := stq.ended hflags.2 hflags.1
    have hA := (stq.chains hflags.2).1
    have hb : q.onScreenBound = q._currentSlide := by simp [onScreenBound, hpend]
    rw [hb] at hA
    intro i a b hi ha hb'
    exact hA i a b ha hb' (by omega)
  · intro r r' t env d cur hm hcbr hpres hd hauto hseen hcur hpendc hq1 hq2 hrun2
    have hrunning : d._swapThread.threadRunning = true := hauto
    have hT : (d.threadSwap t).getLastSwapTime = t := by
      simp [CX_Display.threadSwap, hrunning, CX_Display.getLastSwapTime]
    have hF : (d.threadSwap t).getFrameNumber = d.getFrameNumber + 1 := by
      simp only [CX_Display.threadSwap, hrunning, ↓reduceIte, CX_Display.getFrameNumber]
      omega
    have hC : (d.threadSwap t)._frameNumberOnLastSwapCheck = d.getFrameNumber := by
      simp only [CX_Display.threadSwap, hrunning, ↓reduceIte]
      exact hseen.symm
    refine ⟨hT, hF, ?_⟩
    unfold run at hrun2
    simp only [step, hd] at hrun2
    unfold run at hrun2
    split at hrun2
    · simp at hrun2
    · rename_i r1 h1
      simp only [run, Except.ok.injEq] at hrun2
      subst hrun2
      simp only [step] at h1
      have hsw : (d.threadSwap t).hasSwappedSinceLastCheck
          = (true, { d.threadSwap t with
              _frameNumberOnLastSwapCheck := d.getFrameNumber + 1 }) := by
        unfold CX_Display.hasSwappedSinceLastCheck
        simp [hF, hC]
      obtain ⟨s, hs, e1, e2⟩ := hstamp (r.setDisplay (d.threadSwap t)) r1 env (d.threadSwap t)
        cur hm hcbr hpres rfl (by rw [hsw]) hcur hpendc h1
      refine ⟨s, hs, ?_, ?_⟩
      · rw [e1]
        unfold displayAtTimeRead displayAtFrameRead
        rw [hq1, hq2, hsw]
        exact hT
      · rw [e2]
        unfold displayAtFrameRead
        rw [hq1, hsw]
        exact congrArg toUInt32 hF

/-- Witness for C13: in the run of five slides in which the third slide stays one frame too
long, the third slide has the actual duration 33.34 ms and the actual frame count 2, the
differences of the actual starts of the fourth and the third slide; and the third slide,
rendered while every swap had been seen and brought on screen by the swap at 1066.68 ms to
frame 4, is stamped with that time and frame by the update that follows. -/
theorem actual_timing_between_onsets_witness :
    (exampleDriftFinished._slides.getD 2 {}).actual.duration
      = (exampleDriftFinished._slides.getD 3 {}).actual.startTime
        - (exampleDriftFinished._slides.getD 2 {}).actual.startTime ∧
    (exampleDriftFinished._slides.getD 2 {}).actual.frameCount
      = subUInt32 (exampleDriftFinished._slides.getD 3 {}).actual.startFrame
          (exampleDriftFinished._slides.getD 2 {}).actual.startFrame ∧
    (exampleDriftFinished._slides.getD 2 {}).actual.frameCount = 2 ∧
    exampleDriftStarted.run (exampleMissedSteps.tail.take 6) = .ok exampleDriftRendered ∧
    exampleDriftRendered.run [.threadSwap 1066680000, .update {}] = .ok exampleDriftOnset ∧
    ∃ s, exampleDriftOnset._slides[2]? = some s ∧
      s.actual.startTime = 1066680000 ∧ s.actual.startFrame = 4 :=
  have h := actual_timing_between_onsets (exampleDriftQueued .DO_NOTHING) exampleDriftStarted
    exampleDriftFinished exampleMissedSteps.tail rfl
    (fun cb hc => by simp [exampleDriftQueued, examplePresenterWith, examplePresenter] at hc)
    rfl (by decide) rfl rfl
  have h1 := h.1 2 _ _ (by decide) rfl rfl
  have h3 := h.2.2 exampleDriftRendered exampleDriftOnset 1066680000 {} _ _ rfl
    (fun cb hc => by cases hc) rfl rfl rfl rfl rfl rfl rfl rfl rfl
  ⟨h1.1, h1.2, rfl, rfl, rfl, h3.2.2⟩

end CX_SlidePresenter

end CX

/-! ## The intended schedule under `DO_NOTHING` -/

namespace CX

namespace CX_SlidePresenter

end CX_SlidePresenter

end CX

/-! ## Rounds of a presentation that grows at its final slide -/

namespace CX

namespace CX_SlidePresenter

end CX_SlidePresenter

end CX

namespace CX

namespace CX_SlidePresenter

end CX_SlidePresenter

end CX

namespace CX

namespace CX_SlidePresenter

end CX_SlidePresenter

end CX

namespace CX

namespace CX_SlidePresenter

end CX_SlidePresenter

end CX

namespace CX

namespace CX_SlidePresenter

theorem step_settings {p q : CX_SlidePresenter} {e : Step} (h : p.step e = .ok q)
    (he : isUpdateOrSwap e = true) : q.settings = p.settings := by
  cases e with
  | call c => simp [isUpdateOrSwap] at he
  | setup config f => simp [isUpdateOrSwap] at he
  | update env =>
    simp only [step] at h
    exact (update_inv (fun _ => True) h (Or.inr (fun _ _ _ _ _ => trivial)) trivial).2
  | threadSwap t =>
    simp only [step] at h
    split at h
    · simp only [Except.ok.injEq] at h
      subst h
      rfl
    · simp only [Except.ok.injEq] at h
      subst h
      rfl

theorem startSlidePresentation_flags {p q : CX_SlidePresenter}
    (h : p.startSlidePresentation = .ok (true, q)) :
    q._synchronizing = true ∧ q._presentingSlides = false ∧
    q._slides.length = p._slides.length := by
  cases hd : p._config.display with
  | none => simp [startSlidePresentation, hd] at h
  | some d =>
    by_cases hs : p._slides = []
    · simp [startSlidePresentation, hd, hs] at h
    · obtain ⟨d', h'⟩ := startSlidePresentation_nonempty p d hd hs
      rw [h'] at h
      simp only [Except.ok.injEq, Prod.mk.injEq, true_and] at h
      subst h
      exact ⟨rfl, rfl, by simp⟩

end CX_SlidePresenter

end CX

/-! ## The number of calls of the final-slide callback -/

namespace CX

namespace CX_SlidePresenter

end CX_SlidePresenter

end CX

/-! ## A presentation without jitter -/

namespace CX

namespace CX_SlidePresenter

theorem toUInt32_of_lt {a : Nat} (h : a < UINT32_SIZE) : toUInt32 a = a := by
  unfold toUInt32
  exact Nat.mod_eq_of_lt h

end CX_SlidePresenter

end CX

namespace CX

namespace CX_SlidePresenter

theorem SameTiming.get {l' l : List Slide} (h : SameTiming l' l) {j : Nat} {s' : Slide}
    (hs' : l'[j]? = some s') : ∃ s, l[j]? = some s ∧ sameTiming s' s := by
  have hlt : j < l.length := by
    have := (List.getElem?_eq_some_iff.mp hs').1
    rw [h.1] at this
    exact this
  obtain ⟨s, hs⟩ := getElem?_of_lt hlt
  exact ⟨s, hs, h.2 j s' s hs' hs⟩

end CX_SlidePresenter

end CX

namespace CX

namespace CX_SlidePresenter

end CX_SlidePresenter

end CX

namespace CX

namespace CX_SlidePresenter

end CX_SlidePresenter

end CX

namespace CX

namespace CX_SlidePresenter

end CX_SlidePresenter

end CX

namespace CX

namespace CX_SlidePresenter

end CX_SlidePresenter

end CX

namespace CX

namespace CX_SlidePresenter

end CX_SlidePresenter

end CX

namespace CX

namespace CX_SlidePresenter

end CX_SlidePresenter

end CX

namespace CX

namespace CX_SlidePresenter

theorem zeroJitterSteps_updateOrSwap (ticks : List (Int × UpdateEnv × List UpdateEnv)) :
    ∀ e ∈ zeroJitterSteps ticks, isUpdateOrSwap e = true := by
  intro e he
  simp only [zeroJitterSteps, List.mem_flatMap, List.mem_cons, List.mem_map] at he
  obtain ⟨k, -, hk⟩ := he
  rcases hk with rfl | rfl | ⟨env, -, rfl⟩ <;> rfl

theorem zeroJitterSteps_readsFrameAtCheck (ticks : List (Int × UpdateEnv × List UpdateEnv)) :
    ∀ e ∈ zeroJitterSteps ticks, readsFrameAtCheck e := by
  intro e he
  simp only [zeroJitterSteps, List.mem_flatMap, List.mem_cons, List.mem_map] at he
  obtain ⟨k, -, hk⟩ := he
  rcases hk with rfl | rfl | ⟨env, -, rfl⟩
  · trivial
  · rfl
  · rfl

theorem startSlidePresentation_display {p p0 : CX_SlidePresenter} {d : CX_Display}
    (h : p.startSlidePresentation = .ok (true, p0))
    (hmode : p._config.swappingMode = .MULTI_CORE)
    (hd : p._config.display = some d) :
    p0._config.display = some ((if (!d.isAutomaticallySwapping) = true
      then d.BLOCKING_setAutoSwapping true else d).hasSwappedSinceLastCheck.2) := by
  have hne : p._slides ≠ [] := by
    intro hs
    simp [startSlidePresentation, hd, hs] at h
  have hlen : ¬ p._slides.length ≤ 0 := by
    have := List.length_pos.mpr hne
    omega
  have hlen0 : ¬ p._slides.length = 0 := by omega
  obtain ⟨cfg, hog, pres, syn, cur, slides, info, act⟩ := p
  obtain ⟨disp, cb, em, dealloc, sm, hogd, fence, wait⟩ := cfg
  simp only at hd hne hlen hlen0 hmode
  subst hd
  subst hmode
  unfold startSlidePresentation at h
  simp only [hlen, hlen0, ↓reduceIte, reduceCtorEq] at h
  cases act
  · simp only [Bool.false_eq_true, ↓reduceIte, pure, Except.pure, bind, Except.bind, setDisplay,
      Except.ok.injEq, Prod.mk.injEq, true_and] at h
    rw [← h]
  · obtain ⟨a, l, hl⟩ := List.exists_cons_of_ne_nil hne
    subst hl
    simp only [↓reduceIte, endDrawingCurrentSlide, pure, Except.pure, bind, Except.bind,
      setDisplay, Except.ok.injEq, Prod.mk.injEq, true_and] at h
    rw [← h]

end CX_SlidePresenter

end CX

/-! ## Frame counts in a presentation without jitter -/

namespace CX

namespace CX_SlidePresenter

end CX_SlidePresenter

end CX

/-! ## Content of the queued slides -/

namespace CX

namespace CX_SlidePresenter

theorem insertion_content {p q : CX_SlidePresenter} {c : PresenterCall}
    (hc : isInsertion c = true) (h : p.applyCall c = .ok q) :
    q._slides = p._slides ∨
    ∃ s, q._slides = p._slides ++ [s] ∧
      (s.hasFramebuffer = true ∨ s.hasDrawingFunction = true) ∧
      (s.hasFramebuffer = true → s.hasDrawingFunction = true →
        ∃ slide, c = .appendSlide slide ∧ slide.hasFramebuffer = true ∧
          slide.hasDrawingFunction = true) := by
  cases c with
  | appendSlide slide =>
    rcases (appendSlide_ok h).2 with e | ⟨-, hcontent, n, -, e⟩
    · exact Or.inl e
    · refine Or.inr ⟨_, e, ?_, ?_⟩
      · rcases hcontent with hf | hf
        · exact Or.inl hf
        · refine Or.inr ?_
          cases hdf : slide.drawingFunction with
          | none => exact absurd hdf hf
          | some f => simp [Slide.hasDrawingFunction, hdf]
      · intro h1 h2
        exact ⟨slide, rfl, h1, h2⟩
  | appendSlideFunction f D name =>
    rcases (appendSlideFunction_ok h).2 with e | ⟨-, hf, n, -, e⟩
    · exact Or.inl e
    · refine Or.inr ⟨_, e, Or.inr ?_, ?_⟩
      · cases f with
        | none => exact absurd rfl hf
        | some f => rfl
      · intro h1
        simp [Slide.hasFramebuffer] at h1
  | beginDrawingNextSlide D name =>
    rcases (beginDrawingNextSlide_ok h).2 with e | ⟨-, n, -, e⟩
    · exact Or.inl e
    · refine Or.inr ⟨_, e, Or.inl rfl, ?_⟩
      intro _ h2
      simp [Slide.hasDrawingFunction] at h2
  | endDrawingCurrentSlide =>
    have := endDrawingCurrentSlide_ok h
    subst this
    exact Or.inl rfl
  | startSlidePresentation => simp [isInsertion] at hc
  | stopSlidePresentation => simp [isInsertion] at hc
  | clearSlides => simp [isInsertion] at hc

/-- C21, the claim as stated fails: `appendSlide` accepts a slide that has both an allocated
framebuffer and a drawing function, so after a single insertion the queue holds a slide
with both kinds of content. -/
theorem appendSlide_keeps_both_contents :
    ∃ q s, examplePresenter.applyCalls [.appendSlide exampleBothSlide] = .ok q ∧
      q._slides = [s] ∧ s.hasFramebuffer = true ∧ s.hasDrawingFunction = true :=
  ⟨_, _, rfl, rfl, rfl, rfl⟩

/-- C21, amended: after any sequence of `appendSlide`, `appendSlideFunction`,
`beginDrawingNextSlide` and `endDrawingCurrentSlide` calls on a queue whose slides all have
content, every queued slide has an allocated framebuffer or a drawing function (none has
neither); and when the queue held no slide with both and no slide handed to `appendSlide`
has both, every queued slide has exactly one of the two. -/
theorem queued_slides_have_content (cs : List PresenterCall) (p q : CX_SlidePresenter)
    (hcs : ∀ c ∈ cs, isInsertion c = true)
    (hp : ∀ s ∈ p._slides, s.hasFramebuffer = true ∨ s.hasDrawingFunction = true)
    (h : p.applyCalls cs = .ok q) :
    (∀ s ∈ q._slides, s.hasFramebuffer = true ∨ s.hasDrawingFunction = true) ∧
    ((∀ s ∈ p._slides, ¬ (s.hasFramebuffer = true ∧ s.hasDrawingFunction = true)) →
      (∀ slide, PresenterCall.appendSlide slide ∈ cs →
        ¬ (slide.hasFramebuffer = true ∧ slide.hasDrawingFunction = true)) →
      ∀ s ∈ q._slides, s.hasFramebuffer ≠ s.hasDrawingFunction) := by
  induction cs generalizing p with
  | nil =>
    simp only [applyCalls, Except.ok.injEq] at h
    subst h
    refine ⟨hp, fun hb _ s hs => ?_⟩
    have h1 := hp s hs
    have h2 := hb s hs
    cases hf : s.hasFramebuffer <;> cases hd : s.hasDrawingFunction <;> simp_all
  | cons c cs ih =>
    simp only [applyCalls] at h
    cases h1 : p.applyCall c with
    | error e => simp [h1] at h
    | ok p1 =>
      simp only [h1] at h
      have hc := hcs c (List.mem_cons_self _ _)
      have hp1 : ∀ s ∈ p1._slides, s.hasFramebuffer = true ∨ s.hasDrawingFunction = true := by
        rcases insertion_content hc h1 with e | ⟨s, e, hs, -⟩
        · rw [e]; exact hp
        · rw [e]
          intro s' hs'
          rcases List.mem_append.1 hs' with h' | h'
          · exact hp s' h'
          · rw [List.mem_singleton.1 h']; exact hs
      obtain ⟨r1, r2⟩ := ih p1 (fun c' hc' => hcs c' (List.mem_cons_of_mem _ hc')) hp1 h
      refine ⟨r1, fun hb hcalls => r2 ?_ ?_⟩
      · rcases insertion_content hc h1 with e | ⟨s, e, -, hs⟩
        · rw [e]; exact hb
        · rw [e]
          intro s' hs'
          rcases List.mem_append.1 hs' with h' | h'
          · exact hb s' h'
          · rw [List.mem_singleton.1 h']
            rintro ⟨hf, hd⟩
            obtain ⟨slide, rfl, hsf, hsd⟩ := hs hf hd
            exact hcalls slide (List.mem_cons_self _ _) ⟨hsf, hsd⟩
      · intro slide hmem
        exact hcalls slide (List.mem_cons_of_mem _ hmem)

theorem queued_slides_have_content_witness :
    (∀ s ∈ exampleQueued._slides, s.hasFramebuffer = true ∨ s.hasDrawingFunction = true) ∧
    ((∀ s ∈ examplePresenter._slides,
        ¬ (s.hasFramebuffer = true ∧ s.hasDrawingFunction = true)) →
      (∀ slide, PresenterCall.appendSlide slide ∈ exampleCalls →
        ¬ (slide.hasFramebuffer = true ∧ slide.hasDrawingFunction = true)) →
      ∀ s ∈ exampleQueued._slides, s.hasFramebuffer ≠ s.hasDrawingFunction) :=
  queued_slides_have_content exampleCalls examplePresenter exampleQueued
    (by decide) (by intro s hs; cases hs) rfl

end CX_SlidePresenter

end CX

/-! ## Closing of an open drawing scope by the insertion operations -/

namespace CX

namespace CX_SlidePresenter

theorem endDrawingCurrentSlide_cases (p : CX_SlidePresenter) :
    (p._slides = [] ∧ p.endDrawingCurrentSlide = .error .emptyBack) ∨
    (p._slides ≠ [] ∧ p.endDrawingCurrentSlide = .ok { p with _lastFramebufferActive := false }) := by
  unfold endDrawingCurrentSlide
  cases hs : p._slides with
  | nil => exact Or.inl ⟨rfl, rfl⟩
  | cons a l => exact Or.inr ⟨by simp, rfl⟩

/-- C22, the claim as stated fails: with a drawing scope open, `appendSlideFunction` with a
null drawing function or a duration that is not positive, and `appendSlide` with a duration
that is not positive, return before the scope is closed: the presenter is unchanged and the
scope is still open. -/
theorem rejected_insertion_leaves_scope_open :
    exampleOpenScope._lastFramebufferActive = true ∧
    exampleOpenScope.appendSlideFunction none 16670000 "next" = .ok exampleOpenScope ∧
    exampleOpenScope.appendSlideFunction (some 1) 0 "next" = .ok exampleOpenScope ∧
    exampleOpenScope.appendSlide exampleZeroDurationSlide = .ok exampleOpenScope ∧
    examplePresenter.beginDrawingNextSlide 16670000 "open" = .ok exampleOpenScope :=
  ⟨rfl, rfl, rfl, rfl, rfl⟩

/-- C22, amended: with a drawing scope open, `beginDrawingNextSlide` closes it first for
every argument, `appendSlide` closes it first whenever the duration is positive (also when
the slide is then rejected for having no content), and `appendSlideFunction` closes it
first whenever the duration is positive and the function is not null: the call does what
`endDrawingCurrentSlide` followed by the same call does.  `appendSlide` with a duration
that is not positive and `appendSlideFunction` with such a duration or a null function
return at once and change nothing. -/
theorem insertions_close_open_scope (p : CX_SlidePresenter)
    (hopen : p._lastFramebufferActive = true) :
    (∀ D name, p.beginDrawingNextSlide D name
      = p.endDrawingCurrentSlide >>= fun p1 => p1.beginDrawingNextSlide D name) ∧
    (∀ slide : Slide, 0 < slide.intended.duration →
      p.appendSlide slide = p.endDrawingCurrentSlide >>= fun p1 => p1.appendSlide slide) ∧
    (∀ f D name, 0 < D → f ≠ none →
      p.appendSlideFunction f D name
        = p.endDrawingCurrentSlide >>= fun p1 => p1.appendSlideFunction f D name) ∧
    (∀ p1, p.endDrawingCurrentSlide = .ok p1 →
      p1 = { p with _lastFramebufferActive := false }) ∧
    (∀ slide : Slide, slide.intended.duration ≤ 0 → p.appendSlide slide = .ok p) ∧
    (∀ f D name, D ≤ 0 ∨ f = none → p.appendSlideFunction f D name = .ok p) := by
  refine ⟨?_, ?_, ?_, fun p1 h1 => endDrawingCurrentSlide_ok h1, ?_, ?_⟩
  · intro D name
    rcases endDrawingCurrentSlide_cases p with ⟨-, he⟩ | ⟨-, he⟩
    · simp only [beginDrawingNextSlide, hopen, if_true, he]
      rfl
    · simp only [beginDrawingNextSlide, hopen, if_true, he]
      rfl
  · intro slide hD
    have hD' : ¬ slide.intended.duration ≤ CX_Millis 0 := by
      simp only [CX_Millis]; omega
    rcases endDrawingCurrentSlide_cases p with ⟨-, he⟩ | ⟨-, he⟩
    · simp only [appendSlide, hopen, if_true, he, hD', if_false]
      rfl
    · simp only [appendSlide, hopen, if_true, he, hD', if_false]
      rfl
  · intro f D name hD hf
    have hD' : ¬ D ≤ CX_Millis 0 := by
      simp only [CX_Millis]; omega
    obtain ⟨g, rfl⟩ : ∃ g, f = some g := by
      cases f with
      | none => exact absurd rfl hf
      | some g => exact ⟨g, rfl⟩
    rcases endDrawingCurrentSlide_cases p with ⟨-, he⟩ | ⟨-, he⟩
    · simp only [appendSlideFunction, hopen, if_true, he, hD', if_false]
      rfl
    · simp only [appendSlideFunction, hopen, if_true, he, hD', if_false]
      rfl
  · intro slide hD
    have hD' : slide.intended.duration ≤ CX_Millis 0 := by
      simp only [CX_Millis]; omega
    simp only [appendSlide, hD', if_true]
    rfl
  · intro f D name h
    rcases h with hD | rfl
    · have hD' : D ≤ CX_Millis 0 := by
        simp only [CX_Millis]; omega
      simp only [appendSlideFunction, hD', if_true]
      rfl
    · unfold appendSlideFunction
      by_cases hD' : D ≤ CX_Millis 0
      · simp only [hD', if_true]; rfl
      · simp only [hD', if_false]; rfl

end CX_SlidePresenter

end CX

namespace CX

namespace CX_SlidePresenter

theorem insertions_close_open_scope_witness :
    exampleOpenScope._lastFramebufferActive = true ∧
    exampleOpenScope.appendSlideFunction (some 1) 16670000 "next"
      = exampleOpenScope.endDrawingCurrentSlide
          >>= fun p1 => p1.appendSlideFunction (some 1) 16670000 "next" :=
  ⟨rfl, (insertions_close_open_scope exampleOpenScope rfl).2.2.1 (some 1) 16670000 "next"
    (by decide) (by simp)⟩

end CX_SlidePresenter

end CX

/-! ## Copies to the back buffer under an unsupported orientation -/

namespace CX

namespace CX_Display

/-- C23, what the code does: under `OF_ORIENTATION_90_LEFT` and `OF_ORIENTATION_90_RIGHT`
every overload of `copyFboToBackBuffer` logs one error and still issues the blit to the
back buffer, for every resolution, framebuffer, rectangle and point; on the example
framebuffer the blit is issued with the coordinates of the source left as computed. -/
theorem copyFboToBackBuffer_blits_when_unsupported :
    (∀ (orientation : ofOrientation), orientation = .OF_ORIENTATION_90_LEFT
        ∨ orientation = .OF_ORIENTATION_90_RIGHT →
      ∀ (res : ofRectangle) (fbo : ofFbo) (source : ofRectangle) (destination : ofPoint),
      ((copyFboToBackBuffer res orientation fbo).errorsLogged = 1 ∧
        ∃ c ∈ (copyFboToBackBuffer res orientation fbo).glCalls, c.isBlit = true) ∧
      ((copyFboToBackBufferAt res orientation fbo destination).errorsLogged = 1 ∧
        ∃ c ∈ (copyFboToBackBufferAt res orientation fbo destination).glCalls,
          c.isBlit = true) ∧
      ((copyFboToBackBufferFrom res orientation fbo source destination).errorsLogged = 1 ∧
        ∃ c ∈ (copyFboToBackBufferFrom res orientation fbo source destination).glCalls,
          c.isBlit = true)) ∧
    copyFboToBackBuffer exampleResolution .OF_ORIENTATION_90_LEFT exampleFbo =
      { errorsLogged := 1
        glCalls := [ .bindReadFramebuffer 1, .bindDrawFramebufferBack,
                     .blitFramebuffer 0 600 800 0 0 600 800 0 ] } := by
  refine ⟨?_, rfl⟩
  intro orientation ho res fbo source destination
  rcases ho with rfl | rfl
  · exact ⟨⟨rfl, _, List.mem_cons_of_mem _ (List.mem_cons_of_mem _ (List.mem_singleton.2 rfl)),
        rfl⟩,
      ⟨rfl, _, List.mem_cons_of_mem _ (List.mem_cons_of_mem _ (List.mem_singleton.2 rfl)), rfl⟩,
      ⟨rfl, _, List.mem_cons_of_mem _ (List.mem_cons_of_mem _ (List.mem_singleton.2 rfl)), rfl⟩⟩
  · exact ⟨⟨rfl, _, List.mem_cons_of_mem _ (List.mem_cons_of_mem _ (List.mem_singleton.2 rfl)),
        rfl⟩,
      ⟨rfl, _, List.mem_cons_of_mem _ (List.mem_cons_of_mem _ (List.mem_singleton.2 rfl)), rfl⟩,
      ⟨rfl, _, List.mem_cons_of_mem _ (List.mem_cons_of_mem _ (List.mem_singleton.2 rfl)), rfl⟩⟩

end CX_Display

end CX

/-! ## An open drawing scope and `clearSlides` -/

namespace CX

namespace CX_SlidePresenter

/-- C27, what the code does: `clearSlides` empties the queue and leaves
`_lastFramebufferActive` as it is, so after `beginDrawingNextSlide` and `clearSlides` a
drawing scope is open over an empty queue, and the auto-close of each of the three
insertion operations then takes `back()` of the empty queue. -/
theorem clearSlides_leaves_scope_open :
    examplePresenter.applyCalls [.beginDrawingNextSlide 16670000 "open", .clearSlides]
      = .ok exampleClearedOpen ∧
    exampleClearedOpen._lastFramebufferActive = true ∧
    exampleClearedOpen._slides = [] ∧
    exampleClearedOpen.appendSlideFunction (some 1) 16670000 "next" = .error .emptyBack ∧
    exampleClearedOpen.appendSlide exampleBothSlide = .error .emptyBack ∧
    exampleClearedOpen.beginDrawingNextSlide 16670000 "next" = .error .emptyBack :=
  ⟨rfl, rfl, rfl, rfl, rfl, rfl⟩

end CX_SlidePresenter

end CX

/-! ## The hogging start time of the blocking single-core mode -/

namespace CX

namespace CX_SlidePresenter

/-- C25, the claim as stated fails: under `DO_NOTHING` the second slide of the example, due
at 1100 ms, comes on screen at 1110 ms; the third slide is then given the intended start
1200 ms, while the hogging start time computed for it is 1205 ms, not 1200 ms minus the
margin of 5 ms.  Under `FIX_TIMING_FROM_FIRST_SLIDE` no intended start is set at all. -/
theorem hogging_start_time_follows_actual_onset :
    (∃ q next, (exampleHoggingQueued .DO_NOTHING).run exampleHoggingSteps = .ok q ∧
      q._currentSlide = 2 ∧ q._slides[2]? = some next ∧
      next.intended.startTime = 1200000000 ∧ q._hoggingStartTime = 1205000000 ∧
      q._hoggingStartTime ≠ next.intended.startTime - q._config.preSwapCPUHoggingDuration) ∧
    (∃ q next, (exampleHoggingQueued .FIX_TIMING_FROM_FIRST_SLIDE).run exampleHoggingSteps
        = .ok q ∧
      q._currentSlide = 2 ∧ q._slides[2]? = some next ∧
      next.intended.startTime = 0 ∧ q._hoggingStartTime = 1205000000 ∧
      q._hoggingStartTime ≠ next.intended.startTime - q._config.preSwapCPUHoggingDuration) :=
  ⟨⟨_, _, rfl, rfl, rfl, rfl, rfl, by decide⟩, ⟨_, _, rfl, rfl, rfl, rfl, rfl, by decide⟩⟩

end CX_SlidePresenter

end CX

namespace CX

namespace CX_SlidePresenter

theorem getElem?_set_other {l : List Slide} {i j : Nat} (x : Slide) (h : j ≠ i) :
    (l.set i x)[j]? = l[j]? := by
  rw [List.getElem?_set]
  simp [Ne.symm h]

/-- What the presenting block of `_singleCoreBlockingUpdate` does: nothing; or the current
slide comes on screen and the presentation ends or stays at that slide; or the current slide
comes on screen, the next one is prepared and rendered, and the hogging start time is set. -/
theorem singleCorePresenting_cases {p q : CX_SlidePresenter} {env : UpdateEnv} {b : Bool}
    (h : p._singleCorePresenting env = .ok (b, q)) :
    (b = false ∧ q = p) ∨
    ∃ d b1 p1, p._config.display = some d ∧ p.currentIsPending = true ∧
      _slideOnset 0 env.currentSlideOnset (p.setDisplay d.BLOCKING_swapFrontAndBackBuffers)
        = .ok (b1, p1) ∧
      ((q = p1 ∧ b = b1 ∧ (b1 = false → ¬ p1._currentSlide + 1 < p1._slides.length)) ∨
       (b = false ∧ b1 = false ∧ ∃ cur next st info,
          p1._slides[p1._currentSlide]? = some cur ∧
          p1._slides[p1._currentSlide + 1]? = some next ∧
          (st = SlideStatus.SWAP_PENDING ∨ st = SlideStatus.COPY_TO_BACK_BUFFER_PENDING) ∧
          q._slides = p1._slides.set (p1._currentSlide + 1)
            { preparedNext p1._config.errorMode cur next with slideStatus := st } ∧
          q._slideInfo = info ∧ info.length = p1._slideInfo.length ∧
          q._currentSlide = p1._currentSlide + 1 ∧
          q._hoggingStartTime = env.currentSlideOnset + cur.intended.duration
            - p1._config.preSwapCPUHoggingDuration ∧
          q._config = p1._config ∧ q._presentingSlides = p1._presentingSlides ∧
          q._synchronizing = p1._synchronizing ∧
          q._lastFramebufferActive = p1._lastFramebufferActive)) := by
  unfold _singleCorePresenting at h
  obtain ⟨current, hcur, h⟩ := bind_ok h
  have hcur' := vectorAt_ok hcur
  split at h
  · rename_i hstatus
    have hpend : p.currentIsPending = true := by
      simp only [currentIsPending, hcur', Slide.isPending, decide_eq_true_eq]
      rcases hstatus with h1 | ⟨-, h1⟩
      · exact Or.inl h1
      · exact Or.inr h1
    split at h
    · split at h
      · simp [throw, throwThe, MonadExceptOf.throw] at h
      · rename_i d hd
        obtain ⟨⟨returned, p1⟩, h1, h⟩ := bind_ok h
        refine Or.inr ⟨d, returned, p1, hd, hpend, h1, ?_⟩
        simp only at h
        split at h
        · rename_i hret
          simp only [pure, Except.pure, Except.ok.injEq, Prod.mk.injEq] at h
          obtain ⟨rfl, rfl⟩ := h
          exact Or.inl ⟨rfl, hret.symm, fun hf => by simp [hf] at hret⟩
        · rename_i hret
          have hret' : returned = false := by simpa using hret
          split at h
          · rename_i hlt
            obtain ⟨p2, h2, h⟩ := bind_ok h
            obtain ⟨cur2, hc2, h⟩ := bind_ok h
            obtain ⟨p3, h3, h⟩ := bind_ok h
            simp only [pure, Except.pure, Except.ok.injEq, Prod.mk.injEq] at h
            obtain ⟨rfl, rfl⟩ := h
            obtain ⟨cur, hc⟩ := getElem?_of_lt (Nat.lt_of_succ_lt hlt)
            obtain ⟨next, hn⟩ := getElem?_of_lt hlt
            rw [prepareNextSlide_eq hc hn] at h2
            simp only [Except.ok.injEq] at h2
            subst h2
            have hc2' := vectorAt_ok hc2
            simp only at hc2'
            rw [getElem?_set_other _ (Nat.ne_of_lt (Nat.lt_succ_self _)), hc] at hc2'
            simp only [Option.some.injEq] at hc2'
            subst hc2'
            obtain ⟨cur', st, info, hcur3, hst, hq⟩ := renderCurrentSlide_slides h3
            simp only at hcur3
            rw [set_getElem?_same _ hn] at hcur3
            simp only [Option.some.injEq] at hcur3
            subst hcur3
            obtain ⟨s1, i1, hs, hl1, hl2, -⟩ := renderCurrentSlide_shape h3
            refine Or.inr ⟨rfl, hret', cur, next, st, p3._slideInfo, hc, hn, hst, ?_, rfl, ?_,
              ?_, ?_, ?_, ?_, ?_, ?_⟩
            · rw [hq]
              simp only [List.set_set]
            · rw [hs]; exact hl2
            · rw [hq]
            · rw [hq]
            · rw [hq]
            · rw [hq]
            · rw [hq]
            · rw [hq]
          · rename_i hlt
            simp only [pure, Except.pure, Except.ok.injEq, Prod.mk.injEq] at h
            obtain ⟨rfl, rfl⟩ := h
            exact Or.inl ⟨rfl, hret'.symm, fun _ => hlt⟩
    · simp only [pure, Except.pure, Except.ok.injEq, Prod.mk.injEq] at h
      obtain ⟨rfl, rfl⟩ := h
      exact Or.inl ⟨rfl, rfl⟩
  · simp only [pure, Except.pure, Except.ok.injEq, Prod.mk.injEq] at h
    obtain ⟨rfl, rfl⟩ := h
    exact Or.inl ⟨rfl, rfl⟩

end CX_SlidePresenter

end CX

namespace CX

namespace CX_SlidePresenter

/-- The slide that `_slideOnset` has brought on screen, as it stands when the function
returns, for a callback that only inserts slides or stops the presentation. -/
theorem slideOnset_current {p q : CX_SlidePresenter} {frameNumber : Nat} {onset : Int}
    {b : Bool} (h : p._slideOnset frameNumber onset = .ok (b, q))
    (hcb : callbackAppendsOrStops p) :
    q._currentSlide = p._currentSlide ∧ q._config = p._config ∧
    p._slides.length ≤ q._slides.length ∧
    (q._synchronizing = true → p._synchronizing = true) ∧
    (q._presentingSlides = true → p._presentingSlides = true) ∧
    ∃ cur shown, p._slides[p._currentSlide]? = some cur ∧
      q._slides[p._currentSlide]? = some shown ∧
      shown.slideStatus = .IN_PROGRESS ∧
      shown.actual.startTime = onset ∧ shown.actual.startFrame = toUInt32 frameNumber ∧
      (p._currentSlide = 0 →
        shown.intended.startFrame = toUInt32 frameNumber ∧ shown.intended.startTime = onset) ∧
      (p._currentSlide ≠ 0 → shown.intended = cur.intended) ∧
      shown.intended.duration = cur.intended.duration ∧
      shown.intended.frameCount = cur.intended.frameCount := by
  obtain ⟨slides, cur, shown, hcur, hlen, hshown, s1, s2, s3, s4, s5, s6, s7, -, -, hcase⟩ :=
    slideOnset_stamped h
  rcases hcase with ⟨-, hfinal, -⟩ | ⟨-, rfl, -⟩
  · have hcb' : callbackAppendsOrStops ({ p with _slides := slides } : CX_SlidePresenter) := hcb
    obtain ⟨f1, f2, f3, f4, f5, f6⟩ := handleFinalSlide_slides hfinal hcb'
    simp only at f1 f2 f3 f4 f5 f6
    have hlt : p._currentSlide < slides.length := (List.getElem?_eq_some_iff.mp hshown).1
    obtain ⟨s', hs'⟩ := getElem?_of_lt (Nat.lt_of_lt_of_le hlt f5)
    obtain ⟨g1, g2, g3, g4, -⟩ := f6 _ _ _ hs' hshown
    refine ⟨f1, f2, by omega, f3, f4, cur, s', hcur, hs', by rw [g4, s1], by rw [g2, s2],
      by rw [g3, s3], ?_, ?_, by rw [g1, s6], by rw [g1, s7]⟩
    · intro hz
      rw [g1]
      exact s5 hz
    · intro hz
      rw [g1]
      exact s4 hz
  · exact ⟨rfl, rfl, by simp only; omega, fun hx => hx, fun hx => hx, cur, shown, hcur, hshown,
      s1, s2, s3, s5, s4, s6, s7⟩

theorem singleCoreBlockingUpdate_cases {p q : CX_SlidePresenter} {env : UpdateEnv}
    (h : p._singleCoreBlockingUpdate env = .ok q) :
    ∃ b p1,
      (if p._presentingSlides = true then p._singleCorePresenting env else .ok (false, p))
        = .ok (b, p1) ∧
      ((b = true ∧ q = p1) ∨
       (b = false ∧ ∃ p2,
          (if p1._synchronizing = true then p1._singleCoreSynchronizing env else .ok p1)
            = .ok p2 ∧
          p2._waitSyncCheck env = .ok q)) := by
  unfold _singleCoreBlockingUpdate at h
  split at h
  · simp at h
  · rename_i p1 h1
    simp only [Except.ok.injEq] at h
    subst h
    exact ⟨true, _, h1, Or.inl ⟨rfl, rfl⟩⟩
  · rename_i p1 h1
    split at h
    · simp at h
    · rename_i p2 h2
      exact ⟨false, p1, h1, Or.inr ⟨rfl, p2, h2, h⟩⟩

/-- What the synchronizing block of `_singleCoreBlockingUpdate` does: the first slide is
rendered and the presentation begins. -/
theorem singleCoreSynchronizing_cases {p q : CX_SlidePresenter} {env : UpdateEnv}
    (h : p._singleCoreSynchronizing env = .ok q) :
    q._currentSlide = 0 ∧ q._synchronizing = false ∧ q._presentingSlides = true ∧
    q._hoggingStartTime = env.hoggingNow ∧ q.settings = p.settings ∧
    q._slideInfo.length = p._slideInfo.length ∧
    q._lastFramebufferActive = p._lastFramebufferActive ∧
    ∃ cur st, p._slides[0]? = some cur ∧
      (st = SlideStatus.SWAP_PENDING ∨ st = SlideStatus.COPY_TO_BACK_BUFFER_PENDING) ∧
      q._slides = p._slides.set 0 { cur with slideStatus := st } := by
  unfold _singleCoreSynchronizing at h
  split at h
  · simp [throw, throwThe, MonadExceptOf.throw] at h
  · rename_i d hd
    obtain ⟨d1, -, h⟩ := bind_ok h
    obtain ⟨p1, h1, h⟩ := bind_ok h
    simp only [pure, Except.pure, Except.ok.injEq] at h
    subst h
    obtain ⟨cur, st, info, hcur, hst, hq⟩ := renderCurrentSlide_slides h1
    obtain ⟨s1, i1, hs, -, hl2, -⟩ := renderCurrentSlide_shape h1
    simp only at hcur
    refine ⟨?_, rfl, rfl, rfl, ?_, ?_, ?_, cur, st, hcur, hst, ?_⟩
    · rw [hq]
    · rw [hq]; rfl
    · simp only
      rw [hs]
      exact hl2
    · rw [hq]; rfl
    · rw [hq]; rfl

end CX_SlidePresenter

end CX

namespace CX

namespace CX_SlidePresenter

theorem singleCoreTail_cases {p1 p2 q : CX_SlidePresenter} {env : UpdateEnv}
    (h2 : (if p1._synchronizing = true then p1._singleCoreSynchronizing env else .ok p1)
      = .ok p2)
    (hw : p2._waitSyncCheck env = .ok q) :
    (p1._synchronizing = true ∧ p1._singleCoreSynchronizing env = .ok p2 ∧
      q._currentSlide = 0) ∨
    (p1._synchronizing = false ∧ p2 = p1) := by
  obtain ⟨slides, info, hq, -, -⟩ := waitSyncCheck_shape hw
  split at h2
  · rename_i hs
    refine Or.inl ⟨hs, h2, ?_⟩
    rw [hq]
    exact (singleCoreSynchronizing_cases h2).1
  · rename_i hs
    simp only [Except.ok.injEq] at h2
    exact Or.inr ⟨by simpa using hs, h2.symm⟩

theorem timing_of_waitSyncCheck {p q : CX_SlidePresenter} {env : UpdateEnv}
    (hw : p._waitSyncCheck env = .ok q) {j : Nat} {s : Slide} (hs : p._slides[j]? = some s) :
    ∃ s', q._slides[j]? = some s' ∧ s'.intended = s.intended ∧ s'.actual = s.actual := by
  have hv := map_view_of_withoutFence (fun s : Slide => (s.intended, s.actual))
    (fun _ => rfl) (waitSyncCheck_fence hw) j
  rw [hs] at hv
  cases hq : q._slides[j]? with
  | none => simp [hq] at hv
  | some s' =>
    simp only [hq, Option.map_some', Option.some.injEq, Prod.mk.injEq] at hv
    exact ⟨s', rfl, hv.1, hv.2⟩

/-- C25, amended: in single-core blocking mode, in every error mode, when an `update` has
swapped slide k in and gone on to slide k+1, the hogging start time is the actual onset of
slide k plus its intended duration minus `preSwapCPUHoggingDuration`.  This is the intended
start time of slide k+1 minus the margin under `DO_NOTHING` when slide k started at its
intended time, as the first slide does, and under `PROPAGATE_DELAYS` when slide k started
no earlier than intended. -/
theorem hogging_start_time (p q : CX_SlidePresenter) (env : UpdateEnv)
    (hmode : p._config.swappingMode = .SINGLE_CORE_BLOCKING_SWAPS)
    (hcb : callbackAppendsOrStops p)
    (hpres : p._presentingSlides = true)
    (h : p.update env = .ok q)
    (hnext : q._currentSlide = p._currentSlide + 1) :
    ∃ cur next, q._slides[p._currentSlide]? = some cur ∧
      q._slides[p._currentSlide + 1]? = some next ∧
      cur.actual.startTime = env.currentSlideOnset ∧
      q._hoggingStartTime
        = cur.actual.startTime + cur.intended.duration - q._config.preSwapCPUHoggingDuration ∧
      (p._currentSlide = 0 → cur.intended.startTime = cur.actual.startTime) ∧
      (q._config.errorMode = .DO_NOTHING →
        next.intended.startTime = cur.intended.startTime + cur.intended.duration) ∧
      (q._config.errorMode = .PROPAGATE_DELAYS →
        next.intended.startTime
          = max cur.actual.startTime cur.intended.startTime + cur.intended.duration) ∧
      ((q._config.errorMode = .DO_NOTHING ∧ cur.actual.startTime = cur.intended.startTime) ∨
        (q._config.errorMode = .PROPAGATE_DELAYS
          ∧ cur.intended.startTime ≤ cur.actual.startTime) →
        q._hoggingStartTime = next.intended.startTime - q._config.preSwapCPUHoggingDuration) := by
  unfold update at h
  rw [hmode] at h
  simp only at h
  obtain ⟨b, p1, h1, hrest⟩ := singleCoreBlockingUpdate_cases h
  rw [if_pos hpres] at h1
  have hstay : ∀ p1 : CX_SlidePresenter, p1._currentSlide = p._currentSlide →
      ((b = true ∧ q = p1) ∨
       (b = false ∧ ∃ p2,
          (if p1._synchronizing = true then p1._singleCoreSynchronizing env else .ok p1)
            = .ok p2 ∧
          p2._waitSyncCheck env = .ok q)) → False := by
    intro p1 hcs hr
    rcases hr with ⟨-, rfl⟩ | ⟨-, p2, h2, hw⟩
    · omega
    · rcases singleCoreTail_cases h2 hw with ⟨-, -, hz⟩ | ⟨-, rfl⟩
      · omega
      · obtain ⟨slides, info, hq, -, -⟩ := waitSyncCheck_shape hw
        rw [hq] at hnext
        simp only at hnext
        omega
  rcases singleCorePresenting_cases h1 with ⟨-, rfl⟩ | ⟨d, b1, p0, hd, hpend, hon, hcase⟩
  · exact (hstay _ rfl hrest).elim
  · have hcb0 : callbackAppendsOrStops (p.setDisplay d.BLOCKING_swapFrontAndBackBuffers) := hcb
    obtain ⟨c1, c2, -, -, -, cur0, shown, -, hshown, -, t1, -, t2, -, -, -⟩ :=
      slideOnset_current hon hcb0
    have c1' : p0._currentSlide = p._currentSlide := c1
    have hshown' : p0._slides[p._currentSlide]? = some shown := hshown
    rcases hcase with ⟨rfl, -, -⟩ | ⟨hb, -, cur, next, st, info, hc, hn, -, hsl, -, -, hcs, hhog,
      hcfg, -, hsy, -⟩
    · exact (hstay _ c1' hrest).elim
    · rcases hrest with ⟨hb', -⟩ | ⟨-, p2, h2, hw⟩
      · rw [hb] at hb'
        cases hb'
      · rcases singleCoreTail_cases h2 hw with ⟨-, -, hz⟩ | ⟨-, hp2⟩
        · omega
        · rw [hp2] at hw
          rw [c1'] at hc hn hsl
          rw [hshown'] at hc
          simp only [Option.some.injEq] at hc
          subst hc
          have hcur1 : p1._slides[p._currentSlide]? = some shown := by
            rw [hsl, getElem?_set_other _ (Nat.ne_of_lt (Nat.lt_succ_self _))]
            exact hshown'
          have hnext1 : p1._slides[p._currentSlide + 1]? = some
              { preparedNext p0._config.errorMode shown next with slideStatus := st } := by
            rw [hsl]
            exact set_getElem?_same _ hn
          obtain ⟨cq, hcq, i1, a1⟩ := timing_of_waitSyncCheck hw hcur1
          obtain ⟨nq, hnq, i2, -⟩ := timing_of_waitSyncCheck hw hnext1
          obtain ⟨slides, info', hq, -, -⟩ := waitSyncCheck_shape hw
          have hqc : q._config = p0._config := by rw [hq]; exact hcfg
          have hqh : q._hoggingStartTime = env.currentSlideOnset + shown.intended.duration
              - p0._config.preSwapCPUHoggingDuration := by rw [hq]; exact hhog
          have hDN : q._config.errorMode = .DO_NOTHING →
              nq.intended.startTime = cq.intended.startTime + cq.intended.duration := by
            intro hm
            rw [hqc] at hm
            rw [i2, i1]
            simp only [hm, preparedNext]
          have hPD : q._config.errorMode = .PROPAGATE_DELAYS →
              nq.intended.startTime
                = max cq.actual.startTime cq.intended.startTime + cq.intended.duration := by
            intro hm
            rw [hqc] at hm
            rw [i2, i1, a1]
            simp only [hm, preparedNext]
          have hst : cq.actual.startTime = env.currentSlideOnset := by rw [a1, t1]
          have hhog' : q._hoggingStartTime = cq.actual.startTime + cq.intended.duration
              - q._config.preSwapCPUHoggingDuration := by
            rw [hqh, hqc, hst, i1]
          refine ⟨cq, nq, hcq, hnq, hst, hhog', ?_, hDN, hPD, ?_⟩
          · intro hz
            rw [i1, a1, t1]
            exact (t2 hz).2
          · rintro (⟨hm, he⟩ | ⟨hm, hle⟩)
            · rw [hhog', hDN hm, he]
            · rw [hhog', hPD hm, max_eq_left hle]

end CX_SlidePresenter

end CX

namespace CX

namespace CX_SlidePresenter

theorem exampleHogging_run :
    (exampleHoggingQueued .PROPAGATE_DELAYS).run exampleHoggingSteps
      = .ok exampleHoggingAdvanced ∧
    (exampleHoggingQueued .PROPAGATE_DELAYS).run (exampleHoggingSteps.take 3)
      = .ok exampleHoggingPending ∧
    exampleHoggingPending.update exampleHoggingEnv = .ok exampleHoggingAdvanced :=
  ⟨rfl, rfl, rfl⟩

theorem hogging_start_time_witness :
    exampleHoggingPending.update exampleHoggingEnv = .ok exampleHoggingAdvanced ∧
    ∃ cur next, exampleHoggingAdvanced._slides[1]? = some cur ∧
      exampleHoggingAdvanced._slides[2]? = some next ∧
      cur.actual.startTime = 1110000000 ∧
      exampleHoggingAdvanced._hoggingStartTime = next.intended.startTime - 5000000 := by
  refine ⟨rfl, ?_⟩
  obtain ⟨cur, next, h1, h2, h3, -, -, -, -, h8⟩ :=
    hogging_start_time exampleHoggingPending exampleHoggingAdvanced exampleHoggingEnv rfl
      (fun cb hcb => by cases hcb) rfl rfl rfl
  refine ⟨cur, next, h1, h2, h3, h8 (Or.inr ⟨rfl, ?_⟩)⟩
  have hc : exampleHoggingAdvanced._slides[1]? = some cur := h1
  simp only [exampleHoggingAdvanced, List.getElem?_cons_succ, List.getElem?_cons_zero,
    Option.some.injEq] at hc
  subst hc
  decide

end CX_SlidePresenter

end CX

/-! ## Frame numbers in the blocking single-core mode -/

namespace CX

namespace CX_SlidePresenter

theorem actual_of_withoutFence {l l' : List Slide}
    (h : l'.map Slide.withoutFence = l.map Slide.withoutFence) {j : Nat} {s' : Slide}
    (hs : l'[j]? = some s') :
    ∃ s, l[j]? = some s ∧ s.actual = s'.actual ∧ s.intended = s'.intended := by
  have hv := map_view_of_withoutFence (fun s : Slide => (s.intended, s.actual))
    (fun _ => rfl) h j
  rw [hs] at hv
  cases hq : l[j]? with
  | none => simp [hq] at hv
  | some s =>
    simp only [hq, Option.map_some', Option.some.injEq, Prod.mk.injEq] at hv
    exact ⟨s, rfl, hv.2.symm, hv.1.symm⟩

theorem pending_of_withoutFence {p q : CX_SlidePresenter}
    (hcs : q._currentSlide = p._currentSlide)
    (hslides : q._slides.map Slide.withoutFence = p._slides.map Slide.withoutFence) :
    q.currentIsPending = p.currentIsPending :=
  currentIsPending_of_view hcs
    (map_view_of_withoutFence Slide.isPending isPending_withoutFence hslides _)

theorem ZeroFrames.of_fenceView {p q : CX_SlidePresenter} (h : ZeroFrames p)
    (hsync : q._synchronizing = p._synchronizing)
    (hpres : q._presentingSlides = p._presentingSlides)
    (hcs : q._currentSlide = p._currentSlide)
    (hslides : q._slides.map Slide.withoutFence = p._slides.map Slide.withoutFence) :
    ZeroFrames q := by
  have hpend := pending_of_withoutFence hcs hslides
  rcases h with ⟨h1, h2⟩ | ⟨h1, h2, h3, h4⟩
  · exact Or.inl ⟨by rw [hsync, h1], by rw [hpres, h2]⟩
  · refine Or.inr ⟨by rw [hsync, h1], ?_, ?_, ?_⟩
    · intro hx
      rw [hpend]
      exact h2 (by rw [← hpres]; exact hx)
    · intro k a' ha' hk
      obtain ⟨a, ha, e1, -⟩ := actual_of_withoutFence hslides ha'
      rw [← e1]
      refine h3 k a ha ?_
      unfold hasComeOnScreen at hk ⊢
      rw [hcs, hpend] at hk
      exact hk
    · intro k a' ha' hk
      obtain ⟨a, ha, e1, -⟩ := actual_of_withoutFence hslides ha'
      rw [← e1]
      refine h4 k a ha ?_
      unfold onScreenBound at hk ⊢
      rw [hcs, hpend] at hk
      exact hk

theorem waitSyncCheck_zeroFrames {env : UpdateEnv} {p q : CX_SlidePresenter}
    (h : p._waitSyncCheck env = .ok q) (hp : ZeroFrames p) : ZeroFrames q := by
  obtain ⟨slides, info, hq, -, -⟩ := waitSyncCheck_shape h
  have hf := waitSyncCheck_fence h
  subst hq
  exact hp.of_fenceView rfl rfl rfl hf

end CX_SlidePresenter

end CX

namespace CX

namespace CX_SlidePresenter

theorem slideOnset_notPending {p q : CX_SlidePresenter} {frameNumber : Nat} {onset : Int}
    {b : Bool} (h : p._slideOnset frameNumber onset = .ok (b, q))
    (hcb : callbackAppendsOrStops p) : q.currentIsPending = false := by
  obtain ⟨c1, -, -, -, -, cur, shown, -, hshown, hst, -⟩ := slideOnset_current h hcb
  unfold currentIsPending
  rw [c1, hshown]
  exact isPending_of_inProgress hst

/-- The slides that have come on screen once `_slideOnset` returns, when frame number 0 is
stamped: all have the actual start frame 0 and those before the current one the actual
frame count 0. -/
theorem slideOnset_zeroFrames {p q : CX_SlidePresenter} {onset : Int} {b : Bool}
    (h : p._slideOnset 0 onset = .ok (b, q)) (hcb : callbackAppendsOrStops p)
    (h3 : ∀ k a, p._slides[k]? = some a → k < p._currentSlide → a.actual.startFrame = 0)
    (h4 : ∀ k a, p._slides[k]? = some a → k + 1 < p._currentSlide →
      a.actual.frameCount = 0) :
    (∀ k a, q._slides[k]? = some a → k ≤ p._currentSlide → a.actual.startFrame = 0) ∧
    (∀ k a, q._slides[k]? = some a → k < p._currentSlide → a.actual.frameCount = 0) := by
  obtain ⟨slides, cur, shown, hcur, hlen, hshown, -, -, s3, -, -, -, -, hothers, hfin,
    hcase⟩ := slideOnset_stamped h
  have hz : shown.actual.startFrame = 0 := by rw [s3]; rfl
  have S : (∀ k a, slides[k]? = some a → k ≤ p._currentSlide → a.actual.startFrame = 0) ∧
      (∀ k a, slides[k]? = some a → k < p._currentSlide → a.actual.frameCount = 0) := by
    by_cases hc0 : p._currentSlide = 0
    · refine ⟨?_, ?_⟩
      · intro k a ha hk
        have hk0 : k = p._currentSlide := by omega
        rw [hk0, hshown] at ha
        simp only [Option.some.injEq] at ha
        rw [← ha]
        exact hz
      · intro k a _ hk
        omega
    · obtain ⟨previousSlide, finished, hprev, hfinished, -, -, -, f4, f5⟩ := hfin hc0
      have hpz : previousSlide.actual.startFrame = 0 := h3 _ _ hprev (by omega)
      have hfz : finished.actual.startFrame = 0 := by rw [f4, hpz]
      have hfc : finished.actual.frameCount = 0 := by
        rw [f5.2, hz, hfz]
        rfl
      refine ⟨?_, ?_⟩
      · intro k a ha hk
        by_cases hk0 : k = p._currentSlide
        · rw [hk0, hshown] at ha
          simp only [Option.some.injEq] at ha
          rw [← ha]
          exact hz
        · by_cases hk1 : k = p._currentSlide - 1
          · rw [hk1, hfinished] at ha
            simp only [Option.some.injEq] at ha
            rw [← ha]
            exact hfz
          · rw [hothers k hk0 (by omega)] at ha
            exact h3 k a ha (by omega)
      · intro k a ha hk
        by_cases hk1 : k = p._currentSlide - 1
        · rw [hk1, hfinished] at ha
          simp only [Option.some.injEq] at ha
          rw [← ha]
          exact hfc
        · rw [hothers k (by omega) (by omega)] at ha
          exact h4 k a ha (by omega)
  rcases hcase with ⟨-, hfinal, -⟩ | ⟨-, rfl, -⟩
  · have hcb' : callbackAppendsOrStops ({ p with _slides := slides } : CX_SlidePresenter) := hcb
    obtain ⟨-, -, -, -, f5, f6⟩ := handleFinalSlide_slides hfinal hcb'
    simp only at f5 f6
    have hlt : p._currentSlide < slides.length := (List.getElem?_eq_some_iff.mp hshown).1
    refine ⟨?_, ?_⟩
    · intro k a ha hk
      obtain ⟨s, hs⟩ := getElem?_of_lt (l := slides) (j := k) (by omega)
      obtain ⟨-, -, g3, -, -⟩ := f6 k a s ha hs
      rw [g3]
      exact S.1 k s hs hk
    · intro k a ha hk
      obtain ⟨s, hs⟩ := getElem?_of_lt (l := slides) (j := k) (by omega)
      obtain ⟨-, -, -, -, g5⟩ := f6 k a s ha hs
      rw [g5 hk]
      exact S.2 k s hs hk
  · exact S

end CX_SlidePresenter

end CX

namespace CX

namespace CX_SlidePresenter

theorem ZeroFrames.after_onset {q : CX_SlidePresenter} {c : Nat}
    (hsync : q._synchronizing = false) (hcs : q._currentSlide = c)
    (hpend : q.currentIsPending = false)
    (h3 : ∀ k a, q._slides[k]? = some a → k ≤ c → a.actual.startFrame = 0)
    (h4 : ∀ k a, q._slides[k]? = some a → k < c → a.actual.frameCount = 0) :
    ZeroFrames q := by
  refine Or.inr ⟨hsync, fun _ => hpend, ?_, ?_⟩
  · intro k a ha hk
    refine h3 k a ha ?_
    unfold hasComeOnScreen at hk
    omega
  · intro k a ha hk
    refine h4 k a ha ?_
    simp only [onScreenBound, hpend, Bool.false_eq_true, if_false] at hk
    omega

theorem slideOnset_goesOn {p q : CX_SlidePresenter} {frameNumber : Nat} {onset : Int}
    {b : Bool} (h : p._slideOnset frameNumber onset = .ok (b, q)) (hb : b = false)
    (hpres : p._presentingSlides = true) : q._presentingSlides = true := by
  obtain ⟨slides, -, hcase⟩ := slideOnset_cases h
  rcases hcase with ⟨-, -, hq⟩ | ⟨-, rfl, -⟩
  · rw [hb] at hq
    cases hx : q._presentingSlides with
    | true => rfl
    | false => simp [hx] at hq
  · exact hpres

theorem pending_of_rendered {q : CX_SlidePresenter} {l : List Slide} {i : Nat} {a x : Slide}
    {st : SlideStatus} (hi : l[i]? = some a) (hsl : q._slides = l.set i { x with slideStatus := st })
    (hcs : q._currentSlide = i)
    (hst : st = SlideStatus.SWAP_PENDING ∨ st = SlideStatus.COPY_TO_BACK_BUFFER_PENDING) :
    q.currentIsPending = true := by
  unfold currentIsPending
  rw [hcs, hsl, set_getElem?_same _ hi]
  simp only [Slide.isPending, decide_eq_true_eq]
  exact hst

theorem singleCorePresenting_zeroFrames {p q : CX_SlidePresenter} {env : UpdateEnv} {b : Bool}
    (h : p._singleCorePresenting env = .ok (b, q)) (hsync : p._synchronizing = false)
    (hpres : p._presentingSlides = true)
    (hcb : callbackAppendsOrStops p) (hp : ZeroFrames p) :
    ZeroFrames q ∧ q._synchronizing = false := by
  rcases singleCorePresenting_cases h with ⟨-, rfl⟩ | ⟨d, b1, p1, hd, hpend, hon, hcase⟩
  · exact ⟨hp, hsync⟩
  · rcases hp with ⟨h1, -⟩ | ⟨-, -, h3, h4⟩
    · rw [hsync] at h1
      cases h1
    · have hcb0 : callbackAppendsOrStops (p.setDisplay d.BLOCKING_swapFrontAndBackBuffers) :=
        hcb
      have hb : p.onScreenBound = p._currentSlide - 1 := by simp [onScreenBound, hpend]
      obtain ⟨z3, z4⟩ := slideOnset_zeroFrames hon hcb0
        (fun k a ha hk => h3 k a ha (Or.inl hk))
        (fun k a ha hk => h4 k a ha (by rw [hb]; exact Nat.le_sub_one_of_lt hk))
      obtain ⟨c1, -, -, c4, -, -⟩ := slideOnset_current hon hcb0
      have hnp := slideOnset_notPending hon hcb0
      have c1' : p1._currentSlide = p._currentSlide := c1
      have hs1 : p1._synchronizing = false := by
        cases hx : p1._synchronizing with
        | false => rfl
        | true =>
          have := c4 hx
          rw [← this]
          exact hsync
      rcases hcase with ⟨rfl, -, -⟩ | ⟨-, hb1, cur, next, st, info, hc, hn, hst, hsl, -, -, hcs,
        -, -, hpr, hsy, -⟩
      · exact ⟨ZeroFrames.after_onset hs1 c1' hnp z3 z4, hs1⟩
      · have hqpend : q.currentIsPending = true := pending_of_rendered hn hsl hcs hst
        have hqpres : q._presentingSlides = true := by
          rw [hpr]
          exact slideOnset_goesOn hon hb1 hpres
        refine ⟨Or.inr ⟨by rw [hsy]; exact hs1, ?_, ?_, ?_⟩, by rw [hsy]; exact hs1⟩
        · intro hx
          rw [hqpres] at hx
          cases hx
        · intro k a ha hk
          unfold hasComeOnScreen at hk
          rw [hqpend, hcs, c1'] at hk
          have hk' : k ≤ p._currentSlide := by
            rcases hk with hk | ⟨-, hk⟩
            · omega
            · cases hk
          rw [hsl, c1', getElem?_set_other _ (by omega)] at ha
          exact z3 k a ha hk'
        · intro k a ha hk
          simp only [onScreenBound, hqpend, if_true, hcs, c1'] at hk
          rw [hsl, c1', getElem?_set_other _ (by omega)] at ha
          exact z4 k a ha (by omega)

end CX_SlidePresenter

end CX

namespace CX

namespace CX_SlidePresenter

/-- A property kept by every `update` and every swap of the background thread, in a given
swapping mode and for a callback that only inserts slides or stops the presentation, is kept
by every run of such events. -/
theorem run_invariant (I : CX_SlidePresenter → Prop) (mode : SwappingMode)
    (hstep : ∀ (p q : CX_SlidePresenter) (e : Step), p.step e = .ok q →
      isUpdateOrSwap e = true → p._config.swappingMode = mode → callbackAppendsOrStops p →
      I p → I q)
    (steps : List Step) :
    ∀ {p q : CX_SlidePresenter}, p.run steps = .ok q →
      (∀ e ∈ steps, isUpdateOrSwap e = true) → p._config.swappingMode = mode →
      callbackAppendsOrStops p → I p → I q ∧ q.settings = p.settings := by
  induction steps with
  | nil =>
    intro p q h _ _ _ hp
    simp only [run, Except.ok.injEq] at h
    subst h
    exact ⟨hp, rfl⟩
  | cons e rest ih =>
    intro p q h hsteps hmode hcb hp
    unfold run at h
    split at h
    · simp at h
    · rename_i p1 h1
      have he := hsteps e (List.mem_cons_self _ _)
      have s1 := hstep p p1 e h1 he hmode hcb hp
      have s2 := step_settings h1 he
      obtain ⟨f1, f2, -⟩ := settings_fields s2
      have hcb1 : callbackAppendsOrStops p1 := by
        intro cb hc
        exact hcb cb (by rw [← f2]; exact hc)
      obtain ⟨r1, r2⟩ := ih h (fun e' he' => hsteps e' (List.mem_cons_of_mem _ he'))
        (by rw [f1]; exact hmode) hcb1 s1
      exact ⟨r1, r2.trans s2⟩

theorem singleCoreBlockingUpdate_zeroFrames {p q : CX_SlidePresenter} {env : UpdateEnv}
    (h : p._singleCoreBlockingUpdate env = .ok q) (hcb : callbackAppendsOrStops p)
    (hp : ZeroFrames p) : ZeroFrames q := by
  obtain ⟨b, p1, h1, hrest⟩ := singleCoreBlockingUpdate_cases h
  by_cases hsync : p._synchronizing = true
  · have hpres : p._presentingSlides = false := by
      rcases hp with ⟨-, h2⟩ | ⟨h2, -⟩
      · exact h2
      · rw [hsync] at h2
        cases h2
    simp only [hpres, Bool.false_eq_true, if_false, Except.ok.injEq, Prod.mk.injEq] at h1
    obtain ⟨rfl, rfl⟩ := h1
    rcases hrest with ⟨hb, -⟩ | ⟨-, p2, h2, hw⟩
    · cases hb
    · rw [if_pos hsync] at h2
      obtain ⟨c1, c2, c3, -, -, -, -, cur, st, hcur, hst, hsl⟩ :=
        singleCoreSynchronizing_cases h2
      have hpend : p2.currentIsPending = true := pending_of_rendered hcur hsl c1 hst
      refine waitSyncCheck_zeroFrames hw (Or.inr ⟨c2, ?_, ?_, ?_⟩)
      · intro hx
        rw [c3] at hx
        cases hx
      · intro k a _ hk
        unfold hasComeOnScreen at hk
        rw [hpend, c1] at hk
        rcases hk with hk | ⟨-, hk⟩
        · omega
        · cases hk
      · intro k a _ hk
        simp only [onScreenBound, hpend, if_true, c1] at hk
        omega
  · have hsync' : p._synchronizing = false := by simpa using hsync
    have h1' : ZeroFrames p1 ∧ p1._synchronizing = false := by
      split at h1
      · rename_i hpres
        exact singleCorePresenting_zeroFrames h1 hsync' hpres hcb hp
      · simp only [Except.ok.injEq, Prod.mk.injEq] at h1
        obtain ⟨-, rfl⟩ := h1
        exact ⟨hp, hsync'⟩
    rcases hrest with ⟨-, rfl⟩ | ⟨-, p2, h2, hw⟩
    · exact h1'.1
    · rw [if_neg (by simp [h1'.2])] at h2
      simp only [Except.ok.injEq] at h2
      rw [← h2] at hw
      exact waitSyncCheck_zeroFrames hw h1'.1

theorem step_zeroFrames (p q : CX_SlidePresenter) (e : Step) (h : p.step e = .ok q)
    (he : isUpdateOrSwap e = true)
    (hmode : p._config.swappingMode = .SINGLE_CORE_BLOCKING_SWAPS)
    (hcb : callbackAppendsOrStops p) (hp : ZeroFrames p) : ZeroFrames q := by
  cases e with
  | call c => simp [isUpdateOrSwap] at he
  | setup config f => simp [isUpdateOrSwap] at he
  | update env =>
    simp only [step] at h
    unfold update at h
    simp only [hmode] at h
    exact singleCoreBlockingUpdate_zeroFrames h hcb hp
  | threadSwap t =>
    simp only [step] at h
    split at h
    · simp only [Except.ok.injEq] at h
      subst h
      exact hp
    · simp only [Except.ok.injEq] at h
      subst h
      exact hp.of_fenceView rfl rfl rfl rfl

end CX_SlidePresenter

end CX

namespace CX

namespace CX_SlidePresenter

/-- C30: in single-core blocking mode, at every point of a run of `update` calls after a
successful `startSlidePresentation`, every slide that has come on screen has
`actual.startFrame == 0`; and once the presentation has ended at the last slide of the
queue, every slide has `actual.startFrame == 0`, every slide before the last has
`actual.frameCount == 0`, and `checkForPresentationErrors().incorrectFrameCounts` is the
number of slides before the last whose `intended.frameCount` is not 0. -/
theorem single_core_frame_counts (p0 p q : CX_SlidePresenter) (steps : List Step)
    (hmode : p0._config.swappingMode = .SINGLE_CORE_BLOCKING_SWAPS)
    (hcb : callbackAppendsOrStops p0)
    (hstart : p0.startSlidePresentation = .ok (true, p))
    (hsteps : ∀ e ∈ steps, isUpdateOrSwap e = true)
    (hrun : p.run steps = .ok q) :
    (q._synchronizing = false → ∀ (k : Nat) (a : Slide), q._slides[k]? = some a → q.hasComeOnScreen k →
      a.actual.startFrame = 0) ∧
    (q.isPresentingSlides = false → q._currentSlide + 1 = q._slides.length →
      (∀ (k : Nat) (a : Slide), q._slides[k]? = some a → a.actual.startFrame = 0) ∧
      (∀ (k : Nat) (a : Slide), q._slides[k]? = some a → k + 1 < q._slides.length → a.actual.frameCount = 0) ∧
      q.checkForPresentationErrors.incorrectFrameCounts
        = ((List.range (q._slides.length - 1)).filter (fun i =>
            decide ((q._slides.getD i {}).intended.frameCount ≠ 0))).length) := by
  obtain ⟨s1, s2, -⟩ := startSlidePresentation_flags hstart
  have hset := (startSlidePresentation_frame hstart).2
  obtain ⟨f1, f2, -⟩ := settings_fields hset
  have hcb1 : callbackAppendsOrStops p := by
    intro cb hc
    exact hcb cb (by rw [← f2]; exact hc)
  obtain ⟨hz, -⟩ := run_invariant ZeroFrames .SINGLE_CORE_BLOCKING_SWAPS step_zeroFrames steps
    hrun hsteps (by rw [f1]; exact hmode) hcb1 (Or.inl ⟨s1, s2⟩)
  refine ⟨?_, ?_⟩
  · intro hsync
    rcases hz with ⟨h1, -⟩ | ⟨-, -, h3, -⟩
    · rw [hsync] at h1
      cases h1
    · exact h3
  · intro hdone hlast
    have hflags : q._presentingSlides = false ∧ q._synchronizing = false := by
      unfold isPresentingSlides at hdone
      simpa using hdone
    rcases hz with ⟨h1, -⟩ | ⟨-, h2, h3, h4⟩
    · rw [hflags.2] at h1
      cases h1
    · have hpend := h2 hflags.1
      have hb : q.onScreenBound = q._currentSlide := by simp [onScreenBound, hpend]
      have hA : ∀ (k : Nat) (a : Slide), q._slides[k]? = some a → a.actual.startFrame = 0 := by
        intro k a ha
        have hlt := (List.getElem?_eq_some_iff.mp ha).1
        refine h3 k a ha ?_
        by_cases hk : k = q._currentSlide
        · exact Or.inr ⟨hk, hpend⟩
        · exact Or.inl (by omega)
      have hB : ∀ (k : Nat) (a : Slide), q._slides[k]? = some a → k + 1 < q._slides.length →
          a.actual.frameCount = 0 := by
        intro k a ha hk
        exact h4 k a ha (by rw [hb]; omega)
      refine ⟨hA, hB, ?_⟩
      rw [(checkForPresentationErrors_eq_reference q).1]
      unfold referenceErrorReport
      simp only [hflags.1, hflags.2, Bool.or_self, Bool.false_eq_true, if_false]
      congr 1
      apply List.filter_congr
      intro i hi
      have hi' : i < q._slides.length - 1 := List.mem_range.mp hi
      have hlt : i < q._slides.length := by omega
      have hget : q._slides[i]? = some (q._slides.getD i {}) := by
        rw [List.getD_eq_getElem?_getD, List.getElem?_eq_getElem hlt]
        rfl
      rw [hB i _ hget (by omega)]

theorem single_core_frame_counts_witness :
    (exampleHoggingQueued .DO_NOTHING).startSlidePresentation
      = .ok (true, exampleBlockingStarted) ∧
    exampleBlockingStarted.run exampleBlockingUpdates = .ok exampleBlockingFinished ∧
    exampleBlockingFinished.checkForPresentationErrors.incorrectFrameCounts = 2 ∧
    (∀ (k : Nat) (a : Slide), exampleBlockingFinished._slides[k]? = some a →
      k + 1 < exampleBlockingFinished._slides.length → a.actual.frameCount = 0) :=
  ⟨rfl, rfl, rfl,
    ((single_core_frame_counts (exampleHoggingQueued .DO_NOTHING) exampleBlockingStarted
      exampleBlockingFinished exampleBlockingUpdates rfl (fun cb hcb => by cases hcb) rfl
      (by decide) rfl).2 rfl rfl).2.1⟩

end CX_SlidePresenter

end CX

/-! ## The steps of one `update` in multi-core mode -/

namespace CX

namespace CX_SlidePresenter

/-- What the first block of `_multiCoreUpdate` after a swap does: nothing when the current
slide does not wait; else the current slide comes on screen, and either the function is left
there or the next slide is prepared. -/
theorem multiCoreSwappedIn_cases {p q : CX_SlidePresenter} {frameNumber : Nat}
    {d : CX_Display} {b : Bool} (h : _multiCoreSwappedIn frameNumber d p = .ok (b, q)) :
    (p.currentIsPending = false ∧ b = false ∧ q = p) ∨
    (p.currentIsPending = true ∧ ∃ b1 p1,
      p._slideOnset frameNumber d.getLastSwapTime = .ok (b1, p1) ∧
      ((q = p1 ∧ b = b1 ∧ (b1 = false → ¬ p1._currentSlide + 1 < p1._slides.length)) ∨
       (b = false ∧ b1 = false ∧ ∃ cur next,
          p1._slides[p1._currentSlide]? = some cur ∧
          p1._slides[p1._currentSlide + 1]? = some next ∧
          q._slides = p1._slides.set (p1._currentSlide + 1)
            (preparedNext p1._config.errorMode cur next) ∧
          q._currentSlide = p1._currentSlide ∧ q._config = p1._config ∧
          q._presentingSlides = p1._presentingSlides ∧
          q._synchronizing = p1._synchronizing ∧ q._slideInfo = p1._slideInfo ∧
          q._hoggingStartTime = p1._hoggingStartTime ∧
          q._lastFramebufferActive = p1._lastFramebufferActive))) := by
  unfold _multiCoreSwappedIn at h
  obtain ⟨current, hcur, h⟩ := bind_ok h
  have hcur' := vectorAt_ok hcur
  split at h
  · rename_i hstatus
    have hpend : p.currentIsPending = true := by
      simp only [currentIsPending, hcur', Slide.isPending, decide_eq_true_eq]
      exact hstatus
    obtain ⟨⟨returned, p1⟩, h1, h⟩ := bind_ok h
    refine Or.inr ⟨hpend, returned, p1, h1, ?_⟩
    simp only at h
    split at h
    · rename_i hret
      simp only [pure, Except.pure, Except.ok.injEq, Prod.mk.injEq] at h
      obtain ⟨rfl, rfl⟩ := h
      exact Or.inl ⟨rfl, hret.symm, fun hf => by simp [hf] at hret⟩
    · rename_i hret
      have hret' : returned = false := by simpa using hret
      split at h
      · rename_i hlt
        obtain ⟨p2, h2, h⟩ := bind_ok h
        simp only [pure, Except.pure, Except.ok.injEq, Prod.mk.injEq] at h
        obtain ⟨rfl, rfl⟩ := h
        obtain ⟨cur, hc⟩ := getElem?_of_lt (Nat.lt_of_succ_lt hlt)
        obtain ⟨next, hn⟩ := getElem?_of_lt hlt
        rw [prepareNextSlide_eq hc hn] at h2
        simp only [Except.ok.injEq] at h2
        subst h2
        exact Or.inr ⟨rfl, hret', cur, next, hc, hn, rfl, rfl, rfl, rfl, rfl, rfl, rfl, rfl⟩
      · rename_i hlt
        simp only [pure, Except.pure, Except.ok.injEq, Prod.mk.injEq] at h
        obtain ⟨rfl, rfl⟩ := h
        exact Or.inl ⟨rfl, hret'.symm, fun _ => hlt⟩
  · rename_i hstatus
    have hpend : p.currentIsPending = false := by
      simp only [currentIsPending, hcur', Slide.isPending, decide_eq_false_iff_not]
      exact hstatus
    simp only [pure, Except.pure, Except.ok.injEq, Prod.mk.injEq] at h
    obtain ⟨rfl, rfl⟩ := h
    exact Or.inl ⟨hpend, rfl, rfl⟩

/-- What the second block of `_multiCoreUpdate` after a swap does: nothing, or the next
slide, which is due, is rendered and becomes the current slide. -/
theorem multiCoreAdvance_cases {p q : CX_SlidePresenter} {frameNumber : Nat}
    (h : _multiCoreAdvance frameNumber p = .ok q) :
    q = p ∨
    ∃ next st info, p._slides[p._currentSlide + 1]? = some next ∧
      next.intended.startFrame ≤ frameNumber + 1 ∧
      (st = SlideStatus.SWAP_PENDING ∨ st = SlideStatus.COPY_TO_BACK_BUFFER_PENDING) ∧
      q._slides = p._slides.set (p._currentSlide + 1) { next with slideStatus := st } ∧
      q._currentSlide = p._currentSlide + 1 ∧
      q._slideInfo = info ∧ info.length = p._slideInfo.length ∧
      q._config = p._config ∧ q._presentingSlides = p._presentingSlides ∧
      q._synchronizing = p._synchronizing ∧
      q._hoggingStartTime = p._hoggingStartTime ∧
      q._lastFramebufferActive = p._lastFramebufferActive := by
  unfold _multiCoreAdvance at h
  split at h
  · obtain ⟨next, hnext, h⟩ := bind_ok h
    have hn := vectorAt_ok hnext
    split at h
    · rename_i hdue
      obtain ⟨cur', st, info, hcur3, hst, hq⟩ := renderCurrentSlide_slides h
      simp only at hcur3
      rw [hn] at hcur3
      simp only [Option.some.injEq] at hcur3
      subst hcur3
      obtain ⟨s1, i1, hs, -, hl2, -⟩ := renderCurrentSlide_shape h
      refine Or.inr ⟨next, st, q._slideInfo, hn, hdue, hst, ?_, ?_, rfl, ?_, ?_, ?_, ?_, ?_, ?_⟩
      · rw [hq]
      · rw [hq]
      · rw [hs]; exact hl2
      · rw [hq]
      · rw [hq]
      · rw [hq]
      · rw [hq]
      · rw [hq]
    · simp only [pure, Except.pure, Except.ok.injEq] at h
      exact Or.inl h.symm
  · simp only [pure, Except.pure, Except.ok.injEq] at h
    exact Or.inl h.symm

end CX_SlidePresenter

end CX

namespace CX

namespace CX_SlidePresenter

/-- The paths of `_multiCoreUpdate`: presenting with a swap seen (the update returns after
the handling of a final slide, or goes on to the second block and the polling of the
fences), presenting without a swap, synchronizing with or without a swap, and idle. -/
theorem multiCoreUpdate_cases {p q : CX_SlidePresenter} {env : UpdateEnv}
    (h : p._multiCoreUpdate env = .ok q) :
    (p._presentingSlides = true ∧ ∃ d, p._config.display = some d ∧
      ((d.hasSwappedSinceLastCheck.1 = true ∧ ∃ b p1,
          _multiCoreSwappedIn (displayAtFrameRead env d).getFrameNumber
            (displayAtTimeRead env d) (p.setDisplay (displayAtTimeRead env d))
            = .ok (b, p1) ∧
          ((b = true ∧ q = p1) ∨
           (b = false ∧ ∃ p2,
              _multiCoreAdvance (displayAtFrameRead env d).getFrameNumber p1 = .ok p2 ∧
              p2._waitSyncCheck env = .ok q))) ∨
       (d.hasSwappedSinceLastCheck.1 = false ∧
          (p.setDisplay d.hasSwappedSinceLastCheck.2)._waitSyncCheck env = .ok q))) ∨
    (p._presentingSlides = false ∧ p._synchronizing = true ∧
      ∃ d, p._config.display = some d ∧
      ((d.hasSwappedSinceLastCheck.1 = true ∧ ∃ p1,
          _renderCurrentSlide { p.setDisplay d.hasSwappedSinceLastCheck.2 with _currentSlide := 0 }
            = .ok p1 ∧
          _waitSyncCheck env { p1 with _synchronizing := false, _presentingSlides := true }
            = .ok q) ∨
       (d.hasSwappedSinceLastCheck.1 = false ∧
          (p.setDisplay d.hasSwappedSinceLastCheck.2)._waitSyncCheck env = .ok q))) ∨
    (p._presentingSlides = false ∧ p._synchronizing = false ∧ p._waitSyncCheck env = .ok q) := by
  unfold _multiCoreUpdate at h
  split at h
  · rename_i hpres
    refine Or.inl ⟨hpres, ?_⟩
    split at h
    · simp at h
    · rename_i d hd
      refine ⟨d, hd, ?_⟩
      split at h
      · rename_i hsw
        refine Or.inl ⟨hsw, ?_⟩
        split at h
        · simp at h
        · rename_i p1 h1
          simp only [Except.ok.injEq] at h
          subst h
          exact ⟨true, _, h1, Or.inl ⟨rfl, rfl⟩⟩
        · rename_i p1 h1
          split at h
          · simp at h
          · rename_i p2 h2
            exact ⟨false, p1, h1, Or.inr ⟨rfl, p2, h2, h⟩⟩
      · rename_i hsw
        exact Or.inr ⟨by simpa using hsw, h⟩
  · rename_i hpres
    have hpres' : p._presentingSlides = false := by simpa using hpres
    split at h
    · rename_i hsync
      refine Or.inr (Or.inl ⟨hpres', hsync, ?_⟩)
      split at h
      · simp at h
      · rename_i d hd
        refine ⟨d, hd, ?_⟩
        split at h
        · rename_i hsw
          refine Or.inl ⟨hsw, ?_⟩
          split at h
          · simp at h
          · rename_i p1 h1
            exact ⟨p1, h1, h⟩
        · rename_i hsw
          exact Or.inr ⟨by simpa using hsw, h⟩
    · rename_i hsync
      exact Or.inr (Or.inr ⟨hpres', by simpa using hsync, h⟩)

end CX_SlidePresenter

end CX

/-! ## The order of the slide statuses along the queue -/

namespace CX

namespace CX_SlidePresenter

theorem withoutFence_getElem? {l l' : List Slide}
    (h : l'.map Slide.withoutFence = l.map Slide.withoutFence) {j : Nat} {s' : Slide}
    (hs : l'[j]? = some s') : ∃ s, l[j]? = some s ∧ s'.withoutFence = s.withoutFence := by
  have hv := map_getElem?_of_map_eq Slide.withoutFence h j
  rw [hs] at hv
  cases hq : l[j]? with
  | none => simp [hq] at hv
  | some s =>
    simp only [hq, Option.map_some', Option.some.injEq] at hv
    exact ⟨s, rfl, hv⟩

theorem status_of_withoutFence {a a' : Slide} (h : a'.withoutFence = a.withoutFence)
    {st : SlideStatus} (h1 : st ≠ .SWAP_PENDING) (h2 : st ≠ .COPY_TO_BACK_BUFFER_PENDING)
    (ha : a.slideStatus = st) : a'.slideStatus = st := by
  have hs := congrArg Slide.slideStatus h
  simp only [Slide.withoutFence] at hs
  rw [ha] at hs
  cases hst' : a'.slideStatus <;> cases st <;> simp_all

theorem isPending_of_withoutFence {a a' : Slide} (h : a'.withoutFence = a.withoutFence) :
    a'.isPending = a.isPending := by
  rw [← isPending_withoutFence a', ← isPending_withoutFence a, h]

theorem StatusOrder.of_statusView {p q : CX_SlidePresenter} (h : StatusOrder p)
    (hsync : q._synchronizing = p._synchronizing)
    (hpres : q._presentingSlides = p._presentingSlides)
    (hcs : q._currentSlide = p._currentSlide)
    (hslides : q._slides.map Slide.withoutFence = p._slides.map Slide.withoutFence) :
    StatusOrder q := by
  have hpend := pending_of_withoutFence hcs hslides
  have hbound : q.onScreenBound = p.onScreenBound := by
    unfold onScreenBound
    rw [hpend, hcs]
  rcases h with ⟨h1, h2, h3⟩ | ⟨h1, h2, h3, h4, h5, h6⟩
  · refine Or.inl ⟨by rw [hsync, h1], by rw [hpres, h2], ?_⟩
    intro k a' ha'
    obtain ⟨a, ha, e⟩ := withoutFence_getElem? hslides ha'
    exact status_of_withoutFence e (by simp) (by simp) (h3 k a ha)
  · refine Or.inr ⟨by rw [hsync, h1], ?_, ?_, ?_, ?_, ?_⟩
    · intro hx
      rw [hpend]
      exact h2 (by rw [← hpres]; exact hx)
    · intro k a' ha' hk
      obtain ⟨a, ha, e⟩ := withoutFence_getElem? hslides ha'
      exact status_of_withoutFence e (by simp) (by simp) (h3 k a ha (by rw [← hbound]; exact hk))
    · intro k a' ha' hk
      obtain ⟨a, ha, e⟩ := withoutFence_getElem? hslides ha'
      exact status_of_withoutFence e (by simp) (by simp) (h4 k a ha (by rw [← hcs]; exact hk))
    · intro a' ha'
      rw [hcs] at ha'
      obtain ⟨a, ha, e⟩ := withoutFence_getElem? hslides ha'
      rcases h5 a ha with hx | hx
      · exact Or.inl (by rw [isPending_of_withoutFence e]; exact hx)
      · exact Or.inr (status_of_withoutFence e (by simp) (by simp) hx)
    · intro hx hz a' ha'
      rw [hcs] at ha' hz
      rw [hpend] at hx
      obtain ⟨a, ha, e⟩ := withoutFence_getElem? hslides ha'
      exact status_of_withoutFence e (by simp) (by simp) (h6 hx hz a ha)

theorem waitSyncCheck_statusOrder {env : UpdateEnv} {p q : CX_SlidePresenter}
    (h : p._waitSyncCheck env = .ok q) (hp : StatusOrder p) : StatusOrder q := by
  obtain ⟨slides, info, hq, -, -⟩ := waitSyncCheck_shape h
  have hf := waitSyncCheck_fence h
  subst hq
  exact hp.of_statusView rfl rfl rfl hf

end CX_SlidePresenter

end CX

namespace CX

namespace CX_SlidePresenter

theorem handleFinalSlideAfterCallback_fresh {k : Nat} {p q : CX_SlidePresenter}
    (h : p._handleFinalSlideAfterCallback k = .ok q) :
    ∀ (j : Nat) (s' : Slide), q._slides[j]? = some s' → k ≤ j →
      s'.slideStatus = .NOT_STARTED := by
  have hC : ∀ (j : Nat) (l : List Slide), (vectorMapFrom (fun (s : Slide) =>
      { s with actual := { s.actual with duration := 0, frameCount := 0 } }) j l).map
        Slide.slideStatus = l.map Slide.slideStatus := by
    intro j l
    refine vectorMapFrom_map Slide.slideStatus _ ?_ _ _
    intro a
    rfl
  have hD : ∀ (j : Nat) (l : List Slide), (vectorMapFrom (fun (s : Slide) =>
      if s.drawingFunction.isNone = true then
        { s with framebuffer := { isAllocated := false } }
      else s) j l).map Slide.slideStatus = l.map Slide.slideStatus := by
    intro j l
    refine vectorMapFrom_map Slide.slideStatus _ ?_ _ _
    intro a
    split <;> rfl
  have hS : q._slides.map Slide.slideStatus
      = (vectorMapFrom (fun (s : Slide) => { s with slideStatus := .NOT_STARTED }) k
          p._slides).map Slide.slideStatus := by
    unfold _handleFinalSlideAfterCallback at h
    simp only [bind, Except.bind, pure, Except.pure] at h
    split at h
    · split at h
      · simp at h
      · rename_i slides hslides
        simp only [Except.ok.injEq] at h
        subst h
        have hB := vectorModifyAt_map Slide.slideStatus hslides (fun _ => rfl)
        simp only
        split
        · rw [hD, hC, hB]
        · rw [hC, hB]
    · simp only [Except.ok.injEq] at h
      subst h
      rfl
  intro j s' hs' hj
  have hv := map_getElem?_of_map_eq Slide.slideStatus hS j
  rw [hs', vectorMapFrom_getElem?] at hv
  cases hp : p._slides[j]? with
  | none => simp [hp] at hv
  | some s =>
    simp only [hp, Option.map_some', hj, if_true, Option.some.injEq] at hv
    exact hv

theorem handleFinalSlide_fresh {p q : CX_SlidePresenter} (h : p._handleFinalSlide = .ok q) :
    ∀ (j : Nat) (s' : Slide), q._slides[j]? = some s' → p._slides.length ≤ j →
      s'.slideStatus = .NOT_STARTED := by
  unfold _handleFinalSlide at h
  split at h
  · split at h
    · simp at h
    · exact handleFinalSlideAfterCallback_fresh h
  · exact handleFinalSlideAfterCallback_fresh h

end CX_SlidePresenter

end CX

namespace CX

namespace CX_SlidePresenter

/-- The statuses once `_slideOnset` returns: the slides before the current one are finished,
the current one is in progress and the later ones have not started. -/
theorem slideOnset_statusOrder {p q : CX_SlidePresenter} {frameNumber : Nat} {onset : Int}
    {b : Bool} (h : p._slideOnset frameNumber onset = .ok (b, q))
    (hcb : callbackAppendsOrStops p)
    (hF : ∀ (k : Nat) (a : Slide), p._slides[k]? = some a → k + 1 < p._currentSlide →
      a.slideStatus = .FINISHED)
    (hN : ∀ (k : Nat) (a : Slide), p._slides[k]? = some a → p._currentSlide < k →
      a.slideStatus = .NOT_STARTED) :
    (∀ (k : Nat) (a : Slide), q._slides[k]? = some a → k < p._currentSlide →
      a.slideStatus = .FINISHED) ∧
    (∀ (k : Nat) (a : Slide), q._slides[k]? = some a → p._currentSlide < k →
      a.slideStatus = .NOT_STARTED) ∧
    (∀ a : Slide, q._slides[p._currentSlide]? = some a → a.slideStatus = .IN_PROGRESS) := by
  have h3 : ∀ a : Slide, q._slides[p._currentSlide]? = some a →
      a.slideStatus = .IN_PROGRESS := by
    obtain ⟨-, -, -, -, -, cur, shown, -, hshown, hst, -⟩ := slideOnset_current h hcb
    intro a ha
    rw [hshown] at ha
    simp only [Option.some.injEq] at ha
    rw [← ha]
    exact hst
  obtain ⟨slides, cur, shown, hcur, hlen, hshown, -, -, -, -, -, -, -, hothers, hfin,
    hcase⟩ := slideOnset_stamped h
  have S : (∀ (k : Nat) (a : Slide), slides[k]? = some a → k < p._currentSlide →
        a.slideStatus = .FINISHED) ∧
      (∀ (k : Nat) (a : Slide), slides[k]? = some a → p._currentSlide < k →
        a.slideStatus = .NOT_STARTED) := by
    refine ⟨?_, ?_⟩
    · intro k a ha hk
      have hc0 : p._currentSlide ≠ 0 := by omega
      obtain ⟨previousSlide, finished, -, hfinished, f3, -⟩ := hfin hc0
      by_cases hk1 : k = p._currentSlide - 1
      · rw [hk1, hfinished] at ha
        simp only [Option.some.injEq] at ha
        rw [← ha]
        exact f3
      · rw [hothers k (by omega) (by omega)] at ha
        exact hF k a ha (by omega)
    · intro k a ha hk
      rw [hothers k (by omega) (by omega)] at ha
      exact hN k a ha hk
  refine ⟨?_, ?_, h3⟩
  · rcases hcase with ⟨-, hfinal, -⟩ | ⟨-, rfl, -⟩
    · have hcb' : callbackAppendsOrStops ({ p with _slides := slides } : CX_SlidePresenter) :=
        hcb
      obtain ⟨-, -, -, -, -, f6⟩ := handleFinalSlide_slides hfinal hcb'
      simp only at f6
      have hlt : p._currentSlide < slides.length := (List.getElem?_eq_some_iff.mp hshown).1
      intro k a ha hk
      obtain ⟨s, hs⟩ := getElem?_of_lt (l := slides) (j := k) (by omega)
      obtain ⟨-, -, -, g4, -⟩ := f6 k a s ha hs
      rw [g4]
      exact S.1 k s hs hk
    · exact S.1
  · rcases hcase with ⟨-, hfinal, -⟩ | ⟨-, rfl, -⟩
    · have hcb' : callbackAppendsOrStops ({ p with _slides := slides } : CX_SlidePresenter) :=
        hcb
      obtain ⟨-, -, -, -, -, f6⟩ := handleFinalSlide_slides hfinal hcb'
      have hfresh := handleFinalSlide_fresh hfinal
      simp only at f6 hfresh
      intro k a ha hk
      by_cases hkl : k < slides.length
      · obtain ⟨s, hs⟩ := getElem?_of_lt hkl
        obtain ⟨-, -, -, g4, -⟩ := f6 k a s ha hs
        rw [g4]
        exact S.2 k s hs hk
      · exact hfresh k a ha (by omega)
    · exact S.2

theorem preparedNext_status (mode : ErrorMode) (cur next : Slide) :
    (preparedNext mode cur next).slideStatus = next.slideStatus := by
  cases mode <;> rfl

end CX_SlidePresenter

end CX

namespace CX

namespace CX_SlidePresenter

theorem StatusOrder.on_screen {q : CX_SlidePresenter}
    (hsync : q._synchronizing = false) (hpend : q.currentIsPending = false)
    (hF : ∀ (k : Nat) (a : Slide), q._slides[k]? = some a → k < q._currentSlide →
      a.slideStatus = .FINISHED)
    (hN : ∀ (k : Nat) (a : Slide), q._slides[k]? = some a → q._currentSlide < k →
      a.slideStatus = .NOT_STARTED)
    (hP : ∀ a : Slide, q._slides[q._currentSlide]? = some a → a.slideStatus = .IN_PROGRESS) :
    StatusOrder q := by
  refine Or.inr ⟨hsync, fun _ => hpend, ?_, hN, fun a ha => Or.inr (hP a ha), ?_⟩
  · intro k a ha hk
    simp only [onScreenBound, hpend, Bool.false_eq_true, if_false] at hk
    exact hF k a ha (by omega)
  · intro hx
    rw [hpend] at hx
    cases hx

theorem StatusOrder.shown {p : CX_SlidePresenter} (hp : StatusOrder p)
    (hsync : p._synchronizing = false) (hpend : p.currentIsPending = false) :
    (∀ (k : Nat) (a : Slide), p._slides[k]? = some a → k < p._currentSlide →
      a.slideStatus = .FINISHED) ∧
    (∀ (k : Nat) (a : Slide), p._slides[k]? = some a → p._currentSlide < k →
      a.slideStatus = .NOT_STARTED) ∧
    (∀ a : Slide, p._slides[p._currentSlide]? = some a → a.slideStatus = .IN_PROGRESS) := by
  rcases hp with ⟨h1, -⟩ | ⟨-, -, h3, h4, h5, -⟩
  · rw [hsync] at h1
    cases h1
  · refine ⟨?_, h4, ?_⟩
    · intro k a ha hk
      refine h3 k a ha ?_
      simp only [onScreenBound, hpend, Bool.false_eq_true, if_false]
      omega
    · intro a ha
      rcases h5 a ha with hx | hx
      · unfold currentIsPending at hpend
        rw [ha] at hpend
        simp only at hpend
        rw [hpend] at hx
        cases hx
      · exact hx

theorem notPending_of_inProgress {q : CX_SlidePresenter} {a : Slide}
    (ha : q._slides[q._currentSlide]? = some a) (hst : a.slideStatus = .IN_PROGRESS) :
    q.currentIsPending = false := by
  unfold currentIsPending
  rw [ha]
  exact isPending_of_inProgress hst

theorem multiCoreSwappedIn_statusOrder {p q : CX_SlidePresenter} {frameNumber : Nat}
    {d : CX_Display} {b : Bool} (h : _multiCoreSwappedIn frameNumber d p = .ok (b, q))
    (hsync : p._synchronizing = false) (hpres : p._presentingSlides = true)
    (hcb : callbackAppendsOrStops p) (hp : StatusOrder p) :
    q._synchronizing = false ∧ q.currentIsPending = false ∧
    (b = false → q._presentingSlides = true) ∧
    (∀ (k : Nat) (a : Slide), q._slides[k]? = some a → k < q._currentSlide →
      a.slideStatus = .FINISHED) ∧
    (∀ (k : Nat) (a : Slide), q._slides[k]? = some a → q._currentSlide < k →
      a.slideStatus = .NOT_STARTED) ∧
    (∀ a : Slide, q._slides[q._currentSlide]? = some a → a.slideStatus = .IN_PROGRESS) := by
  rcases multiCoreSwappedIn_cases h with ⟨hpend, -, rfl⟩ | ⟨hpend, b1, p1, hon, hcase⟩
  · obtain ⟨hF, hN, hP⟩ := hp.shown hsync hpend
    exact ⟨hsync, hpend, fun _ => hpres, hF, hN, hP⟩
  · rcases hp with ⟨h1, -⟩ | ⟨-, -, h3, h4, -, -⟩
    · rw [hsync] at h1
      cases h1
    · have hb : p.onScreenBound = p._currentSlide - 1 := by simp [onScreenBound, hpend]
      obtain ⟨z1, z2, z3⟩ := slideOnset_statusOrder hon hcb
        (fun k a ha hk => h3 k a ha (by rw [hb]; omega)) h4
      obtain ⟨c1, -, -, c4, -, -⟩ := slideOnset_current hon hcb
      have hs1 : p1._synchronizing = false := by
        cases hx : p1._synchronizing with
        | false => rfl
        | true =>
          have := c4 hx
          rw [← this]
          exact hsync
      rw [← c1] at z1 z2 z3
      rcases hcase with ⟨rfl, hbb, -⟩ | ⟨-, hb1, cur, next, hc, hn, hsl, hcs, -, hpr, hsy, -⟩
      · refine ⟨hs1, slideOnset_notPending hon hcb, ?_, z1, z2, z3⟩
        intro hbf
        exact slideOnset_goesOn hon (by rw [← hbb]; exact hbf) hpres
      · have hcur : q._slides[q._currentSlide]? = some cur := by
          rw [hcs, hsl, getElem?_set_other _ (Nat.ne_of_lt (Nat.lt_succ_self _))]
          exact hc
        have hP : ∀ a : Slide, q._slides[q._currentSlide]? = some a →
            a.slideStatus = .IN_PROGRESS := by
          intro a ha
          rw [hcur] at ha
          simp only [Option.some.injEq] at ha
          rw [← ha]
          exact z3 cur hc
        refine ⟨by rw [hsy]; exact hs1, notPending_of_inProgress hcur (z3 cur hc), ?_, ?_, ?_,
          hP⟩
        · intro _
          rw [hpr]
          exact slideOnset_goesOn hon hb1 hpres
        · intro k a ha hk
          rw [hcs] at hk
          rw [hsl, getElem?_set_other _ (by omega)] at ha
          exact z1 k a ha hk
        · intro k a ha hk
          rw [hcs] at hk
          by_cases hk1 : k = p1._currentSlide + 1
          · rw [hsl, hk1, set_getElem?_same _ hn] at ha
            simp only [Option.some.injEq] at ha
            rw [← ha, preparedNext_status]
            exact z2 _ next hn (by omega)
          · rw [hsl, getElem?_set_other _ hk1] at ha
            exact z2 k a ha hk

theorem multiCoreAdvance_statusOrder {p q : CX_SlidePresenter} {frameNumber : Nat}
    (h : _multiCoreAdvance frameNumber p = .ok q)
    (hsync : p._synchronizing = false) (hpres : p._presentingSlides = true)
    (hpend : p.currentIsPending = false)
    (hF : ∀ (k : Nat) (a : Slide), p._slides[k]? = some a → k < p._currentSlide →
      a.slideStatus = .FINISHED)
    (hN : ∀ (k : Nat) (a : Slide), p._slides[k]? = some a → p._currentSlide < k →
      a.slideStatus = .NOT_STARTED)
    (hP : ∀ a : Slide, p._slides[p._currentSlide]? = some a → a.slideStatus = .IN_PROGRESS) :
    StatusOrder q := by
  rcases multiCoreAdvance_cases h with rfl | ⟨next, st, info, hn, -, hst, hsl, hcs, -, -, -, hpr,
    hsy, -⟩
  · exact StatusOrder.on_screen hsync hpend hF hN hP
  · have hqpend : q.currentIsPending = true := pending_of_rendered hn hsl hcs hst
    refine Or.inr ⟨by rw [hsy]; exact hsync, ?_, ?_, ?_, ?_, ?_⟩
    · intro hx
      rw [hpr, hpres] at hx
      cases hx
    · intro k a ha hk
      simp only [onScreenBound, hqpend, if_true, hcs] at hk
      rw [hsl, getElem?_set_other _ (by omega)] at ha
      exact hF k a ha (by omega)
    · intro k a ha hk
      rw [hcs] at hk
      rw [hsl, getElem?_set_other _ (by omega)] at ha
      exact hN k a ha (by omega)
    · intro a ha
      rw [hcs, hsl, set_getElem?_same _ hn] at ha
      simp only [Option.some.injEq] at ha
      refine Or.inl ?_
      rw [← ha]
      simp only [Slide.isPending, decide_eq_true_eq]
      exact hst
    · intro _ _ a ha
      rw [hcs, hsl] at ha
      simp only [Nat.add_sub_cancel] at ha
      rw [getElem?_set_other _ (Nat.ne_of_lt (Nat.lt_succ_self _))] at ha
      exact hP a ha

end CX_SlidePresenter

end CX

namespace CX

namespace CX_SlidePresenter

theorem multiCoreUpdate_statusOrder {p q : CX_SlidePresenter} {env : UpdateEnv}
    (h : p._multiCoreUpdate env = .ok q) (hcb : callbackAppendsOrStops p)
    (hp : StatusOrder p) : StatusOrder q := by
  rcases multiCoreUpdate_cases h with ⟨hpres, d, hd, hsw⟩ | ⟨hpres, hsync, d, hd, hsw⟩ |
    ⟨-, -, hw⟩
  · have hsync : p._synchronizing = false := by
      rcases hp with ⟨-, h2, -⟩ | ⟨h1, -⟩
      · rw [hpres] at h2
        cases h2
      · exact h1
    have hp' : StatusOrder (p.setDisplay d.hasSwappedSinceLastCheck.2) :=
      hp.of_statusView rfl rfl rfl rfl
    rcases hsw with ⟨-, b, p1, h1, hrest⟩ | ⟨-, hw⟩
    · have hcb' : callbackAppendsOrStops (p.setDisplay d.hasSwappedSinceLastCheck.2) := hcb
      obtain ⟨z1, z2, z3, zF, zN, zP⟩ :=
        multiCoreSwappedIn_statusOrder h1 hsync hpres hcb' hp'
      rcases hrest with ⟨-, rfl⟩ | ⟨hb, p2, h2, hw⟩
      · exact StatusOrder.on_screen z1 z2 zF zN zP
      · exact waitSyncCheck_statusOrder hw
          (multiCoreAdvance_statusOrder h2 z1 (z3 hb) z2 zF zN zP)
    · exact waitSyncCheck_statusOrder hw hp'
  · have hp' : StatusOrder (p.setDisplay d.hasSwappedSinceLastCheck.2) :=
      hp.of_statusView rfl rfl rfl rfl
    rcases hsw with ⟨-, p1, h1, hw⟩ | ⟨-, hw⟩
    · refine waitSyncCheck_statusOrder hw ?_
      have h3 : ∀ (k : Nat) (a : Slide), p._slides[k]? = some a →
          a.slideStatus = .NOT_STARTED := by
        rcases hp with ⟨-, -, h3⟩ | ⟨h1', -⟩
        · exact h3
        · rw [hsync] at h1'
          cases h1'
      obtain ⟨cur, st, info, hcur, hst, hq⟩ := renderCurrentSlide_slides h1
      have hcur' : p._slides[0]? = some cur := hcur
      generalize hr : ({ p1 with _synchronizing := false, _presentingSlides := true } :
        CX_SlidePresenter) = r
      have r1 : r._synchronizing = false := by rw [← hr]
      have r2 : r._presentingSlides = true := by rw [← hr]
      have r3 : r._currentSlide = 0 := by rw [← hr, hq]
      have r4 : r._slides = p._slides.set 0 { cur with slideStatus := st } := by
        rw [← hr, hq]
        rfl
      have hpend : r.currentIsPending = true := pending_of_rendered hcur' r4 r3 hst
      refine Or.inr ⟨r1, ?_, ?_, ?_, ?_, ?_⟩
      · intro hx
        rw [r2] at hx
        cases hx
      · intro k a _ hk
        simp only [onScreenBound, hpend, if_true, r3] at hk
        omega
      · intro k a ha hk
        rw [r3] at hk
        rw [r4, getElem?_set_other _ (by omega)] at ha
        exact h3 k a ha
      · intro a ha
        rw [r3, r4, set_getElem?_same _ hcur'] at ha
        simp only [Option.some.injEq] at ha
        refine Or.inl ?_
        rw [← ha]
        simp only [Slide.isPending, decide_eq_true_eq]
        exact hst
      · intro _ hz
        exact absurd r3 hz
    · exact waitSyncCheck_statusOrder hw hp'
  · exact waitSyncCheck_statusOrder hw hp

theorem step_statusOrder (p q : CX_SlidePresenter) (e : Step) (h : p.step e = .ok q)
    (he : isUpdateOrSwap e = true) (hmode : p._config.swappingMode = .MULTI_CORE)
    (hcb : callbackAppendsOrStops p) (hp : StatusOrder p) : StatusOrder q := by
  cases e with
  | call c => simp [isUpdateOrSwap] at he
  | setup config f => simp [isUpdateOrSwap] at he
  | update env =>
    simp only [step] at h
    unfold update at h
    simp only [hmode] at h
    exact multiCoreUpdate_statusOrder h hcb hp
  | threadSwap t =>
    simp only [step] at h
    split at h
    · simp only [Except.ok.injEq] at h
      subst h
      exact hp
    · simp only [Except.ok.injEq] at h
      subst h
      exact hp.of_statusView rfl rfl rfl rfl

theorem startSlidePresentation_notStarted {p q : CX_SlidePresenter}
    (h : p.startSlidePresentation = .ok (true, q)) :
    ∀ (k : Nat) (a : Slide), q._slides[k]? = some a → a.slideStatus = .NOT_STARTED := by
  cases hd : p._config.display with
  | none => simp [startSlidePresentation, hd] at h
  | some d =>
    by_cases hs : p._slides = []
    · simp [startSlidePresentation, hd, hs] at h
    · obtain ⟨d', h'⟩ := startSlidePresentation_nonempty p d hd hs
      rw [h'] at h
      simp only [Except.ok.injEq, Prod.mk.injEq, true_and] at h
      subst h
      intro k a ha
      have ha' : (p._slides.map
          (fun (s : Slide) => { s with slideStatus := .NOT_STARTED }))[k]? = some a := ha
      rw [List.getElem?_map] at ha'
      cases hk : p._slides[k]? with
      | none => simp [hk] at ha'
      | some s =>
        simp only [hk, Option.map_some', Option.some.injEq] at ha'
        rw [← ha']

end CX_SlidePresenter

end CX

namespace CX

namespace CX_SlidePresenter

theorem StatusOrder.inProgress_index {q : CX_SlidePresenter} (hq : StatusOrder q)
    (hsync : q._synchronizing = false) {k : Nat} {a : Slide} (ha : q._slides[k]? = some a)
    (hst : a.slideStatus = .IN_PROGRESS) : k = q.onScreenBound := by
  rcases hq with ⟨h1, -⟩ | ⟨-, -, h3, h4, -, -⟩
  · rw [hsync] at h1
    cases h1
  · have hk1 : ¬ q._currentSlide < k := by
      intro hlt
      have := h4 k a ha hlt
      rw [hst] at this
      cases this
    have hk2 : ¬ k + 1 ≤ q.onScreenBound := by
      intro hle
      have := h3 k a ha hle
      rw [hst] at this
      cases this
    cases hpend : q.currentIsPending with
    | false =>
      simp only [onScreenBound, hpend, Bool.false_eq_true, if_false] at hk2 ⊢
      omega
    | true =>
      simp only [onScreenBound, hpend, if_true] at hk2 ⊢
      have hne : k ≠ q._currentSlide := by
        intro he
        unfold currentIsPending at hpend
        rw [← he, ha] at hpend
        simp only at hpend
        rw [isPending_of_inProgress hst] at hpend
        cases hpend
      omega

/-- C28, the claim as stated fails: `stopSlidePresentation` and the end of a presentation
keep `_currentSlide`, and `startSlidePresentation` resets every status but not the index.
The example presentation has ended at index 2; after another successful start, and after an
`update` that sees no swap, the index is still 2 and slide 0, whose index is below
`_currentSlide - 1`, has not started. -/
theorem restart_keeps_stale_index :
    exampleQueued.run exampleSteps = .ok exampleFinished ∧
    exampleFinished.startSlidePresentation = .ok (true, exampleRestarted) ∧
    exampleRestarted.update {} = .ok exampleRestarted ∧
    exampleRestarted._currentSlide = 2 ∧
    ∃ a, exampleRestarted._slides[0]? = some a ∧ 0 < exampleRestarted._currentSlide - 1 ∧
      a.slideStatus = .NOT_STARTED ∧ a.slideStatus ≠ .FINISHED :=
  ⟨rfl, rfl, rfl, rfl, _, rfl, by decide, rfl, by decide⟩

/-- C28, amended: in multi-core mode, in every state reached after a successful
`startSlidePresentation` by `update` calls and swaps of the background thread (callback
only inserting slides or stopping), every slide after the current one is `NOT_STARTED` and
at most one slide is `IN_PROGRESS`; while the presenter still waits for the first swap every
slide is `NOT_STARTED`, and once that swap has been seen every slide with an index below
`_currentSlide - 1` is `FINISHED`.  When the presentation has ended at the last slide of the
queue, every slide before the last is `FINISHED` and the last one is `IN_PROGRESS`. -/
theorem statuses_ordered (p0 p q : CX_SlidePresenter) (steps : List Step)
    (hmode : p0._config.swappingMode = .MULTI_CORE)
    (hcb : callbackAppendsOrStops p0)
    (hstart : p0.startSlidePresentation = .ok (true, p))
    (hsteps : ∀ e ∈ steps, isUpdateOrSwap e = true)
    (hrun : p.run steps = .ok q) :
    (∀ (k : Nat) (a : Slide), q._slides[k]? = some a → q._currentSlide < k →
      a.slideStatus = .NOT_STARTED) ∧
    (∀ (j k : Nat) (a b : Slide), q._slides[j]? = some a → q._slides[k]? = some b →
      a.slideStatus = .IN_PROGRESS → b.slideStatus = .IN_PROGRESS → j = k) ∧
    (q._synchronizing = true →
      ∀ (k : Nat) (a : Slide), q._slides[k]? = some a → a.slideStatus = .NOT_STARTED) ∧
    (q._synchronizing = false →
      ∀ (k : Nat) (a : Slide), q._slides[k]? = some a → k + 1 < q._currentSlide →
        a.slideStatus = .FINISHED) ∧
    (q.isPresentingSlides = false → q._currentSlide + 1 = q._slides.length →
      (∀ (k : Nat) (a : Slide), q._slides[k]? = some a → k + 1 < q._slides.length →
        a.slideStatus = .FINISHED) ∧
      (∀ a : Slide, q._slides[q._slides.length - 1]? = some a →
        a.slideStatus = .IN_PROGRESS)) := by
  obtain ⟨s1, s2, -⟩ := startSlidePresentation_flags hstart
  have hset := (startSlidePresentation_frame hstart).2
  obtain ⟨f1, f2, -⟩ := settings_fields hset
  have hcb1 : callbackAppendsOrStops p := by
    intro cb hc
    exact hcb cb (by rw [← f2]; exact hc)
  obtain ⟨hz, -⟩ := run_invariant StatusOrder .MULTI_CORE step_statusOrder steps
    hrun hsteps (by rw [f1]; exact hmode) hcb1
    (Or.inl ⟨s1, s2, startSlidePresentation_notStarted hstart⟩)
  refine ⟨?_, ?_, ?_, ?_, ?_⟩
  · rcases hz with ⟨-, -, h3⟩ | ⟨-, -, -, h4, -, -⟩
    · exact fun k a ha _ => h3 k a ha
    · exact h4
  · intro j k a b ha hb hsa hsb
    cases hsync : q._synchronizing with
    | true =>
      rcases hz with ⟨-, -, h3⟩ | ⟨h1, -⟩
      · have := h3 j a ha
        rw [hsa] at this
        cases this
      · rw [hsync] at h1
        cases h1
    | false =>
      rw [hz.inProgress_index hsync ha hsa, hz.inProgress_index hsync hb hsb]
  · intro hsync
    rcases hz with ⟨-, -, h3⟩ | ⟨h1, -⟩
    · exact h3
    · rw [hsync] at h1
      cases h1
  · intro hsync k a ha hk
    rcases hz with ⟨h1, -⟩ | ⟨-, -, h3, -, -, -⟩
    · rw [hsync] at h1
      cases h1
    · refine h3 k a ha ?_
      unfold onScreenBound
      split <;> omega
  · intro hdone hlast
    have hflags : q._presentingSlides = false ∧ q._synchronizing = false := by
      unfold isPresentingSlides at hdone
      simpa using hdone
    have hpend : q.currentIsPending = false := by
      rcases hz with ⟨h1, -⟩ | ⟨-, h2, -⟩
      · rw [hflags.2] at h1
        cases h1
      · exact h2 hflags.1
    obtain ⟨hF, -, hP⟩ := hz.shown hflags.2 hpend
    refine ⟨fun k a ha hk => hF k a ha (by omega), fun a ha => hP a ?_⟩
    have hidx : q._slides.length - 1 = q._currentSlide := by omega
    rw [← hidx]
    exact ha

end CX_SlidePresenter

end CX

namespace CX

namespace CX_SlidePresenter

theorem statuses_ordered_witness :
    (∀ (k : Nat) (a : Slide), exampleDriftFinished._slides[k]? = some a →
      k + 1 < exampleDriftFinished._slides.length → a.slideStatus = .FINISHED) ∧
    (∀ a : Slide,
      exampleDriftFinished._slides[exampleDriftFinished._slides.length - 1]? = some a →
      a.slideStatus = .IN_PROGRESS) :=
  (statuses_ordered (exampleDriftQueued .DO_NOTHING) exampleDriftStarted
    exampleDriftFinished exampleMissedSteps.tail rfl
    (fun cb hc => by simp [exampleDriftQueued, examplePresenterWith, examplePresenter] at hc)
    rfl (by decide) rfl).2.2.2.2 rfl rfl

end CX_SlidePresenter

end CX

/-! ## Actual start frames in multi-core mode -/

namespace CX

namespace CX_SlidePresenter

/-- The actual start frames once `_slideOnset` returns: the current slide has the frame
number of the onset, every other slide that was in the queue keeps its start frame. -/
theorem slideOnset_startFrames {p q : CX_SlidePresenter} {frameNumber : Nat} {onset : Int}
    {b : Bool} (h : p._slideOnset frameNumber onset = .ok (b, q))
    (hcb : callbackAppendsOrStops p) :
    (∀ (j : Nat) (s' : Slide), q._slides[j]? = some s' → j ≠ p._currentSlide →
      j < p._slides.length →
      ∃ s, p._slides[j]? = some s ∧ s'.actual.startFrame = s.actual.startFrame) ∧
    (∀ s' : Slide, q._slides[p._currentSlide]? = some s' →
      s'.actual.startFrame = toUInt32 frameNumber) := by
  obtain ⟨slides, cur, shown, hcur, hlen, hshown, -, -, s3, -, -, -, -, hothers, hfin,
    hcase⟩ := slideOnset_stamped h
  have S : ∀ (j : Nat) (s' : Slide), slides[j]? = some s' → j ≠ p._currentSlide →
      ∃ s, p._slides[j]? = some s ∧ s'.actual.startFrame = s.actual.startFrame := by
    intro j s' hs' hj
    by_cases hj1 : j + 1 = p._currentSlide
    · have hc0 : p._currentSlide ≠ 0 := by omega
      obtain ⟨previousSlide, finished, hprev, hfinished, -, -, -, f4, -⟩ := hfin hc0
      have hidx : p._currentSlide - 1 = j := by omega
      rw [hidx] at hprev hfinished
      rw [hfinished] at hs'
      simp only [Option.some.injEq] at hs'
      rw [← hs']
      exact ⟨previousSlide, hprev, f4⟩
    · rw [hothers j hj hj1] at hs'
      exact ⟨s', hs', rfl⟩
  rcases hcase with ⟨-, hfinal, -⟩ | ⟨-, rfl, -⟩
  · have hcb' : callbackAppendsOrStops ({ p with _slides := slides } : CX_SlidePresenter) := hcb
    obtain ⟨-, -, -, -, -, f6⟩ := handleFinalSlide_slides hfinal hcb'
    simp only at f6
    refine ⟨?_, ?_⟩
    · intro j s' hs' hj hlt
      obtain ⟨s1, hs1⟩ := getElem?_of_lt (l := slides) (j := j) (by omega)
      obtain ⟨-, -, g3, -, -⟩ := f6 j s' s1 hs' hs1
      obtain ⟨s, hs, e⟩ := S j s1 hs1 hj
      exact ⟨s, hs, by rw [g3, e]⟩
    · intro s' hs'
      obtain ⟨-, -, g3, -, -⟩ := f6 _ s' shown hs' hshown
      rw [g3, s3]
  · refine ⟨fun j s' hs' hj _ => S j s' hs' hj, ?_⟩
    intro s' hs'
    have hs'' : slides[p._currentSlide]? = some s' := hs'
    rw [hshown] at hs''
    simp only [Option.some.injEq] at hs''
    rw [← hs'', s3]

/-- The slides on screen once `_slideOnset` returns, when the frame number of the onset is
above the start frames of the slides that came on screen before. -/
theorem slideOnset_framesIncrease {Rel : Nat → Nat → Prop} {p q : CX_SlidePresenter}
    {frameNumber last : Nat}
    {onset : Int} {b : Bool} (h : p._slideOnset frameNumber onset = .ok (b, q))
    (hcb : callbackAppendsOrStops p)
    (hchain : Chained (startsIn Rel) (p._currentSlide - 1) p._slides)
    (hlast : ∀ (k : Nat) (a : Slide), p._slides[k]? = some a → k < p._currentSlide →
      a.actual.startFrame ≤ last)
    (hRel : ∀ x, x ≤ last → Rel x frameNumber) (hle : last ≤ frameNumber)
    (hF : frameNumber < UINT32_SIZE) :
    Chained (startsIn Rel) p._currentSlide q._slides ∧
    ∀ (k : Nat) (a : Slide), q._slides[k]? = some a → k ≤ p._currentSlide →
      a.actual.startFrame ≤ frameNumber := by
  obtain ⟨hA, hB⟩ := slideOnset_startFrames h hcb
  obtain ⟨-, -, -, -, -, cur, -, hcur, -⟩ := slideOnset_current h hcb
  have hcl : p._currentSlide < p._slides.length := (List.getElem?_eq_some_iff.mp hcur).1
  have hmod : toUInt32 frameNumber = frameNumber := toUInt32_of_lt hF
  refine ⟨?_, ?_⟩
  · intro k a b ha hb hk
    have hbf : k + 1 = p._currentSlide ∨ k + 1 < p._currentSlide := by omega
    obtain ⟨a0, ha0, ea⟩ := hA k a ha (by omega) (by omega)
    rcases hbf with hk1 | hk1
    · rw [hk1] at hb
      have eb := hB b hb
      unfold startsIn
      rw [ea, eb, hmod]
      exact hRel _ (hlast k a0 ha0 (by omega))
    · obtain ⟨b0, hb0, eb⟩ := hA (k + 1) b hb (by omega) (by omega)
      have := hchain k a0 b0 ha0 hb0 (by omega)
      unfold startsIn at this ⊢
      rw [ea, eb]
      exact this
  · intro k a ha hk
    by_cases hkc : k = p._currentSlide
    · rw [hkc] at ha
      rw [hB a ha, hmod]
    · obtain ⟨a0, ha0, ea⟩ := hA k a ha hkc (by omega)
      rw [ea]
      exact Nat.le_trans (hlast k a0 ha0 (by omega)) hle

end CX_SlidePresenter

end CX

namespace CX

namespace CX_SlidePresenter

theorem Chained.of_prefix {R : Slide → Slide → Prop} {n : Nat} {l l' : List Slide}
    (h : Chained R n l) (hsame : ∀ j, j ≤ n → l'[j]? = l[j]?) : Chained R n l' := by
  intro k a b ha hb hk
  rw [hsame k (by omega)] at ha
  rw [hsame (k + 1) hk] at hb
  exact h k a b ha hb hk

theorem FramesBelow.onScreen {Rel : Nat → Nat → Prop} {p : CX_SlidePresenter} {last : Nat}
    (h : FramesBelow Rel last p) (hpend : p.currentIsPending = false) :
    Chained (startsIn Rel) p._currentSlide p._slides ∧
    ∀ (k : Nat) (a : Slide), p._slides[k]? = some a → k ≤ p._currentSlide →
      a.actual.startFrame ≤ last := by
  obtain ⟨h1, h2⟩ := h
  simp only [onScreenBound, hpend, Bool.false_eq_true, if_false] at h1
  refine ⟨h1, fun k a ha hk => h2 k a ha ?_⟩
  unfold hasComeOnScreen
  by_cases hkc : k = p._currentSlide
  · exact Or.inr ⟨hkc, hpend⟩
  · exact Or.inl (by omega)

theorem FramesBelow.of_shown {Rel : Nat → Nat → Prop} {q : CX_SlidePresenter} {last : Nat}
    (hpend : q.currentIsPending = false)
    (h1 : Chained (startsIn Rel) q._currentSlide q._slides)
    (h2 : ∀ (k : Nat) (a : Slide), q._slides[k]? = some a → k ≤ q._currentSlide →
      a.actual.startFrame ≤ last) : FramesBelow Rel last q := by
  refine ⟨?_, ?_⟩
  · simp only [onScreenBound, hpend, Bool.false_eq_true, if_false]
    exact h1
  · intro k a ha hk
    refine h2 k a ha ?_
    unfold hasComeOnScreen at hk
    omega

theorem multiCoreSwappedIn_framesIncrease {Rel : Nat → Nat → Prop} {p q : CX_SlidePresenter}
    {frameNumber last : Nat}
    {d : CX_Display} {b : Bool} (h : _multiCoreSwappedIn frameNumber d p = .ok (b, q))
    (hsync : p._synchronizing = false) (hpres : p._presentingSlides = true)
    (hcb : callbackAppendsOrStops p) :
    q._synchronizing = false ∧ q.currentIsPending = false ∧
    (b = false → q._presentingSlides = true) ∧ q._config = p._config ∧
    (FramesBelow Rel last p → (∀ x, x ≤ last → Rel x frameNumber) → last ≤ frameNumber →
      frameNumber < UINT32_SIZE →
      Chained (startsIn Rel) q._currentSlide q._slides ∧
      ∀ (k : Nat) (a : Slide), q._slides[k]? = some a → k ≤ q._currentSlide →
        a.actual.startFrame ≤ frameNumber) := by
  rcases multiCoreSwappedIn_cases h with ⟨hpend, -, rfl⟩ | ⟨hpend, b1, p1, hon, hcase⟩
  · refine ⟨hsync, hpend, fun _ => hpres, rfl, ?_⟩
    intro hinv _ hle _
    obtain ⟨h1, h2⟩ := hinv.onScreen hpend
    exact ⟨h1, fun k a ha hk => Nat.le_trans (h2 k a ha hk) hle⟩
  · obtain ⟨c1, c2, -, c4, -, cur0, shown, -, hshown, hst, -⟩ := slideOnset_current hon hcb
    have hs1 : p1._synchronizing = false := by
      cases hx : p1._synchronizing with
      | false => rfl
      | true =>
        have := c4 hx
        rw [← this]
        exact hsync
    have hb : p.onScreenBound = p._currentSlide - 1 := by simp [onScreenBound, hpend]
    have hframes : FramesBelow Rel last p → (∀ x, x ≤ last → Rel x frameNumber) →
        last ≤ frameNumber → frameNumber < UINT32_SIZE →
        Chained (startsIn Rel) p1._currentSlide p1._slides ∧
        ∀ (k : Nat) (a : Slide), p1._slides[k]? = some a → k ≤ p1._currentSlide →
          a.actual.startFrame ≤ frameNumber := by
      intro hinv hRel hle hF
      obtain ⟨i1, i2⟩ := hinv
      rw [hb] at i1
      rw [c1]
      exact slideOnset_framesIncrease hon hcb i1 (fun k a ha hk => i2 k a ha (Or.inl hk))
        hRel hle hF
    rcases hcase with ⟨rfl, hbb, -⟩ | ⟨-, hb1, cur, next, hc, hn, hsl, hcs, hcfg, hpr, hsy, -⟩
    · refine ⟨hs1, slideOnset_notPending hon hcb, ?_, c2, hframes⟩
      intro hbf
      exact slideOnset_goesOn hon (by rw [← hbb]; exact hbf) hpres
    · have hcur : q._slides[q._currentSlide]? = some shown := by
        rw [hcs, hsl, getElem?_set_other _ (Nat.ne_of_lt (Nat.lt_succ_self _)), c1]
        exact hshown
      refine ⟨by rw [hsy]; exact hs1, notPending_of_inProgress hcur hst, ?_,
        by rw [hcfg, c2], ?_⟩
      · intro _
        rw [hpr]
        exact slideOnset_goesOn hon hb1 hpres
      · intro hinv hRel hle hF
        obtain ⟨g1, g2⟩ := hframes hinv hRel hle hF
        rw [hcs]
        refine ⟨g1.of_prefix (fun j hj => ?_), fun k a ha hk => ?_⟩
        · rw [hsl, getElem?_set_other _ (by omega)]
        · rw [hsl, getElem?_set_other _ (by omega)] at ha
          exact g2 k a ha hk

theorem multiCoreAdvance_framesIncrease {Rel : Nat → Nat → Prop} {p q : CX_SlidePresenter}
    {frameNumber last : Nat}
    (h : _multiCoreAdvance frameNumber p = .ok q)
    (hpres : p._presentingSlides = true) (hpend : p.currentIsPending = false) :
    q._synchronizing = p._synchronizing ∧ q._presentingSlides = true ∧
    q._config = p._config ∧
    (Chained (startsIn Rel) p._currentSlide p._slides →
      (∀ (k : Nat) (a : Slide), p._slides[k]? = some a → k ≤ p._currentSlide →
        a.actual.startFrame ≤ last) →
      FramesBelow Rel last q) := by
  rcases multiCoreAdvance_cases h with rfl | ⟨next, st, info, hn, -, hst, hsl, hcs, -, -, hcfg,
    hpr, hsy, -⟩
  · exact ⟨rfl, hpres, rfl, fun h1 h2 => FramesBelow.of_shown hpend h1 h2⟩
  · have hqpend : q.currentIsPending = true := pending_of_rendered hn hsl hcs hst
    refine ⟨hsy, by rw [hpr]; exact hpres, hcfg, ?_⟩
    intro h1 h2
    refine ⟨?_, ?_⟩
    · simp only [onScreenBound, hqpend, if_true, hcs, Nat.add_sub_cancel]
      exact h1.of_prefix (fun j hj => by rw [hsl, getElem?_set_other _ (by omega)])
    · intro k a ha hk
      unfold hasComeOnScreen at hk
      rw [hqpend, hcs] at hk
      have hk' : k ≤ p._currentSlide := by
        rcases hk with hk | ⟨-, hk⟩
        · omega
        · cases hk
      rw [hsl, getElem?_set_other _ (by omega)] at ha
      exact h2 k a ha hk'

end CX_SlidePresenter

end CX

namespace CX

namespace CX_SlidePresenter

theorem FramesBelow.weaken {Rel : Nat → Nat → Prop} {p : CX_SlidePresenter}
    {last last' : Nat} (h : FramesBelow Rel last p)
    (hle : last ≤ last') : FramesBelow Rel last' p :=
  ⟨h.1, fun k a ha hk => Nat.le_trans (h.2 k a ha hk) hle⟩

theorem FramesBelow.of_frameView {Rel : Nat → Nat → Prop} {p q : CX_SlidePresenter}
    {last : Nat} (h : FramesBelow Rel last p)
    (hcs : q._currentSlide = p._currentSlide)
    (hslides : q._slides.map Slide.withoutFence = p._slides.map Slide.withoutFence) :
    FramesBelow Rel last q := by
  have hpend := pending_of_withoutFence hcs hslides
  have hbound : q.onScreenBound = p.onScreenBound := by
    unfold onScreenBound
    rw [hpend, hcs]
  obtain ⟨h1, h2⟩ := h
  refine ⟨?_, ?_⟩
  · rw [hbound]
    refine Chained.transfer (fun s : Slide => s.actual.startFrame)
      (fun s : Slide => s.actual.startFrame) ?_ ?_ ?_ h1
    · intro a b a' b' ea eb hab
      unfold startsIn at hab ⊢
      simp only at ea eb
      rw [ea, eb]
      exact hab
    · intro j _
      exact map_view_of_withoutFence (fun s : Slide => s.actual.startFrame)
        (fun _ => rfl) hslides j
    · intro j _
      exact map_view_of_withoutFence (fun s : Slide => s.actual.startFrame)
        (fun _ => rfl) hslides j
  · intro k a' ha' hk
    obtain ⟨a, ha, e1, -⟩ := actual_of_withoutFence hslides ha'
    rw [← e1]
    refine h2 k a ha ?_
    unfold hasComeOnScreen at hk ⊢
    rw [hcs, hpend] at hk
    exact hk

theorem FramesIncrease.of_framesView {Rel : Nat → Nat → Prop} {bound : CX_Display → Nat}
    {p q : CX_SlidePresenter} (h : FramesIncrease Rel bound p)
    (hcfg : q._config = p._config)
    (hsync : q._synchronizing = p._synchronizing)
    (hpres : q._presentingSlides = p._presentingSlides)
    (hcs : q._currentSlide = p._currentSlide)
    (hslides : q._slides.map Slide.withoutFence = p._slides.map Slide.withoutFence) :
    FramesIncrease Rel bound q := by
  have hpend := pending_of_withoutFence hcs hslides
  obtain ⟨d, hd, hle, hbody⟩ := h
  refine ⟨d, by rw [hcfg]; exact hd, hle, ?_⟩
  rcases hbody with ⟨h1, h2⟩ | ⟨h1, h2, h3⟩
  · exact Or.inl ⟨by rw [hsync, h1], by rw [hpres, h2]⟩
  · refine Or.inr ⟨by rw [hsync, h1], ?_, fun hF => (h3 hF).of_frameView hcs hslides⟩
    intro hx
    rw [hpend]
    exact h2 (by rw [← hpres]; exact hx)

theorem waitSyncCheck_framesIncrease {Rel : Nat → Nat → Prop} {bound : CX_Display → Nat}
    {env : UpdateEnv} {p q : CX_SlidePresenter}
    (h : p._waitSyncCheck env = .ok q) (hp : FramesIncrease Rel bound p) :
    FramesIncrease Rel bound q := by
  obtain ⟨slides, info, hq, -, -⟩ := waitSyncCheck_shape h
  have hf := waitSyncCheck_fence h
  subst hq
  exact hp.of_framesView rfl rfl rfl rfl hf

/-- The invariant is kept when `hasSwappedSinceLastCheck` records the frame number. -/
theorem FramesIncrease.seen {Rel : Nat → Nat → Prop} {bound : CX_Display → Nat}
    {p : CX_SlidePresenter} {d : CX_Display} (h : FramesIncrease Rel bound p)
    (hgrow : BoundGrows bound) (hd : p._config.display = some d) :
    FramesIncrease Rel bound (p.setDisplay d.hasSwappedSinceLastCheck.2) := by
  obtain ⟨d0, hd0, hle, hbody⟩ := h
  rw [hd] at hd0
  simp only [Option.some.injEq] at hd0
  subst hd0
  have e2 := CX_Display.hasSwapped_snd d
  have f2 : d.hasSwappedSinceLastCheck.2.getFrameNumber = d.getFrameNumber := by
    rw [e2]
    rfl
  have l2 : d.hasSwappedSinceLastCheck.2._frameNumberOnLastSwapCheck = d.getFrameNumber := by
    rw [e2]
  refine ⟨d.hasSwappedSinceLastCheck.2, rfl, by rw [f2, l2], ?_⟩
  rcases hbody with ⟨h1, h2⟩ | ⟨h1, h2, h3⟩
  · exact Or.inl ⟨h1, h2⟩
  · refine Or.inr ⟨h1, h2, ?_⟩
    intro hF
    rw [f2] at hF
    have h3' : FramesBelow Rel (bound d) p := h3 hF
    exact ⟨h3'.1, fun k a ha hk => Nat.le_trans (h3'.2 k a ha hk) (hgrow.1 d hle)⟩

end CX_SlidePresenter

end CX

namespace CX

namespace CX_SlidePresenter

theorem threadSwaps_lastCheck (ts : List Int) :
    ∀ d : CX_Display, (d.threadSwaps ts)._frameNumberOnLastSwapCheck
      = d._frameNumberOnLastSwapCheck := by
  induction ts with
  | nil =>
    intro d
    rfl
  | cons t rest ih =>
    intro d
    show ((d.threadSwap t).threadSwaps rest)._frameNumberOnLastSwapCheck = _
    rw [ih]
    unfold CX_Display.threadSwap
    split <;> rfl

theorem threadSwaps_frameNumber (ts : List Int) :
    ∀ d : CX_Display, d.getFrameNumber ≤ (d.threadSwaps ts).getFrameNumber := by
  induction ts with
  | nil =>
    intro d
    exact Nat.le_refl _
  | cons t rest ih =>
    intro d
    show d.getFrameNumber ≤ ((d.threadSwap t).threadSwaps rest).getFrameNumber
    refine Nat.le_trans ?_ (ih _)
    unfold CX_Display.threadSwap CX_Display.getFrameNumber
    split
    · simp only
      omega
    · exact Nat.le_refl _

theorem displayAtFrameRead_le (env : UpdateEnv) (d : CX_Display) :
    d.getFrameNumber ≤ (displayAtFrameRead env d).getFrameNumber ∧
    (displayAtFrameRead env d).getFrameNumber ≤ (displayAtTimeRead env d).getFrameNumber := by
  have e2 := CX_Display.hasSwapped_snd d
  have f2 : d.hasSwappedSinceLastCheck.2.getFrameNumber = d.getFrameNumber := by
    rw [e2]
    rfl
  unfold displayAtTimeRead displayAtFrameRead
  refine ⟨?_, threadSwaps_frameNumber _ _⟩
  refine Nat.le_trans ?_ (threadSwaps_frameNumber _ _)
  rw [f2]

/-- The display that a multi-core update leaves behind after a swap check that found a
swap: checked at the frame number of the check, and showing that frame or a later one. -/
theorem displayAtTimeRead_facts (env : UpdateEnv) (d : CX_Display) :
    (displayAtTimeRead env d)._frameNumberOnLastSwapCheck = d.getFrameNumber ∧
    d.getFrameNumber ≤ (displayAtTimeRead env d).getFrameNumber := by
  have e2 := CX_Display.hasSwapped_snd d
  have f2 : d.hasSwappedSinceLastCheck.2.getFrameNumber = d.getFrameNumber := by
    rw [e2]
    rfl
  unfold displayAtTimeRead displayAtFrameRead
  refine ⟨?_, ?_⟩
  · rw [threadSwaps_lastCheck, threadSwaps_lastCheck, e2]
  · refine Nat.le_trans ?_ (threadSwaps_frameNumber _ _)
    refine Nat.le_trans ?_ (threadSwaps_frameNumber _ _)
    rw [f2]

theorem multiCoreUpdate_framesIncrease {Rel : Nat → Nat → Prop} {bound : CX_Display → Nat}
    {p q : CX_SlidePresenter} {env : UpdateEnv}
    (h : p._multiCoreUpdate env = .ok q) (hcb : callbackAppendsOrStops p)
    (hgrow : BoundGrows bound) (hstamp : StampsKeep Rel bound env)
    (hp : FramesIncrease Rel bound p) : FramesIncrease Rel bound q := by
  rcases multiCoreUpdate_cases h with ⟨hpres, d, hd, hsw⟩ | ⟨hpres, hsync, d, hd, hsw⟩ |
    ⟨-, -, hw⟩
  · have hseen := hp.seen hgrow hd
    obtain ⟨d0, hd0, hle, hbody⟩ := hp
    rw [hd] at hd0
    simp only [Option.some.injEq] at hd0
    subst hd0
    obtain ⟨l3, f3⟩ := displayAtTimeRead_facts env d
    rcases hsw with ⟨hs1, b, p1, h1, hrest⟩ | ⟨-, hw⟩
    · have hlt : d._frameNumberOnLastSwapCheck < d.getFrameNumber := by
        rw [CX_Display.hasSwapped_fst] at hs1
        have hne : d.getFrameNumber ≠ d._frameNumberOnLastSwapCheck := by simpa using hs1
        omega
      obtain ⟨k1, k2, k3⟩ := hstamp d hlt
      have f4 := displayAtFrameRead_le env d
      obtain ⟨hsync, hfb⟩ : p._synchronizing = false ∧
          (d.getFrameNumber < UINT32_SIZE → FramesBelow Rel (bound d) p) := by
        rcases hbody with ⟨-, h2⟩ | ⟨h1', -, h3⟩
        · rw [hpres] at h2
          cases h2
        · exact ⟨h1', h3⟩
      have hcb' : callbackAppendsOrStops (p.setDisplay (displayAtTimeRead env d)) := hcb
      obtain ⟨z1, z2, z3, z4, z5⟩ := @multiCoreSwappedIn_framesIncrease
        Rel _ _ _ (bound d) _ _ h1 hsync hpres hcb'
      have z5' : (displayAtTimeRead env d).getFrameNumber < UINT32_SIZE →
          Chained (startsIn Rel) p1._currentSlide p1._slides ∧
          ∀ (k : Nat) (a : Slide), p1._slides[k]? = some a → k ≤ p1._currentSlide →
            a.actual.startFrame ≤ bound (displayAtTimeRead env d) := by
        intro hF
        have hfb' : FramesBelow Rel (bound d) (p.setDisplay (displayAtTimeRead env d)) :=
          ⟨(hfb (by omega)).1, (hfb (by omega)).2⟩
        obtain ⟨g1, g2⟩ := z5 hfb' k1 k2 (by omega)
        exact ⟨g1, fun k a ha hk => Nat.le_trans (g2 k a ha hk) k3⟩
      rcases hrest with ⟨-, rfl⟩ | ⟨hb, p2, h2, hw⟩
      · refine ⟨displayAtTimeRead env d, by rw [z4]; rfl, by rw [l3]; exact f3,
          Or.inr ⟨z1, fun _ => z2, ?_⟩⟩
        intro hF
        exact FramesBelow.of_shown z2 (z5' hF).1 (z5' hF).2
      · obtain ⟨a1, a2, a3, a4⟩ := @multiCoreAdvance_framesIncrease
          Rel _ _ _ (bound (displayAtTimeRead env d)) h2 (z3 hb) z2
        refine waitSyncCheck_framesIncrease hw ?_
        refine ⟨displayAtTimeRead env d, by rw [a3, z4]; rfl, by rw [l3]; exact f3,
          Or.inr ⟨by rw [a1]; exact z1, ?_, ?_⟩⟩
        · intro hx
          rw [a2] at hx
          cases hx
        · intro hF
          exact a4 (z5' hF).1 (z5' hF).2
    · exact waitSyncCheck_framesIncrease hw hseen
  · have hseen := hp.seen hgrow hd
    rcases hsw with ⟨-, p1, h1, hw⟩ | ⟨-, hw⟩
    · refine waitSyncCheck_framesIncrease hw ?_
      obtain ⟨d2, hd2, hle2, -⟩ := hseen
      obtain ⟨cur, st, info, hcur, hst, hq⟩ := renderCurrentSlide_slides h1
      have hcur' : p._slides[0]? = some cur := hcur
      generalize hr : ({ p1 with _synchronizing := false, _presentingSlides := true } :
        CX_SlidePresenter) = r
      have r1 : r._synchronizing = false := by rw [← hr]
      have r2 : r._presentingSlides = true := by rw [← hr]
      have r3 : r._currentSlide = 0 := by rw [← hr, hq]
      have r4 : r._slides = p._slides.set 0 { cur with slideStatus := st } := by
        rw [← hr, hq]
        rfl
      have r5 : r._config.display = some d2 := by
        rw [← hr, hq]
        exact hd2
      have hpend : r.currentIsPending = true := pending_of_rendered hcur' r4 r3 hst
      refine ⟨d2, r5, hle2, Or.inr ⟨r1, ?_, ?_⟩⟩
      · intro hx
        rw [r2] at hx
        cases hx
      · intro _
        refine ⟨?_, ?_⟩
        · simp only [onScreenBound, hpend, if_true, r3]
          exact Chained.zero _ _
        · intro k a _ hk
          unfold hasComeOnScreen at hk
          rw [hpend, r3] at hk
          rcases hk with hk | ⟨-, hk⟩
          · omega
          · cases hk
    · exact waitSyncCheck_framesIncrease hw hseen
  · exact waitSyncCheck_framesIncrease hw hp

theorem step_framesIncrease {Rel : Nat → Nat → Prop} {bound : CX_Display → Nat}
    (p q : CX_SlidePresenter) (e : Step) (h : p.step e = .ok q)
    (he : isUpdateOrSwap e = true) (hgrow : BoundGrows bound) (hstamp : stampsKeep Rel bound e)
    (hmode : p._config.swappingMode = .MULTI_CORE)
    (hcb : callbackAppendsOrStops p) (hp : FramesIncrease Rel bound p) :
    FramesIncrease Rel bound q := by
  cases e with
  | call c => simp [isUpdateOrSwap] at he
  | setup config f => simp [isUpdateOrSwap] at he
  | update env =>
    simp only [step] at h
    unfold update at h
    simp only [hmode] at h
    exact multiCoreUpdate_framesIncrease h hcb hgrow hstamp hp
  | threadSwap t =>
    simp only [step] at h
    obtain ⟨d, hd, hle, hbody⟩ := hp
    rw [hd] at h
    simp only [Except.ok.injEq] at h
    subst h
    have hf : d.getFrameNumber ≤ (d.threadSwap t).getFrameNumber := by
      unfold CX_Display.threadSwap CX_Display.getFrameNumber
      split
      · simp only
        omega
      · exact Nat.le_refl _
    have hl : (d.threadSwap t)._frameNumberOnLastSwapCheck = d._frameNumberOnLastSwapCheck := by
      unfold CX_Display.threadSwap
      split <;> rfl
    refine ⟨d.threadSwap t, rfl, by rw [hl]; omega, ?_⟩
    rcases hbody with ⟨h1, h2⟩ | ⟨h1, h2, h3⟩
    · exact Or.inl ⟨h1, h2⟩
    · refine Or.inr ⟨h1, h2, ?_⟩
      intro hF
      have h3' := h3 (by omega)
      exact ⟨h3'.1, fun k a ha hk => Nat.le_trans (h3'.2 k a ha hk) (hgrow.2 d t hle)⟩

theorem run_framesIncrease {Rel : Nat → Nat → Prop} {bound : CX_Display → Nat}
    (hgrow : BoundGrows bound) (steps : List Step) :
    ∀ {p q : CX_SlidePresenter}, p.run steps = .ok q →
      (∀ e ∈ steps, isUpdateOrSwap e = true) → (∀ e ∈ steps, stampsKeep Rel bound e) →
      p._config.swappingMode = .MULTI_CORE → callbackAppendsOrStops p →
      FramesIncrease Rel bound p → FramesIncrease Rel bound q := by
  induction steps with
  | nil =>
    intro p q h _ _ _ _ hp
    simp only [run, Except.ok.injEq] at h
    subst h
    exact hp
  | cons e rest ih =>
    intro p q h hsteps hquiet hmode hcb hp
    unfold run at h
    split at h
    · simp at h
    · rename_i p1 h1
      have he := hsteps e (List.mem_cons_self _ _)
      have s1 := step_framesIncrease p p1 e h1 he hgrow (hquiet e (List.mem_cons_self _ _))
        hmode hcb hp
      obtain ⟨f1, f2, -⟩ := settings_fields (step_settings h1 he)
      exact ih h (fun e' he' => hsteps e' (List.mem_cons_of_mem _ he'))
        (fun e' he' => hquiet e' (List.mem_cons_of_mem _ he'))
        (by rw [f1]; exact hmode) (fun cb hc => hcb cb (by rw [← f2]; exact hc)) s1

/-- With the frame number at the last swap check as the bound, an update that reads the
frame number before another swap lands keeps the start frames strictly increasing. -/
theorem stampsKeep_strict {e : Step} (h : readsFrameAtCheck e) :
    stampsKeep (fun x y => x < y) CX_Display._frameNumberOnLastSwapCheck e := by
  cases e with
  | update env =>
    intro d hlt
    have hq1 : env.swapsBeforeFrameRead = [] := h
    have e2 := CX_Display.hasSwapped_snd d
    have f2 : (displayAtFrameRead env d).getFrameNumber = d.getFrameNumber := by
      unfold displayAtFrameRead
      rw [hq1, e2]
      rfl
    obtain ⟨l3, -⟩ := displayAtTimeRead_facts env d
    rw [f2, l3]
    exact ⟨fun x hx => Nat.lt_of_le_of_lt hx hlt, Nat.le_of_lt hlt, Nat.le_refl _⟩
  | call c => trivial
  | setup config f => trivial
  | threadSwap t => trivial

/-- With the frame number of the display as the bound, every update keeps the start frames
from decreasing. -/
theorem stampsKeep_weak (e : Step) :
    stampsKeep (fun x y => x ≤ y) CX_Display.getFrameNumber e := by
  cases e with
  | update env =>
    intro d _
    obtain ⟨f4, f5⟩ := displayAtFrameRead_le env d
    exact ⟨fun x hx => Nat.le_trans hx f4, f4, f5⟩
  | call c => trivial
  | setup config f => trivial
  | threadSwap t => trivial

theorem boundGrows_lastCheck : BoundGrows CX_Display._frameNumberOnLastSwapCheck := by
  refine ⟨fun d hle => ?_, fun d t _ => ?_⟩
  · rw [CX_Display.hasSwapped_snd]
    exact hle
  · unfold CX_Display.threadSwap
    split
    · exact Nat.le_refl _
    · exact Nat.le_refl _

theorem boundGrows_frameNumber : BoundGrows CX_Display.getFrameNumber := by
  refine ⟨fun d _ => ?_, fun d t _ => ?_⟩
  · rw [CX_Display.hasSwapped_snd]
    exact Nat.le_refl _
  · unfold CX_Display.threadSwap CX_Display.getFrameNumber
    split
    · simp only
      omega
    · exact Nat.le_refl _

theorem startSlidePresentation_framesIncrease (Rel : Nat → Nat → Prop)
    (bound : CX_Display → Nat) {p q : CX_SlidePresenter}
    (h : p.startSlidePresentation = .ok (true, q))
    (hmode : p._config.swappingMode = .MULTI_CORE) : FramesIncrease Rel bound q := by
  obtain ⟨s1, s2, -⟩ := startSlidePresentation_flags h
  cases hd : p._config.display with
  | none => simp [startSlidePresentation, hd] at h
  | some d =>
    have hq := startSlidePresentation_display h hmode hd
    refine ⟨_, hq, ?_, Or.inl ⟨s1, s2⟩⟩
    rw [CX_Display.hasSwapped_snd]
    exact Nat.le_refl _

theorem subUInt32_of_le {a b : Nat} (hab : a ≤ b) (hb : b < UINT32_SIZE) :
    subUInt32 b a = b - a := by
  unfold subUInt32 UINT32_SIZE at *
  omega

/-- C29, the claim as stated fails, in two ways.  First, the swap check and the frame number
are two reads of a display whose thread keeps swapping: with two slides of one frame, the
update that finds the swap to frame 2 reads the frame number 3, a swap having landed in
between, and stamps the first slide with 3; the next update, without a new swap, finds the
frame number 3 unlike the recorded 2 and stamps the second slide with 3 as well; the frame
number never decreases and stays far below `2^32`, yet the start frames 3 and 3 do not
increase and the first slide ends with the frame count 0.  Second, the actual start frame
is a 32-bit field and the frame number a 64-bit counter: when the first slide comes on
screen at frame `2^32 - 1` and the second at frame `2^32`, the actual start frames are
`4294967295` and `0`, and the subtraction in `_finishPreviousSlide` wraps (to the frame
count 1). -/
theorem start_frames_need_not_increase :
    (∃ q a b d, exampleRaceQueued.run exampleRaceSteps = .ok q ∧
      q._slides[0]? = some a ∧ q._slides[1]? = some b ∧ q._config.display = some d ∧
      d.getFrameNumber = 3 ∧
      a.slideStatus = .FINISHED ∧ b.slideStatus = .IN_PROGRESS ∧
      a.actual.startFrame = 3 ∧ b.actual.startFrame = 3 ∧
      ¬ a.actual.startFrame < b.actual.startFrame ∧ a.actual.frameCount = 0) ∧
    exampleWrapQueued.startSlidePresentation = .ok (true, exampleWrapStarted) ∧
    ∃ q a b, exampleWrapStarted.run exampleWrapSteps = .ok q ∧
      q.isPresentingSlides = false ∧
      q._slides[0]? = some a ∧ q._slides[1]? = some b ∧
      a.slideStatus = .FINISHED ∧ b.slideStatus = .IN_PROGRESS ∧
      a.actual.startFrame = 4294967295 ∧ b.actual.startFrame = 0 ∧
      ¬ a.actual.startFrame < b.actual.startFrame ∧
      a.actual.frameCount = 1 :=
  ⟨⟨_, _, _, _, rfl, rfl, rfl, rfl, rfl, rfl, rfl, rfl, rfl, by decide, rfl⟩,
    rfl, _, _, _, rfl, rfl, rfl, rfl, rfl, rfl, rfl, rfl, by decide, rfl⟩

/-- C29, amended: in multi-core mode, at every point of a run of `update` calls and swaps
of the background thread after a successful `startSlidePresentation` (the frame number
never decreases along such a run), as long as the frame number of the display is below
`2^32`: whenever slide `k + 1` has come on screen, the actual start frame of slide `k` is
at most that of slide `k + 1` and the frame count of slide `k` is their difference, without
wrapping; and if no swap lands inside an update between its `hasSwappedSinceLastCheck()`
and its `getFrameNumber()`, the start frame of slide `k` is below that of slide `k + 1` and
the frame count of slide `k` is at least 1, whatever the intended frame count. -/
theorem start_frames_increase (p0 p q : CX_SlidePresenter) (steps : List Step)
    (d : CX_Display)
    (hmode : p0._config.swappingMode = .MULTI_CORE)
    (hcb : callbackAppendsOrStops p0)
    (hstart : p0.startSlidePresentation = .ok (true, p))
    (hsteps : ∀ e ∈ steps, isUpdateOrSwap e = true)
    (hrun : p.run steps = .ok q)
    (hd : q._config.display = some d) (hbound : d.getFrameNumber < UINT32_SIZE)
    (hsync : q._synchronizing = false) :
    ∀ (k : Nat) (a b : Slide), q._slides[k]? = some a → q._slides[k + 1]? = some b →
      q.hasComeOnScreen (k + 1) →
      a.actual.startFrame ≤ b.actual.startFrame ∧
      b.actual.startFrame ≤ d.getFrameNumber ∧
      a.actual.frameCount = b.actual.startFrame - a.actual.startFrame ∧
      ((∀ e ∈ steps, readsFrameAtCheck e) →
        a.actual.startFrame < b.actual.startFrame ∧ 1 ≤ a.actual.frameCount) := by
  obtain ⟨st0, hset⟩ := startSlidePresentation_started hstart
  obtain ⟨f1, f2, -⟩ := settings_fields hset
  have hcb1 : callbackAppendsOrStops p := by
    intro cb hc
    exact hcb cb (by rw [← f2]; exact hc)
  have hmode1 : p._config.swappingMode = .MULTI_CORE := by rw [f1]; exact hmode
  obtain ⟨stq, -⟩ := run_started steps hrun hsteps hmode1 hcb1 st0
  have hA := (stq.chains hsync).1
  have hweak := run_framesIncrease boundGrows_frameNumber steps hrun hsteps
    (fun e _ => stampsKeep_weak e) hmode1 hcb1
    (startSlidePresentation_framesIncrease _ _ hstart hmode)
  intro k a b ha hb hk
  have hk' : k + 1 ≤ q.onScreenBound := by
    unfold hasComeOnScreen at hk
    unfold onScreenBound
    split
    · rename_i hp
      rw [hp] at hk
      rcases hk with hk | ⟨-, hk⟩
      · omega
      · cases hk
    · omega
  obtain ⟨d0, hd0, hle, hbody⟩ := hweak
  rw [hd] at hd0
  simp only [Option.some.injEq] at hd0
  subst hd0
  have hfb : FramesBelow (fun x y => x ≤ y) d.getFrameNumber q := by
    rcases hbody with ⟨h1, -⟩ | ⟨-, -, h3⟩
    · rw [hsync] at h1
      cases h1
    · exact h3 hbound
  have hle1 : a.actual.startFrame ≤ b.actual.startFrame := hfb.1 k a b ha hb hk'
  have hble : b.actual.startFrame ≤ d.getFrameNumber := hfb.2 (k + 1) b hb hk
  have hfc : a.actual.frameCount = b.actual.startFrame - a.actual.startFrame := by
    rw [(hA k a b ha hb hk').2]
    exact subUInt32_of_le hle1 (Nat.lt_of_le_of_lt hble hbound)
  refine ⟨hle1, hble, hfc, ?_⟩
  intro hquiet
  have hstrict := run_framesIncrease boundGrows_lastCheck steps hrun hsteps
    (fun e he => stampsKeep_strict (hquiet e he)) hmode1 hcb1
    (startSlidePresentation_framesIncrease _ _ hstart hmode)
  obtain ⟨d1, hd1, -, hbody1⟩ := hstrict
  rw [hd] at hd1
  simp only [Option.some.injEq] at hd1
  subst hd1
  have hfb1 : FramesBelow (fun x y => x < y) d._frameNumberOnLastSwapCheck q := by
    rcases hbody1 with ⟨h1, -⟩ | ⟨-, -, h3⟩
    · rw [hsync] at h1
      cases h1
    · exact h3 hbound
  have hlt : a.actual.startFrame < b.actual.startFrame := hfb1.1 k a b ha hb hk'
  exact ⟨hlt, by omega⟩

end CX_SlidePresenter

end CX

namespace CX

namespace CX_SlidePresenter

theorem start_frames_increase_witness :
    exampleBlinkStarted.run (zeroJitterSteps (regularTicks 3)) = .ok exampleBlinkFinished ∧
    ∃ a b, exampleBlinkFinished._slides[0]? = some a ∧
      exampleBlinkFinished._slides[1]? = some b ∧ a.intended.frameCount = 0 ∧
      a.actual.startFrame < b.actual.startFrame ∧ 1 ≤ a.actual.frameCount :=
  have h := start_frames_increase exampleBlinkQueued exampleBlinkStarted exampleBlinkFinished
    (zeroJitterSteps (regularTicks 3)) _ rfl
    (fun cb hc => by
      simp [exampleBlinkQueued, examplePresenterWith, examplePresenter] at hc)
    rfl (zeroJitterSteps_updateOrSwap _) rfl rfl
    (by decide) rfl 0 _ _ rfl rfl (Or.inr ⟨rfl, rfl⟩)
  ⟨rfl, _, _, rfl, rfl, rfl, (h.2.2.2 (zeroJitterSteps_readsFrameAtCheck _)).1,
    (h.2.2.2 (zeroJitterSteps_readsFrameAtCheck _)).2⟩

end CX_SlidePresenter

end CX

/-! ## Range checks: no `at` of `update` and of the public operations throws -/

namespace CX

namespace CX_SlidePresenter

theorem noRangeFault.of_ok {α : Type} {x : Except Fault α} {Post : α → Prop} {a : α}
    (hx : x = .ok a) (h : Post a) : noRangeFault x Post := by
  rw [hx]
  exact h

theorem noRangeFault.pure {α : Type} {Post : α → Prop} {a : α} (h : Post a) :
    noRangeFault (Pure.pure a : Except Fault α) Post := h

theorem noRangeFault.imp {α : Type} {x : Except Fault α} {P Q : α → Prop}
    (h : noRangeFault x P) (hPQ : ∀ a, x = .ok a → P a → Q a) : noRangeFault x Q := by
  cases x with
  | error e => exact h
  | ok a => exact hPQ a rfl h

theorem noRangeFault.bind {α β : Type} {x : Except Fault α} {f : α → Except Fault β}
    {P : α → Prop} {Q : β → Prop} (hx : noRangeFault x P)
    (hf : ∀ a, x = .ok a → P a → noRangeFault (f a) Q) : noRangeFault (x >>= f) Q := by
  cases x with
  | error e => exact hx
  | ok a => exact hf a rfl hx

theorem noRangeFault.ok_of {α : Type} {x : Except Fault α} {P : α → Prop} {a : α}
    (h : noRangeFault x P) (hx : x = .ok a) : P a := by
  rw [hx] at h
  exact h

theorem noRangeFault.error_of {α : Type} {x : Except Fault α} {P : α → Prop} {e : Fault}
    (h : noRangeFault x P) (hx : x = .error e) : e ≠ .outOfRange := by
  rw [hx] at h
  exact h

theorem Extends.same (p : CX_SlidePresenter) : Extends p p :=
  ⟨rfl, rfl, Nat.le_refl _, fun h => h, fun h => h, fun h => h⟩

theorem Extends.trans {p q r : CX_SlidePresenter} (h1 : Extends p q) (h2 : Extends q r) :
    Extends p r := by
  obtain ⟨a1, a2, a3, a4, a5, a6⟩ := h1
  obtain ⟨b1, b2, b3, b4, b5, b6⟩ := h2
  exact ⟨b1.trans a1, b2.trans a2, Nat.le_trans a3 b3, fun h => a4 (b4 h),
    fun h => a5 (b5 h), fun h => b6 (a6 h)⟩

theorem waitSyncCheckLoop_total (env : UpdateEnv) (l : List Nat) :
    ∀ p : CX_SlidePresenter,
      (∀ i, (p._slideInfo.getD i {}).awaitingFenceSync = true → i < p._slides.length) →
      ∃ q, _waitSyncCheckLoop env l p = .ok q := by
  induction l with
  | nil =>
    intro p _
    exact ⟨p, rfl⟩
  | cons i rest ih =>
    intro p hp
    unfold _waitSyncCheckLoop
    split
    · rename_i hcond
      have hi : (p._slideInfo.getD i {}).awaitingFenceSync = true := by
        simp only [Bool.and_eq_true] at hcond
        exact hcond.1
      obtain ⟨a, ha⟩ := getElem?_of_lt (hp i hi)
      rw [vectorModifyAt_eq _ ha]
      simp only
      refine ih _ ?_
      intro j hj
      simp only [List.length_set]
      refine hp j ?_
      simp only [List.getD_eq_getElem?_getD, List.getElem?_set] at hj ⊢
      by_cases hij : i = j
      · subst hij
        by_cases hlt : i < p._slideInfo.length
        · simp [hlt] at hj
        · simp [hlt] at hj
      · simp [hij] at hj
        simpa using hj
    · exact ih p hp

theorem waitSyncCheck_flags {env : UpdateEnv} {p q : CX_SlidePresenter}
    (h : p._waitSyncCheck env = .ok q) :
    ∀ j, (q._slideInfo.getD j {}).awaitingFenceSync = true →
      (p._slideInfo.getD j {}).awaitingFenceSync = true := by
  unfold _waitSyncCheck at h
  split at h
  · simp only [Except.ok.injEq] at h
    subst h
    exact fun _ hj => hj
  · exact (waitSyncCheckLoop_fence env _ h).2

theorem waitSyncCheck_extends {env : UpdateEnv} {p q : CX_SlidePresenter}
    (h : p._waitSyncCheck env = .ok q) : Extends p q := by
  obtain ⟨slides, info, hq, hl1, hl2⟩ := waitSyncCheck_shape h
  have hflags := waitSyncCheck_flags h
  subst hq
  refine ⟨rfl, rfl, by simp only; omega, fun hx => hx, fun hx => hx, ?_⟩
  rintro ⟨c1, c2⟩
  refine ⟨by simp only; omega, fun i hi => ?_⟩
  have := c2 i (hflags i hi)
  simp only
  omega

theorem waitSyncCheck_safe (env : UpdateEnv) {p : CX_SlidePresenter} (hp : InfoCovers p) :
    noRangeFault (p._waitSyncCheck env) (Extends p) := by
  have htotal : ∃ q, p._waitSyncCheck env = .ok q := by
    unfold _waitSyncCheck
    split
    · exact ⟨p, rfl⟩
    · exact waitSyncCheckLoop_total env _ p hp.2
  obtain ⟨q, hq⟩ := htotal
  exact noRangeFault.of_ok hq (waitSyncCheck_extends hq)

end CX_SlidePresenter

end CX

namespace CX

namespace CX_SlidePresenter

theorem exists_getElem? {α : Type} {l : List α} {j : Nat} (h : j < l.length) :
    ∃ a, l[j]? = some a :=
  ⟨l.get ⟨j, h⟩, List.getElem?_eq_some_iff.mpr ⟨h, rfl⟩⟩

theorem renderCurrentSlide_info {p q : CX_SlidePresenter} (h : p._renderCurrentSlide = .ok q) :
    q._slideInfo = p._slideInfo ∨ ∃ i0, q._slideInfo = p._slideInfo.set p._currentSlide i0 := by
  unfold _renderCurrentSlide at h
  obtain ⟨cur, hcur, h⟩ := bind_ok h
  simp only [bind, Except.bind, pure, Except.pure, throw, throwThe, MonadExceptOf.throw] at h
  split at h
  · simp at h
  · split at h
    · split at h
      · simp at h
      · rename_i info hinfo
        split at h
        · simp at h
        · rename_i slides hslides
          simp only [Except.ok.injEq] at h
          subst h
          obtain ⟨a, -, hset⟩ := vectorModifyAt_ok hinfo
          exact Or.inr ⟨_, hset⟩
    · split at h
      · simp at h
      · simp only [Except.ok.injEq] at h
        subst h
        exact Or.inl rfl

theorem renderCurrentSlide_extends {p q : CX_SlidePresenter}
    (h : p._renderCurrentSlide = .ok q) : Extends p q := by
  obtain ⟨slides, info, hq, hl1, hl2, hlt⟩ := renderCurrentSlide_shape h
  have hinfo := renderCurrentSlide_info h
  subst hq
  refine ⟨rfl, rfl, by simp only; omega, fun hx => hx, fun hx => hx, ?_⟩
  rintro ⟨c1, c2⟩
  refine ⟨by simp only; omega, fun i hi => ?_⟩
  simp only at hi hinfo ⊢
  rw [hl1]
  rcases hinfo with e | ⟨i0, e⟩
  · rw [e] at hi
    exact c2 i hi
  · by_cases hic : i = p._currentSlide
    · rw [hic]
      exact hlt
    · rw [e] at hi
      refine c2 i ?_
      simp only [List.getD_eq_getElem?_getD, List.getElem?_set] at hi ⊢
      have hne : ¬ p._currentSlide = i := fun hx => hic hx.symm
      simpa [hne] using hi

theorem renderCurrentSlide_safe {p : CX_SlidePresenter}
    (hcs : p._currentSlide < p._slides.length) (hlen : p._slides.length ≤ p._slideInfo.length) :
    noRangeFault p._renderCurrentSlide (Extends p) := by
  cases h : p._renderCurrentSlide with
  | ok q => exact renderCurrentSlide_extends h
  | error e =>
    show e ≠ .outOfRange
    obtain ⟨cur, hcur⟩ := exists_getElem? hcs
    obtain ⟨i0, hi0⟩ := exists_getElem? (Nat.lt_of_lt_of_le hcs hlen)
    unfold _renderCurrentSlide at h
    rw [vectorAt_eq hcur] at h
    simp only [bind, Except.bind, pure, Except.pure, throw, throwThe, MonadExceptOf.throw,
      vectorModifyAt_eq _ hcur, vectorModifyAt_eq _ hi0] at h
    split at h
    · simp only [Except.error.injEq] at h
      rw [← h]
      decide
    · split at h <;> simp at h

theorem finishPreviousSlide_safe {p : CX_SlidePresenter} (hz : p._currentSlide ≠ 0)
    (hcs : p._currentSlide < p._slides.length) :
    ∃ q, p._finishPreviousSlide = .ok q ∧ Extends p q ∧ q._slideInfo = p._slideInfo := by
  obtain ⟨cur, hcur⟩ := exists_getElem? hcs
  obtain ⟨prev, hprev⟩ := exists_getElem? (l := p._slides) (j := p._currentSlide - 1)
    (by omega)
  have htotal : ∃ q, p._finishPreviousSlide = .ok q := by
    unfold _finishPreviousSlide
    simp only [hz, if_false, bind, Except.bind, pure, Except.pure, vectorAt_eq hcur,
      vectorModifyAt_eq _ hprev]
    exact ⟨_, rfl⟩
  obtain ⟨q, hq⟩ := htotal
  obtain ⟨slides, hs, hl⟩ := finishPreviousSlide_shape hq
  refine ⟨q, hq, ?_, by rw [hs]⟩
  subst hs
  refine ⟨rfl, rfl, by simp only; omega, fun hx => hx, fun hx => hx, ?_⟩
  rintro ⟨c1, c2⟩
  exact ⟨by simp only; omega, fun i hi => by simp only; rw [hl]; exact c2 i hi⟩

end CX_SlidePresenter

end CX

namespace CX

namespace CX_SlidePresenter

theorem calculateFrameCount_noRange {D : Int} {p : CX_SlidePresenter} {e : Fault}
    (h : p._calculateFrameCount D = .error e) : e ≠ .outOfRange := by
  unfold _calculateFrameCount at h
  split at h
  · simp only [Except.error.injEq] at h
    rw [← h]
    decide
  · split at h
    · simp only [Except.error.injEq] at h
      rw [← h]
      decide
    · simp only at h
      split at h
      · simp at h
      · simp only [Except.error.injEq] at h
        rw [← h]
        decide

theorem appendSlide_noRange {slide : Slide} {p : CX_SlidePresenter} {e : Fault}
    (h : p.appendSlide slide = .error e) : e ≠ .outOfRange := by
  unfold appendSlide at h
  rcases autoClose_cases p with ⟨-, -, he⟩ | ⟨-, hp1⟩
  · rw [he] at h
    simp only [bind, Except.bind, pure, Except.pure] at h
    split at h
    · simp at h
    · simp only [Except.error.injEq] at h
      rw [← h]
      decide
  · rw [hp1] at h
    simp only [bind, Except.bind, pure, Except.pure] at h
    split at h
    · simp at h
    · split at h
      · simp at h
      · split at h
        · rename_i e' he'
          simp only [Except.error.injEq] at h
          rw [← h]
          exact calculateFrameCount_noRange he'
        · simp at h

theorem appendSlideFunction_noRange {f : Option Nat} {D : Int} {name : String}
    {p : CX_SlidePresenter} {e : Fault}
    (h : p.appendSlideFunction f D name = .error e) : e ≠ .outOfRange := by
  unfold appendSlideFunction at h
  rcases autoClose_cases p with ⟨-, -, he⟩ | ⟨-, hp1⟩
  · rw [he] at h
    simp only [bind, Except.bind, pure, Except.pure] at h
    split at h
    · simp at h
    · split at h
      · simp at h
      · simp only [Except.error.injEq] at h
        rw [← h]
        decide
  · rw [hp1] at h
    simp only [bind, Except.bind, pure, Except.pure] at h
    split at h
    · simp at h
    · split at h
      · simp at h
      · split at h
        · rename_i e' he'
          simp only [Except.error.injEq] at h
          rw [← h]
          exact calculateFrameCount_noRange he'
        · simp at h

theorem beginDrawingNextSlide_noRange {D : Int} {name : String}
    {p : CX_SlidePresenter} {e : Fault}
    (h : p.beginDrawingNextSlide D name = .error e) : e ≠ .outOfRange := by
  unfold beginDrawingNextSlide at h
  rcases autoClose_cases p with ⟨-, -, he⟩ | ⟨-, hp1⟩
  · rw [he] at h
    simp only [bind, Except.bind, pure, Except.pure, Except.error.injEq] at h
    rw [← h]
    decide
  · rw [hp1] at h
    simp only [bind, Except.bind, pure, Except.pure] at h
    split at h
    · simp at h
    · split at h
      · simp at h
      · split at h
        · rename_i e' he'
          simp only [Except.error.injEq] at h
          rw [← h]
          exact calculateFrameCount_noRange he'
        · simp at h

theorem startSlidePresentation_noRange {p : CX_SlidePresenter} {e : Fault}
    (h : p.startSlidePresentation = .error e) : e ≠ .outOfRange := by
  cases hd : p._config.display with
  | none => simp [startSlidePresentation, hd] at h
  | some d =>
    by_cases hs : p._slides = []
    · simp [startSlidePresentation, hd, hs] at h
    · obtain ⟨d', h'⟩ := startSlidePresentation_nonempty p d hd hs
      rw [h'] at h
      cases h

theorem applyCall_noRange {p : CX_SlidePresenter} {c : PresenterCall} {e : Fault}
    (h : p.applyCall c = .error e) : e ≠ .outOfRange := by
  cases c with
  | appendSlide slide => exact appendSlide_noRange h
  | appendSlideFunction f D name => exact appendSlideFunction_noRange h
  | beginDrawingNextSlide D name => exact beginDrawingNextSlide_noRange h
  | endDrawingCurrentSlide =>
    rcases endDrawingCurrentSlide_cases p with ⟨-, he⟩ | ⟨-, he⟩
    · simp only [applyCall] at h
      rw [he] at h
      simp only [Except.error.injEq] at h
      rw [← h]
      decide
    · simp only [applyCall] at h
      rw [he] at h
      cases h
  | startSlidePresentation =>
    simp only [applyCall] at h
    cases hs : p.startSlidePresentation with
    | ok r =>
      rw [hs] at h
      cases h
    | error e' =>
      rw [hs] at h
      simp only [Except.map, Except.error.injEq] at h
      rw [← h]
      exact startSlidePresentation_noRange hs
  | stopSlidePresentation => cases h
  | clearSlides => cases h

theorem applyCalls_noRange (calls : List PresenterCall) :
    ∀ {p : CX_SlidePresenter} {e : Fault}, p.applyCalls calls = .error e →
      e ≠ .outOfRange := by
  induction calls with
  | nil =>
    intro p e h
    cases h
  | cons c rest ih =>
    intro p e h
    simp only [applyCalls] at h
    split at h
    · rename_i e' he'
      simp only [Except.error.injEq] at h
      rw [← h]
      exact applyCall_noRange he'
    · exact ih h

end CX_SlidePresenter

end CX

namespace CX

namespace CX_SlidePresenter

theorem startSlidePresentation_cases {p q : CX_SlidePresenter} {b : Bool}
    (h : p.startSlidePresentation = .ok (b, q)) :
    (b = false ∧ q = p) ∨
    (b = true ∧ p._slides ≠ [] ∧ q._synchronizing = true ∧ q._presentingSlides = false ∧
      q._slides.length = p._slides.length ∧ q._slideInfo = p._slideInfo ∧
      q._currentSlide = p._currentSlide) := by
  cases hd : p._config.display with
  | none =>
    simp only [startSlidePresentation, hd, Except.ok.injEq, Prod.mk.injEq] at h
    exact Or.inl ⟨h.1.symm, h.2.symm⟩
  | some d =>
    by_cases hs : p._slides = []
    · simp only [startSlidePresentation, hd, hs, List.length_nil, Nat.le_refl, if_true,
        Except.ok.injEq, Prod.mk.injEq] at h
      refine Or.inl ⟨h.1.symm, ?_⟩
      rw [← h.2]
    · obtain ⟨d', h'⟩ := startSlidePresentation_nonempty p d hd hs
      rw [h'] at h
      simp only [Except.ok.injEq, Prod.mk.injEq] at h
      obtain ⟨hb, hq⟩ := h
      subst hq
      exact Or.inr ⟨hb.symm, hs, rfl, rfl, by simp, rfl, rfl⟩

theorem InfoCovers.append {p : CX_SlidePresenter} (hp : InfoCovers p) (added : List Slide) :
    (p._slides ++ added).length
        ≤ (p._slideInfo ++ added.map (fun _ => ({} : ExtraSlideInfo))).length ∧
    ∀ i, ((p._slideInfo ++ added.map (fun _ => ({} : ExtraSlideInfo))).getD i
        {}).awaitingFenceSync = true → i < (p._slides ++ added).length := by
  obtain ⟨c1, c2⟩ := hp
  refine ⟨by simp only [List.length_append, List.length_map]; omega, ?_⟩
  intro i hi
  simp only [List.length_append]
  by_cases hlt : i < p._slideInfo.length
  · have hsame : (p._slideInfo ++ added.map (fun _ => ({} : ExtraSlideInfo))).getD i {}
        = p._slideInfo.getD i {} := by
      simp only [List.getD_eq_getElem?_getD, List.getElem?_append_left hlt]
    rw [hsame] at hi
    have := c2 i hi
    omega
  · exfalso
    have hge : p._slideInfo.length ≤ i := by omega
    simp only [List.getD_eq_getElem?_getD, List.getElem?_append_right hge,
      List.getElem?_map] at hi
    cases hx : added[i - p._slideInfo.length]? with
    | none => simp [hx] at hi
    | some a => simp [hx] at hi

theorem applyCall_safe {p q : CX_SlidePresenter} {c : PresenterCall}
    (h : p.applyCall c = .ok q) (hp : Safe p) : Safe q := by
  obtain ⟨s1, s2, s3⟩ := hp
  have hins : isInsertion c = true → Safe q := by
    intro hc
    obtain ⟨added, active, hq, -⟩ := insertion_frame hc h
    subst hq
    exact ⟨fun hx => by simp only [List.length_append]; have := s1 hx; omega,
      fun hx => by simp only [List.length_append]; have := s2 hx; omega, s3.append added⟩
  cases c with
  | appendSlide slide => exact hins rfl
  | appendSlideFunction f D name => exact hins rfl
  | beginDrawingNextSlide D name => exact hins rfl
  | endDrawingCurrentSlide => exact hins rfl
  | startSlidePresentation =>
    simp only [applyCall] at h
    cases hs : p.startSlidePresentation with
    | error e =>
      rw [hs] at h
      cases h
    | ok r =>
      obtain ⟨b, r'⟩ := r
      rw [hs] at h
      simp only [Except.map, Except.ok.injEq] at h
      subst h
      rcases startSlidePresentation_cases hs with ⟨-, rfl⟩ | ⟨-, hne, h1, h2, h3, h4, -⟩
      · exact ⟨s1, s2, s3⟩
      · refine ⟨fun hx => ?_, fun _ => ?_, ?_⟩
        · rw [h2] at hx
          cases hx
        · rw [h3]
          exact List.length_pos.mpr hne
        · exact ⟨by rw [h3, h4]; exact s3.1, fun i hi => by rw [h3]; rw [h4] at hi; exact s3.2 i hi⟩
  | stopSlidePresentation =>
    simp only [applyCall, Except.ok.injEq] at h
    subst h
    refine ⟨fun hx => (by cases hx), fun hx => (by cases hx), ?_⟩
    refine ⟨by simp only [stopSlidePresentation, List.length_map]; exact s3.1, ?_⟩
    intro i hi
    exfalso
    simp only [stopSlidePresentation, List.getD_eq_getElem?_getD, List.getElem?_map] at hi
    cases hx : p._slideInfo[i]? with
    | none => simp [hx] at hi
    | some a => simp [hx] at hi
  | clearSlides =>
    simp only [applyCall, Except.ok.injEq] at h
    subst h
    refine ⟨fun hx => (by cases hx), fun hx => (by cases hx), ?_⟩
    refine ⟨Nat.zero_le _, ?_⟩
    intro i hi
    exfalso
    simp only [clearSlides, stopSlidePresentation, List.getD_eq_getElem?_getD,
      List.getElem?_map] at hi
    cases hx : p._slideInfo[i]? with
    | none => simp [hx] at hi
    | some a => simp [hx] at hi

end CX_SlidePresenter

end CX

namespace CX

namespace CX_SlidePresenter

theorem stopSlidePresentation_infoCovers {p : CX_SlidePresenter} (hp : InfoCovers p) :
    InfoCovers p.stopSlidePresentation := by
  refine ⟨by simp only [stopSlidePresentation, List.length_map]; exact hp.1, ?_⟩
  intro i hi
  exfalso
  simp only [stopSlidePresentation, List.getD_eq_getElem?_getD, List.getElem?_map] at hi
  cases hx : p._slideInfo[i]? with
  | none => simp [hx] at hi
  | some a => simp [hx] at hi

theorem applyCall_infoCovers {p q : CX_SlidePresenter} {c : PresenterCall}
    (hc : appendsOrStops c = true) (h : p.applyCall c = .ok q) (hp : InfoCovers p) :
    InfoCovers q := by
  by_cases hstop : c = .stopSlidePresentation
  · subst hstop
    simp only [applyCall, Except.ok.injEq] at h
    subst h
    exact stopSlidePresentation_infoCovers hp
  · have hins : isInsertion c = true := by
      cases c <;> simp_all [appendsOrStops, isInsertion]
    obtain ⟨added, active, hq, -⟩ := insertion_frame hins h
    subst hq
    exact hp.append added

theorem applyCalls_infoCovers (calls : List PresenterCall) :
    ∀ {p q : CX_SlidePresenter}, (∀ c ∈ calls, appendsOrStops c = true) →
      p.applyCalls calls = .ok q → InfoCovers p → InfoCovers q := by
  induction calls with
  | nil =>
    intro p q _ h hp
    simp only [applyCalls, Except.ok.injEq] at h
    subst h
    exact hp
  | cons c rest ih =>
    intro p q hcalls h hp
    simp only [applyCalls] at h
    split at h
    · simp at h
    · rename_i p1 h1
      exact ih (fun c' hc' => hcalls c' (List.mem_cons_of_mem _ hc')) h
        (applyCall_infoCovers (hcalls c (List.mem_cons_self _ _)) h1 hp)

theorem applyCalls_extends {calls : List PresenterCall} {p q : CX_SlidePresenter}
    (hcalls : ∀ c ∈ calls, appendsOrStops c = true) (h : p.applyCalls calls = .ok q) :
    Extends p q := by
  obtain ⟨c1, c2, -, ⟨added, c4⟩, c5, c6, -, -⟩ := applyCalls_appendsOrStops calls hcalls h
  exact ⟨c1, c2, by rw [c4]; simp, c6, c5, applyCalls_infoCovers calls hcalls h⟩

theorem handleFinalSlideAfterCallback_info {k : Nat} {p q : CX_SlidePresenter}
    (h : p._handleFinalSlideAfterCallback k = .ok q) : q._slideInfo = p._slideInfo := by
  unfold _handleFinalSlideAfterCallback at h
  simp only [bind, Except.bind, pure, Except.pure] at h
  split at h
  · split at h
    · simp at h
    · simp only [Except.ok.injEq] at h
      subst h
      rfl
  · simp only [Except.ok.injEq] at h
    subst h
    rfl

theorem handleFinalSlideAfterCallback_safe (k : Nat) {p : CX_SlidePresenter}
    (hcs : p._currentSlide < p._slides.length) :
    ∃ q, p._handleFinalSlideAfterCallback k = .ok q ∧ Extends p q := by
  have htotal : ∃ q, p._handleFinalSlideAfterCallback k = .ok q := by
    obtain ⟨a, ha⟩ := exists_getElem? (l := vectorMapFrom
      (fun (s : Slide) => { s with slideStatus := .NOT_STARTED }) k p._slides)
      (j := p._currentSlide) (by rw [vectorMapFrom_length]; exact hcs)
    unfold _handleFinalSlideAfterCallback
    simp only [bind, Except.bind, pure, Except.pure, vectorModifyAt_eq _ ha]
    split
    · exact ⟨_, rfl⟩
    · exact ⟨_, rfl⟩
  obtain ⟨q, hq⟩ := htotal
  obtain ⟨f1, f2, f3, f4, f5, -⟩ := handleFinalSlideAfterCallback_slides hq
  have f6 := handleFinalSlideAfterCallback_info hq
  refine ⟨q, hq, f2, f1, by omega, fun hx => by rw [← f3]; exact hx, f4, ?_⟩
  rintro ⟨c1, c2⟩
  exact ⟨by rw [f5, f6]; exact c1, fun i hi => by rw [f5]; rw [f6] at hi; exact c2 i hi⟩

theorem handleFinalSlide_safe {p : CX_SlidePresenter}
    (hcs : p._currentSlide < p._slides.length) (hcb : callbackAppendsOrStops p) :
    noRangeFault p._handleFinalSlide (Extends p) := by
  unfold _handleFinalSlide
  cases hc : p._config.finalSlideCallback with
  | none =>
    simp only
    obtain ⟨q, hq, he⟩ := handleFinalSlideAfterCallback_safe p._slides.length hcs
    exact noRangeFault.of_ok hq he
  | some cb =>
    simp only
    cases h1 : p.applyCalls (cb p._currentSlide) with
    | error e =>
      simp only
      exact applyCalls_noRange _ h1
    | ok p1 =>
      simp only
      have e1 := applyCalls_extends (hcb cb hc p._currentSlide) h1
      have a2 := e1.2.1
      have a3 := e1.2.2.1
      obtain ⟨q, hq, he⟩ := handleFinalSlideAfterCallback_safe p._slides.length
        (p := p1) (by rw [a2]; omega)
      exact noRangeFault.of_ok hq (e1.trans he)

end CX_SlidePresenter

end CX

namespace CX

namespace CX_SlidePresenter

theorem Extends.of_slides (p : CX_SlidePresenter) {slides : List Slide}
    (hlen : slides.length = p._slides.length) :
    Extends p ({ p with _slides := slides } : CX_SlidePresenter) := by
  refine ⟨rfl, rfl, by simp only; omega, fun hx => hx, fun hx => hx, ?_⟩
  rintro ⟨c1, c2⟩
  exact ⟨by simp only; omega, fun i hi => by simp only; rw [hlen]; exact c2 i hi⟩

theorem callbackAppendsOrStops.of_config {p q : CX_SlidePresenter}
    (h : callbackAppendsOrStops p) (hcfg : q._config = p._config) :
    callbackAppendsOrStops q := by
  intro cb hc
  exact h cb (by rw [← hcfg]; exact hc)

theorem slideOnset_safe {p : CX_SlidePresenter} (frameNumber : Nat) (onset : Int)
    (hcs : p._currentSlide < p._slides.length) (hcb : callbackAppendsOrStops p) :
    noRangeFault (p._slideOnset frameNumber onset) (fun r => Extends p r.2) := by
  obtain ⟨cur, hcur⟩ := exists_getElem? hcs
  unfold _slideOnset
  refine noRangeFault.bind (P := fun s => s.length = p._slides.length)
    (noRangeFault.of_ok (vectorModifyAt_eq _ hcur) (by simp)) ?_
  intro slides1 _ h1
  refine noRangeFault.bind (P := fun s => s.length = p._slides.length) ?_ ?_
  · split
    · obtain ⟨a0, ha0⟩ := exists_getElem? (l := slides1) (j := 0) (by omega)
      exact noRangeFault.of_ok (vectorModifyAt_eq _ ha0) (by simp [h1])
    · exact noRangeFault.pure h1
  intro slides2 _ h2
  simp only
  refine noRangeFault.bind (P := fun r => Extends p r) ?_ ?_
  · split
    · rename_i hpos
      obtain ⟨q, hq, he, -⟩ := finishPreviousSlide_safe
        (p := ({ p with _slides := slides2 } : CX_SlidePresenter))
        (by simp only; omega) (by simp only; omega)
      exact noRangeFault.of_ok hq ((Extends.of_slides p h2).trans he)
    · exact noRangeFault.pure (Extends.of_slides p h2)
  intro p3 _ h3
  split
  · refine noRangeFault.bind (P := fun r => Extends p3 r) ?_ ?_
    · exact handleFinalSlide_safe (by rw [h3.2.1]; have := h3.2.2.1; omega)
        (hcb.of_config h3.1)
    · intro p4 _ h4
      exact noRangeFault.pure (h3.trans h4)
  · exact noRangeFault.pure h3

end CX_SlidePresenter

end CX

namespace CX

namespace CX_SlidePresenter

theorem Extends.advances {p q : CX_SlidePresenter} (h : Extends p q) : Advances p q := by
  obtain ⟨a1, a2, a3, a4, a5, a6⟩ := h
  exact ⟨a1, a3, a4, a5, a6, fun hx => by rw [a2]; omega⟩

theorem Advances.then_extends {p q r : CX_SlidePresenter} (h1 : Advances p q)
    (h2 : Extends q r) : Advances p r := by
  obtain ⟨a1, a3, a4, a5, a6, a7⟩ := h1
  obtain ⟨b1, b2, b3, b4, b5, b6⟩ := h2
  exact ⟨b1.trans a1, Nat.le_trans a3 b3, fun h => a4 (b4 h), fun h => a5 (b5 h),
    fun h => b6 (a6 h), fun hx => by have := a7 hx; rw [b2]; omega⟩

theorem Advances.after_extends {p q r : CX_SlidePresenter} (h1 : Extends p q)
    (h2 : Advances q r) : Advances p r := by
  obtain ⟨a1, a2, a3, a4, a5, a6⟩ := h1
  obtain ⟨b1, b3, b4, b5, b6, b7⟩ := h2
  exact ⟨b1.trans a1, Nat.le_trans a3 b3, fun h => a4 (b4 h), fun h => a5 (b5 h),
    fun h => b6 (a6 h), fun hx => b7 (by rw [a2]; omega)⟩

theorem Advances.safe {p q : CX_SlidePresenter} (h : Advances p q) (hp : Safe p) : Safe q := by
  obtain ⟨-, a3, a4, a5, a6, a7⟩ := h
  obtain ⟨s1, s2, s3⟩ := hp
  exact ⟨fun hx => a7 (s1 (a5 hx)), fun hx => by have := s2 (a4 hx); omega, a6 s3⟩

theorem multiCoreSwappedIn_safe {p : CX_SlidePresenter} (frameNumber : Nat) (d : CX_Display)
    (hcs : p._currentSlide < p._slides.length) (hcb : callbackAppendsOrStops p) :
    noRangeFault (_multiCoreSwappedIn frameNumber d p) (fun r => Extends p r.2) := by
  obtain ⟨cur, hcur⟩ := exists_getElem? hcs
  unfold _multiCoreSwappedIn
  refine noRangeFault.bind (P := fun _ => True) (noRangeFault.of_ok (vectorAt_eq hcur) trivial) ?_
  intro current _ _
  split
  · refine noRangeFault.bind (P := fun r => Extends p r.2)
      (slideOnset_safe frameNumber d.getLastSwapTime hcs hcb) ?_
    intro r _ hr
    obtain ⟨returned, p1⟩ := r
    simp only at hr ⊢
    split
    · exact noRangeFault.pure hr
    · split
      · rename_i hlt
        obtain ⟨c, hc⟩ := getElem?_of_lt (Nat.lt_of_succ_lt hlt)
        obtain ⟨n, hn⟩ := getElem?_of_lt hlt
        refine noRangeFault.bind (P := fun r => Extends p r)
          (noRangeFault.of_ok (prepareNextSlide_eq hc hn)
            (hr.trans (Extends.of_slides p1 (by simp)))) ?_
        intro p2 _ h2
        exact noRangeFault.pure h2
      · exact noRangeFault.pure hr
  · exact noRangeFault.pure (Extends.same p)

theorem multiCoreAdvance_safe {p : CX_SlidePresenter} (frameNumber : Nat)
    (hlen : p._slides.length ≤ p._slideInfo.length) :
    noRangeFault (_multiCoreAdvance frameNumber p) (Advances p) := by
  unfold _multiCoreAdvance
  split
  · rename_i hlt
    obtain ⟨n, hn⟩ := getElem?_of_lt hlt
    refine noRangeFault.bind (P := fun _ => True) (noRangeFault.of_ok (vectorAt_eq hn) trivial) ?_
    intro next _ _
    split
    · refine (renderCurrentSlide_safe
        (p := ({ p with _currentSlide := p._currentSlide + 1 } : CX_SlidePresenter))
        hlt hlen).imp ?_
      intro q _ hq
      obtain ⟨a1, a2, a3, a4, a5, a6⟩ := hq
      exact ⟨a1, a3, a4, a5, a6, fun _ => by rw [a2]; exact Nat.lt_of_lt_of_le hlt a3⟩
    · exact noRangeFault.pure (Extends.same p).advances
  · exact noRangeFault.pure (Extends.same p).advances

end CX_SlidePresenter

end CX

namespace CX

namespace CX_SlidePresenter

theorem Safe.withDisplay {p : CX_SlidePresenter} (hp : Safe p) (d : CX_Display) :
    Safe (p.setDisplay d) := hp

theorem callbackAppendsOrStops.anyDisplay {p : CX_SlidePresenter} (h : callbackAppendsOrStops p)
    (d : CX_Display) : callbackAppendsOrStops (p.setDisplay d) := h

theorem Safe.of_waitSyncCheck {p : CX_SlidePresenter} (env : UpdateEnv) (hp : Safe p) :
    noRangeFault (p._waitSyncCheck env) Safe :=
  (waitSyncCheck_safe env hp.2.2).imp (fun _ _ hq => hq.advances.safe hp)

theorem Safe.synchronized {p0 p1 r : CX_SlidePresenter} (he : Extends p0 p1)
    (h0 : p0._currentSlide = 0) (hlen : 0 < p0._slides.length) (hinfo : InfoCovers p0)
    (hc : r._currentSlide = p1._currentSlide) (hs : r._slides = p1._slides)
    (hi : r._slideInfo = p1._slideInfo) (hsy : r._synchronizing = false) : Safe r := by
  obtain ⟨-, a2, a3, -, -, a6⟩ := he
  refine ⟨fun _ => ?_, fun hx => ?_, ?_⟩
  · rw [hc, hs]
    omega
  · rw [hsy] at hx
    cases hx
  · have h6 := a6 hinfo
    unfold InfoCovers at h6 ⊢
    rw [hs, hi]
    exact h6

theorem multiCoreUpdate_safe {p : CX_SlidePresenter} (env : UpdateEnv) (hp : Safe p)
    (hcb : callbackAppendsOrStops p) : noRangeFault (p._multiCoreUpdate env) Safe := by
  unfold _multiCoreUpdate
  split
  · rename_i hpres
    split
    · intro h
      cases h
    · rename_i d hd
      split
      · have hsw := multiCoreSwappedIn_safe
          (p := p.setDisplay (displayAtTimeRead env d))
          (displayAtFrameRead env d).getFrameNumber (displayAtTimeRead env d)
          (hp.1 hpres) (hcb.anyDisplay _)
        split
        · rename_i e he
          exact hsw.error_of he
        · rename_i p1 he
          exact (hsw.ok_of he).advances.safe (hp.withDisplay _)
        · rename_i p1 he
          have s1 : Safe p1 := (hsw.ok_of he).advances.safe (hp.withDisplay _)
          have hadv := multiCoreAdvance_safe
            (p := p1) (displayAtFrameRead env d).getFrameNumber s1.2.2.1
          split
          · rename_i e he2
            exact hadv.error_of he2
          · rename_i p2 he2
            exact Safe.of_waitSyncCheck env ((hadv.ok_of he2).safe s1)
      · exact Safe.of_waitSyncCheck env (hp.withDisplay _)
  · split
    · rename_i hsync
      split
      · intro h
        cases h
      · rename_i d hd
        split
        · have hr := renderCurrentSlide_safe
            (p := ({ p.setDisplay d.hasSwappedSinceLastCheck.2 with _currentSlide := 0 }
              : CX_SlidePresenter)) (hp.2.1 hsync) hp.2.2.1
          split
          · rename_i e he
            exact hr.error_of he
          · rename_i p1 he
            exact Safe.of_waitSyncCheck env
              (Safe.synchronized (hr.ok_of he) rfl (hp.2.1 hsync) hp.2.2 rfl rfl rfl rfl)
        · exact Safe.of_waitSyncCheck env (hp.withDisplay _)
    · exact Safe.of_waitSyncCheck env hp

end CX_SlidePresenter

end CX

namespace CX

namespace CX_SlidePresenter

theorem syncSwapLoop_noRange (limit : Int) (readings : List (Int × Int)) :
    ∀ d : CX_Display, noRangeFault (_syncSwapLoop limit readings d) (fun _ => True) := by
  induction readings with
  | nil =>
    intro d h
    cases h
  | cons r rest ih =>
    intro d
    obtain ⟨swapStart, afterSwap⟩ := r
    unfold _syncSwapLoop
    split
    · exact ih _
    · exact trivial

theorem singleCorePresenting_safe {p : CX_SlidePresenter} (env : UpdateEnv) (hp : Safe p)
    (hpres : p._presentingSlides = true) (hcb : callbackAppendsOrStops p) :
    noRangeFault (p._singleCorePresenting env) (fun r => Safe r.2) := by
  obtain ⟨cur, hcur⟩ := exists_getElem? (hp.1 hpres)
  unfold _singleCorePresenting
  refine noRangeFault.bind (P := fun _ => True) (noRangeFault.of_ok (vectorAt_eq hcur) trivial) ?_
  intro current _ _
  split
  · split
    · split
      · intro h
        cases h
      · rename_i d hd
        refine noRangeFault.bind
          (P := fun r => Extends (p.setDisplay d.BLOCKING_swapFrontAndBackBuffers) r.2)
          (slideOnset_safe (p := p.setDisplay d.BLOCKING_swapFrontAndBackBuffers)
            0 env.currentSlideOnset (hp.1 hpres) (hcb.anyDisplay _)) ?_
        intro r _ hr
        obtain ⟨returned, p1⟩ := r
        simp only at hr ⊢
        have s1 : Safe p1 := hr.advances.safe (hp.withDisplay _)
        split
        · exact noRangeFault.pure s1
        · split
          · rename_i hlt
            obtain ⟨c, hc⟩ := getElem?_of_lt (Nat.lt_of_succ_lt hlt)
            obtain ⟨n, hn⟩ := getElem?_of_lt hlt
            refine noRangeFault.bind (P := fun r => Extends p1 r)
              (noRangeFault.of_ok (prepareNextSlide_eq hc hn)
                (Extends.of_slides p1 (by simp))) ?_
            intro p2 _ h2
            have s2 : Safe p2 := h2.advances.safe s1
            have hlt2 : p2._currentSlide + 1 < p2._slides.length := by
              rw [h2.2.1]
              have := h2.2.2.1
              omega
            obtain ⟨c2, hc2⟩ := getElem?_of_lt (Nat.lt_of_succ_lt hlt2)
            refine noRangeFault.bind (P := fun _ => True)
              (noRangeFault.of_ok (vectorAt_eq hc2) trivial) ?_
            intro current2 _ _
            refine noRangeFault.bind (P := Safe) ?_ (fun p3 _ h3 => noRangeFault.pure h3)
            refine noRangeFault.imp (renderCurrentSlide_safe ?_ ?_) ?_
            · exact hlt2
            · exact s2.2.2.1
            · intro q _ hq
              exact hq.advances.safe ⟨fun _ => hlt2, s2.2.1, s2.2.2⟩
          · exact noRangeFault.pure s1
    · exact noRangeFault.pure hp
  · exact noRangeFault.pure hp

end CX_SlidePresenter

end CX

namespace CX

namespace CX_SlidePresenter

theorem singleCoreSynchronizing_safe {p : CX_SlidePresenter} (env : UpdateEnv) (hp : Safe p)
    (hsync : p._synchronizing = true) :
    noRangeFault (p._singleCoreSynchronizing env) Safe := by
  unfold _singleCoreSynchronizing
  split
  · intro h
    cases h
  · rename_i d hd
    refine noRangeFault.bind (P := fun _ => True) (syncSwapLoop_noRange _ _ _) ?_
    intro d1 _ _
    refine noRangeFault.bind
      (P := fun r => Extends ({ p.setDisplay d1 with _currentSlide := 0 } : CX_SlidePresenter) r)
      (renderCurrentSlide_safe (hp.2.1 hsync) hp.2.2.1) ?_
    intro p1 _ h1
    exact noRangeFault.pure (Safe.synchronized h1 rfl (hp.2.1 hsync) hp.2.2 rfl rfl rfl rfl)

theorem singleCoreBlockingUpdate_safe {p : CX_SlidePresenter} (env : UpdateEnv) (hp : Safe p)
    (hcb : callbackAppendsOrStops p) :
    noRangeFault (p._singleCoreBlockingUpdate env) Safe := by
  have h1 : noRangeFault
      (if p._presentingSlides = true then p._singleCorePresenting env else .ok (false, p))
      (fun r => Safe r.2) := by
    split
    · rename_i hpres
      exact singleCorePresenting_safe env hp hpres hcb
    · exact hp
  unfold _singleCoreBlockingUpdate
  split
  · rename_i e he
    exact h1.error_of he
  · rename_i p1 he
    exact h1.ok_of he
  · rename_i p1 he
    have s1 : Safe p1 := h1.ok_of he
    have h2 : noRangeFault
        (if p1._synchronizing = true then p1._singleCoreSynchronizing env else .ok p1)
        Safe := by
      split
      · rename_i hs
        exact singleCoreSynchronizing_safe env s1 hs
      · exact s1
    split
    · rename_i e he2
      exact h2.error_of he2
    · rename_i p2 he2
      exact Safe.of_waitSyncCheck env (h2.ok_of he2)

theorem update_safe {p : CX_SlidePresenter} (env : UpdateEnv) (hp : Safe p)
    (hcb : callbackAppendsOrStops p) : noRangeFault (p.update env) Safe := by
  unfold update
  split
  · exact multiCoreUpdate_safe env hp hcb
  · exact singleCoreBlockingUpdate_safe env hp hcb
  · exact hp

theorem callbackAppendsOrStops.of_settings {p q : CX_SlidePresenter}
    (h : callbackAppendsOrStops p) (hset : q.settings = p.settings) :
    callbackAppendsOrStops q := by
  intro cb hc
  exact h cb (by rw [← (settings_fields hset).2.1]; exact hc)

theorem setup_callback (p : CX_SlidePresenter) (config : Configuration) (f : Bool) :
    (p.setup config f).2 = p ∨
    ((p.setup config f).2._config.finalSlideCallback = config.finalSlideCallback ∧
      (p.setup config f).2._presentingSlides = p._presentingSlides ∧
      (p.setup config f).2._synchronizing = p._synchronizing ∧
      (p.setup config f).2._currentSlide = p._currentSlide ∧
      (p.setup config f).2._slides = p._slides ∧
      (p.setup config f).2._slideInfo = p._slideInfo) := by
  unfold setup
  split
  · exact Or.inl rfl
  · refine Or.inr ⟨?_, rfl, rfl, rfl, rfl, rfl⟩
    simp only
    split <;> split <;> rfl

theorem step_safe {p : CX_SlidePresenter} (e : Step) (hp : Safe p)
    (hcb : callbackAppendsOrStops p) (he : keepsCallbackClass e) :
    noRangeFault (p.step e) (fun q => Safe q ∧ callbackAppendsOrStops q) := by
  cases e with
  | call c =>
    show noRangeFault (p.applyCall c) _
    cases h : p.applyCall c with
    | error f => exact applyCall_noRange h
    | ok q => exact ⟨applyCall_safe h hp, hcb.of_settings (applyCall_frame h)⟩
  | setup config f =>
    show Safe (p.setup config f).2 ∧ callbackAppendsOrStops (p.setup config f).2
    rcases setup_callback p config f with h | ⟨h1, h2, h3, h4, h5, h6⟩
    · rw [h]
      exact ⟨hp, hcb⟩
    · refine ⟨?_, ?_⟩
      · unfold Safe InfoCovers
        rw [h2, h3, h4, h5, h6]
        exact hp
      · intro cb hc
        rw [h1] at hc
        exact he cb hc
  | update env =>
    show noRangeFault (p.update env) _
    refine (update_safe env hp hcb).imp ?_
    intro q hq s
    exact ⟨s, hcb.of_settings (step_settings (e := .update env) hq rfl)⟩
  | threadSwap t =>
    show noRangeFault (match p._config.display with
      | none => Except.ok p
      | some d => Except.ok (p.setDisplay (d.threadSwap t))) _
    split
    · exact ⟨hp, hcb⟩
    · exact ⟨hp.withDisplay _, hcb.anyDisplay _⟩

theorem run_safe (steps : List Step) :
    ∀ {p : CX_SlidePresenter}, Safe p → callbackAppendsOrStops p →
      (∀ e ∈ steps, keepsCallbackClass e) →
      noRangeFault (p.run steps) (fun q => Safe q ∧ callbackAppendsOrStops q) := by
  induction steps with
  | nil =>
    intro p hp hcb _
    exact ⟨hp, hcb⟩
  | cons e rest ih =>
    intro p hp hcb hsteps
    have h1 := step_safe e hp hcb (hsteps e (List.mem_cons_self _ _))
    unfold run
    split
    · rename_i f hf
      exact h1.error_of hf
    · rename_i q hq
      obtain ⟨s, c⟩ := h1.ok_of hq
      exact ih s c (fun e' h' => hsteps e' (List.mem_cons_of_mem _ h'))

theorem fresh_safe : Safe ({} : CX_SlidePresenter) ∧
    callbackAppendsOrStops ({} : CX_SlidePresenter) := by
  refine ⟨⟨fun h => (by cases h), fun h => (by cases h), Nat.le_refl _, ?_⟩, ?_⟩
  · intro i h
    simp at h
  · intro cb hc
    cases hc

end CX_SlidePresenter

end CX

namespace CX

namespace CX_SlidePresenter

/-- C26: from a fresh presenter, run any sequence of public calls (the three insertions,
`endDrawingCurrentSlide`, `clearSlides`, start, stop), `setup` calls whose final-slide
callback only inserts slides or stops the presentation, `update` calls and swaps of the
background thread.  No `at` access of the run throws, and in the state reached
`_presentingSlides` implies `_currentSlide < _slides.size()`, `_synchronizing` implies a
non-empty queue, `_slideInfo` is at least as long as `_slides` and every entry of it that
awaits a fence sync has an index of the queue; hence no `at` access of the next `update`
(in any swapping mode: `_slideOnset` with `_finishPreviousSlide` and `_handleFinalSlide`,
`_prepareNextSlide`, `_renderCurrentSlide`, `_waitSyncCheck`) and of the next public call
throws either. -/
theorem index_safety (steps : List Step) (hsteps : ∀ e ∈ steps, keepsCallbackClass e) :
    ({} : CX_SlidePresenter).run steps ≠ .error .outOfRange ∧
    ∀ q, ({} : CX_SlidePresenter).run steps = .ok q →
      (q._presentingSlides = true → q._currentSlide < q._slides.length) ∧
      (q._synchronizing = true → 0 < q._slides.length) ∧
      q._slides.length ≤ q._slideInfo.length ∧
      (∀ i, (q._slideInfo.getD i {}).awaitingFenceSync = true → i < q._slides.length) ∧
      (∀ env, q.update env ≠ .error .outOfRange) ∧
      (∀ c, q.applyCall c ≠ .error .outOfRange) := by
  have h := run_safe steps fresh_safe.1 fresh_safe.2 hsteps
  refine ⟨fun he => h.error_of he rfl, ?_⟩
  intro q hq
  obtain ⟨s, c⟩ := h.ok_of hq
  refine ⟨s.1, s.2.1, s.2.2.1, s.2.2.2, ?_, ?_⟩
  · intro env he
    exact (update_safe env s c).error_of he rfl
  · intro call he
    exact applyCall_noRange he rfl

theorem index_safety_witness :
    (∀ e ∈ exampleSessionSteps, keepsCallbackClass e) ∧
    ({} : CX_SlidePresenter).run exampleSessionSteps = .ok exampleBeforeLast ∧
    exampleBeforeLast._presentingSlides = true ∧
    exampleBeforeLast._currentSlide < exampleBeforeLast._slides.length ∧
    ∀ env, exampleBeforeLast.update env ≠ .error .outOfRange :=
  have hyp : ∀ e ∈ exampleSessionSteps, keepsCallbackClass e := by
    intro e he
    cases e with
    | setup config f =>
      simp [exampleSessionSteps, exampleCalls, exampleSteps] at he
      obtain ⟨rfl, -⟩ := he
      intro cb hc
      cases hc
    | call c => trivial
    | update env => trivial
    | threadSwap t => trivial
  ⟨hyp, rfl, rfl,
    ((index_safety exampleSessionSteps hyp).2 exampleBeforeLast rfl).1 rfl,
    ((index_safety exampleSessionSteps hyp).2 exampleBeforeLast rfl).2.2.2.2.1⟩

end CX_SlidePresenter

end CX
